import Mathlib

/-! Tile-based software rasterizer: embedding and verified properties.

Shallow embedding of `Rasterizer.h`, `TiledRenderer.cpp`, `DeferredTiledRenderer.cpp`,
`GBuffer.h` and the `Light` structure of `ForwardLightingShader.h`.

* C++ `int` is embedded as `Int`; the SSE integer intrinsics reduce their results to the
  signed 32-bit range with `wrap32`, exactly where the hardware wraps around.
* `__m128i` / `__m128` registers are four lanes, a function on `Fin 4`.
* `float` is an abstract type `F` with the operations the code uses collected in
  `FloatOps F`; nothing is assumed about rounding.
* Statement-level loops are embedded with a fuel argument that only serves
  termination; the loop condition is tested explicitly at every iteration and the
  lemmas `forLoop_eq_foldl` / `mem_loopIndices` show the fuel handed over is enough.
-/

namespace RasterRenderer


/-! ## Machine integers and SSE lanes -/

/-- Two's complement reduction of an integer to the signed 32-bit range. -/
def wrap32 (v : Int) : Int := (v + 2147483648) % 4294967296 - 2147483648

/-- Four 32-bit integer lanes of an `__m128i` register. -/
abbrev M128i := Fin 4 → Int

/-- Four float lanes of an `__m128` register. -/
abbrev M128 (F : Type) := Fin 4 → F

def _mm_set1_epi32 (v : Int) : M128i := fun _ => v

def _mm_setzero_si128 : M128i := fun _ => 0

/-- Lanes are given lowest first. -/
def _mm_setr_epi32 (e0 e1 e2 e3 : Int) : M128i := ![e0, e1, e2, e3]

/-- Lanes are given highest first. -/
def _mm_set_epi32 (e3 e2 e1 e0 : Int) : M128i := ![e0, e1, e2, e3]

def _mm_add_epi32 (a b : M128i) : M128i := fun k => wrap32 (a k + b k)

def _mm_sub_epi32 (a b : M128i) : M128i := fun k => wrap32 (a k - b k)

def _mm_mullo_epi32 (a b : M128i) : M128i := fun k => wrap32 (a k * b k)

/-- Signed compare: all ones (`-1`) in a lane where `a > b`, else `0`. -/
def _mm_cmpgt_epi32 (a b : M128i) : M128i := fun k => if b k < a k then -1 else 0

/-- Equality compare: all ones (`-1`) in a lane where `a = b`, else `0`. -/
def _mm_cmpeq_epi32 (a b : M128i) : M128i := fun k => if a k = b k then -1 else 0

def _mm_and_si128 (a b : M128i) : M128i := fun k => Int.land (a k) (b k)

def _mm_or_si128 (a b : M128i) : M128i := fun k => Int.lor (a k) (b k)

/-- The float operations the renderer applies (`_mm_add_ps`, `_mm_mul_ps`,
`_mm_cvtepi32_ps`, `_mm_cmplt_ps` per lane, scalar `/` and `sqrtf`), and the value
`ofRat q` of a decimal literal such as `1.0f` or `0.001f`. -/
structure FloatOps (F : Type) where
  add : F → F → F
  mul : F → F → F
  div : F → F → F
  sqrt : F → F
  ofInt : Int → F
  ofRat : ℚ → F
  lt : F → F → Bool

def _mm_set1_ps {F : Type} (v : F) : M128 F := fun _ => v

/-- Lanes are given highest first. -/
def _mm_set_ps {F : Type} (e3 e2 e1 e0 : F) : M128 F := ![e0, e1, e2, e3]

def _mm_add_ps {F : Type} (ops : FloatOps F) (a b : M128 F) : M128 F :=
  fun k => ops.add (a k) (b k)

def _mm_mul_ps {F : Type} (ops : FloatOps F) (a b : M128 F) : M128 F :=
  fun k => ops.mul (a k) (b k)

def _mm_cvtepi32_ps {F : Type} (ops : FloatOps F) (a : M128i) : M128 F :=
  fun k => ops.ofInt (a k)

/-- Lane-wise `a < b`; the all-ones / zero lane is kept as a `Bool`. -/
def _mm_cmplt_ps {F : Type} (ops : FloatOps F) (a b : M128 F) : Fin 4 → Bool :=
  fun k => ops.lt (a k) (b k)

/-- Sign bits of the four lanes packed into bits 0..3. -/
def _mm_movemask_ps (m : Fin 4 → Bool) : Nat :=
  (if m 0 then 1 else 0) ||| (if m 1 then 2 else 0) |||
    (if m 2 then 4 else 0) ||| (if m 3 then 8 else 0)

/-! ## Rasterizer.h -/

/-- Modelled from the spec: `ProjectedTriangle.h` is not among the sources. A
post-projection triangle: 28.4 fixed-point vertices, edge coefficients, float depth
plane, inverse area, triangle id and constant-buffer id, as read by the code. -/
structure ProjectedTriangle (F : Type) where
  X0 : Int
  Y0 : Int
  X1 : Int
  Y1 : Int
  X2 : Int
  Y2 : Int
  A0 : Int
  B0 : Int
  A1 : Int
  B1 : Int
  A2 : Int
  B2 : Int
  fZ0 : F
  fDZDX : F
  fDZDY : F
  InvArea : F
  Id : Int
  ConstantId : Int

/-- The register image of a triangle (`struct TriangleSIMD`). -/
structure TriangleSIMD (F : Type) where
  isOwnerEdge : Fin 3 → Int
  invArea : M128 F
  z0 : M128 F
  dzdx : M128 F
  dzdy : M128 F
  a0 : M128i
  a1 : M128i
  a2 : M128i
  b0 : M128i
  b1 : M128i
  b2 : M128i
  x0 : M128i
  y0 : M128i
  x1 : M128i
  y1 : M128i
  x2 : M128i
  y2 : M128i

/-- C++ conversion of a `bool` to `int`. -/
def boolToInt (b : Bool) : Int := if b then 1 else 0

/-- Embedding of `TriangleSIMD::Load`. -/
def TriangleSIMD.Load {F : Type} (tri : ProjectedTriangle F) : TriangleSIMD F where
  a0 := _mm_set1_epi32 tri.A0
  a1 := _mm_set1_epi32 tri.A1
  a2 := _mm_set1_epi32 tri.A2
  b0 := _mm_set1_epi32 tri.B0
  b1 := _mm_set1_epi32 tri.B1
  b2 := _mm_set1_epi32 tri.B2
  x0 := _mm_set1_epi32 tri.X0
  y0 := _mm_set1_epi32 tri.Y0
  x1 := _mm_set1_epi32 tri.X1
  y1 := _mm_set1_epi32 tri.Y1
  x2 := _mm_set1_epi32 tri.X2
  y2 := _mm_set1_epi32 tri.Y2
  z0 := _mm_set1_ps tri.fZ0
  dzdx := _mm_set1_ps tri.fDZDX
  dzdy := _mm_set1_ps tri.fDZDY
  invArea := _mm_set1_ps tri.InvArea
  isOwnerEdge := ![
    boolToInt (decide (tri.Y0 < tri.Y1) || (decide (tri.Y0 = tri.Y1) && decide (tri.Y2 ≥ tri.Y0))),
    boolToInt (decide (tri.Y1 < tri.Y2) || (decide (tri.Y1 = tri.Y2) && decide (tri.Y0 ≥ tri.Y1))),
    boolToInt (decide (tri.Y2 < tri.Y0) || (decide (tri.Y0 = tri.Y2) && decide (tri.Y1 ≥ tri.Y0)))]

/-- Embedding of `TriangleSIMD::GetZ`: depth plane evaluated at four sample points. -/
def TriangleSIMD.GetZ {F : Type} (ops : FloatOps F) (t : TriangleSIMD F) (x y : M128i) : M128 F :=
  let dx := _mm_sub_epi32 x t.x0
  let dy := _mm_sub_epi32 y t.y0
  _mm_add_ps ops t.z0
    (_mm_add_ps ops (_mm_mul_ps ops t.dzdx (_mm_cvtepi32_ps ops dx))
      (_mm_mul_ps ops t.dzdy (_mm_cvtepi32_ps ops dy)))

/-- The three edge-function registers `w[0..2]` of `TestQuadFragment`. -/
def TriangleSIMD.edgeRegs {F : Type} (t : TriangleSIMD F) (x y : M128i) : Fin 3 → M128i :=
  ![_mm_add_epi32 (_mm_mullo_epi32 t.a0 (_mm_sub_epi32 x t.x0))
      (_mm_mullo_epi32 t.b0 (_mm_sub_epi32 y t.y0)),
    _mm_add_epi32 (_mm_mullo_epi32 t.a1 (_mm_sub_epi32 x t.x1))
      (_mm_mullo_epi32 t.b1 (_mm_sub_epi32 y t.y1)),
    _mm_add_epi32 (_mm_mullo_epi32 t.a2 (_mm_sub_epi32 x t.x2))
      (_mm_mullo_epi32 t.b2 (_mm_sub_epi32 y t.y2))]

/-- One iteration of the `for (int i = 0; i < 3; i++)` loop of `TestQuadFragment`. -/
def TriangleSIMD.coverStep {F : Type} (t : TriangleSIMD F) (w : Fin 3 → M128i)
    (covered : M128i) (i : Fin 3) : M128i :=
  _mm_and_si128 covered
    (_mm_or_si128 (_mm_cmpgt_epi32 (w i) _mm_setzero_si128)
      (_mm_and_si128 (_mm_cmpeq_epi32 (w i) _mm_setzero_si128)
        (_mm_set1_epi32 (t.isOwnerEdge i))))

/-- The register `covered` after the loop of `TestQuadFragment`. -/
def TriangleSIMD.coveredReg {F : Type} (t : TriangleSIMD F) (x y : M128i) : M128i :=
  let w := t.edgeRegs x y
  t.coverStep w (t.coverStep w (t.coverStep w (_mm_set1_epi32 (-1)) 0) 1) 2

/-- Embedding of `TriangleSIMD::TestQuadFragment`: coverage bits 3, 7, 11, 15. -/
def TriangleSIMD.TestQuadFragment {F : Type} (t : TriangleSIMD F) (x y : M128i) : Nat :=
  let result := t.coveredReg x y
  let bitmask := 0
  let bitmask := if result 0 ≠ 0 then bitmask ||| 0x8 else bitmask
  let bitmask := if result 1 ≠ 0 then bitmask ||| 0x80 else bitmask
  let bitmask := if result 2 ≠ 0 then bitmask ||| 0x800 else bitmask
  let bitmask := if result 3 ≠ 0 then bitmask ||| 0x8000 else bitmask
  bitmask

/-- Edge coefficient registers by edge index. -/
def TriangleSIMD.a {F : Type} (t : TriangleSIMD F) : Fin 3 → M128i := ![t.a0, t.a1, t.a2]

def TriangleSIMD.b {F : Type} (t : TriangleSIMD F) : Fin 3 → M128i := ![t.b0, t.b1, t.b2]

def TriangleSIMD.vx {F : Type} (t : TriangleSIMD F) : Fin 3 → M128i := ![t.x0, t.x1, t.x2]

def TriangleSIMD.vy {F : Type} (t : TriangleSIMD F) : Fin 3 → M128i := ![t.y0, t.y1, t.y2]

/-- The edge weight of the specification, `w_i = A_i*(x - X_i) + B_i*(y - Y_i)` in
32-bit wrap-around arithmetic, for edge `i` at the sample of lane `k`. -/
def edgeWeight {F : Type} (t : TriangleSIMD F) (x y : M128i) (i : Fin 3) (k : Fin 4) : Int :=
  wrap32 (t.a i k * (x k - t.vx i k) + t.b i k * (y k - t.vy i k))

/-- The value one edge contributes to the `covered` register in one lane. -/
def coverTerm (w o : Int) : Int :=
  Int.lor (if 0 < w then -1 else 0) (Int.land (if w = 0 then -1 else 0) o)

/-- The repacking of four lane flags done at the end of `TestQuadFragment`. -/
def packMask (c0 c1 c2 c3 : Bool) : Nat :=
  let bitmask := 0
  let bitmask := if c0 then bitmask ||| 0x8 else bitmask
  let bitmask := if c1 then bitmask ||| 0x80 else bitmask
  let bitmask := if c2 then bitmask ||| 0x800 else bitmask
  let bitmask := if c3 then bitmask ||| 0x8000 else bitmask
  bitmask

/-- The exact rationals as an instance of the float operations; `Rat.sqrt` is the
square root on squares of rationals. -/
def ratOps : FloatOps ℚ where
  add := fun a b => a + b
  mul := fun a b => a * b
  div := fun a b => a / b
  sqrt := Rat.sqrt
  ofInt := fun n => (n : ℚ)
  ofRat := fun q => q
  lt := fun a b => decide (a < b)

/-- The triangle (16,16), (1008,16), (16,1008) in 28.4 fixed point with edge
coefficients `A_i = Y_i - Y_{i+1}`, `B_i = X_{i+1} - X_i` and constant depth 1/2. -/
def triS1 : ProjectedTriangle ℚ where
  X0 := 16
  Y0 := 16
  X1 := 1008
  Y1 := 16
  X2 := 16
  Y2 := 1008
  A0 := 0
  B0 := 992
  A1 := -992
  B1 := -992
  A2 := 992
  B2 := 0
  fZ0 := 1 / 2
  fDZDX := 0
  fDZDY := 0
  InvArea := 1 / 984064
  Id := 0
  ConstantId := 0

/-! ## Geometry of a projected triangle -/

def ProjectedTriangle.vx {F : Type} (tri : ProjectedTriangle F) : Fin 3 → Int :=
  ![tri.X0, tri.X1, tri.X2]

def ProjectedTriangle.vy {F : Type} (tri : ProjectedTriangle F) : Fin 3 → Int :=
  ![tri.Y0, tri.Y1, tri.Y2]

def ProjectedTriangle.coefA {F : Type} (tri : ProjectedTriangle F) : Fin 3 → Int :=
  ![tri.A0, tri.A1, tri.A2]

def ProjectedTriangle.coefB {F : Type} (tri : ProjectedTriangle F) : Fin 3 → Int :=
  ![tri.B0, tri.B1, tri.B2]

/-- The machine edge weight `w_i` of a loaded triangle at the sample `(x, y)`. -/
def ProjectedTriangle.edgeAt {F : Type} (tri : ProjectedTriangle F) (i : Fin 3) (x y : Int) : Int :=
  wrap32 (tri.coefA i * (x - tri.vx i) + tri.coefB i * (y - tri.vy i))

/-- Planar cross product `u × v`. -/
def cross (ux uy vx vy : Int) : Int := ux * vy - uy * vx

/-- Planar dot product `u · v`. -/
def dot (ux uy vx vy : Int) : Int := ux * vx + uy * vy

/-- Exact side test of the point `(x, y)` against the line through vertices `i` and
`i+1` (indices mod 3): zero on the line, and of one sign on each side. -/
def ProjectedTriangle.edgeCross {F : Type} (tri : ProjectedTriangle F) (i : Fin 3) (x y : Int) : Int :=
  cross (tri.vx (i + 1) - tri.vx i) (tri.vy (i + 1) - tri.vy i) (x - tri.vx i) (y - tri.vy i)

/-- Twice the signed area; its sign is the winding of the triangle. -/
def ProjectedTriangle.area2 {F : Type} (tri : ProjectedTriangle F) : Int :=
  cross (tri.X1 - tri.X0) (tri.Y1 - tri.Y0) (tri.X2 - tri.X0) (tri.Y2 - tri.Y0)

/-- Valid edge coefficients at the sample `(x, y)`: every `w_i` is zero exactly on the
line through vertices `i` and `i+1`, and positive exactly on the side of that line on
which the remaining vertex `i+2` lies (the interior side). -/
def ProjectedTriangle.ValidEdgesAt {F : Type} (tri : ProjectedTriangle F) (x y : Int) : Prop :=
  ∀ i : Fin 3,
    (tri.edgeAt i x y = 0 ↔ tri.edgeCross i x y = 0) ∧
    (0 < tri.edgeAt i x y ↔
      0 < tri.edgeCross i x y * tri.edgeCross i (tri.vx (i + 2)) (tri.vy (i + 2)))

instance {F : Type} (tri : ProjectedTriangle F) (x y : Int) : Decidable (tri.ValidEdgesAt x y) := by
  unfold ProjectedTriangle.ValidEdgesAt
  infer_instance

/-- The point `(x, y)` lies on the segment from `(px, py)` to `(qx, qy)`, strictly
between its endpoints. -/
def StrictlyBetween (px py qx qy x y : Int) : Prop :=
  cross (qx - px) (qy - py) (x - px) (y - py) = 0 ∧
    0 < dot (x - px) (y - py) (qx - px) (qy - py) ∧
    0 < dot (qx - x) (qy - y) (qx - px) (qy - py)

instance (px py qx qy x y : Int) : Decidable (StrictlyBetween px py qx qy x y) := by
  unfold StrictlyBetween
  infer_instance

/-- Whether `TestQuadFragment` of the loaded triangle reports lane `k` covered. -/
def sampleCovered {F : Type} (tri : ProjectedTriangle F) (xs ys : M128i) (k : Fin 4) : Bool :=
  ((TriangleSIMD.Load tri).TestQuadFragment xs ys).testBit (4 * k.val + 3)

/-- The triangle (1008,16), (16,1008), (1008,1008): it shares the edge from (1008,16)
to (16,1008) with `triS1`, traversed the other way, and has the same winding. -/
def triS1Adj : ProjectedTriangle ℚ where
  X0 := 16
  Y0 := 1008
  X1 := 1008
  Y1 := 16
  X2 := 1008
  Y2 := 1008
  A0 := 992
  B0 := 992
  A1 := -992
  B1 := 0
  A2 := 0
  B2 := -992
  fZ0 := 1 / 2
  fDZDX := 0
  fDZDY := 0
  InvArea := 1 / 984064
  Id := 1
  ConstantId := 0

/-! ## Loops and scalar bit operations -/

/-- The statement `for (q = lo; q <= hi; q += step) s = body(q, s)` started at `q`
with the given fuel: the condition `q <= hi` is tested at every iteration. -/
def forLoop {S : Type} (step hi : Int) (body : Int → S → S) : Nat → Int → S → S
  | 0, _, s => s
  | fuel + 1, q, s => if q ≤ hi then forLoop step hi body fuel (q + step) (body q s) else s

/-- The values the loop variable of `forLoop` takes, in order. -/
def loopIndices (step hi : Int) : Nat → Int → List Int
  | 0, _ => []
  | fuel + 1, q => if q ≤ hi then q :: loopIndices step hi fuel (q + step) else []

/-- Fuel that covers every iteration of a loop from `lo` up to `hi` with a step of at
least one. -/
def loopFuel (lo hi : Int) : Nat := (hi - lo + 1).toNat

/-- The C++ expression `v << n` on values that do not overflow. -/
def shl (v : Int) (n : Nat) : Int := v * 2 ^ n

/-- The C++ statement `v &= ~1`. -/
def clearBit0 (v : Int) : Int := Int.land v (Int.lnot 1)

/-- The x sample positions `x_samp` of the quad with origin `qx`: pixel centres in
28.4 fixed point, lanes in the order TL, TR, BL, BR. -/
def quadSampleX (qx : Int) : M128i :=
  _mm_setr_epi32 (shl qx 4 + 8) (shl qx 4 + 24) (shl qx 4 + 8) (shl qx 4 + 24)

/-- The y sample positions `y_samp` of the quad with origin `qy`. -/
def quadSampleY (qy : Int) : M128i :=
  _mm_setr_epi32 (shl qy 4 + 8) (shl qy 4 + 8) (shl qy 4 + 24) (shl qy 4 + 24)

/-- The clipped, even-snapped quad range `(px0, py0, px1, py1)` computed at the top
of `RasterizeTriangle`. -/
def quadBounds {F : Type} (regionX0 regionY0 regionW regionH : Int)
    (tri : ProjectedTriangle F) : Int × Int × Int × Int :=
  let minX := (min (min tri.X0 tri.X1) tri.X2) >>> (4 : Nat)
  let maxX := (max (max tri.X0 tri.X1) tri.X2) >>> (4 : Nat)
  let minY := (min (min tri.Y0 tri.Y1) tri.Y2) >>> (4 : Nat)
  let maxY := (max (max tri.Y0 tri.Y1) tri.Y2) >>> (4 : Nat)
  let px0 := max minX regionX0
  let py0 := max minY regionY0
  let px1 := min maxX (regionX0 + regionW - 1)
  let py1 := min maxY (regionY0 + regionH - 1)
  let px0 := clearBit0 px0
  let py0 := clearBit0 py0
  let px1 := clearBit0 px1
  let py1 := clearBit0 py1
  (px0, py0, px1, py1)

/-- The body of the inner loop of `RasterizeTriangle` for the quad `(qx, qy)`. -/
def rasterQuad {F S : Type} (triSIMD : TriangleSIMD F)
    (processQuadFragmentFunc : Int → Int → Bool → S → S) (qy qx : Int) (s : S) : S :=
  let x_samp := quadSampleX qx
  let y_samp := quadSampleY qy
  let mask := triSIMD.TestQuadFragment x_samp y_samp
  if mask = 0 then s
  else processQuadFragmentFunc qx qy false s

/-- Embedding of `RasterizeTriangle`: the callback `processQuadFragmentFunc` acts on a
state `S` that is threaded through the two nested loops. -/
def RasterizeTriangle {F S : Type} (regionX0 regionY0 regionW regionH : Int)
    (tri : ProjectedTriangle F) (triSIMD : TriangleSIMD F)
    (processQuadFragmentFunc : Int → Int → Bool → S → S) (s : S) : S :=
  match quadBounds regionX0 regionY0 regionW regionH tri with
  | (px0, py0, px1, py1) =>
    forLoop 2 py1
      (fun qy s =>
        forLoop 2 px1 (fun qx s => rasterQuad triSIMD processQuadFragmentFunc qy qx s)
          (loopFuel px0 px1) px0 s)
      (loopFuel py0 py1) py0 s

/-- The sequence of callback invocations `(qx, qy, trivialAccept)` that
`RasterizeTriangle` makes. -/
def rasterCalls {F : Type} (regionX0 regionY0 regionW regionH : Int)
    (tri : ProjectedTriangle F) (triSIMD : TriangleSIMD F) : List (Int × Int × Bool) :=
  RasterizeTriangle regionX0 regionY0 regionW regionH tri triSIMD
    (fun qx qy trivialAccept log => log ++ [(qx, qy, trivialAccept)]) []

/-- The integer pixel bounding box `(minX, maxX, minY, maxY)`: fixed-point extremes
shifted right by 4. -/
def ProjectedTriangle.pixelBounds {F : Type} (tri : ProjectedTriangle F) : Int × Int × Int × Int :=
  ((min (min tri.X0 tri.X1) tri.X2) >>> (4 : Nat), (max (max tri.X0 tri.X1) tri.X2) >>> (4 : Nat),
    (min (min tri.Y0 tri.Y1) tri.Y2) >>> (4 : Nat), (max (max tri.Y0 tri.Y1) tri.Y2) >>> (4 : Nat))

/-- Whether `TestQuadFragment` after `Load` reports the sample point `(X, Y)` covered
(the triangle is broadcast to all lanes, so the lane does not matter). -/
def pointCovered {F : Type} (tri : ProjectedTriangle F) (X Y : Int) : Bool :=
  sampleCovered tri (_mm_set1_epi32 X) (_mm_set1_epi32 Y) 0

/-- The quad origins for which `RasterizeTriangle` invokes its callback, in the order
of the two nested loops. -/
def rasterQuads {F : Type} (regionX0 regionY0 regionW regionH : Int)
    (tri : ProjectedTriangle F) (triSIMD : TriangleSIMD F) : List (Int × Int) :=
  match quadBounds regionX0 regionY0 regionW regionH tri with
  | (px0, py0, px1, py1) =>
    (loopIndices 2 py1 (loopFuel py0 py1) py0).flatMap fun qy =>
      ((loopIndices 2 px1 (loopFuel px0 px1) px0).filter fun qx =>
        decide (triSIMD.TestQuadFragment (quadSampleX qx) (quadSampleY qy) ≠ 0)).map
        fun qx => (qx, qy)

/-! ## TiledRenderer.cpp -/

/-- Four-component vector `Vec4`. -/
structure Vec4 (F : Type) where
  x : F
  y : F
  z : F
  w : F

/-- Modelled from the spec: `FrameBuffer.h` is not among the sources. The member
functions the tile processors call on a framebuffer (one sample per pixel, a colour
plane and a depth plane), over an arbitrary representation `FB`. -/
structure FrameBufferOps (F FB : Type) where
  GetWidth : FB → Int
  GetHeight : FB → Int
  GetZ : FB → Int → Int → F
  SetZ : FB → Int → Int → F → FB
  SetPixel : FB → Int → Int → Vec4 F → FB
  Clear : FB → Vec4 F → Bool → Bool → FB

/-- Modelled from the spec: the `FragmentCoverageMask` declaration is not among the
sources. A 4-bit mask for the four samples of a 2x2 quad in the order top-left,
top-right, bottom-left, bottom-right. -/
structure FragmentCoverageMask where
  bits : Nat

def FragmentCoverageMask.empty : FragmentCoverageMask := ⟨0⟩

def FragmentCoverageMask.SetBit (m : FragmentCoverageMask) (i : Nat) : FragmentCoverageMask :=
  ⟨m.bits ||| (1 <<< i)⟩

def FragmentCoverageMask.GetBit (m : FragmentCoverageMask) (i : Nat) : Bool :=
  m.bits.testBit i

def FragmentCoverageMask.Any (m : FragmentCoverageMask) : Bool :=
  decide (m.bits ≠ 0)

/-- An entry of a tile bin (`struct TiledTriangle`). -/
structure TiledTriangle (F : Type) where
  triangle : ProjectedTriangle F
  threadId : Int
  triangleIndex : Int

/-- Modelled from the spec: the declaration of `ProjectedTriangleInput` is not among
the sources. Per worker thread: the projected triangles, the flat vertex-output floats
and the index-output buffer. -/
structure ProjectedTriangleInput (F : Type) where
  triangleBuffer : Nat → List (ProjectedTriangle F)
  vertexOutputBuffer : Nat → List F
  indexOutputBuffer : Nat → List Int

/-- The fragment program call `ShadeFragment(state, shadeResult, beta, gamma, alpha,
triangleIndex, ConstantId, vertexOutputBuffer[threadId], vertexOutputSize,
indexOutputBuffer[threadId])` of `RendererImplBase.h`, which is not among the sources:
it is a parameter. The result is the SoA array `shadeResult[16]`. -/
abbrev ShadeFragmentFn (F : Type) :=
  M128 F → M128 F → M128 F → Int → Int → Int → Fin 16 → F

def Log2TileSize : Nat := 5

def TileSize : Int := shl 1 Log2TileSize

/-- Embedding of `TriangleSIMD::GetCoordinates`: returns `(w0, w1, w2)`. -/
def TriangleSIMD.GetCoordinates {F : Type} (ops : FloatOps F) (t : TriangleSIMD F)
    (x y : M128i) : M128 F × M128 F × M128 F :=
  let iw0 := _mm_add_epi32 (_mm_mullo_epi32 t.a0 (_mm_sub_epi32 x t.x0))
    (_mm_mullo_epi32 t.b0 (_mm_sub_epi32 y t.y0))
  let iw1 := _mm_add_epi32 (_mm_mullo_epi32 t.a1 (_mm_sub_epi32 x t.x1))
    (_mm_mullo_epi32 t.b1 (_mm_sub_epi32 y t.y1))
  let iw2 := _mm_add_epi32 (_mm_mullo_epi32 t.a2 (_mm_sub_epi32 x t.x2))
    (_mm_mullo_epi32 t.b2 (_mm_sub_epi32 y t.y2))
  (_mm_mul_ps ops (_mm_cvtepi32_ps ops iw0) t.invArea,
    _mm_mul_ps ops (_mm_cvtepi32_ps ops iw1) t.invArea,
    _mm_mul_ps ops (_mm_cvtepi32_ps ops iw2) t.invArea)

/-- The static `xOffset = _mm_set_epi32(24, 8, 24, 8)` of the tile processors. -/
def xOffset : M128i := _mm_set_epi32 24 8 24 8

/-- The static `yOffset = _mm_set_epi32(24, 24, 8, 8)` of the tile processors. -/
def yOffset : M128i := _mm_set_epi32 24 24 8 8

/-- The lambda that `TiledRendererAlgorithm::ProcessBin` hands to `RasterizeTriangle`:
depth test, depth write, shading and colour write for one quad fragment. -/
def forwardQuad {F FB : Type} (ops : FloatOps F) (fbo : FrameBufferOps F FB)
    (ShadeFragment : ShadeFragmentFn F) (tiledTri : TiledTriangle F)
    (tri : ProjectedTriangle F) (triSIMD : TriangleSIMD F)
    (qfx qfy : Int) (trivialAccept : Bool) (frameBuffer : FB) : FB :=
  let coordX_center := _mm_add_epi32 (_mm_set1_epi32 (shl qfx 4)) xOffset
  let coordY_center := _mm_add_epi32 (_mm_set1_epi32 (shl qfy 4)) yOffset
  let coverageMask :=
    if trivialAccept then 0xFFFF else triSIMD.TestQuadFragment coordX_center coordY_center
  let zValues := triSIMD.GetZ ops coordX_center coordY_center
  let zStore := zValues
  let visibility := FragmentCoverageMask.empty
  let currentZ := _mm_set_ps
    (fbo.GetZ frameBuffer (qfx + 1) (qfy + 1))
    (fbo.GetZ frameBuffer qfx (qfy + 1))
    (fbo.GetZ frameBuffer (qfx + 1) qfy)
    (fbo.GetZ frameBuffer qfx qfy)
  let depthMask := _mm_cmplt_ps ops zValues currentZ
  let depthMaskInt := _mm_movemask_ps depthMask
  let c0 := decide (coverageMask &&& 0x0008 ≠ 0) && decide (depthMaskInt &&& 0x1 ≠ 0)
  let visibility := if c0 then visibility.SetBit 0 else visibility
  let frameBuffer := if c0 then fbo.SetZ frameBuffer qfx qfy (zStore 0) else frameBuffer
  let c1 := decide (coverageMask &&& 0x0080 ≠ 0) && decide (depthMaskInt &&& 0x2 ≠ 0)
  let visibility := if c1 then visibility.SetBit 1 else visibility
  let frameBuffer := if c1 then fbo.SetZ frameBuffer (qfx + 1) qfy (zStore 1) else frameBuffer
  let c2 := decide (coverageMask &&& 0x0800 ≠ 0) && decide (depthMaskInt &&& 0x4 ≠ 0)
  let visibility := if c2 then visibility.SetBit 2 else visibility
  let frameBuffer := if c2 then fbo.SetZ frameBuffer qfx (qfy + 1) (zStore 2) else frameBuffer
  let c3 := decide (coverageMask &&& 0x8000 ≠ 0) && decide (depthMaskInt &&& 0x8 ≠ 0)
  let visibility := if c3 then visibility.SetBit 3 else visibility
  let frameBuffer :=
    if c3 then fbo.SetZ frameBuffer (qfx + 1) (qfy + 1) (zStore 3) else frameBuffer
  if visibility.Any then
    let (gamma, alpha, beta) := triSIMD.GetCoordinates ops coordX_center coordY_center
    let shadeResult := ShadeFragment beta gamma alpha tiledTri.triangleIndex tri.ConstantId
      tiledTri.threadId
    let frameBuffer :=
      if visibility.GetBit 0 then
        fbo.SetPixel frameBuffer qfx qfy
          ⟨shadeResult 0, shadeResult 4, shadeResult 8, shadeResult 12⟩
      else frameBuffer
    let frameBuffer :=
      if visibility.GetBit 1 then
        fbo.SetPixel frameBuffer (qfx + 1) qfy
          ⟨shadeResult 1, shadeResult 5, shadeResult 9, shadeResult 13⟩
      else frameBuffer
    let frameBuffer :=
      if visibility.GetBit 2 then
        fbo.SetPixel frameBuffer qfx (qfy + 1)
          ⟨shadeResult 2, shadeResult 6, shadeResult 10, shadeResult 14⟩
      else frameBuffer
    let frameBuffer :=
      if visibility.GetBit 3 then
        fbo.SetPixel frameBuffer (qfx + 1) (qfy + 1)
          ⟨shadeResult 3, shadeResult 7, shadeResult 11, shadeResult 15⟩
      else frameBuffer
    frameBuffer
  else frameBuffer

/-- The element `bins[tileId]` of a vector of tile bins. Indexing outside the vector
is undefined in C++; here it yields the empty bin. -/
def binAt {F : Type} (bins : List (List (TiledTriangle F))) (tileId : Int) :
    List (TiledTriangle F) :=
  if 0 ≤ tileId then bins.getD tileId.toNat [] else []

/-- The pixel rectangle `(tilePixelX, tilePixelY, tilePixelW, tilePixelH)` that
`ProcessBin` derives from a tile id. `%` and `/` are the truncating C++ operators. -/
def tileRect (gridWidth width height tileId : Int) : Int × Int × Int × Int :=
  let tileX := Int.tmod tileId gridWidth
  let tileY := Int.tdiv tileId gridWidth
  let tilePixelX := tileX * TileSize
  let tilePixelY := tileY * TileSize
  let tilePixelW := min TileSize (width - tilePixelX)
  let tilePixelH := min TileSize (height - tilePixelY)
  (tilePixelX, tilePixelY, tilePixelW, tilePixelH)

/-- Embedding of `TiledRendererAlgorithm::ProcessBin` on the members `gridWidth`,
`tileBins` and `frameBuffer`; returns the framebuffer after the tile is processed. -/
def ProcessBin {F FB : Type} (ops : FloatOps F) (fbo : FrameBufferOps F FB)
    (ShadeFragment : ShadeFragmentFn F) (gridWidth : Int)
    (tileBins : List (List (TiledTriangle F))) (tileId : Int) (frameBuffer : FB) : FB :=
  if tileId ≥ (tileBins.length : Int) then frameBuffer
  else
    match tileRect gridWidth (fbo.GetWidth frameBuffer) (fbo.GetHeight frameBuffer) tileId with
    | (tilePixelX, tilePixelY, tilePixelW, tilePixelH) =>
      (binAt tileBins tileId).foldl
        (fun frameBuffer tiledTri =>
          let tri := tiledTri.triangle
          let triSIMD := TriangleSIMD.Load tri
          RasterizeTriangle tilePixelX tilePixelY tilePixelW tilePixelH tri triSIMD
            (forwardQuad ops fbo ShadeFragment tiledTri tri triSIMD) frameBuffer)
        frameBuffer

/-- A framebuffer that also records, in order, the pixel coordinates handed to `SetZ`
and `SetPixel`. -/
def loggedFrameBuffer {F FB : Type} (fbo : FrameBufferOps F FB) :
    FrameBufferOps F (FB × List (Int × Int)) where
  GetWidth := fun s => fbo.GetWidth s.1
  GetHeight := fun s => fbo.GetHeight s.1
  GetZ := fun s x y => fbo.GetZ s.1 x y
  SetZ := fun s x y z => (fbo.SetZ s.1 x y z, s.2 ++ [(x, y)])
  SetPixel := fun s x y c => (fbo.SetPixel s.1 x y c, s.2 ++ [(x, y)])
  Clear := fun s c a b => (fbo.Clear s.1 c a b, s.2)

/-- Modelled from the spec: `FrameBuffer.h` is not among the sources. A `width x
height` raster with one sample per pixel: a depth plane and a colour plane, addressed
by pixel coordinate. -/
structure FrameBuffer (F : Type) where
  width : Int
  height : Int
  depth : Int → Int → F
  color : Int → Int → Vec4 F

/-- Modelled from the spec: the member functions of `FrameBuffer`; `SetZ` and
`SetPixel` replace the value stored for one pixel, `Clear` resets the colour plane to
the clear colour and the depth plane to the far value `1.0`. -/
def FrameBuffer.ops {F : Type} (ops : FloatOps F) : FrameBufferOps F (FrameBuffer F) where
  GetWidth := fun fb => fb.width
  GetHeight := fun fb => fb.height
  GetZ := fun fb x y => fb.depth x y
  SetZ := fun fb x y z =>
    { fb with depth := fun x2 y2 => if x2 = x ∧ y2 = y then z else fb.depth x2 y2 }
  SetPixel := fun fb x y c =>
    { fb with color := fun x2 y2 => if x2 = x ∧ y2 = y then c else fb.color x2 y2 }
  Clear := fun fb clearColor color depth =>
    { fb with
      color := if color then fun _ _ => clearColor else fb.color
      depth := if depth then fun _ _ => ops.ofRat 1 else fb.depth }

/-- A shader that paints every sample opaque white. -/
def shadeWhite : ShadeFragmentFn ℚ := fun _ _ _ _ _ _ _ => 1

/-- A cleared framebuffer over the rationals: depth `1`, colour transparent black. -/
def clearedFrameBuffer (width height : Int) : FrameBuffer ℚ where
  width := width
  height := height
  depth := fun _ _ => 1
  color := fun _ _ => ⟨0, 0, 0, 0⟩

/-! ## Quad fragments in terms of pixels -/

/-- The pixel column of lane `k` of the quad with origin `qfx`. -/
def quadPixelX (qfx : Int) (k : Fin 4) : Int := ![qfx, qfx + 1, qfx, qfx + 1] k

/-- The pixel row of lane `k` of the quad with origin `qfy`. -/
def quadPixelY (qfy : Int) (k : Fin 4) : Int := ![qfy, qfy, qfy + 1, qfy + 1] k

/-- The register `coordX_center` of the tile processors. -/
def quadCenterX (qfx : Int) : M128i := _mm_add_epi32 (_mm_set1_epi32 (shl qfx 4)) xOffset

/-- The register `coordY_center` of the tile processors. -/
def quadCenterY (qfy : Int) : M128i := _mm_add_epi32 (_mm_set1_epi32 (shl qfy 4)) yOffset

/-- The four depth values `zStore` the tile processor computes for a quad. -/
def quadZ {F : Type} (ops : FloatOps F) (t : TriangleSIMD F) (qfx qfy : Int) : M128 F :=
  t.GetZ ops (quadCenterX qfx) (quadCenterY qfy)

/-- The coverage tests `coverageMask & 0x0008`, `& 0x0080`, `& 0x0800`, `& 0x8000` the
tile processor applies to the mask it recomputes for a quad. -/
def quadCover {F : Type} (t : TriangleSIMD F) (qfx qfy : Int) (k : Fin 4) : Bool :=
  ![decide (t.TestQuadFragment (quadCenterX qfx) (quadCenterY qfy) &&& 0x0008 ≠ 0),
    decide (t.TestQuadFragment (quadCenterX qfx) (quadCenterY qfy) &&& 0x0080 ≠ 0),
    decide (t.TestQuadFragment (quadCenterX qfx) (quadCenterY qfy) &&& 0x0800 ≠ 0),
    decide (t.TestQuadFragment (quadCenterX qfx) (quadCenterY qfy) &&& 0x8000 ≠ 0)] k

/-- Lane `k` passes coverage and the depth test against the stored depth `cur`. -/
def quadVisible {F : Type} (ops : FloatOps F) (t : TriangleSIMD F) (qfx qfy : Int)
    (cur : Int → Int → F) (k : Fin 4) : Bool :=
  quadCover t qfx qfy k &&
    ops.lt (quadZ ops t qfx qfy k) (cur (quadPixelX qfx k) (quadPixelY qfy k))

/-- The colour the forward tile processor writes for lane `k`:
`Vec4(shadeResult[k], shadeResult[k+4], shadeResult[k+8], shadeResult[k+12])`. -/
def quadColor {F : Type} (ops : FloatOps F) (ShadeFragment : ShadeFragmentFn F)
    (tiledTri : TiledTriangle F) (tri : ProjectedTriangle F) (t : TriangleSIMD F)
    (qfx qfy : Int) (k : Fin 4) : Vec4 F :=
  let w := t.GetCoordinates ops (quadCenterX qfx) (quadCenterY qfy)
  let shadeResult := ShadeFragment w.2.2 w.1 w.2.1 tiledTri.triangleIndex tri.ConstantId
    tiledTri.threadId
  ⟨shadeResult (![0, 1, 2, 3] k), shadeResult (![4, 5, 6, 7] k),
    shadeResult (![8, 9, 10, 11] k), shadeResult (![12, 13, 14, 15] k)⟩

/-- The lane of its 2x2 quad that holds pixel `(x, y)`. -/
def pixelLane (x y : Int) : Fin 4 :=
  if x % 2 = 0 then (if y % 2 = 0 then 0 else 2) else (if y % 2 = 0 then 1 else 3)

/-- The tile processor finds the sample of pixel `(x, y)` covered by the triangle. -/
def fragmentCover {F : Type} (tri : ProjectedTriangle F) (x y : Int) : Bool :=
  quadCover (TriangleSIMD.Load tri) (clearBit0 x) (clearBit0 y) (pixelLane x y)

/-- The depth-plane value the tile processor computes for the sample of pixel `(x, y)`. -/
def fragmentZ {F : Type} (ops : FloatOps F) (tri : ProjectedTriangle F) (x y : Int) : F :=
  quadZ ops (TriangleSIMD.Load tri) (clearBit0 x) (clearBit0 y) (pixelLane x y)

/-- The colour the forward tile processor computes for pixel `(x, y)`. -/
def fragmentColor {F : Type} (ops : FloatOps F) (ShadeFragment : ShadeFragmentFn F)
    (tiledTri : TiledTriangle F) (x y : Int) : Vec4 F :=
  quadColor ops ShadeFragment tiledTri tiledTri.triangle (TriangleSIMD.Load tiledTri.triangle)
    (clearBit0 x) (clearBit0 y) (pixelLane x y)

/-- Pixel `(x, y)` receives a covered sample of the triangle in the given region:
`RasterizeTriangle` emits the quad that holds the pixel and the tile processor finds
the pixel's sample covered. -/
def fragmentEmitted {F : Type} (regionX0 regionY0 regionW regionH : Int)
    (tri : ProjectedTriangle F) (x y : Int) : Bool :=
  decide ((clearBit0 x, clearBit0 y) ∈
      rasterQuads regionX0 regionY0 regionW regionH tri (TriangleSIMD.Load tri)) &&
    fragmentCover tri x y

/-- A shader that paints every sample with its triangle index in all four channels. -/
def shadeByIndex : ShadeFragmentFn ℚ := fun _ _ _ triangleIndex _ _ _ => (triangleIndex : ℚ)

/-- The triangle `triS1` at the constant depth `z`. -/
def triS1AtDepth (z : ℚ) : ProjectedTriangle ℚ := { triS1 with fZ0 := z }

/-- A framebuffer over the rationals holding the depth `d` at every pixel. -/
def frameBufferAtDepth (width height : Int) (d : ℚ) : FrameBuffer ℚ where
  width := width
  height := height
  depth := fun _ _ => d
  color := fun _ _ => ⟨0, 0, 0, 0⟩

/-! ## Tile grid and binning (TiledRenderer.cpp, DeferredTiledRenderer.cpp) -/

/-- The grid dimension `SetFrameBuffer` computes from a framebuffer dimension:
`size >> Log2TileSize`, plus one if `size & (TileSize - 1)` is nonzero. -/
def gridDim (size : Int) : Int :=
  let g := size >>> Log2TileSize
  if Int.land size (TileSize - 1) ≠ 0 then g + 1 else g

/-- The members of `TiledRendererAlgorithm`; `localTileBins` has one entry per core. -/
structure TiledRendererAlgorithm (F FB : Type) where
  gridWidth : Int
  gridHeight : Int
  frameBuffer : FB
  tileBins : List (List (TiledTriangle F))
  localTileBins : List (List (List (TiledTriangle F)))

/-- Embedding of `TiledRendererAlgorithm::SetFrameBuffer`; `Cores` is the compile-time
constant of the worker pool, which is not among the sources. -/
def TiledRendererAlgorithm.SetFrameBuffer {F FB : Type} (ops : FloatOps F)
    (fbo : FrameBufferOps F FB) (Cores : Nat) (frameBuffer : FB) :
    TiledRendererAlgorithm F FB :=
  let gridWidth := gridDim (fbo.GetWidth frameBuffer)
  let gridHeight := gridDim (fbo.GetHeight frameBuffer)
  let frameBuffer := fbo.Clear frameBuffer
    ⟨ops.ofRat 0, ops.ofRat 0, ops.ofRat 0, ops.ofRat 0⟩ false true
  let numTiles := gridWidth * gridHeight
  { gridWidth := gridWidth
    gridHeight := gridHeight
    frameBuffer := frameBuffer
    tileBins := List.replicate numTiles.toNat []
    localTileBins := List.replicate Cores (List.replicate numTiles.toNat []) }

/-- The statement `bins[tileId].push_back(e)` for an index inside the vector. -/
def pushBack {F : Type} (bins : List (List (TiledTriangle F))) (tileId : Int)
    (e : TiledTriangle F) : List (List (TiledTriangle F)) :=
  bins.set tileId.toNat (bins.getD tileId.toNat [] ++ [e])

/-- The tile range `(tileMinX, tileMaxX, tileMinY, tileMaxY)` that `BinTriangles`
computes for a triangle on a `width x height` framebuffer. -/
def binTileRange {F : Type} (width height : Int) (tri : ProjectedTriangle F) :
    Int × Int × Int × Int :=
  let bounds0 := (min (min tri.X0 tri.X1) tri.X2) >>> (4 : Nat)
  let bounds1 := (max (max tri.X0 tri.X1) tri.X2) >>> (4 : Nat)
  let bounds2 := (min (min tri.Y0 tri.Y1) tri.Y2) >>> (4 : Nat)
  let bounds3 := (max (max tri.Y0 tri.Y1) tri.Y2) >>> (4 : Nat)
  let bounds0 := max 0 bounds0
  let bounds1 := min (width - 1) bounds1
  let bounds2 := max 0 bounds2
  let bounds3 := min (height - 1) bounds3
  let minX := bounds0
  let maxX := bounds1
  let minY := bounds2
  let maxY := bounds3
  let tileMinX := minX >>> Log2TileSize
  let tileMaxX := maxX >>> Log2TileSize
  let tileMinY := minY >>> Log2TileSize
  let tileMaxY := maxY >>> Log2TileSize
  (tileMinX, tileMaxX, tileMinY, tileMaxY)

/-- The innermost statement of `BinTriangles` for the tile `(tileX, tileY)`: the
guarded `push_back` into the local bin. -/
def binTile {F : Type} (gridWidth : Int) (threadId : Int) (i : Int)
    (tri : ProjectedTriangle F) (tileY tileX : Int)
    (localBins : List (List (TiledTriangle F))) : List (List (TiledTriangle F)) :=
  let tileId := tileY * gridWidth + tileX
  if tileId ≥ 0 ∧ tileId < (localBins.length : Int) then
    let tiledTri : TiledTriangle F := { triangle := tri, threadId := threadId, triangleIndex := i }
    pushBack localBins tileId tiledTri
  else localBins

/-- The body of the triangle loop of `BinTriangles` for triangle `i`: the two nested
tile loops. -/
def binTriangle {F : Type} (width height gridWidth : Int) (threadId : Int) (i : Int)
    (tri : ProjectedTriangle F) (localBins : List (List (TiledTriangle F))) :
    List (List (TiledTriangle F)) :=
  match binTileRange width height tri with
  | (tileMinX, tileMaxX, tileMinY, tileMaxY) =>
    forLoop 1 tileMaxY
      (fun tileY bins =>
        forLoop 1 tileMaxX (fun tileX bins => binTile gridWidth threadId i tri tileY tileX bins)
          (loopFuel tileMinX tileMaxX) tileMinX bins)
      (loopFuel tileMinY tileMaxY) tileMinY localBins

/-- The loop `for (int i = 0; i < triangles.Count(); i++)` of `BinTriangles`, from
index `i` over the remaining triangles. -/
def binTrianglesFrom {F : Type} (width height gridWidth : Int) (threadId : Int) :
    Int → List (ProjectedTriangle F) → List (List (TiledTriangle F)) →
      List (List (TiledTriangle F))
  | _, [], localBins => localBins
  | i, tri :: rest, localBins =>
    binTrianglesFrom width height gridWidth threadId (i + 1) rest
      (binTriangle width height gridWidth threadId i tri localBins)

/-- Embedding of `BinTriangles` (the forward renderer and the deferred renderer have
the same text) as a function of the members it reads, `frameBuffer->GetWidth()`,
`frameBuffer->GetHeight()` and `gridWidth`, acting on `localTileBins[threadId]`. -/
def BinTriangles {F : Type} (width height gridWidth : Int)
    (triangles : List (ProjectedTriangle F)) (threadId : Nat)
    (localBins : List (List (TiledTriangle F))) : List (List (TiledTriangle F)) :=
  binTrianglesFrom width height gridWidth (threadId : Int) 0 triangles localBins

/-- The tiles `(tileX, tileY)` the two nested loops of `BinTriangles` visit for a
triangle, in order. -/
def binVisits {F : Type} (width height : Int) (tri : ProjectedTriangle F) : List (Int × Int) :=
  match binTileRange width height tri with
  | (tileMinX, tileMaxX, tileMinY, tileMaxY) =>
    (loopIndices 1 tileMaxY (loopFuel tileMinY tileMaxY) tileMinY).flatMap fun tileY =>
      (loopIndices 1 tileMaxX (loopFuel tileMinX tileMaxX) tileMinX).map fun tileX =>
        (tileX, tileY)

/-- The integer pixel bounding box of the triangle meets the pixel rectangle
`[x0, x1] x [y0, y1]` (bounds inclusive): some pixel lies in both. -/
def bboxMeetsRect {F : Type} (tri : ProjectedTriangle F) (x0 y0 x1 y1 : Int) : Prop :=
  ∃ x y : Int, (tri.pixelBounds.1 ≤ x ∧ x ≤ tri.pixelBounds.2.1) ∧
    (tri.pixelBounds.2.2.1 ≤ y ∧ y ≤ tri.pixelBounds.2.2.2) ∧
    (x0 ≤ x ∧ x ≤ x1) ∧ (y0 ≤ y ∧ y ≤ y1)

/-- The entries that binning the triangles `tris`, numbered from `i`, appends to the
local bin with index `tileId`: one per visit of a tile with that index. -/
def binEntries {F : Type} (width height gridWidth : Int) (threadId : Int) :
    Int → List (ProjectedTriangle F) → Nat → List (TiledTriangle F)
  | _, [], _ => []
  | i, tri :: rest, tileId =>
    ((binVisits width height tri).filter
        (fun v => decide (v.2 * gridWidth + v.1 = (tileId : Int)))).map
        (fun _ => ({ triangle := tri, threadId := threadId, triangleIndex := i } :
          TiledTriangle F)) ++
      binEntries width height gridWidth threadId (i + 1) rest tileId

/-- A triangle whose pixel bounding box lies to the right of a 40 pixel wide
framebuffer: pixel columns 50..60, rows 1..10. -/
def triOffscreen : ProjectedTriangle ℚ where
  X0 := 800
  Y0 := 16
  X1 := 960
  Y1 := 16
  X2 := 800
  Y2 := 160
  A0 := 0
  B0 := 160
  A1 := -144
  B1 := -160
  A2 := 144
  B2 := 0
  fZ0 := 1 / 2
  fDZDX := 0
  fDZDY := 0
  InvArea := 1 / 23040
  Id := 0
  ConstantId := 0

/-! ## RenderProjectedBatch: clearing, binning and merging -/

/-- The loop `for (auto& bin : bins) bin.clear();`. -/
def clearBins {F : Type} (bins : List (List (TiledTriangle F))) : List (List (TiledTriangle F)) :=
  bins.map fun _ => []

/-- The statement `tileBins[tileId].insert(tileBins[tileId].end(),
localTileBins[threadId][tileId].begin(), localTileBins[threadId][tileId].end())`. -/
def appendLocal {F : Type} (localTileBins : List (List (List (TiledTriangle F))))
    (threadId tileId : Int) (tileBins : List (List (TiledTriangle F))) :
    List (List (TiledTriangle F)) :=
  tileBins.set tileId.toNat
    (tileBins.getD tileId.toNat [] ++ (localTileBins.getD threadId.toNat []).getD tileId.toNat [])

/-- The merge loops of `TiledRendererAlgorithm::RenderProjectedBatch`: outer loop over
`threadId < Cores`, inner loop over `tileId < tileBins.size()`. -/
def mergeBins {F : Type} (Cores : Nat) (localTileBins : List (List (List (TiledTriangle F))))
    (tileBins : List (List (TiledTriangle F))) : List (List (TiledTriangle F)) :=
  forLoop 1 ((Cores : Int) - 1)
    (fun threadId tileBins =>
      forLoop 1 ((tileBins.length : Int) - 1)
        (fun tileId tileBins => appendLocal localTileBins threadId tileId tileBins)
        (loopFuel 0 ((tileBins.length : Int) - 1)) 0 tileBins)
    (loopFuel 0 ((Cores : Int) - 1)) 0 tileBins

/-- The merge loops of `DeferredTiledRendererAlgorithm::RenderProjectedBatch`, which
guard each append with `tileId < localTileBins[threadId].size()`. -/
def mergeBinsDeferred {F : Type} (Cores : Nat)
    (localTileBins : List (List (List (TiledTriangle F))))
    (tileBins : List (List (TiledTriangle F))) : List (List (TiledTriangle F)) :=
  forLoop 1 ((Cores : Int) - 1)
    (fun threadId tileBins =>
      forLoop 1 ((tileBins.length : Int) - 1)
        (fun tileId tileBins =>
          if tileId < ((localTileBins.getD threadId.toNat []).length : Int) then
            appendLocal localTileBins threadId tileId tileBins
          else tileBins)
        (loopFuel 0 ((tileBins.length : Int) - 1)) 0 tileBins)
    (loopFuel 0 ((Cores : Int) - 1)) 0 tileBins

/-- The binning pass `Parallel::For(0, Cores, 1, BinTriangles)`: task `threadId` works
on `localTileBins[threadId]` only, so the tasks are run one after the other. -/
def binAll {F : Type} (width height gridWidth : Int) (Cores : Nat)
    (input : ProjectedTriangleInput F) (localTileBins : List (List (List (TiledTriangle F)))) :
    List (List (List (TiledTriangle F))) :=
  (List.range Cores).foldl
    (fun locals threadId =>
      locals.set threadId
        (BinTriangles width height gridWidth (input.triangleBuffer threadId) threadId
          (locals.getD threadId [])))
    localTileBins

/-- The renderer state after `RenderProjectedBatch` has cleared the bins, binned the
triangles of every thread and merged the local bins (before the tile pass). -/
def TiledRendererAlgorithm.binAndMerge {F FB : Type} (fbo : FrameBufferOps F FB) (Cores : Nat)
    (self : TiledRendererAlgorithm F FB) (input : ProjectedTriangleInput F) :
    TiledRendererAlgorithm F FB :=
  let tileBins := clearBins self.tileBins
  let localTileBins := self.localTileBins.map clearBins
  let localTileBins := binAll (fbo.GetWidth self.frameBuffer) (fbo.GetHeight self.frameBuffer)
    self.gridWidth Cores input localTileBins
  let tileBins := mergeBins Cores localTileBins tileBins
  { self with tileBins := tileBins, localTileBins := localTileBins }

/-- Embedding of `TiledRendererAlgorithm::RenderProjectedBatch`; the tile pass
`Parallel::For(0, gridWidth*gridHeight, 1, ProcessBin)` is run in tile order. -/
def TiledRendererAlgorithm.RenderProjectedBatch {F FB : Type} (ops : FloatOps F)
    (fbo : FrameBufferOps F FB) (ShadeFragment : ShadeFragmentFn F) (Cores : Nat)
    (self : TiledRendererAlgorithm F FB) (input : ProjectedTriangleInput F) :
    TiledRendererAlgorithm F FB :=
  let s := self.binAndMerge fbo Cores input
  { s with
    frameBuffer :=
      forLoop 1 (s.gridWidth * s.gridHeight - 1)
        (fun tileId frameBuffer =>
          ProcessBin ops fbo ShadeFragment s.gridWidth s.tileBins tileId frameBuffer)
        (loopFuel 0 (s.gridWidth * s.gridHeight - 1)) 0 s.frameBuffer }

/-- The shape `SetFrameBuffer` gives the renderer, which no other member changes: the
grid dimensions belong to the framebuffer, there is one global bin per tile, and each
of the `Cores` threads has one local bin per tile. -/
def TiledRendererAlgorithm.GridInvariant {F FB : Type} (fbo : FrameBufferOps F FB)
    (Cores : Nat) (self : TiledRendererAlgorithm F FB) : Prop :=
  self.gridWidth = gridDim (fbo.GetWidth self.frameBuffer) ∧
    self.gridHeight = gridDim (fbo.GetHeight self.frameBuffer) ∧
    self.tileBins.length = (self.gridWidth * self.gridHeight).toNat ∧
    self.localTileBins.length = Cores ∧
    ∀ bins ∈ self.localTileBins, bins.length = (self.gridWidth * self.gridHeight).toNat

/-- Two worker threads with one triangle each. -/
def inputTwoThreads : ProjectedTriangleInput ℚ where
  triangleBuffer := fun threadId =>
    if threadId = 0 then [triS1] else if threadId = 1 then [triS1Adj] else []
  vertexOutputBuffer := fun _ => []
  indexOutputBuffer := fun _ => []

/-- Strict lexicographic order on the origin `(threadId, triangleIndex)` of queue
entries. -/
def queueBefore {F : Type} (a b : TiledTriangle F) : Prop :=
  a.threadId < b.threadId ∨ (a.threadId = b.threadId ∧ a.triangleIndex < b.triangleIndex)

/-! ## GBuffer.h -/

/-- Three-component vector `Vec3`. -/
structure Vec3 (F : Type) where
  x : F
  y : F
  z : F

/-- The members of `class GBuffer`: four planes of `width * height` entries. -/
structure GBuffer (F : Type) where
  width : Int
  height : Int
  positionBuffer : List (Vec3 F)
  normalBuffer : List (Vec3 F)
  albedoBuffer : List (Vec4 F)
  depthBuffer : List F

def GBuffer.GetWidth {F : Type} (g : GBuffer F) : Int := g.width

def GBuffer.GetHeight {F : Type} (g : GBuffer F) : Int := g.height

/-- The bounds test `x >= 0 && x < width && y >= 0 && y < height` of the accessors. -/
def GBuffer.inRange {F : Type} (g : GBuffer F) (x y : Int) : Bool :=
  decide (x ≥ 0) && decide (x < g.width) && decide (y ≥ 0) && decide (y < g.height)

/-- Embedding of `GBuffer::SetPosition`. -/
def GBuffer.SetPosition {F : Type} (g : GBuffer F) (x y : Int) (position : Vec3 F) : GBuffer F :=
  if g.inRange x y then
    { g with positionBuffer := g.positionBuffer.set (y * g.width + x).toNat position }
  else g

/-- Embedding of `GBuffer::SetNormal`. -/
def GBuffer.SetNormal {F : Type} (g : GBuffer F) (x y : Int) (normal : Vec3 F) : GBuffer F :=
  if g.inRange x y then
    { g with normalBuffer := g.normalBuffer.set (y * g.width + x).toNat normal }
  else g

/-- Embedding of `GBuffer::SetAlbedo`. -/
def GBuffer.SetAlbedo {F : Type} (g : GBuffer F) (x y : Int) (albedo : Vec4 F) : GBuffer F :=
  if g.inRange x y then
    { g with albedoBuffer := g.albedoBuffer.set (y * g.width + x).toNat albedo }
  else g

/-- Embedding of `GBuffer::SetDepth`. -/
def GBuffer.SetDepth {F : Type} (g : GBuffer F) (x y : Int) (depth : F) : GBuffer F :=
  if g.inRange x y then
    { g with depthBuffer := g.depthBuffer.set (y * g.width + x).toNat depth }
  else g

/-- Embedding of `GBuffer::GetDepth`; outside the bounds it returns `1.0f`. Reading
past the end of the plane, which is undefined in C++, also yields `1.0f` here. -/
def GBuffer.GetDepth {F : Type} (ops : FloatOps F) (g : GBuffer F) (x y : Int) : F :=
  if g.inRange x y then g.depthBuffer.getD (y * g.width + x).toNat (ops.ofRat 1)
  else ops.ofRat 1

/-- The planes have `width * height` entries each, as `SetSize` makes them. -/
def GBuffer.WellFormed {F : Type} (g : GBuffer F) : Prop :=
  0 ≤ g.width ∧ 0 ≤ g.height ∧
    g.positionBuffer.length = (g.width * g.height).toNat ∧
    g.normalBuffer.length = (g.width * g.height).toNat ∧
    g.albedoBuffer.length = (g.width * g.height).toNat ∧
    g.depthBuffer.length = (g.width * g.height).toNat

/-! ## ForwardLightingShader.h: lights -/

/-- The enumeration `Light::Type`. -/
inductive LightType where
  | POINT
  | DIRECTIONAL
  | SPOT
  deriving DecidableEq

/-- The structure `ForwardLightingShader::Light`. -/
structure Light (F : Type) where
  Position : Vec3 F
  Direction : Vec3 F
  Color : Vec3 F
  Intensity : F
  Ambient : F
  Decay : F
  LightType : LightType
  InnerConeAngle : F
  OuterConeAngle : F

/-! ## DeferredTiledRenderer.cpp: geometry pass -/

/-- Modelled from the spec: `RenderState.h` is not among the sources. The render state
with its active fragment program slot `Shader`, a pointer that may be null; `Sh` is the
type of shader objects. -/
structure RenderState (Sh : Type) where
  Shader : Option Sh

/-- The call `InterpolateVertexOutput(interpolated, state, beta, gamma, alpha, triId,
vertexBuffer, vertexOutputSize, indexBuffer)` of `RendererImplBase.h`, which is not
among the sources: it is a parameter. The result is the array `interpolated`. -/
abbrev InterpolateFn (F Sh : Type) :=
  RenderState Sh → M128 F → M128 F → M128 F → Int → List F → Int → List Int → Nat → M128 F

/-- The members of `DeferredTiledRendererAlgorithm` that binning, the geometry pass and
the lighting pass use; the framebuffer, G-buffer and shader pointers may be null, and
`lights` stands for the array the pointer `lights` refers to. -/
structure DeferredTiledRendererAlgorithm (F FB Sh : Type) where
  gridWidth : Int
  gridHeight : Int
  frameBuffer : Option FB
  gbuffer : Option (GBuffer F)
  lights : List (Light F)
  lightCount : Int
  cameraPosition : Vec3 F
  tileBins : List (List (TiledTriangle F))
  localTileBins : List (List (List (TiledTriangle F)))
  geometryShader : Option Sh
  lightingShader : Option Sh

/-- One iteration of the loop `for (int fragIdx = 0; fragIdx < 4; fragIdx++)` of the
geometry pass: interpolate the attributes of a visible fragment and write position,
normal and albedo. -/
def deferredFragment {F Sh : Type} (ops : FloatOps F) (InterpolateVertexOutput : InterpolateFn F Sh)
    (state : RenderState Sh) (input : ProjectedTriangleInput F) (vertexOutputSize : Int)
    (tiledTri : TiledTriangle F) (tri : ProjectedTriangle F)
    (visibility : FragmentCoverageMask) (pixelX pixelY : Fin 4 → Int)
    (alphaVals betaVals gammaVals : M128 F) (gbuffer : GBuffer F) (fragIdx : Fin 4) : GBuffer F :=
  if visibility.GetBit fragIdx.val then
    let px := pixelX fragIdx
    let py := pixelY fragIdx
    let fragAlpha := _mm_set1_ps (alphaVals fragIdx)
    let fragBeta := _mm_set1_ps (betaVals fragIdx)
    let fragGamma := _mm_set1_ps (gammaVals fragIdx)
    let triId := tri.Id
    let indexBuffer := input.indexOutputBuffer tiledTri.threadId.toNat
    let vertexBuffer := input.vertexOutputBuffer tiledTri.threadId.toNat
    let indexBufferSize : Int := indexBuffer.length
    let neededIdx := triId * 3 + 2
    if neededIdx ≥ indexBufferSize then gbuffer
    else
      let interpolated := InterpolateVertexOutput state fragBeta fragGamma fragAlpha triId
        vertexBuffer vertexOutputSize indexBuffer
      let posX := interpolated 7
      let posY := interpolated 8
      let posZ := interpolated 9
      let normX := interpolated 4
      let normY := interpolated 5
      let normZ := interpolated 6
      let worldPos : Vec3 F := ⟨posX 0, posY 0, posZ 0⟩
      let normal : Vec3 F := ⟨normX 0, normY 0, normZ 0⟩
      let normalLen := ops.sqrt
        (ops.add (ops.add (ops.mul normal.x normal.x) (ops.mul normal.y normal.y))
          (ops.mul normal.z normal.z))
      let normal : Vec3 F :=
        if ops.lt (ops.ofRat (1 / 1000)) normalLen then
          ⟨ops.div normal.x normalLen, ops.div normal.y normalLen, ops.div normal.z normalLen⟩
        else normal
      let albedo : Vec4 F := ⟨ops.ofRat 1, ops.ofRat 1, ops.ofRat 1, ops.ofRat 1⟩
      let gbuffer := gbuffer.SetPosition px py worldPos
      let gbuffer := gbuffer.SetNormal px py normal
      let gbuffer := gbuffer.SetAlbedo px py albedo
      gbuffer
  else gbuffer

/-- The lambda that `ProcessBinGeometryPass` hands to `RasterizeTriangle`: depth test
against the G-buffer, depth write, and attribute writes for one quad fragment. -/
def deferredQuad {F Sh : Type} (ops : FloatOps F) (InterpolateVertexOutput : InterpolateFn F Sh)
    (state : RenderState Sh) (input : ProjectedTriangleInput F) (vertexOutputSize : Int)
    (tiledTri : TiledTriangle F) (tri : ProjectedTriangle F) (triSIMD : TriangleSIMD F)
    (qfx qfy : Int) (trivialAccept : Bool) (gbuffer : GBuffer F) : GBuffer F :=
  let coordX_center := _mm_add_epi32 (_mm_set1_epi32 (shl qfx 4)) xOffset
  let coordY_center := _mm_add_epi32 (_mm_set1_epi32 (shl qfy 4)) yOffset
  let coverageMask :=
    if trivialAccept then 0xFFFF else triSIMD.TestQuadFragment coordX_center coordY_center
  let zValues := triSIMD.GetZ ops coordX_center coordY_center
  let zStore := zValues
  let visibility := FragmentCoverageMask.empty
  let gbufferWidth := gbuffer.GetWidth
  let gbufferHeight := gbuffer.GetHeight
  let px0 := min (max qfx 0) (gbufferWidth - 1)
  let py0 := min (max qfy 0) (gbufferHeight - 1)
  let px1 := min (max (qfx + 1) 0) (gbufferWidth - 1)
  let py1 := min (max (qfy + 1) 0) (gbufferHeight - 1)
  let gbufferDepth : Fin 4 → F :=
    ![gbuffer.GetDepth ops px1 py1, gbuffer.GetDepth ops px0 py1,
      gbuffer.GetDepth ops px1 py0, gbuffer.GetDepth ops px0 py0]
  let currentZ := _mm_set_ps (gbufferDepth 0) (gbufferDepth 1) (gbufferDepth 2) (gbufferDepth 3)
  let depthMask := _mm_cmplt_ps ops zValues currentZ
  let depthMaskInt := _mm_movemask_ps depthMask
  let pixelX : Fin 4 → Int := ![px0, px1, px0, px1]
  let pixelY : Fin 4 → Int := ![py0, py0, py1, py1]
  let c0 := decide (coverageMask &&& 0x0008 ≠ 0) && decide (depthMaskInt &&& 0x1 ≠ 0)
  let visibility := if c0 then visibility.SetBit 0 else visibility
  let gbuffer := if c0 then gbuffer.SetDepth (pixelX 0) (pixelY 0) (zStore 0) else gbuffer
  let c1 := decide (coverageMask &&& 0x0080 ≠ 0) && decide (depthMaskInt &&& 0x2 ≠ 0)
  let visibility := if c1 then visibility.SetBit 1 else visibility
  let gbuffer := if c1 then gbuffer.SetDepth (pixelX 1) (pixelY 1) (zStore 1) else gbuffer
  let c2 := decide (coverageMask &&& 0x0800 ≠ 0) && decide (depthMaskInt &&& 0x4 ≠ 0)
  let visibility := if c2 then visibility.SetBit 2 else visibility
  let gbuffer := if c2 then gbuffer.SetDepth (pixelX 2) (pixelY 2) (zStore 2) else gbuffer
  let c3 := decide (coverageMask &&& 0x8000 ≠ 0) && decide (depthMaskInt &&& 0x8 ≠ 0)
  let visibility := if c3 then visibility.SetBit 3 else visibility
  let gbuffer := if c3 then gbuffer.SetDepth (pixelX 3) (pixelY 3) (zStore 3) else gbuffer
  if visibility.Any then
    let w := triSIMD.GetCoordinates ops coordX_center coordY_center
    let gamma := w.1
    let alpha := w.2.1
    let beta := w.2.2
    let alphaVals := alpha
    let betaVals := beta
    let gammaVals := gamma
    [0, 1, 2, 3].foldl
      (deferredFragment ops InterpolateVertexOutput state input vertexOutputSize tiledTri tri
        visibility pixelX pixelY alphaVals betaVals gammaVals)
      gbuffer
  else gbuffer

/-- Embedding of `DeferredTiledRendererAlgorithm::ProcessBinGeometryPass`: returns the
render state and the renderer (with its G-buffer) as they are when the function
returns. -/
def ProcessBinGeometryPass {F FB Sh : Type} (ops : FloatOps F) (fbo : FrameBufferOps F FB)
    (InterpolateVertexOutput : InterpolateFn F Sh)
    (self : DeferredTiledRendererAlgorithm F FB Sh) (state : RenderState Sh)
    (input : ProjectedTriangleInput F) (vertexOutputSize : Int) (tileId : Int) :
    RenderState Sh × DeferredTiledRendererAlgorithm F FB Sh :=
  if tileId ≥ (self.tileBins.length : Int) then (state, self)
  else
    match self.gbuffer, self.frameBuffer with
    | some gbuffer, some frameBuffer =>
      match tileRect self.gridWidth (fbo.GetWidth frameBuffer) (fbo.GetHeight frameBuffer)
          tileId with
      | (tilePixelX, tilePixelY, tilePixelW, tilePixelH) =>
        let originalShader := state.Shader
        match self.geometryShader with
        | none => (state, self)
        | some geometryShader =>
          let state : RenderState Sh := { state with Shader := some geometryShader }
          if tileId < 0 ∨ tileId ≥ (self.tileBins.length : Int) then (state, self)
          else
            let gbuffer := (binAt self.tileBins tileId).foldl
              (fun gbuffer tiledTri =>
                let tri := tiledTri.triangle
                let triSIMD := TriangleSIMD.Load tri
                RasterizeTriangle tilePixelX tilePixelY tilePixelW tilePixelH tri triSIMD
                  (deferredQuad ops InterpolateVertexOutput state input vertexOutputSize
                    tiledTri tri triSIMD) gbuffer)
              gbuffer
            let state : RenderState Sh := { state with Shader := originalShader }
            (state, { self with gbuffer := some gbuffer })
    | _, _ => (state, self)

/-- The depth-plane values of the covered samples that the triangles of a queue emit
for pixel `(x, y)` in a region, in queue order. -/
def coveredDepths {F : Type} (ops : FloatOps F) (regionX0 regionY0 regionW regionH : Int)
    (queue : List (TiledTriangle F)) (x y : Int) : List F :=
  (queue.filter fun tiledTri =>
      fragmentEmitted regionX0 regionY0 regionW regionH tiledTri.triangle x y).map
    fun tiledTri => fragmentZ ops tiledTri.triangle x y

/-- The pixel columns `pixelX[4]` of the deferred quad fragment, clamped to the
G-buffer. -/
def clampedPixelX {F : Type} (g : GBuffer F) (qfx : Int) : Fin 4 → Int :=
  ![min (max qfx 0) (g.GetWidth - 1), min (max (qfx + 1) 0) (g.GetWidth - 1),
    min (max qfx 0) (g.GetWidth - 1), min (max (qfx + 1) 0) (g.GetWidth - 1)]

/-- The pixel rows `pixelY[4]` of the deferred quad fragment, clamped to the
G-buffer. -/
def clampedPixelY {F : Type} (g : GBuffer F) (qfy : Int) : Fin 4 → Int :=
  ![min (max qfy 0) (g.GetHeight - 1), min (max qfy 0) (g.GetHeight - 1),
    min (max (qfy + 1) 0) (g.GetHeight - 1), min (max (qfy + 1) 0) (g.GetHeight - 1)]

/-- Lane `k` of a deferred quad fragment passes coverage and the depth test against
the G-buffer depth at its clamped pixel. -/
def deferredVisible {F : Type} (ops : FloatOps F) (t : TriangleSIMD F) (qfx qfy : Int)
    (g : GBuffer F) (k : Fin 4) : Bool :=
  quadCover t qfx qfy k &&
    ops.lt (quadZ ops t qfx qfy k)
      (g.GetDepth ops (clampedPixelX g qfx k) (clampedPixelY g qfy k))

/-- The part of a deferred quad fragment that follows the depth test, as a function of
the four lane flags, the pixel coordinates, the depths, and the attribute stage run
when some lane is visible. -/
def deferredTail {F : Type} (c0 c1 c2 c3 : Bool) (pixelX pixelY : Fin 4 → Int) (z : M128 F)
    (attr : FragmentCoverageMask → GBuffer F → GBuffer F) (g : GBuffer F) : GBuffer F :=
  let visibility := FragmentCoverageMask.empty
  let visibility := if c0 then visibility.SetBit 0 else visibility
  let gbuffer := if c0 then g.SetDepth (pixelX 0) (pixelY 0) (z 0) else g
  let visibility := if c1 then visibility.SetBit 1 else visibility
  let gbuffer := if c1 then gbuffer.SetDepth (pixelX 1) (pixelY 1) (z 1) else gbuffer
  let visibility := if c2 then visibility.SetBit 2 else visibility
  let gbuffer := if c2 then gbuffer.SetDepth (pixelX 2) (pixelY 2) (z 2) else gbuffer
  let visibility := if c3 then visibility.SetBit 3 else visibility
  let gbuffer := if c3 then gbuffer.SetDepth (pixelX 3) (pixelY 3) (z 3) else gbuffer
  if visibility.Any then attr visibility gbuffer else gbuffer

/-- The four guarded `SetDepth` calls of a deferred quad fragment. -/
def deferredDepthWrites {F : Type} (c0 c1 c2 c3 : Bool) (pixelX pixelY : Fin 4 → Int)
    (z : M128 F) (g : GBuffer F) : GBuffer F :=
  let gbuffer := if c0 then g.SetDepth (pixelX 0) (pixelY 0) (z 0) else g
  let gbuffer := if c1 then gbuffer.SetDepth (pixelX 1) (pixelY 1) (z 1) else gbuffer
  let gbuffer := if c2 then gbuffer.SetDepth (pixelX 2) (pixelY 2) (z 2) else gbuffer
  if c3 then gbuffer.SetDepth (pixelX 3) (pixelY 3) (z 3) else gbuffer

/-- A well-formed `width x height` G-buffer over the rationals holding the depth `d` at
every pixel, with zero position, forward normal and transparent black albedo. -/
def gBufferAtDepth (width height : Int) (d : ℚ) : GBuffer ℚ where
  width := width
  height := height
  positionBuffer := List.replicate (width * height).toNat ⟨0, 0, 0⟩
  normalBuffer := List.replicate (width * height).toNat ⟨0, 0, 1⟩
  albedoBuffer := List.replicate (width * height).toNat ⟨0, 0, 0, 0⟩
  depthBuffer := List.replicate (width * height).toNat d

/-- An attribute interpolator that yields zero for every attribute. -/
def interpolateZero : InterpolateFn ℚ Unit := fun _ _ _ _ _ _ _ _ _ _ => 0

/-- A deferred renderer for a `width x height` target of one tile whose queue is
`queue`, with the G-buffer and the framebuffer holding depth `d` everywhere. -/
def deferredOneTile (width height : Int) (d : ℚ) (queue : List (TiledTriangle ℚ)) :
    DeferredTiledRendererAlgorithm ℚ (FrameBuffer ℚ) Unit where
  gridWidth := 1
  gridHeight := 1
  frameBuffer := some (frameBufferAtDepth width height d)
  gbuffer := some (gBufferAtDepth width height d)
  lights := []
  lightCount := 0
  cameraPosition := ⟨0, 0, 0⟩
  tileBins := [queue]
  localTileBins := []
  geometryShader := some ()
  lightingShader := none

/-! ## The tile grid as a partition -/

/-- Pixel `(x, y)` lies in the rectangle `r = (x0, y0, w, h)`, that is in
`[x0, x0 + w) x [y0, y0 + h)`. -/
def inRect (r : Int × Int × Int × Int) (x y : Int) : Prop :=
  (r.1 ≤ x ∧ x < r.1 + r.2.2.1) ∧ (r.2.1 ≤ y ∧ y < r.2.1 + r.2.2.2)

instance (r : Int × Int × Int × Int) (x y : Int) : Decidable (inRect r x y) := by
  unfold inRect
  infer_instance

/-! ## The samples `RasterizeTriangle` tests -/

/-- The body of the inner loop of `RasterizeTriangle` for the quad `(qx, qy)`, which
also records the arguments `(x_samp, y_samp)` of its call of `TestQuadFragment`. -/
def rasterQuadTraced {F S : Type} (triSIMD : TriangleSIMD F)
    (processQuadFragmentFunc : Int → Int → Bool → S → S) (qy qx : Int)
    (s : S × List (M128i × M128i)) : S × List (M128i × M128i) :=
  let x_samp := quadSampleX qx
  let y_samp := quadSampleY qy
  let trace := s.2 ++ [(x_samp, y_samp)]
  let mask := triSIMD.TestQuadFragment x_samp y_samp
  if mask = 0 then (s.1, trace)
  else (processQuadFragmentFunc qx qy false s.1, trace)

/-- Embedding of `RasterizeTriangle` that also records, in order, the arguments of
every call of `TestQuadFragment`. -/
def RasterizeTriangleTraced {F S : Type} (regionX0 regionY0 regionW regionH : Int)
    (tri : ProjectedTriangle F) (triSIMD : TriangleSIMD F)
    (processQuadFragmentFunc : Int → Int → Bool → S → S)
    (s : S × List (M128i × M128i)) : S × List (M128i × M128i) :=
  match quadBounds regionX0 regionY0 regionW regionH tri with
  | (px0, py0, px1, py1) =>
    forLoop 2 py1
      (fun qy s =>
        forLoop 2 px1 (fun qx s => rasterQuadTraced triSIMD processQuadFragmentFunc qy qx s)
          (loopFuel px0 px1) px0 s)
      (loopFuel py0 py1) py0 s

/-- The sample registers `(x_samp, y_samp)` that `RasterizeTriangle` passes to
`TestQuadFragment`, in order. -/
def testedSamples {F : Type} (regionX0 regionY0 regionW regionH : Int)
    (tri : ProjectedTriangle F) (triSIMD : TriangleSIMD F) : List (M128i × M128i) :=
  (RasterizeTriangleTraced regionX0 regionY0 regionW regionH tri triSIMD
    (fun _ _ _ (s : Unit) => s) ((), [])).2

/-- The origins of all quads the two loops of `RasterizeTriangle` visit, in order. -/
def visitedQuads {F : Type} (regionX0 regionY0 regionW regionH : Int)
    (tri : ProjectedTriangle F) : List (Int × Int) :=
  match quadBounds regionX0 regionY0 regionW regionH tri with
  | (px0, py0, px1, py1) =>
    (loopIndices 2 py1 (loopFuel py0 py1) py0).flatMap fun qy =>
      (loopIndices 2 px1 (loopFuel px0 px1) px0).map fun qx => (qx, qy)

/-- The triangle (1008,16), (16,16), (16,-976): it shares the horizontal edge from
(16,16) to (1008,16) with `triS1`, traversed the other way, has the same winding and
lies below that edge. -/
def triS1Below : ProjectedTriangle ℚ where
  X0 := 1008
  Y0 := 16
  X1 := 16
  Y1 := 16
  X2 := 16
  Y2 := -976
  A0 := 0
  B0 := -992
  A1 := 992
  B1 := 0
  A2 := -992
  B2 := 992
  fZ0 := 1 / 2
  fDZDX := 0
  fDZDY := 0
  InvArea := 1 / 984064
  Id := 2
  ConstantId := 0

/-! ## Independence of the tile size -/

/-- The part of `fragmentEmitted` that does not depend on the region: the quad of
pixel `(x, y)` meets the integer pixel bounding box, its coverage mask is nonzero, and
the sample of the pixel is covered. -/
def fragmentInBox {F : Type} (tri : ProjectedTriangle F) (x y : Int) : Bool :=
  decide ((tri.pixelBounds.1 ≤ clearBit0 x + 1 ∧ clearBit0 x ≤ tri.pixelBounds.2.1) ∧
    (tri.pixelBounds.2.2.1 ≤ clearBit0 y + 1 ∧ clearBit0 y ≤ tri.pixelBounds.2.2.2)) &&
  decide ((TriangleSIMD.Load tri).TestQuadFragment (quadSampleX (clearBit0 x))
    (quadSampleY (clearBit0 y)) ≠ 0) &&
  fragmentCover tri x y

/-- The framebuffer after `ProcessBin` has run for the tiles 0, 1, 2, 3 of a 2 x 2
grid, in this order. -/
def processFourTiles {F : Type} (ops : FloatOps F) (ShadeFragment : ShadeFragmentFn F)
    (tileBins : List (List (TiledTriangle F))) (fb : FrameBuffer F) : FrameBuffer F :=
  [0, 1, 2, 3].foldl
    (fun fb tileId => ProcessBin ops (FrameBuffer.ops ops) ShadeFragment 2 tileBins tileId fb) fb

/-! ## GBuffer.h: read accessors and `Clear` -/

/-- Embedding of `GBuffer::GetPosition`; outside the bounds it returns the zero vector. -/
def GBuffer.GetPosition {F : Type} (ops : FloatOps F) (g : GBuffer F) (x y : Int) : Vec3 F :=
  if g.inRange x y then
    g.positionBuffer.getD (y * g.width + x).toNat ⟨ops.ofRat 0, ops.ofRat 0, ops.ofRat 0⟩
  else ⟨ops.ofRat 0, ops.ofRat 0, ops.ofRat 0⟩

/-- Embedding of `GBuffer::GetNormal`; outside the bounds it returns `(0, 0, 1)`. -/
def GBuffer.GetNormal {F : Type} (ops : FloatOps F) (g : GBuffer F) (x y : Int) : Vec3 F :=
  if g.inRange x y then
    g.normalBuffer.getD (y * g.width + x).toNat ⟨ops.ofRat 0, ops.ofRat 0, ops.ofRat 1⟩
  else ⟨ops.ofRat 0, ops.ofRat 0, ops.ofRat 1⟩

/-- Embedding of `GBuffer::GetAlbedo`; outside the bounds it returns transparent black. -/
def GBuffer.GetAlbedo {F : Type} (ops : FloatOps F) (g : GBuffer F) (x y : Int) : Vec4 F :=
  if g.inRange x y then
    g.albedoBuffer.getD (y * g.width + x).toNat
      ⟨ops.ofRat 0, ops.ofRat 0, ops.ofRat 0, ops.ofRat 0⟩
  else ⟨ops.ofRat 0, ops.ofRat 0, ops.ofRat 0, ops.ofRat 0⟩

/-- Embedding of `GBuffer::Clear`: the loop over `i < positionBuffer.Count()` that
resets entry `i` of all four planes. -/
def GBuffer.Clear {F : Type} (ops : FloatOps F) (g : GBuffer F) : GBuffer F :=
  let zeroPos : Vec3 F := ⟨ops.ofRat 0, ops.ofRat 0, ops.ofRat 0⟩
  let zeroNormal : Vec3 F := ⟨ops.ofRat 0, ops.ofRat 0, ops.ofRat 1⟩
  let zeroAlbedo : Vec4 F := ⟨ops.ofRat 0, ops.ofRat 0, ops.ofRat 0, ops.ofRat 0⟩
  (List.range g.positionBuffer.length).foldl
    (fun g i =>
      { g with
        positionBuffer := g.positionBuffer.set i zeroPos
        normalBuffer := g.normalBuffer.set i zeroNormal
        albedoBuffer := g.albedoBuffer.set i zeroAlbedo
        depthBuffer := g.depthBuffer.set i (ops.ofRat 1) })
    g

/-! ## Clear (TiledRenderer.cpp, DeferredTiledRenderer.cpp) -/

/-- Embedding of `TiledRendererAlgorithm::Clear`. -/
def TiledRendererAlgorithm.Clear {F FB : Type} (fbo : FrameBufferOps F FB)
    (self : TiledRendererAlgorithm F FB) (clearColor : Vec4 F) (color depth : Bool) :
    TiledRendererAlgorithm F FB :=
  { self with frameBuffer := fbo.Clear self.frameBuffer clearColor color depth }

/-- Embedding of `DeferredTiledRendererAlgorithm::Clear`. -/
def DeferredTiledRendererAlgorithm.Clear {F FB Sh : Type} (ops : FloatOps F)
    (fbo : FrameBufferOps F FB) (self : DeferredTiledRendererAlgorithm F FB Sh)
    (clearColor : Vec4 F) (color depth : Bool) : DeferredTiledRendererAlgorithm F FB Sh :=
  let frameBuffer :=
    match self.frameBuffer with
    | some frameBuffer => some (fbo.Clear frameBuffer clearColor color depth)
    | none => none
  let gbuffer :=
    match self.gbuffer with
    | some gbuffer => some (gbuffer.Clear ops)
    | none => none
  let tileBins := clearBins self.tileBins
  { self with frameBuffer := frameBuffer, gbuffer := gbuffer, tileBins := tileBins }

/-! ## DeferredTiledRenderer.cpp: lighting pass -/

/-- The float operations of the lighting pass that the rasterizer does not use:
subtraction, negation, the comparison `<=` (`a >= b` is `le b a`), `fmaxf` and
`fminf`. -/
structure LightingFloatOps (F : Type) extends FloatOps F where
  sub : F → F → F
  neg : F → F
  le : F → F → Bool
  fmaxf : F → F → F
  fminf : F → F → F

/-- The expression `sqrtf(v.x * v.x + v.y * v.y + v.z * v.z)`. -/
def vecLength {F : Type} (ops : FloatOps F) (v : Vec3 F) : F :=
  ops.sqrt (ops.add (ops.add (ops.mul v.x v.x) (ops.mul v.y v.y)) (ops.mul v.z v.z))

/-- The expression `a.x * b.x + a.y * b.y + a.z * b.z`. -/
def vecDot {F : Type} (ops : FloatOps F) (a b : Vec3 F) : F :=
  ops.add (ops.add (ops.mul a.x b.x) (ops.mul a.y b.y)) (ops.mul a.z b.z)

/-- The statement `if (len > 0.001f) { v.x /= len; v.y /= len; v.z /= len; }`. -/
def normalizeIfLong {F : Type} (ops : FloatOps F) (v : Vec3 F) (len : F) : Vec3 F :=
  if ops.lt (ops.ofRat (1 / 1000)) len then
    ⟨ops.div v.x len, ops.div v.y len, ops.div v.z len⟩
  else v

/-- The direction to the light and the attenuation that the lighting pass computes for
one light at a world position. In the branch `attenuation = 0.0f` the C++ variable
`lightDir` is left uninitialised; it stands for the zero vector here. -/
def lightDirection {F : Type} (lops : LightingFloatOps F) (light : Light F)
    (worldPos : Vec3 F) : Vec3 F × F :=
  let ops := lops.toFloatOps
  let attenuation := ops.ofRat 1
  if light.LightType = LightType.DIRECTIONAL then
    let lightDir : Vec3 F :=
      ⟨lops.neg light.Direction.x, lops.neg light.Direction.y, lops.neg light.Direction.z⟩
    let attenuation := ops.ofRat 1
    (lightDir, attenuation)
  else
    let lightVec : Vec3 F :=
      ⟨lops.sub light.Position.x worldPos.x, lops.sub light.Position.y worldPos.y,
        lops.sub light.Position.z worldPos.z⟩
    let lightLen := vecLength ops lightVec
    if ops.lt (ops.ofRat (1 / 1000)) lightLen then
      let lightDir : Vec3 F :=
        ⟨ops.div lightVec.x lightLen, ops.div lightVec.y lightLen, ops.div lightVec.z lightLen⟩
      let attenuation :=
        if ops.lt (ops.ofRat (1 / 100)) light.Decay then
          lops.fmaxf (ops.ofRat 0) (lops.sub (ops.ofRat 1) (ops.div lightLen light.Decay))
        else attenuation
      let attenuation :=
        if light.LightType = LightType.SPOT then
          let spotDir : Vec3 F :=
            ⟨lops.neg light.Direction.x, lops.neg light.Direction.y, lops.neg light.Direction.z⟩
          let spotDot := vecDot ops lightDir spotDir
          if ops.lt spotDot light.OuterConeAngle then ops.ofRat 0
          else if ops.lt spotDot light.InnerConeAngle then
            let coneFactor := ops.div (lops.sub spotDot light.OuterConeAngle)
              (lops.sub light.InnerConeAngle light.OuterConeAngle)
            ops.mul attenuation coneFactor
          else attenuation
        else attenuation
      (lightDir, attenuation)
    else
      let attenuation := ops.ofRat 0
      (⟨ops.ofRat 0, ops.ofRat 0, ops.ofRat 0⟩, attenuation)

/-- The body of the loop over the lights: the colour after the contribution of one
light is added. -/
def lightContribution {F : Type} (lops : LightingFloatOps F) (worldPos normal viewDir : Vec3 F)
    (albedo : Vec4 F) (color : Vec3 F) (light : Light F) : Vec3 F :=
  let ops := lops.toFloatOps
  match lightDirection lops light worldPos with
  | (lightDir, attenuation) =>
    if ops.lt (ops.ofRat (1 / 1000)) attenuation then
      let NdotL := vecDot ops normal lightDir
      let NdotL := lops.fmaxf (ops.ofRat 0) NdotL
      let color : Vec3 F :=
        if ops.lt (ops.ofRat 0) NdotL then
          let diffuseContrib :=
            ops.mul (ops.mul NdotL attenuation) (lops.sub (ops.ofRat 1) light.Ambient)
          let color : Vec3 F :=
            ⟨ops.add color.x
                (ops.mul (ops.mul (ops.mul albedo.x light.Color.x) light.Intensity) diffuseContrib),
              ops.add color.y
                (ops.mul (ops.mul (ops.mul albedo.y light.Color.y) light.Intensity) diffuseContrib),
              ops.add color.z
                (ops.mul (ops.mul (ops.mul albedo.z light.Color.z) light.Intensity)
                  diffuseContrib)⟩
          let halfDir : Vec3 F :=
            ⟨ops.add lightDir.x viewDir.x, ops.add lightDir.y viewDir.y,
              ops.add lightDir.z viewDir.z⟩
          let halfLen := vecLength ops halfDir
          if ops.lt (ops.ofRat (1 / 1000)) halfLen then
            let halfDir : Vec3 F :=
              ⟨ops.div halfDir.x halfLen, ops.div halfDir.y halfLen, ops.div halfDir.z halfLen⟩
            let NdotH := vecDot ops normal halfDir
            let NdotH := lops.fmaxf (ops.ofRat 0) NdotH
            let specularPower := NdotH
            let specularPower :=
              [1, 2, 4, 8, 16].foldl (fun specularPower (_ : Int) =>
                ops.mul specularPower specularPower) specularPower
            let specularContrib :=
              ops.mul (ops.mul (ops.mul specularPower NdotL) attenuation) light.Intensity
            ⟨ops.add color.x (ops.mul (ops.mul (ops.ofRat (1 / 2)) light.Color.x) specularContrib),
              ops.add color.y (ops.mul (ops.mul (ops.ofRat (1 / 2)) light.Color.y) specularContrib),
              ops.add color.z (ops.mul (ops.mul (ops.ofRat (1 / 2)) light.Color.z) specularContrib)⟩
          else color
        else color
      ⟨ops.add color.x (ops.mul light.Color.x light.Ambient),
        ops.add color.y (ops.mul light.Color.y light.Ambient),
        ops.add color.z (ops.mul light.Color.z light.Ambient)⟩
    else color

/-- The colour the lighting pass computes for a pixel that is not skipped, before the
clamp: ambient term plus the contributions of `lights[0 .. lightCount - 1]`. Reading
past the end of the array, which is undefined in C++, contributes nothing here. -/
def lightingSum {F : Type} (lops : LightingFloatOps F) (lights : List (Light F))
    (lightCount : Int) (cameraPosition worldPos normal : Vec3 F) (albedo : Vec4 F) : Vec3 F :=
  let ops := lops.toFloatOps
  let normalLen := vecLength ops normal
  let normal := normalizeIfLong ops normal normalLen
  let color : Vec3 F := ⟨ops.ofRat (1 / 10), ops.ofRat (1 / 10), ops.ofRat (1 / 10)⟩
  let viewDir : Vec3 F :=
    ⟨lops.sub cameraPosition.x worldPos.x, lops.sub cameraPosition.y worldPos.y,
      lops.sub cameraPosition.z worldPos.z⟩
  let viewLen := vecLength ops viewDir
  let viewDir := normalizeIfLong ops viewDir viewLen
  forLoop 1 (lightCount - 1)
    (fun lightIdx color =>
      match lights.get? lightIdx.toNat with
      | some light => lightContribution lops worldPos normal viewDir albedo color light
      | none => color)
    (loopFuel 0 (lightCount - 1)) 0 color

/-- The value `Vec4(color.x, color.y, color.z, albedo.w)` the lighting pass writes for
pixel `(px, py)`: the lighting sum clamped channel by channel with
`fminf(1.0f, fmaxf(0.0f, .))`, and the alpha of the G-buffer albedo. -/
def lightingColor {F : Type} (lops : LightingFloatOps F) (gbuffer : GBuffer F)
    (lights : List (Light F)) (lightCount : Int) (cameraPosition : Vec3 F)
    (px py : Int) : Vec4 F :=
  let ops := lops.toFloatOps
  let worldPos := gbuffer.GetPosition ops px py
  let normal := gbuffer.GetNormal ops px py
  let albedo := gbuffer.GetAlbedo ops px py
  let color := lightingSum lops lights lightCount cameraPosition worldPos normal albedo
  let color : Vec3 F :=
    ⟨lops.fminf (ops.ofRat 1) (lops.fmaxf (ops.ofRat 0) color.x),
      lops.fminf (ops.ofRat 1) (lops.fmaxf (ops.ofRat 0) color.y),
      lops.fminf (ops.ofRat 1) (lops.fmaxf (ops.ofRat 0) color.z)⟩
  ⟨color.x, color.y, color.z, albedo.w⟩

/-- The body of the pixel loops of the lighting pass: skip the pixel when
`depth >= 0.99f`, otherwise write its colour with `SetPixel`. -/
def lightingPixel {F FB : Type} (lops : LightingFloatOps F) (fbo : FrameBufferOps F FB)
    (gbuffer : GBuffer F) (lights : List (Light F)) (lightCount : Int)
    (cameraPosition : Vec3 F) (py px : Int) (frameBuffer : FB) : FB :=
  let depth := gbuffer.GetDepth lops.toFloatOps px py
  if lops.le (lops.ofRat (99 / 100)) depth then frameBuffer
  else
    fbo.SetPixel frameBuffer px py
      (lightingColor lops gbuffer lights lightCount cameraPosition px py)

/-- Embedding of `DeferredTiledRendererAlgorithm::ProcessBinLightingPass`: returns the
render state and the renderer with its framebuffer after the tile is lit. The loop
conditions `py < tilePixelY + tilePixelH && py < frameBuffer->GetHeight()` are written
as `py <= min(tilePixelY + tilePixelH, height) - 1`. A null `frameBuffer`, which the C++
code dereferences, leaves everything unchanged here. -/
def ProcessBinLightingPass {F FB Sh : Type} (lops : LightingFloatOps F)
    (fbo : FrameBufferOps F FB) (self : DeferredTiledRendererAlgorithm F FB Sh)
    (state : RenderState Sh) (tileId : Int) :
    RenderState Sh × DeferredTiledRendererAlgorithm F FB Sh :=
  if tileId ≥ self.gridWidth * self.gridHeight then (state, self)
  else
    match self.gbuffer with
    | none => (state, self)
    | some gbuffer =>
      match self.frameBuffer with
      | none => (state, self)
      | some frameBuffer =>
        match tileRect self.gridWidth (fbo.GetWidth frameBuffer) (fbo.GetHeight frameBuffer)
            tileId with
        | (tilePixelX, tilePixelY, tilePixelW, tilePixelH) =>
          let originalShader := state.Shader
          let state : RenderState Sh := { state with Shader := self.lightingShader }
          let pyEnd := min (tilePixelY + tilePixelH) (fbo.GetHeight frameBuffer) - 1
          let pxEnd := min (tilePixelX + tilePixelW) (fbo.GetWidth frameBuffer) - 1
          let frameBuffer :=
            forLoop 1 pyEnd
              (fun py frameBuffer =>
                forLoop 1 pxEnd
                  (fun px frameBuffer =>
                    lightingPixel lops fbo gbuffer self.lights self.lightCount
                      self.cameraPosition py px frameBuffer)
                  (loopFuel tilePixelX pxEnd) tilePixelX frameBuffer)
              (loopFuel tilePixelY pyEnd) tilePixelY frameBuffer
          let state : RenderState Sh := { state with Shader := originalShader }
          (state, { self with frameBuffer := some frameBuffer })

/-- The exact rationals as an instance of the float operations of the lighting pass. -/
def ratLightingOps : LightingFloatOps ℚ where
  toFloatOps := ratOps
  sub := fun a b => a - b
  neg := fun a => -a
  le := fun a b => decide (a ≤ b)
  fmaxf := fun a b => max a b
  fminf := fun a b => min a b

/-- A deferred renderer for a `width x height` target of one tile with an empty queue,
whose shaders are named by numbers: geometry shader 1, lighting shader 2. -/
def deferredWithShaders (width height : Int) :
    DeferredTiledRendererAlgorithm ℚ (FrameBuffer ℚ) Nat where
  gridWidth := 1
  gridHeight := 1
  frameBuffer := some (frameBufferAtDepth width height 1)
  gbuffer := some (gBufferAtDepth width height 1)
  lights := []
  lightCount := 0
  cameraPosition := ⟨0, 0, 0⟩
  tileBins := [[]]
  localTileBins := []
  geometryShader := some 1
  lightingShader := some 2

/-- The vector `normal` of the geometry pass before it is normalized: slots 4, 5, 6 of
the vertex output interpolated at fragment `fragIdx`. -/
def interpolatedNormal {F Sh : Type} (InterpolateVertexOutput : InterpolateFn F Sh)
    (state : RenderState Sh) (input : ProjectedTriangleInput F) (vertexOutputSize : Int)
    (tiledTri : TiledTriangle F) (tri : ProjectedTriangle F)
    (alphaVals betaVals gammaVals : M128 F) (fragIdx : Fin 4) : Vec3 F :=
  let interpolated := InterpolateVertexOutput state (_mm_set1_ps (betaVals fragIdx))
    (_mm_set1_ps (gammaVals fragIdx)) (_mm_set1_ps (alphaVals fragIdx)) tri.Id
    (input.vertexOutputBuffer tiledTri.threadId.toNat) vertexOutputSize
    (input.indexOutputBuffer tiledTri.threadId.toNat)
  ⟨interpolated 4 0, interpolated 5 0, interpolated 6 0⟩

/-- One worker thread with the triangle `triS1` and the index buffer `0, 1, 2`. -/
def inputIndexed : ProjectedTriangleInput ℚ where
  triangleBuffer := fun threadId => if threadId = 0 then [triS1] else []
  vertexOutputBuffer := fun _ => []
  indexOutputBuffer := fun threadId => if threadId = 0 then [0, 1, 2] else []

/-- An attribute interpolator that yields the normal `(0, 0, 2)` and zero for every other
attribute. -/
def interpolateNormalZ2 : InterpolateFn ℚ Unit :=
  fun _ _ _ _ _ _ _ _ slot _ => if slot = 6 then 2 else 0

/-! ## The pixels the lighting pass writes -/

/-- The pixels `(px, py)` the two loops of the lighting pass visit, in order. -/
def lightingPixels (tilePixelX tilePixelY pxEnd pyEnd : Int) : List (Int × Int) :=
  (loopIndices 1 pyEnd (loopFuel tilePixelY pyEnd) tilePixelY).flatMap fun py =>
    (loopIndices 1 pxEnd (loopFuel tilePixelX pxEnd) tilePixelX).map fun px => (px, py)

/-- Pixel `(x, y)` lies in the rectangle of tile `tileId` and inside the framebuffer, and
its G-buffer depth fails the test `depth >= 0.99f`. -/
def litPixel {F : Type} (lops : LightingFloatOps F) (gridWidth width height tileId : Int)
    (gbuffer : GBuffer F) (x y : Int) : Prop :=
  (inRect (tileRect gridWidth width height tileId) x y ∧ x < width ∧ y < height) ∧
    lops.le (lops.ofRat (99 / 100)) (gbuffer.GetDepth lops.toFloatOps x y) = false

instance {F : Type} (lops : LightingFloatOps F) (gridWidth width height tileId : Int)
    (gbuffer : GBuffer F) (x y : Int) :
    Decidable (litPixel lops gridWidth width height tileId gbuffer x y) := by
  unfold litPixel
  infer_instance
/-- A white directional light shining along `-z`. -/
def lightDown : Light ℚ where
  Position := ⟨0, 0, 0⟩
  Direction := ⟨0, 0, -1⟩
  Color := ⟨1, 1, 1⟩
  Intensity := 1
  Ambient := 1 / 10
  Decay := 0
  LightType := LightType.DIRECTIONAL
  InnerConeAngle := 0
  OuterConeAngle := 0

/-- A 2 x 2 G-buffer over the rationals with opaque white albedo of alpha 3/4 and normal
`(0, 0, 1)` everywhere, whose depth is 1/2 at pixel `(0, 0)` and 1 at the other pixels. -/
def gBufferOneNear : GBuffer ℚ where
  width := 2
  height := 2
  positionBuffer := List.replicate 4 ⟨0, 0, 0⟩
  normalBuffer := List.replicate 4 ⟨0, 0, 1⟩
  albedoBuffer := List.replicate 4 ⟨1, 1, 1, 3 / 4⟩
  depthBuffer := [1 / 2, 1, 1, 1]

/-- A deferred renderer for a 2 x 2 target of one tile with the G-buffer
`gBufferOneNear`, the light `lightDown`, and a framebuffer that logs its writes. -/
def deferredLit : DeferredTiledRendererAlgorithm ℚ (FrameBuffer ℚ × List (Int × Int)) Unit where
  gridWidth := 1
  gridHeight := 1
  frameBuffer := some (clearedFrameBuffer 2 2, [])
  gbuffer := some gBufferOneNear
  lights := [lightDown]
  lightCount := 1
  cameraPosition := ⟨0, 0, 1⟩
  tileBins := [[]]
  localTileBins := []
  geometryShader := some ()
  lightingShader := some ()

/-! ## Scenario S1 -/

/-- Scenario S1 input: worker thread 0 holds the single triangle `triS1`; the other
threads hold nothing. -/
def inputS1 : ProjectedTriangleInput ℚ where
  triangleBuffer := fun threadId => if threadId = 0 then [triS1] else []
  vertexOutputBuffer := fun _ => []
  indexOutputBuffer := fun _ => []

/-- Scenario S1: the forward renderer after `SetFrameBuffer` on a cleared 64 x 64
framebuffer and one `RenderProjectedBatch` of `inputS1` with the white shader. -/
def renderS1 (Cores : Nat) : TiledRendererAlgorithm ℚ (FrameBuffer ℚ) :=
  (TiledRendererAlgorithm.SetFrameBuffer ratOps (FrameBuffer.ops ratOps) Cores
    (clearedFrameBuffer 64 64)).RenderProjectedBatch ratOps (FrameBuffer.ops ratOps) shadeWhite
    Cores inputS1

/-! ## The power approximation of the shaders -/

/-- The loop `for (int i = 1; i < bound; i *= 2) s = body(s)` with its 32-bit counter,
started at the counter value `i` with the given fuel. -/
def doublingLoop {S : Type} (bound : Int) (body : S → S) : Nat → Int → S → S
  | 0, _, s => s
  | fuel + 1, i, s =>
    if i < bound then doublingLoop bound body fuel (wrap32 (i * 2)) (body s) else s

/-- Fuel for `doublingLoop`: a counter that starts at 1 and stays below `2^31` is
doubled at most 31 times. -/
def doublingFuel : Nat := 32

/-- The further float operations of the shaders: the cast `(int)x`, the reciprocal
square root `_mm_rsqrt_ps` per lane and `fabs`. -/
structure ShaderFloatOps (F : Type) extends LightingFloatOps F where
  toInt : F → Int
  rsqrt : F → F
  fabs : F → F

/-- The data members of `ForwardLightingShader`. -/
structure ForwardLightingShader (F : Type) where
  Lights : List (Light F)
  CameraPosition : Vec3 F
  Shininess : F
  SpecularColor : Vec3 F

/-- The data members of `LightingPassShader`; `gbuffer` and `lights` are pointers that
may be null. -/
structure LightingPassShader (F : Type) where
  gbuffer : Option (GBuffer F)
  lights : Option (List (Light F))
  lightCount : Int
  cameraPosition : Vec3 F
  shininess : F
  specularColor : Vec3 F

/-- The value of `specularPower` that `ForwardLightingShader::ShadeFragment` computes
from `NdotH`: four or five squarings when `Shininess >= 16.0f`, the doubling loop up to
`(int)Shininess` otherwise. -/
def ForwardLightingShader.specularPower {F : Type} (sops : ShaderFloatOps F)
    (self : ForwardLightingShader F) (NdotH : M128 F) : M128 F :=
  let ops := sops.toFloatOps
  let specularPower := NdotH
  if sops.le (ops.ofRat 16) self.Shininess then
    let specularPower := _mm_mul_ps ops specularPower specularPower
    let specularPower := _mm_mul_ps ops specularPower specularPower
    let specularPower := _mm_mul_ps ops specularPower specularPower
    let specularPower := _mm_mul_ps ops specularPower specularPower
    if sops.le (ops.ofRat 32) self.Shininess then _mm_mul_ps ops specularPower specularPower
    else specularPower
  else
    let powCount := sops.toInt self.Shininess
    doublingLoop powCount (fun specularPower => _mm_mul_ps ops specularPower specularPower)
      doublingFuel 1 specularPower

/-- The value of `specularPower` that `LightingPassShader::ShadeFragment` computes from
`NdotH`: the doubling loop up to `(int)shininess`. -/
def LightingPassShader.specularPower {F : Type} (sops : ShaderFloatOps F)
    (self : LightingPassShader F) (NdotH : F) : F :=
  doublingLoop (sops.toInt self.shininess)
    (fun specularPower => sops.mul specularPower specularPower) doublingFuel 1 NdotH

/-- The exact rationals as an instance of the shader operations: `(int)x` truncates
towards zero and the reciprocal square root is exact on squares of rationals. -/
def ratShaderOps : ShaderFloatOps ℚ where
  toLightingFloatOps := ratLightingOps
  toInt := fun q => Int.tdiv q.num q.den
  rsqrt := fun q => 1 / Rat.sqrt q
  fabs := fun q => |q|

/-! ## Spot lights and exact arithmetic -/

/-- The vector `lightVec = light.Position - worldPos` of the lighting pass. -/
def lightVector {F : Type} (lops : LightingFloatOps F) (light : Light F) (worldPos : Vec3 F) :
    Vec3 F :=
  ⟨lops.sub light.Position.x worldPos.x, lops.sub light.Position.y worldPos.y,
    lops.sub light.Position.z worldPos.z⟩

/-- The attenuation of a point or spot light after the distance falloff:
`fmaxf(0.0f, 1.0f - lightLen / light.Decay)` when `light.Decay > 0.01f`, else `1.0f`. -/
def distanceAttenuation {F : Type} (lops : LightingFloatOps F) (light : Light F)
    (worldPos : Vec3 F) : F :=
  if lops.lt (lops.ofRat (1 / 100)) light.Decay then
    lops.fmaxf (lops.ofRat 0)
      (lops.sub (lops.ofRat 1)
        (lops.div (vecLength lops.toFloatOps (lightVector lops light worldPos)) light.Decay))
  else lops.ofRat 1

/-- The value `spotDot = lightDir . spotDir` of the lighting pass, with
`lightDir = lightVec / lightLen` and `spotDir = -light.Direction`. -/
def spotDot {F : Type} (lops : LightingFloatOps F) (light : Light F) (worldPos : Vec3 F) : F :=
  vecDot lops.toFloatOps
    ⟨lops.div (lightVector lops light worldPos).x
        (vecLength lops.toFloatOps (lightVector lops light worldPos)),
      lops.div (lightVector lops light worldPos).y
        (vecLength lops.toFloatOps (lightVector lops light worldPos)),
      lops.div (lightVector lops light worldPos).z
        (vecLength lops.toFloatOps (lightVector lops light worldPos))⟩
    ⟨lops.neg light.Direction.x, lops.neg light.Direction.y, lops.neg light.Direction.z⟩

/-- Exact arithmetic: the arithmetic operations, comparisons and literals of `lops` are
those of the ordered field `F`. Nothing is asked of `sqrt`. -/
structure LightingFloatOps.Exact {F : Type} [LinearOrderedField F] (lops : LightingFloatOps F) :
    Prop where
  add_eq : ∀ a b, lops.add a b = a + b
  mul_eq : ∀ a b, lops.mul a b = a * b
  div_eq : ∀ a b, lops.div a b = a / b
  sub_eq : ∀ a b, lops.sub a b = a - b
  neg_eq : ∀ a, lops.neg a = -a
  lt_iff : ∀ a b, lops.lt a b = true ↔ a < b
  le_iff : ∀ a b, lops.le a b = true ↔ a ≤ b
  fmaxf_eq : ∀ a b, lops.fmaxf a b = max a b
  fminf_eq : ∀ a b, lops.fminf a b = min a b
  ofRat_eq : ∀ q : ℚ, lops.ofRat q = (q : F)

/-- The cone factor of a spot light as the specification words it: 0 outside the outer
cone, the ramp `(cos(theta) - Outer) / (Inner - Outer)` between the cones, 1 inside the
inner cone. -/
def coneFactor {F : Type} [LinearOrderedField F] (outer inner cosTheta : F) : F :=
  if cosTheta < outer then 0
  else if cosTheta < inner then (cosTheta - outer) / (inner - outer)
  else 1

/-- A spot light at (8, 0, 15) aimed down the z axis, with inner cosine 9/10 and outer
cosine 4/5 and no distance falloff. -/
def spotLightRamp : Light ℚ where
  Position := ⟨8, 0, 15⟩
  Direction := ⟨0, 0, -1⟩
  Color := ⟨1, 1, 1⟩
  Intensity := 1
  Ambient := 0
  Decay := 0
  LightType := LightType.SPOT
  InnerConeAngle := 9 / 10
  OuterConeAngle := 4 / 5

/-! ## DeferredTiledRenderer.cpp: `RenderProjectedBatch` -/

/-- The shader objects `state.Shader` may point to, by class: a
`ForwardLightingShader`, the `GeometryPassShader`, a `LightingPassShader`, or an object
of any other shader class. -/
inductive Shader (F : Type) where
  | forwardLighting (shader : ForwardLightingShader F)
  | geometryPass
  | lightingPass (shader : LightingPassShader F)
  | other (id : Nat)

/-- The cast `dynamic_cast<ForwardLightingShader*>(state.Shader)`: null for a null
pointer and for an object of another class. -/
def Shader.asForwardLightingShader {F : Type} :
    Option (Shader F) → Option (ForwardLightingShader F)
  | some (Shader.forwardLighting shader) => some shader
  | _ => none

/-- The assignments `lightingShader->lights = ...; ...; lightingShader->specularColor =
...` of `RenderProjectedBatch` on the object `lightingShader` points to. -/
def Shader.updateLighting {F : Type} (lights : List (Light F)) (lightCount : Int)
    (cameraPosition : Vec3 F) (shininess : F) (specularColor : Vec3 F) : Shader F → Shader F
  | Shader.lightingPass shader =>
    Shader.lightingPass
      { shader with
        lights := some lights
        lightCount := lightCount
        cameraPosition := cameraPosition
        shininess := shininess
        specularColor := specularColor }
  | shader => shader

/-- The else branch `lights = nullptr; lightCount = 0;` of `RenderProjectedBatch`. The
null array is the empty list in the member `lights`. -/
def DeferredTiledRendererAlgorithm.noLights {F FB Sh : Type}
    (self : DeferredTiledRendererAlgorithm F FB Sh) : DeferredTiledRendererAlgorithm F FB Sh :=
  { self with lights := [], lightCount := 0 }

/-- The first part of the deferred `RenderProjectedBatch`: the lights are taken from the
active shader. The second component is `none` when the function returns at
`if (!lightingShader.Ptr()) return;`, and otherwise tells whether the pointer `lights`
is non-null afterwards; `lightsCopy.Buffer()` of a non-empty list is taken to be
non-null (`CoreLib` is not among the sources). -/
def DeferredTiledRendererAlgorithm.takeLights {F FB : Type}
    (self : DeferredTiledRendererAlgorithm F FB (Shader F)) (state : RenderState (Shader F)) :
    DeferredTiledRendererAlgorithm F FB (Shader F) × Option Bool :=
  match Shader.asForwardLightingShader state.Shader with
  | some forwardShader =>
    if (forwardShader.Lights.length : Int) > 0 then
      let lightsCopy : List (Light F) :=
        forwardShader.Lights.foldl (fun lightsCopy light => lightsCopy ++ [light]) []
      let self : DeferredTiledRendererAlgorithm F FB (Shader F) :=
        { self with
          lights := lightsCopy
          lightCount := (lightsCopy.length : Int)
          cameraPosition := forwardShader.CameraPosition }
      match self.lightingShader with
      | none => (self, none)
      | some lightingShader =>
        ({ self with
            lightingShader :=
              some (Shader.updateLighting self.lights self.lightCount self.cameraPosition
                forwardShader.Shininess forwardShader.SpecularColor lightingShader) },
          some true)
    else (self.noLights, some false)
  | none => (self.noLights, some false)

/-- The deferred `RenderProjectedBatch` up to and including the geometry pass. The
third component is `none` when the function has returned early, and otherwise tells
whether the pointer `lights` is non-null. The two `Parallel::For` passes run their tasks
in index order. A null `frameBuffer`, which `BinTriangles` dereferences, ends the
function here. -/
def DeferredTiledRendererAlgorithm.geometryPasses {F FB : Type} (ops : FloatOps F)
    (fbo : FrameBufferOps F FB) (InterpolateVertexOutput : InterpolateFn F (Shader F))
    (Cores : Nat) (self : DeferredTiledRendererAlgorithm F FB (Shader F))
    (state : RenderState (Shader F)) (input : ProjectedTriangleInput F)
    (vertexOutputSize : Int) :
    RenderState (Shader F) × DeferredTiledRendererAlgorithm F FB (Shader F) × Option Bool :=
  match self.gbuffer with
  | none => (state, self, none)
  | some _ =>
    match self.takeLights state with
    | (self, none) => (state, self, none)
    | (self, some lightsNonNull) =>
      match self.frameBuffer with
      | none => (state, self, none)
      | some frameBuffer =>
        let tileBins := clearBins self.tileBins
        let localTileBins := self.localTileBins.map clearBins
        let localTileBins := binAll (fbo.GetWidth frameBuffer) (fbo.GetHeight frameBuffer)
          self.gridWidth Cores input localTileBins
        let tileBins := mergeBinsDeferred Cores localTileBins tileBins
        let self : DeferredTiledRendererAlgorithm F FB (Shader F) :=
          { self with tileBins := tileBins, localTileBins := localTileBins }
        let r := forLoop 1 (self.gridWidth * self.gridHeight - 1)
          (fun tileId (r : RenderState (Shader F) ×
              DeferredTiledRendererAlgorithm F FB (Shader F)) =>
            ProcessBinGeometryPass ops fbo InterpolateVertexOutput r.2 r.1 input
              vertexOutputSize tileId)
          (loopFuel 0 (self.gridWidth * self.gridHeight - 1)) 0 (state, self)
        (r.1, r.2, some lightsNonNull)

/-- Embedding of `DeferredTiledRendererAlgorithm::RenderProjectedBatch`: the geometry
passes, then the lighting pass over all tiles when `lightCount > 0 && lights !=
nullptr`. -/
def DeferredTiledRendererAlgorithm.RenderProjectedBatch {F FB : Type}
    (lops : LightingFloatOps F) (fbo : FrameBufferOps F FB)
    (InterpolateVertexOutput : InterpolateFn F (Shader F)) (Cores : Nat)
    (self : DeferredTiledRendererAlgorithm F FB (Shader F)) (state : RenderState (Shader F))
    (input : ProjectedTriangleInput F) (vertexOutputSize : Int) :
    RenderState (Shader F) × DeferredTiledRendererAlgorithm F FB (Shader F) :=
  match self.geometryPasses lops.toFloatOps fbo InterpolateVertexOutput Cores state input
      vertexOutputSize with
  | (state, self, none) => (state, self)
  | (state, self, some lightsNonNull) =>
    if self.lightCount > 0 ∧ lightsNonNull = true then
      forLoop 1 (self.gridWidth * self.gridHeight - 1)
        (fun tileId (r : RenderState (Shader F) ×
            DeferredTiledRendererAlgorithm F FB (Shader F)) =>
          ProcessBinLightingPass lops fbo r.2 r.1 tileId)
        (loopFuel 0 (self.gridWidth * self.gridHeight - 1)) 0 (state, self)
    else (state, self)

/-- An attribute interpolator for shader objects that yields zero for every attribute. -/
def interpolateNothing : InterpolateFn ℚ (Shader ℚ) := fun _ _ _ _ _ _ _ _ _ _ => 0

/-- A batch without triangles. -/
def inputEmpty : ProjectedTriangleInput ℚ where
  triangleBuffer := fun _ => []
  vertexOutputBuffer := fun _ => []
  indexOutputBuffer := fun _ => []

/-- A deferred renderer with one worker thread for a 2 x 2 target of one tile, with the
G-buffer `gBufferOneNear`, no lights yet, and a default-constructed lighting shader
(shininess 32, specular colour 1/2). -/
def deferredScene : DeferredTiledRendererAlgorithm ℚ (FrameBuffer ℚ) (Shader ℚ) where
  gridWidth := 1
  gridHeight := 1
  frameBuffer := some (clearedFrameBuffer 2 2)
  gbuffer := some gBufferOneNear
  lights := []
  lightCount := 0
  cameraPosition := ⟨0, 0, 0⟩
  tileBins := [[]]
  localTileBins := [[[]]]
  geometryShader := some Shader.geometryPass
  lightingShader := some (Shader.lightingPass ⟨none, none, 0, ⟨0, 0, 0⟩, 32, ⟨1 / 2, 1 / 2, 1 / 2⟩⟩)

/-- A dim directional light shining along `-z`: colour 1/10, intensity 1, no ambient
part. -/
def lightDim : Light ℚ where
  Position := ⟨0, 0, 0⟩
  Direction := ⟨0, 0, -1⟩
  Color := ⟨1 / 10, 1 / 10, 1 / 10⟩
  Intensity := 1
  Ambient := 0
  Decay := 0
  LightType := LightType.DIRECTIONAL
  InnerConeAngle := 0
  OuterConeAngle := 0

/-- A forward lighting shader with the light `lightDim`, the camera at (24, 0, 7),
shininess 2 and white specular colour. -/
def forwardGlossy : ForwardLightingShader ℚ where
  Lights := [lightDim]
  CameraPosition := ⟨24, 0, 7⟩
  Shininess := 2
  SpecularColor := ⟨1, 1, 1⟩

/-! ## ForwardLightingShader.h: `ShadeFragment` -/

def _mm_sub_ps {F : Type} (lops : LightingFloatOps F) (a b : M128 F) : M128 F :=
  fun k => lops.sub (a k) (b k)

def _mm_div_ps {F : Type} (ops : FloatOps F) (a b : M128 F) : M128 F :=
  fun k => ops.div (a k) (b k)

/-- Per-lane maximum `_mm_max_ps`, on numbers the same as `fmaxf`. -/
def _mm_max_ps {F : Type} (lops : LightingFloatOps F) (a b : M128 F) : M128 F :=
  fun k => lops.fmaxf (a k) (b k)

/-- Per-lane minimum `_mm_min_ps`, on numbers the same as `fminf`. -/
def _mm_min_ps {F : Type} (lops : LightingFloatOps F) (a b : M128 F) : M128 F :=
  fun k => lops.fminf (a k) (b k)

def _mm_sqrt_ps {F : Type} (ops : FloatOps F) (a : M128 F) : M128 F := fun k => ops.sqrt (a k)

def _mm_rsqrt_ps {F : Type} (sops : ShaderFloatOps F) (a : M128 F) : M128 F :=
  fun k => sops.rsqrt (a k)

/-- The expression `a.x * b.x + a.y * b.y + a.z * b.z` on registers, as the shader
writes it with `_mm_add_ps` and `_mm_mul_ps`. -/
def dot3_ps {F : Type} (ops : FloatOps F) (ax ay az bx b_y bz : M128 F) : M128 F :=
  _mm_add_ps ops (_mm_add_ps ops (_mm_mul_ps ops ax bx) (_mm_mul_ps ops ay b_y))
    (_mm_mul_ps ops az bz)

/-- The accumulators of the light loop of `ForwardLightingShader::ShadeFragment`. -/
structure ForwardSums (F : Type) where
  sumDiffuseR : M128 F
  sumDiffuseG : M128 F
  sumDiffuseB : M128 F
  sumSpecularR : M128 F
  sumSpecularG : M128 F
  sumSpecularB : M128 F
  ambientR : M128 F
  ambientG : M128 F
  ambientB : M128 F

/-- The registers `(lightDirX, lightDirY, lightDirZ, attenuation)` that the forward
shader computes for one light. -/
def ForwardLightingShader.lightDir {F : Type} (sops : ShaderFloatOps F) (input : Nat → M128 F)
    (light : Light F) : M128 F × M128 F × M128 F × M128 F :=
  let lops := sops.toLightingFloatOps
  let ops := sops.toFloatOps
  let zero : M128 F := _mm_set1_ps (ops.ofRat 0)
  let one : M128 F := _mm_set1_ps (ops.ofRat 1)
  let attenuation := one
  if light.LightType = LightType.DIRECTIONAL then
    let lightDirX : M128 F := _mm_set1_ps (lops.neg light.Direction.x)
    let lightDirY : M128 F := _mm_set1_ps (lops.neg light.Direction.y)
    let lightDirZ : M128 F := _mm_set1_ps (lops.neg light.Direction.z)
    let attenuation := one
    (lightDirX, lightDirY, lightDirZ, attenuation)
  else
    let lightX := _mm_sub_ps lops (_mm_set1_ps light.Position.x) (input 7)
    let lightY := _mm_sub_ps lops (_mm_set1_ps light.Position.y) (input 8)
    let lightZ := _mm_sub_ps lops (_mm_set1_ps light.Position.z) (input 9)
    let lightLen2 := dot3_ps ops lightX lightY lightZ lightX lightY lightZ
    let lightLen := _mm_sqrt_ps ops lightLen2
    let invLightLen := _mm_div_ps ops one lightLen
    let lightDirX := _mm_mul_ps ops lightX invLightLen
    let lightDirY := _mm_mul_ps ops lightY invLightLen
    let lightDirZ := _mm_mul_ps ops lightZ invLightLen
    let attenuation :=
      if ops.lt (ops.ofRat (1 / 100)) light.Decay then
        _mm_max_ps lops zero (_mm_sub_ps lops one (_mm_div_ps ops lightLen (_mm_set1_ps light.Decay)))
      else attenuation
    let attenuation :=
      if light.LightType = LightType.SPOT then
        let spotDirX : M128 F := _mm_set1_ps (lops.neg light.Direction.x)
        let spotDirY : M128 F := _mm_set1_ps (lops.neg light.Direction.y)
        let spotDirZ : M128 F := _mm_set1_ps (lops.neg light.Direction.z)
        let spotDot := dot3_ps ops lightDirX lightDirY lightDirZ spotDirX spotDirY spotDirZ
        let innerCone : M128 F := _mm_set1_ps light.InnerConeAngle
        let outerCone : M128 F := _mm_set1_ps light.OuterConeAngle
        let coneRange := _mm_sub_ps lops innerCone outerCone
        let coneFactor := _mm_div_ps ops (_mm_sub_ps lops spotDot outerCone) coneRange
        let spotFactor := _mm_max_ps lops zero (_mm_min_ps lops one coneFactor)
        _mm_mul_ps ops attenuation spotFactor
      else attenuation
    (lightDirX, lightDirY, lightDirZ, attenuation)

/-- The body of the loop `for (auto &light : Lights)` of
`ForwardLightingShader::ShadeFragment`. -/
def ForwardLightingShader.lightStep {F : Type} (sops : ShaderFloatOps F)
    (self : ForwardLightingShader F) (input : Nat → M128 F)
    (normalX normalY normalZ viewX viewY viewZ : M128 F) (sums : ForwardSums F)
    (light : Light F) : ForwardSums F :=
  let lops := sops.toLightingFloatOps
  let ops := sops.toFloatOps
  let zero : M128 F := _mm_set1_ps (ops.ofRat 0)
  match ForwardLightingShader.lightDir sops input light with
  | (lightDirX, lightDirY, lightDirZ, attenuation) =>
    let NdotL := dot3_ps ops normalX normalY normalZ lightDirX lightDirY lightDirZ
    let NdotL := _mm_max_ps lops zero NdotL
    let effectiveLight := _mm_mul_ps ops NdotL attenuation
    let diffuseContrib :=
      _mm_mul_ps ops effectiveLight (_mm_set1_ps (lops.sub (ops.ofRat 1) light.Ambient))
    let sumDiffuseR := _mm_add_ps ops sums.sumDiffuseR
      (_mm_mul_ps ops (_mm_set1_ps light.Color.x) diffuseContrib)
    let sumDiffuseG := _mm_add_ps ops sums.sumDiffuseG
      (_mm_mul_ps ops (_mm_set1_ps light.Color.y) diffuseContrib)
    let sumDiffuseB := _mm_add_ps ops sums.sumDiffuseB
      (_mm_mul_ps ops (_mm_set1_ps light.Color.z) diffuseContrib)
    let halfX := _mm_add_ps ops lightDirX viewX
    let halfY := _mm_add_ps ops lightDirY viewY
    let halfZ := _mm_add_ps ops lightDirZ viewZ
    let halfLen2 := dot3_ps ops halfX halfY halfZ halfX halfY halfZ
    let halfLen := _mm_rsqrt_ps sops halfLen2
    let halfX := _mm_mul_ps ops halfX halfLen
    let halfY := _mm_mul_ps ops halfY halfLen
    let halfZ := _mm_mul_ps ops halfZ halfLen
    let NdotH := dot3_ps ops normalX normalY normalZ halfX halfY halfZ
    let NdotH := _mm_max_ps lops zero NdotH
    let specularPower := self.specularPower sops NdotH
    let specularContrib :=
      _mm_mul_ps ops (_mm_mul_ps ops specularPower effectiveLight) (_mm_set1_ps light.Intensity)
    let sumSpecularR := _mm_add_ps ops sums.sumSpecularR
      (_mm_mul_ps ops (_mm_set1_ps (ops.mul self.SpecularColor.x light.Color.x)) specularContrib)
    let sumSpecularG := _mm_add_ps ops sums.sumSpecularG
      (_mm_mul_ps ops (_mm_set1_ps (ops.mul self.SpecularColor.y light.Color.y)) specularContrib)
    let sumSpecularB := _mm_add_ps ops sums.sumSpecularB
      (_mm_mul_ps ops (_mm_set1_ps (ops.mul self.SpecularColor.z light.Color.z)) specularContrib)
    let ambientR := _mm_add_ps ops sums.ambientR
      (_mm_set1_ps (ops.mul light.Color.x light.Ambient))
    let ambientG := _mm_add_ps ops sums.ambientG
      (_mm_set1_ps (ops.mul light.Color.y light.Ambient))
    let ambientB := _mm_add_ps ops sums.ambientB
      (_mm_set1_ps (ops.mul light.Color.z light.Ambient))
    { sumDiffuseR := sumDiffuseR, sumDiffuseG := sumDiffuseG, sumDiffuseB := sumDiffuseB,
      sumSpecularR := sumSpecularR, sumSpecularG := sumSpecularG, sumSpecularB := sumSpecularB,
      ambientR := ambientR, ambientG := ambientG, ambientB := ambientB }

/-- The registers `(finalR, finalG, finalB)` of `ForwardLightingShader::ShadeFragment`
after the clamp to `[0, 1]`: the lighting of the four fragments of a quad from the
interpolated vertex outputs `input[4..9]`. -/
def ForwardLightingShader.litColor {F : Type} (sops : ShaderFloatOps F)
    (self : ForwardLightingShader F) (input : Nat → M128 F) : M128 F × M128 F × M128 F :=
  let lops := sops.toLightingFloatOps
  let ops := sops.toFloatOps
  let zero : M128 F := _mm_set1_ps (ops.ofRat 0)
  let one : M128 F := _mm_set1_ps (ops.ofRat 1)
  let nx2 := _mm_mul_ps ops (input 4) (input 4)
  let ny2 := _mm_mul_ps ops (input 5) (input 5)
  let nz2 := _mm_mul_ps ops (input 6) (input 6)
  let normalLen := _mm_rsqrt_ps sops (_mm_add_ps ops (_mm_add_ps ops nx2 ny2) nz2)
  let normalX := _mm_mul_ps ops (input 4) normalLen
  let normalY := _mm_mul_ps ops (input 5) normalLen
  let normalZ := _mm_mul_ps ops (input 6) normalLen
  let viewX := _mm_sub_ps lops (_mm_set1_ps self.CameraPosition.x) (input 7)
  let viewY := _mm_sub_ps lops (_mm_set1_ps self.CameraPosition.y) (input 8)
  let viewZ := _mm_sub_ps lops (_mm_set1_ps self.CameraPosition.z) (input 9)
  let viewLen2 := dot3_ps ops viewX viewY viewZ viewX viewY viewZ
  let viewLen := _mm_sqrt_ps ops viewLen2
  let invViewLen := _mm_div_ps ops one viewLen
  let viewX := _mm_mul_ps ops viewX invViewLen
  let viewY := _mm_mul_ps ops viewY invViewLen
  let viewZ := _mm_mul_ps ops viewZ invViewLen
  let sums := self.Lights.foldl
    (ForwardLightingShader.lightStep sops self input normalX normalY normalZ viewX viewY viewZ)
    { sumDiffuseR := zero, sumDiffuseG := zero, sumDiffuseB := zero,
      sumSpecularR := zero, sumSpecularG := zero, sumSpecularB := zero,
      ambientR := zero, ambientG := zero, ambientB := zero }
  let finalR := _mm_add_ps ops (_mm_add_ps ops sums.ambientR sums.sumDiffuseR) sums.sumSpecularR
  let finalG := _mm_add_ps ops (_mm_add_ps ops sums.ambientG sums.sumDiffuseG) sums.sumSpecularG
  let finalB := _mm_add_ps ops (_mm_add_ps ops sums.ambientB sums.sumDiffuseB) sums.sumSpecularB
  let finalR := _mm_min_ps lops (_mm_max_ps lops finalR zero) one
  let finalG := _mm_min_ps lops (_mm_max_ps lops finalG zero) one
  let finalB := _mm_min_ps lops (_mm_max_ps lops finalB zero) one
  (finalR, finalG, finalB)

/-- The material lookup of the texture part of the shader for a non-null
`state.ConstantBuffer`: from the triangle id, the derivatives `dudx, dvdx, dudy, dvdy`
and the coordinates `uv` it yields `diffuseMap` after the texture fetch and `diffRate`.
`RenderState.h` and the texture code are not among the sources: it is a parameter. -/
abbrev MaterialFn (F : Type) := Int → F → F → F → F → F → F → Vec4 F × Vec4 F

/-- Embedding of `ForwardLightingShader::ShadeFragment`: the array `output[16]` in SoA
layout. `constantBuffer` is `none` for a null `state.ConstantBuffer` (no texture); the
product of two `Vec4` is taken component by component. -/
def ForwardLightingShader.ShadeFragment {F : Type} (sops : ShaderFloatOps F)
    (self : ForwardLightingShader F) (constantBuffer : Option (MaterialFn F))
    (input : Nat → M128 F) (id : Int) : Fin 16 → F :=
  let lops := sops.toLightingFloatOps
  let ops := sops.toFloatOps
  match self.litColor sops input with
  | (r, g, b) =>
    let u := input 10
    let v := input 11
    let dudx := sops.fabs (lops.sub (u 1) (u 0))
    let dudy := sops.fabs (lops.sub (u 2) (u 0))
    let dvdx := sops.fabs (lops.sub (v 1) (v 0))
    let dvdy := sops.fabs (lops.sub (v 2) (v 0))
    let fragment : Fin 4 → Vec4 F := fun i =>
      let diffuseMap : Vec4 F := ⟨ops.ofRat 1, ops.ofRat 1, ops.ofRat 1, ops.ofRat 1⟩
      let diffRate : Vec4 F := ⟨ops.ofRat 1, ops.ofRat 1, ops.ofRat 1, ops.ofRat 1⟩
      let material :=
        match constantBuffer with
        | some lookup => lookup id dudx dvdx dudy dvdy (u i) (v i)
        | none => (diffuseMap, diffRate)
      let diffuseMap := material.1
      let diffRate := material.2
      let diffuseMap : Vec4 F :=
        ⟨ops.mul diffuseMap.x (r i), ops.mul diffuseMap.y (g i), ops.mul diffuseMap.z (b i),
          ops.mul diffuseMap.w (ops.ofRat 1)⟩
      let diffuseMap : Vec4 F :=
        ⟨ops.mul diffuseMap.x diffRate.x, ops.mul diffuseMap.y diffRate.y,
          ops.mul diffuseMap.z diffRate.z, ops.mul diffuseMap.w diffRate.w⟩
      diffuseMap
    fun j =>
      ![(fragment 0).x, (fragment 1).x, (fragment 2).x, (fragment 3).x,
        (fragment 0).y, (fragment 1).y, (fragment 2).y, (fragment 3).y,
        (fragment 0).z, (fragment 1).z, (fragment 2).z, (fragment 3).z,
        (fragment 0).w, (fragment 1).w, (fragment 2).w, (fragment 3).w] j

/-- A directional light along `-z` of colour 1/2 with `Ambient = 1` and
`Intensity = 0`. -/
def lightAmbientHalf : Light ℚ where
  Position := ⟨0, 0, 0⟩
  Direction := ⟨0, 0, -1⟩
  Color := ⟨1 / 2, 1 / 2, 1 / 2⟩
  Intensity := 0
  Ambient := 1
  Decay := 0
  LightType := LightType.DIRECTIONAL
  InnerConeAngle := 0
  OuterConeAngle := 0

/-- A forward lighting shader with the single light `lightAmbientHalf`, the camera at
(0, 0, 1) and the default shininess and specular colour. -/
def forwardAmbient : ForwardLightingShader ℚ where
  Lights := [lightAmbientHalf]
  CameraPosition := ⟨0, 0, 1⟩
  Shininess := 32
  SpecularColor := ⟨1 / 2, 1 / 2, 1 / 2⟩

/-- Interpolated vertex outputs of a quad with normal (0, 0, 1) at position (0, 0, 0)
in every lane. -/
def inputFlat : Nat → M128 ℚ := fun slot _ => if slot = 6 then 1 else 0

/-! ## NFLTrackingData.cpp -/

/-- The `CoreLib` string: a sequence of characters. -/
abbrev WString := List Char

/-- Embedding of `struct PlayerPosition`. -/
structure PlayerPosition (F : Type) where
  step : Int
  team : WString
  position : WString
  jerseyNumber : Int
  x : F
  y : F
  speed : F
  direction : F
  orientation : F
  deriving DecidableEq

/-- Embedding of `struct PlayData`; the map `players` is the list of its entries. -/
structure PlayData (F : Type) where
  gameKey : WString
  playId : WString
  gamePlay : WString
  players : List (Int × List (PlayerPosition F))
  steps : List Int
  deriving DecidableEq

/-- The functions of `CoreLib` the loader calls, which are not among the sources:
`String::ToLower`, `StringToInt`, `StringToDouble` followed by the cast to `float`, and
the float `0`. -/
structure TextOps (F : Type) where
  ToLower : WString → WString
  StringToInt : WString → Int
  StringToDouble : WString → F
  zero : F

/-- The value `m[key]` of a `std::map` that is read through the reference: the stored
value, or the default-constructed value of a new entry. -/
def mapGet {K V : Type} [DecidableEq K] (m : List (K × V)) (key : K) (dflt : V) : V :=
  match m.find? (fun e => decide (e.1 = key)) with
  | some e => e.2
  | none => dflt

/-- The map after the value of `m[key]` is replaced through the reference; a new key is
added at the end (the order of the keys of a `std::map` is not modelled). -/
def mapSet {K V : Type} [DecidableEq K] (m : List (K × V)) (key : K) (v : V) : List (K × V) :=
  if m.any (fun e => decide (e.1 = key)) then
    m.map (fun e => if e.1 = key then (e.1, v) else e)
  else m ++ [(key, v)]

/-- The default-constructed `PlayerPosition`. -/
def PlayerPosition.new {F : Type} (tops : TextOps F) : PlayerPosition F :=
  ⟨0, [], [], 0, tops.zero, tops.zero, tops.zero, tops.zero, tops.zero⟩

/-- The default-constructed `PlayData`. -/
def PlayData.new {F : Type} : PlayData F := ⟨[], [], [], [], []⟩

/-- The loop that splits a line into `fields` at the commas outside double quotes; the
quote characters are dropped. -/
def splitFields (line : WString) : List WString :=
  let r := line.foldl
    (fun (s : List WString × WString × Bool) c =>
      if c = Char.ofNat 34 then (s.1, s.2.1, !s.2.2)
      else if c = ',' ∧ s.2.2 = false then (s.1 ++ [s.2.1], [], s.2.2)
      else (s.1, s.2.1 ++ [c], s.2.2))
    ([], [], false)
  r.1 ++ [r.2.1]

/-- The loop of `GetPlay` that splits the header line at every comma. -/
def splitHeader (line : WString) : List WString :=
  let r := line.foldl
    (fun (s : List WString × WString) c =>
      if c = ',' then (s.1 ++ [s.2], [])
      else (s.1, s.2 ++ [c]))
    ([], [])
  r.1 ++ [r.2]

/-- The column indices the loaders look up in the header; `-1` stands for a missing
column. -/
structure ColumnIndices where
  gamePlayIdx : Int
  gameKeyIdx : Int
  playIdIdx : Int
  playerIdIdx : Int
  stepIdx : Int
  teamIdx : Int
  positionIdx : Int
  jerseyIdx : Int
  xIdx : Int
  yIdx : Int
  speedIdx : Int
  directionIdx : Int
  orientationIdx : Int

/-- The loop `for (int i = 0; i < headers.Count(); i++)` that finds the column
indices. -/
def findColumns {F : Type} (tops : TextOps F) (headers : List WString) : ColumnIndices :=
  (List.range headers.length).foldl
    (fun idx i =>
      let h := tops.ToLower (headers.getD i [])
      if h = "game_play".toList then { idx with gamePlayIdx := (i : Int) }
      else if h = "game_key".toList then { idx with gameKeyIdx := (i : Int) }
      else if h = "play_id".toList then { idx with playIdIdx := (i : Int) }
      else if h = "nfl_player_id".toList then { idx with playerIdIdx := (i : Int) }
      else if h = "step".toList then { idx with stepIdx := (i : Int) }
      else if h = "team".toList then { idx with teamIdx := (i : Int) }
      else if h = "position".toList then { idx with positionIdx := (i : Int) }
      else if h = "jersey_number".toList then { idx with jerseyIdx := (i : Int) }
      else if h = "x_position".toList then { idx with xIdx := (i : Int) }
      else if h = "y_position".toList then { idx with yIdx := (i : Int) }
      else if h = "speed".toList then { idx with speedIdx := (i : Int) }
      else if h = "direction".toList then { idx with directionIdx := (i : Int) }
      else if h = "orientation".toList then { idx with orientationIdx := (i : Int) }
      else idx)
    ⟨-1, -1, -1, -1, -1, -1, -1, -1, -1, -1, -1, -1, -1⟩

/-- The element `fields[i]` for an index inside the list. -/
def fieldAt (fields : List WString) (i : Int) : WString := fields.getD i.toNat []

/-- The statements that build the `PlayerPosition pos` of a data line. -/
def makePosition {F : Type} (tops : TextOps F) (idx : ColumnIndices) (fields : List WString)
    (step : Int) : PlayerPosition F :=
  let pos := PlayerPosition.new tops
  let pos := { pos with step := step }
  let pos := if idx.teamIdx ≥ 0 then { pos with team := fieldAt fields idx.teamIdx } else pos
  let pos :=
    if idx.positionIdx ≥ 0 then { pos with position := fieldAt fields idx.positionIdx } else pos
  let pos :=
    if idx.jerseyIdx ≥ 0 then
      { pos with jerseyNumber := tops.StringToInt (fieldAt fields idx.jerseyIdx) }
    else pos
  let pos :=
    if idx.xIdx ≥ 0 then { pos with x := tops.StringToDouble (fieldAt fields idx.xIdx) } else pos
  let pos :=
    if idx.yIdx ≥ 0 then { pos with y := tops.StringToDouble (fieldAt fields idx.yIdx) } else pos
  let pos :=
    if idx.speedIdx ≥ 0 then
      { pos with speed := tops.StringToDouble (fieldAt fields idx.speedIdx) }
    else pos
  let pos :=
    if idx.directionIdx ≥ 0 then
      { pos with direction := tops.StringToDouble (fieldAt fields idx.directionIdx) }
    else pos
  let pos :=
    if idx.orientationIdx ≥ 0 then
      { pos with orientation := tops.StringToDouble (fieldAt fields idx.orientationIdx) }
    else pos
  pos

/-- The statements `play.players[playerId].push_back(pos)` and the step tracking that
follows them. -/
def addPosition {F : Type} (play : PlayData F) (playerId : Int) (pos : PlayerPosition F)
    (step : Int) : PlayData F :=
  let play :=
    { play with players := mapSet play.players playerId (mapGet play.players playerId [] ++ [pos]) }
  let found := play.steps.any (fun s => decide (s = step))
  if !found then { play with steps := play.steps ++ [step] } else play

/-- The variables of the line loop of `LoadFromCSV`. -/
structure LoadState (F : Type) where
  plays : List (WString × PlayData F)
  firstLine : Bool
  headers : List WString

/-- The body of the line loop of `LoadFromCSV` for a non-empty line. -/
def loadLine {F : Type} (tops : TextOps F) (st : LoadState F) (line : WString) : LoadState F :=
  let fields := splitFields line
  if st.firstLine then { st with headers := fields, firstLine := false }
  else if fields.length < st.headers.length then st
  else
    let idx := findColumns tops st.headers
    if idx.gamePlayIdx < 0 ∨ idx.playerIdIdx < 0 ∨ idx.stepIdx < 0 then st
    else
      let gamePlay := fieldAt fields idx.gamePlayIdx
      let playerId := tops.StringToInt (fieldAt fields idx.playerIdIdx)
      let step := tops.StringToInt (fieldAt fields idx.stepIdx)
      let play := mapGet st.plays gamePlay PlayData.new
      let play :=
        if play.gamePlay.length = 0 then
          let play := { play with gamePlay := gamePlay }
          let play :=
            if idx.gameKeyIdx ≥ 0 then { play with gameKey := fieldAt fields idx.gameKeyIdx }
            else play
          if idx.playIdIdx ≥ 0 then { play with playId := fieldAt fields idx.playIdIdx }
          else play
        else play
      let pos := makePosition tops idx fields step
      let play := addPosition play playerId pos step
      { st with plays := mapSet st.plays gamePlay play }

/-- Embedding of `TrackingDataLoader::LoadFromCSV` on the lines that `ReadLine` yields
for the file: the loop ends at the first empty line, and the steps of every play are
sorted at the end. No exception is raised. -/
def TrackingDataLoader.LoadFromCSV {F : Type} (tops : TextOps F) (lines : List WString) :
    List (WString × PlayData F) :=
  let st := (lines.takeWhile (fun line => decide (line.length ≠ 0))).foldl (loadLine tops)
    { plays := [], firstLine := true, headers := [] }
  st.plays.map fun pair =>
    (pair.1, { pair.2 with steps := pair.2.steps.insertionSort (fun a b => a ≤ b) })

/-- The variables of the line loop of `GetPlay`. -/
structure GetPlayState (F : Type) where
  playData : PlayData F
  firstLine : Bool
  headers : List WString

/-- The test `isOurPlay` of `GetPlay`: the line starts with `gamePlay` followed by a
comma. -/
def isOurPlay (line gamePlay : WString) : Bool :=
  decide (line.length ≥ gamePlay.length) && decide (line.take gamePlay.length = gamePlay) &&
    decide (line.length > gamePlay.length) && decide (line.get? gamePlay.length = some ',')

/-- The body of the line loop of `GetPlay` for a non-empty line. -/
def getPlayLine {F : Type} (tops : TextOps F) (gamePlay : WString) (st : GetPlayState F)
    (line : WString) : GetPlayState F :=
  if st.firstLine then { st with headers := splitHeader line, firstLine := false }
  else if !isOurPlay line gamePlay then st
  else
    let fields := splitFields line
    if fields.length < st.headers.length then st
    else
      let idx := findColumns tops st.headers
      if idx.gamePlayIdx < 0 ∨ idx.playerIdIdx < 0 ∨ idx.stepIdx < 0 then st
      else
        let playData := st.playData
        let playData :=
          if playData.gamePlay.length = 0 then
            let playData := { playData with gamePlay := gamePlay }
            let playData :=
              if idx.gameKeyIdx ≥ 0 then
                { playData with gameKey := fieldAt fields idx.gameKeyIdx }
              else playData
            if idx.playIdIdx ≥ 0 then { playData with playId := fieldAt fields idx.playIdIdx }
            else playData
          else playData
        let playerId := tops.StringToInt (fieldAt fields idx.playerIdIdx)
        let step := tops.StringToInt (fieldAt fields idx.stepIdx)
        let pos := makePosition tops idx fields step
        let playData := addPosition playData playerId pos step
        { st with playData := playData }

/-- Embedding of `TrackingDataLoader::GetPlay` on the lines that `ReadLine` yields for
an existing file: `playData.gamePlay` is assigned before the loop, the loop ends at the
first empty line, and the steps are sorted at the end. No exception is raised. -/
def TrackingDataLoader.GetPlay {F : Type} (tops : TextOps F) (lines : List WString)
    (gamePlay : WString) : PlayData F :=
  let playData : PlayData F := PlayData.new
  let playData := { playData with gamePlay := gamePlay }
  let st := (lines.takeWhile (fun line => decide (line.length ≠ 0))).foldl
    (getPlayLine tops gamePlay) { playData := playData, firstLine := true, headers := [] }
  { st.playData with steps := st.playData.steps.insertionSort (fun a b => a ≤ b) }

/-- Stand-ins over the rationals for the `CoreLib` functions: lower-casing of the Latin
capitals and reading of an unsigned decimal numeral. -/
def ratTextOps : TextOps ℚ where
  ToLower := fun s => s.map Char.toLower
  StringToInt := fun s => s.foldl (fun n c => 10 * n + ((c.toNat : Int) - 48)) 0
  StringToDouble := fun s => s.foldl (fun n c => 10 * n + ((c.toNat : ℚ) - 48)) 0
  zero := 0

/-- A tracking file with one data line for the play `58580_001136`. -/
def csvOnePlay : List WString :=
  ["game_play,game_key,play_id,nfl_player_id,step".toList,
    "58580_001136,58580,001136,1,0".toList]

/-! # Verified properties -/

/-! ## Arithmetic of `wrap32` -/

theorem wrap32_modEq (v : Int) : wrap32 v ≡ v [ZMOD 4294967296] := by
  unfold wrap32
  have h : (v + 2147483648) % 4294967296 ≡ v + 2147483648 [ZMOD 4294967296] :=
    Int.mod_modEq _ _
  have h2 := h.sub_right 2147483648
  simpa using h2

theorem wrap32_congr {a b : Int} (h : a ≡ b [ZMOD 4294967296]) : wrap32 a = wrap32 b := by
  unfold wrap32
  have h2 : (a + 2147483648) % 4294967296 = (b + 2147483648) % 4294967296 :=
    h.add_right 2147483648
  rw [h2]

theorem wrap32_range (v : Int) : -2147483648 ≤ wrap32 v ∧ wrap32 v < 2147483648 := by
  unfold wrap32
  constructor <;> omega

theorem wrap32_of_range {v : Int} (h1 : -2147483648 ≤ v) (h2 : v < 2147483648) :
    wrap32 v = v := by
  unfold wrap32
  omega

theorem wrap32_edge (a b x y x0 y0 : Int) :
    wrap32 (wrap32 (a * wrap32 (x - x0)) + wrap32 (b * wrap32 (y - y0)))
      = wrap32 (a * (x - x0) + b * (y - y0)) := by
  apply wrap32_congr
  have h1 : a * wrap32 (x - x0) ≡ a * (x - x0) [ZMOD 4294967296] :=
    (wrap32_modEq _).mul_left a
  have h2 : b * wrap32 (y - y0) ≡ b * (y - y0) [ZMOD 4294967296] :=
    (wrap32_modEq _).mul_left b
  exact ((wrap32_modEq _).trans h1).add ((wrap32_modEq _).trans h2)

theorem edgeRegs_eq_edgeWeight {F : Type} (t : TriangleSIMD F) (x y : M128i)
    (i : Fin 3) (k : Fin 4) : t.edgeRegs x y i k = edgeWeight t x y i k := by
  fin_cases i <;>
    simp [TriangleSIMD.edgeRegs, edgeWeight, TriangleSIMD.a, TriangleSIMD.b,
      TriangleSIMD.vx, TriangleSIMD.vy, _mm_add_epi32, _mm_mullo_epi32, _mm_sub_epi32,
      wrap32_edge]

/-! ## Lane logic of the coverage test -/

theorem coverTerm_cases (w o : Int) (ho : o = 0 ∨ o = 1) :
    (coverTerm w o = -1 ∨ coverTerm w o = 1 ∨ coverTerm w o = 0) ∧
      (coverTerm w o ≠ 0 ↔ (0 < w ∨ (w = 0 ∧ o = 1))) := by
  unfold coverTerm
  rcases ho with rfl | rfl
  · by_cases h1 : 0 < w
    · have h2 : w ≠ 0 := by omega
      simp only [h1, h2, if_true, if_false]
      refine ⟨Or.inl (by decide!), ?_⟩
      simp [h1]
      decide!
    · by_cases h2 : w = 0
      · simp only [h1, h2, if_true, if_false]
        refine ⟨Or.inr (Or.inr (by decide!)), ?_⟩
        simp
        decide!
      · simp only [h1, h2, if_true, if_false]
        refine ⟨Or.inr (Or.inr (by decide!)), ?_⟩
        simp [h1, h2]
        decide!
  · by_cases h1 : 0 < w
    · have h2 : w ≠ 0 := by omega
      simp only [h1, h2, if_true, if_false]
      refine ⟨Or.inl (by decide!), ?_⟩
      simp [h1]
      decide!
    · by_cases h2 : w = 0
      · simp only [h1, h2, if_true, if_false]
        refine ⟨Or.inr (Or.inl (by decide!)), ?_⟩
        simp
        decide!
      · simp only [h1, h2, if_true, if_false]
        refine ⟨Or.inr (Or.inr (by decide!)), ?_⟩
        simp [h1, h2]
        decide!

theorem land3_ne_zero (v0 v1 v2 : Int)
    (h0 : v0 = -1 ∨ v0 = 1 ∨ v0 = 0) (h1 : v1 = -1 ∨ v1 = 1 ∨ v1 = 0)
    (h2 : v2 = -1 ∨ v2 = 1 ∨ v2 = 0) :
    Int.land (Int.land (Int.land (-1) v0) v1) v2 ≠ 0 ↔ (v0 ≠ 0 ∧ v1 ≠ 0 ∧ v2 ≠ 0) := by
  rcases h0 with rfl | rfl | rfl <;> rcases h1 with rfl | rfl | rfl <;>
    rcases h2 with rfl | rfl | rfl <;> decide!

theorem coveredReg_eq {F : Type} (t : TriangleSIMD F) (x y : M128i) (k : Fin 4) :
    t.coveredReg x y k =
      Int.land (Int.land (Int.land (-1)
        (coverTerm (edgeWeight t x y 0 k) (t.isOwnerEdge 0)))
        (coverTerm (edgeWeight t x y 1 k) (t.isOwnerEdge 1)))
        (coverTerm (edgeWeight t x y 2 k) (t.isOwnerEdge 2)) := by
  simp only [← edgeRegs_eq_edgeWeight]
  rfl

/-- A lane of `covered` is nonzero exactly when every edge accepts the sample. -/
theorem coveredReg_ne_zero_iff {F : Type} (t : TriangleSIMD F)
    (h : ∀ i, t.isOwnerEdge i = 0 ∨ t.isOwnerEdge i = 1) (x y : M128i) (k : Fin 4) :
    t.coveredReg x y k ≠ 0 ↔
      ∀ i : Fin 3, 0 < edgeWeight t x y i k ∨
        (edgeWeight t x y i k = 0 ∧ t.isOwnerEdge i = 1) := by
  rw [coveredReg_eq]
  have c0 := coverTerm_cases (edgeWeight t x y 0 k) _ (h 0)
  have c1 := coverTerm_cases (edgeWeight t x y 1 k) _ (h 1)
  have c2 := coverTerm_cases (edgeWeight t x y 2 k) _ (h 2)
  rw [land3_ne_zero _ _ _ c0.1 c1.1 c2.1, c0.2, c1.2, c2.2]
  constructor
  · rintro ⟨a0, a1, a2⟩ i
    fin_cases i
    · exact a0
    · exact a1
    · exact a2
  · intro hall
    exact ⟨hall 0, hall 1, hall 2⟩

theorem TestQuadFragment_eq_packMask {F : Type} (t : TriangleSIMD F) (x y : M128i) :
    t.TestQuadFragment x y =
      packMask (decide (t.coveredReg x y 0 ≠ 0)) (decide (t.coveredReg x y 1 ≠ 0))
        (decide (t.coveredReg x y 2 ≠ 0)) (decide (t.coveredReg x y 3 ≠ 0)) := by
  simp [TriangleSIMD.TestQuadFragment, packMask]

theorem packMask_lt (c0 c1 c2 c3 : Bool) : packMask c0 c1 c2 c3 < 2 ^ 16 := by
  revert c0 c1 c2 c3; decide

theorem packMask_testBit (c : Fin 4 → Bool) (k : Fin 4) :
    (packMask (c 0) (c 1) (c 2) (c 3)).testBit (4 * k.val + 3) = c k := by
  have key : ∀ (c0 c1 c2 c3 : Bool) (k : Fin 4),
      (packMask c0 c1 c2 c3).testBit (4 * k.val + 3) = ![c0, c1, c2, c3] k := by decide
  have := key (c 0) (c 1) (c 2) (c 3) k
  rw [this]
  fin_cases k <;> rfl

theorem packMask_bits (c0 c1 c2 c3 : Bool) (j : Nat)
    (hj : (packMask c0 c1 c2 c3).testBit j = true) : j = 3 ∨ j = 7 ∨ j = 11 ∨ j = 15 := by
  by_cases hlt : j < 16
  · have key : ∀ (c0 c1 c2 c3 : Bool) (j : Fin 16),
        (packMask c0 c1 c2 c3).testBit j.val = true →
          j.val = 3 ∨ j.val = 7 ∨ j.val = 11 ∨ j.val = 15 := by decide
    exact key c0 c1 c2 c3 ⟨j, hlt⟩ hj
  · have h16 : packMask c0 c1 c2 c3 < 2 ^ j :=
      lt_of_lt_of_le (packMask_lt c0 c1 c2 c3)
        (Nat.pow_le_pow_right (by decide) (by omega))
    rw [Nat.testBit_lt_two_pow h16] at hj
    exact absurd hj (by decide)

/-- C1. For every triangle state whose `isOwnerEdge` entries are 0 or 1 and every four
sample positions, bit `4k+3` (3, 7, 11, 15) of the result of `TestQuadFragment` is set
exactly when every edge weight `w_i` of sample `k`, computed in 32-bit wrap-around
arithmetic, is positive, or is zero with `isOwnerEdge[i] = 1`; and no bit other than
3, 7, 11, 15 is ever set. -/
theorem TestQuadFragment_coverage_bits {F : Type} (t : TriangleSIMD F)
    (h : ∀ i, t.isOwnerEdge i = 0 ∨ t.isOwnerEdge i = 1) (x y : M128i) :
    (∀ k : Fin 4, (t.TestQuadFragment x y).testBit (4 * k.val + 3) = true ↔
        ∀ i : Fin 3, 0 < wrap32 (t.a i k * (x k - t.vx i k) + t.b i k * (y k - t.vy i k)) ∨
          (wrap32 (t.a i k * (x k - t.vx i k) + t.b i k * (y k - t.vy i k)) = 0 ∧
            t.isOwnerEdge i = 1)) ∧
      (∀ j : Nat, (t.TestQuadFragment x y).testBit j = true →
        j = 3 ∨ j = 7 ∨ j = 11 ∨ j = 15) ∧
      Nat.land (t.TestQuadFragment x y) 0x8888 = t.TestQuadFragment x y := by
  rw [TestQuadFragment_eq_packMask]
  refine ⟨?_, ?_, ?_⟩
  · intro k
    rw [packMask_testBit (fun k => decide (t.coveredReg x y k ≠ 0)) k]
    rw [decide_eq_true_iff]
    exact coveredReg_ne_zero_iff t h x y k
  · intro j hj
    exact packMask_bits _ _ _ _ j hj
  · generalize decide (t.coveredReg x y 0 ≠ 0) = c0
    generalize decide (t.coveredReg x y 1 ≠ 0) = c1
    generalize decide (t.coveredReg x y 2 ≠ 0) = c2
    generalize decide (t.coveredReg x y 3 ≠ 0) = c3
    revert c0 c1 c2 c3
    decide

theorem TestQuadFragment_coverage_bits_witness :
    (∀ i, (TriangleSIMD.Load triS1).isOwnerEdge i = 0 ∨
        (TriangleSIMD.Load triS1).isOwnerEdge i = 1) ∧
      Nat.land ((TriangleSIMD.Load triS1).TestQuadFragment
          (_mm_setr_epi32 8 24 8 24) (_mm_setr_epi32 8 8 24 24)) 0x8888
        = (TriangleSIMD.Load triS1).TestQuadFragment
          (_mm_setr_epi32 8 24 8 24) (_mm_setr_epi32 8 8 24 24) :=
  ⟨by decide,
    (TestQuadFragment_coverage_bits (TriangleSIMD.Load triS1) (by decide)
      (_mm_setr_epi32 8 24 8 24) (_mm_setr_epi32 8 8 24 24)).2.2⟩


/-! ## Watertightness of the fill rule -/

theorem boolToInt_cases (b : Bool) : boolToInt b = 0 ∨ boolToInt b = 1 := by
  cases b <;> simp [boolToInt]

theorem boolToInt_eq_one (b : Bool) : boolToInt b = 1 ↔ b = true := by
  cases b <;> simp [boolToInt]

theorem Load_isOwnerEdge_cases {F : Type} (tri : ProjectedTriangle F) (i : Fin 3) :
    (TriangleSIMD.Load tri).isOwnerEdge i = 0 ∨ (TriangleSIMD.Load tri).isOwnerEdge i = 1 := by
  fin_cases i <;> exact boolToInt_cases _

theorem Load_isOwnerEdge_iff {F : Type} (tri : ProjectedTriangle F) (i : Fin 3) :
    (TriangleSIMD.Load tri).isOwnerEdge i = 1 ↔
      (tri.vy i < tri.vy (i + 1) ∨ (tri.vy i = tri.vy (i + 1) ∧ tri.vy (i + 2) ≥ tri.vy i)) := by
  fin_cases i
  · show boolToInt _ = 1 ↔ _
    rw [boolToInt_eq_one]
    simp [ProjectedTriangle.vy]
  · show boolToInt _ = 1 ↔ _
    rw [boolToInt_eq_one]
    simp [ProjectedTriangle.vy]
  · show boolToInt _ = 1 ↔ _
    rw [boolToInt_eq_one]
    simp [ProjectedTriangle.vy]
    omega

theorem edgeWeight_Load {F : Type} (tri : ProjectedTriangle F) (xs ys : M128i)
    (i : Fin 3) (k : Fin 4) :
    edgeWeight (TriangleSIMD.Load tri) xs ys i k = tri.edgeAt i (xs k) (ys k) := by
  fin_cases i <;> rfl

/-- A point strictly inside the segment `PQ` lies strictly on the `P` side of the
line `QR`, for every `R` off the line `PQ`. -/
theorem between_side_next (px py qx qy rx ry x y : Int)
    (hb : StrictlyBetween px py qx qy x y)
    (hnd : cross (qx - px) (qy - py) (rx - px) (ry - py) ≠ 0) :
    0 < cross (rx - qx) (ry - qy) (x - qx) (y - qy) *
        cross (rx - qx) (ry - qy) (px - qx) (py - qy) := by
  obtain ⟨hcol, h1, h2⟩ := hb
  simp only [cross, dot] at *
  have hL : 0 < (qx - px) * (qx - px) + (qy - py) * (qy - py) := by nlinarith
  have hsq : 0 < ((qx - px) * (ry - py) - (qy - py) * (rx - px)) ^ 2 := by positivity
  have e : ((qx - px) * (qx - px) + (qy - py) * (qy - py)) *
      (((rx - qx) * (y - qy) - (ry - qy) * (x - qx)) *
        ((rx - qx) * (py - qy) - (ry - qy) * (px - qx))) =
      ((qx - x) * (qx - px) + (qy - y) * (qy - py)) *
        ((qx - px) * (ry - py) - (qy - py) * (rx - px)) ^ 2 := by
    linear_combination
      (((qx - px) * (rx - px) + (qy - py) * (ry - py)) -
        ((qx - px) * (qx - px) + (qy - py) * (qy - py))) *
        ((qx - px) * (ry - py) - (qy - py) * (rx - px)) * hcol
  have hpos := mul_pos h2 hsq
  rw [← e] at hpos
  exact (pos_iff_pos_of_mul_pos hpos).1 hL

/-- A point strictly inside the segment `PQ` lies strictly on the `Q` side of the
line `RP`, for every `R` off the line `PQ`. -/
theorem between_side_prev (px py qx qy rx ry x y : Int)
    (hb : StrictlyBetween px py qx qy x y)
    (hnd : cross (qx - px) (qy - py) (rx - px) (ry - py) ≠ 0) :
    0 < cross (px - rx) (py - ry) (x - rx) (y - ry) *
        cross (px - rx) (py - ry) (qx - rx) (qy - ry) := by
  obtain ⟨hcol, h1, h2⟩ := hb
  simp only [cross, dot] at *
  have hL : 0 < (qx - px) * (qx - px) + (qy - py) * (qy - py) := by nlinarith
  have hsq : 0 < ((qx - px) * (ry - py) - (qy - py) * (rx - px)) ^ 2 := by positivity
  have e : ((qx - px) * (qx - px) + (qy - py) * (qy - py)) *
      (((px - rx) * (y - ry) - (py - ry) * (x - rx)) *
        ((px - rx) * (qy - ry) - (py - ry) * (qx - rx))) =
      ((x - px) * (qx - px) + (y - py) * (qy - py)) *
        ((qx - px) * (ry - py) - (qy - py) * (rx - px)) ^ 2 := by
    linear_combination
      (-((qx - px) * (rx - px) + (qy - py) * (ry - py))) *
        ((qx - px) * (ry - py) - (qy - py) * (rx - px)) * hcol
  have hpos := mul_pos h1 hsq
  rw [← e] at hpos
  exact (pos_iff_pos_of_mul_pos hpos).1 hL

theorem StrictlyBetween.symm {px py qx qy x y : Int}
    (hb : StrictlyBetween px py qx qy x y) : StrictlyBetween qx qy px py x y := by
  obtain ⟨hcol, h1, h2⟩ := hb
  unfold StrictlyBetween
  simp only [cross, dot] at *
  refine ⟨by linarith, by linarith, by linarith⟩

theorem area2_eq_cross_at {F : Type} (tri : ProjectedTriangle F) (i : Fin 3) :
    tri.area2 = cross (tri.vx (i + 1) - tri.vx i) (tri.vy (i + 1) - tri.vy i)
      (tri.vx (i + 2) - tri.vx i) (tri.vy (i + 2) - tri.vy i) := by
  fin_cases i <;>
    simp [ProjectedTriangle.area2, ProjectedTriangle.vx, ProjectedTriangle.vy, cross] <;> ring

/-- A sample is reported covered exactly when every machine edge weight accepts it. -/
theorem sampleCovered_iff {F : Type} (tri : ProjectedTriangle F) (xs ys : M128i) (k : Fin 4) :
    sampleCovered tri xs ys k = true ↔
      ∀ i : Fin 3, 0 < tri.edgeAt i (xs k) (ys k) ∨
        (tri.edgeAt i (xs k) (ys k) = 0 ∧ (TriangleSIMD.Load tri).isOwnerEdge i = 1) := by
  unfold sampleCovered
  rw [TestQuadFragment_eq_packMask,
    packMask_testBit (fun k => decide ((TriangleSIMD.Load tri).coveredReg xs ys k ≠ 0)) k,
    decide_eq_true_iff, coveredReg_ne_zero_iff _ (Load_isOwnerEdge_cases tri)]
  simp only [edgeWeight_Load]

/-- On a non-degenerate triangle with valid edge weights, a sample strictly inside
edge `i` is covered exactly when the triangle owns edge `i`. -/
theorem covered_on_edge_iff_owner {F : Type} (tri : ProjectedTriangle F) (i : Fin 3)
    (xs ys : M128i) (k : Fin 4) (hnd : tri.area2 ≠ 0)
    (hb : StrictlyBetween (tri.vx i) (tri.vy i) (tri.vx (i + 1)) (tri.vy (i + 1)) (xs k) (ys k))
    (hv : tri.ValidEdgesAt (xs k) (ys k)) :
    sampleCovered tri xs ys k = true ↔ (TriangleSIMD.Load tri).isOwnerEdge i = 1 := by
  have e3 : ∀ i : Fin 3, i + 1 + 1 = i + 2 := by decide
  have e4 : ∀ i : Fin 3, i + 1 + 2 = i := by decide
  have e5 : ∀ i : Fin 3, i + 2 + 1 = i := by decide
  have e6 : ∀ i : Fin 3, i + 2 + 2 = i + 1 := by decide
  have e7 : ∀ i i2 : Fin 3, i2 = i ∨ i2 = i + 1 ∨ i2 = i + 2 := by decide
  rw [area2_eq_cross_at tri i] at hnd
  have w0 : tri.edgeAt i (xs k) (ys k) = 0 := (hv i).1.2 hb.1
  have w1 : 0 < tri.edgeAt (i + 1) (xs k) (ys k) := by
    apply (hv (i + 1)).2.2
    have := between_side_next _ _ _ _ _ _ _ _ hb hnd
    simpa only [ProjectedTriangle.edgeCross, e3, e4] using this
  have w2 : 0 < tri.edgeAt (i + 2) (xs k) (ys k) := by
    apply (hv (i + 2)).2.2
    have := between_side_prev _ _ _ _ _ _ _ _ hb hnd
    simpa only [ProjectedTriangle.edgeCross, e5, e6] using this
  rw [sampleCovered_iff]
  constructor
  · intro h
    rcases h i with h0 | h0
    · omega
    · exact h0.2
  · intro ho i2
    rcases e7 i i2 with rfl | rfl | rfl
    · exact Or.inr ⟨w0, ho⟩
    · exact Or.inl w1
    · exact Or.inl w2

/-- Of two equally wound triangles on the two sides of a common edge, exactly one
owns that edge. -/
theorem owner_exclusive (px py qx qy ax ay bx b_y : Int)
    (hw : 0 < cross (qx - px) (qy - py) (ax - px) (ay - py) *
      cross (px - qx) (py - qy) (bx - qx) (b_y - qy)) :
    ((py < qy ∨ (py = qy ∧ ay ≥ py)) ∧ ¬ (qy < py ∨ (qy = py ∧ b_y ≥ qy))) ∨
      (¬ (py < qy ∨ (py = qy ∧ ay ≥ py)) ∧ (qy < py ∨ (qy = py ∧ b_y ≥ qy))) := by
  rcases lt_trichotomy py qy with h | h | h
  · left
    exact ⟨Or.inl h, by omega⟩
  · subst h
    simp only [cross, sub_self, zero_mul, sub_zero] at hw
    have hprod : (ay - py) * (b_y - py) < 0 := by
      by_contra hc
      push_neg at hc
      have h2 : 0 ≤ (qx - px) ^ 2 * ((ay - py) * (b_y - py)) := by positivity
      nlinarith
    by_cases ha : ay ≥ py
    · left
      refine ⟨Or.inr ⟨rfl, ha⟩, ?_⟩
      rintro (h | ⟨_, hb⟩)
      · omega
      · have : 0 ≤ (ay - py) * (b_y - py) := mul_nonneg (by omega) (by omega)
        omega
    · right
      refine ⟨by rintro (h | ⟨_, h⟩) <;> omega, Or.inr ⟨rfl, ?_⟩⟩
      by_contra hb
      have : 0 ≤ (ay - py) * (b_y - py) := by
        have := mul_nonneg (show 0 ≤ py - ay by omega) (show 0 ≤ py - b_y by omega)
        nlinarith
      omega
  · right
    exact ⟨by omega, Or.inl h⟩

/-- C2. Watertightness: two non-degenerate triangles of the same winding share an edge
(edge `i` of the first runs from P to Q, edge `j` of the second from Q to P); at a sample
strictly between P and Q where both have valid edge weights (zero exactly on each edge
line, positive exactly on its interior side), `TestQuadFragment` after `Load` reports
the sample covered for exactly one of the two triangles. -/
theorem shared_edge_covered_exactly_once {F : Type} (T1 T2 : ProjectedTriangle F)
    (i j : Fin 3) (xs ys : M128i) (k : Fin 4)
    (hwind : 0 < T1.area2 * T2.area2)
    (hPx : T1.vx i = T2.vx (j + 1)) (hPy : T1.vy i = T2.vy (j + 1))
    (hQx : T1.vx (i + 1) = T2.vx j) (hQy : T1.vy (i + 1) = T2.vy j)
    (hb : StrictlyBetween (T1.vx i) (T1.vy i) (T1.vx (i + 1)) (T1.vy (i + 1)) (xs k) (ys k))
    (hv1 : T1.ValidEdgesAt (xs k) (ys k)) (hv2 : T2.ValidEdgesAt (xs k) (ys k)) :
    (sampleCovered T1 xs ys k = true ∧ sampleCovered T2 xs ys k = false) ∨
      (sampleCovered T1 xs ys k = false ∧ sampleCovered T2 xs ys k = true) := by
  have hnd1 : T1.area2 ≠ 0 := by
    intro h
    rw [h] at hwind
    simp at hwind
  have hnd2 : T2.area2 ≠ 0 := by
    intro h
    rw [h] at hwind
    simp at hwind
  have hb2 : StrictlyBetween (T2.vx j) (T2.vy j) (T2.vx (j + 1)) (T2.vy (j + 1))
      (xs k) (ys k) := by
    rw [← hPx, ← hPy, ← hQx, ← hQy]
    exact hb.symm
  have c1 := covered_on_edge_iff_owner T1 i xs ys k hnd1 hb hv1
  have c2 := covered_on_edge_iff_owner T2 j xs ys k hnd2 hb2 hv2
  rw [Load_isOwnerEdge_iff] at c1 c2
  rw [area2_eq_cross_at T1 i, area2_eq_cross_at T2 j, ← hPx, ← hPy, ← hQx, ← hQy] at hwind
  have hex := owner_exclusive _ _ _ _ _ _ _ _ hwind
  rw [← hPy, ← hQy] at c2
  rcases hex with ⟨h1, h2⟩ | ⟨h1, h2⟩
  · left
    refine ⟨c1.2 h1, ?_⟩
    cases hc : sampleCovered T2 xs ys k
    · rfl
    · exact absurd (c2.1 hc) h2
  · right
    refine ⟨?_, c2.2 h2⟩
    cases hc : sampleCovered T1 xs ys k
    · rfl
    · exact absurd (c1.1 hc) h1

theorem shared_edge_covered_exactly_once_witness :
    (0 < triS1.area2 * triS1Adj.area2) ∧
      StrictlyBetween (triS1.vx 1) (triS1.vy 1) (triS1.vx (1 + 1)) (triS1.vy (1 + 1))
        (_mm_setr_epi32 488 504 488 504 1) (_mm_setr_epi32 520 520 536 536 1) ∧
      triS1.ValidEdgesAt (_mm_setr_epi32 488 504 488 504 1) (_mm_setr_epi32 520 520 536 536 1) ∧
      triS1Adj.ValidEdgesAt (_mm_setr_epi32 488 504 488 504 1)
        (_mm_setr_epi32 520 520 536 536 1) ∧
      ((sampleCovered triS1 (_mm_setr_epi32 488 504 488 504) (_mm_setr_epi32 520 520 536 536) 1
            = true ∧
          sampleCovered triS1Adj (_mm_setr_epi32 488 504 488 504)
            (_mm_setr_epi32 520 520 536 536) 1 = false) ∨
        (sampleCovered triS1 (_mm_setr_epi32 488 504 488 504) (_mm_setr_epi32 520 520 536 536) 1
            = false ∧
          sampleCovered triS1Adj (_mm_setr_epi32 488 504 488 504)
            (_mm_setr_epi32 520 520 536 536) 1 = true)) :=
  ⟨by decide, by decide, by decide, by decide,
    shared_edge_covered_exactly_once triS1 triS1Adj 1 0
      (_mm_setr_epi32 488 504 488 504) (_mm_setr_epi32 520 520 536 536) 1
      (by decide) (by decide) (by decide) (by decide) (by decide) (by decide)
      (by decide) (by decide)⟩

/-! ## Loops -/

theorem forLoop_eq_foldl {S : Type} (step hi : Int) (body : Int → S → S) (fuel : Nat)
    (lo : Int) (s : S) :
    forLoop step hi body fuel lo s =
      (loopIndices step hi fuel lo).foldl (fun s q => body q s) s := by
  induction fuel generalizing lo s with
  | zero => rfl
  | succ n ih =>
    simp only [forLoop, loopIndices]
    split
    · simp [ih]
    · rfl

/-- With a positive step and fuel `loopFuel lo hi` or more, the loop visits exactly the
values `lo + n * step` that do not exceed `hi`. -/
theorem mem_loopIndices (step hi : Int) (hstep : 0 < step) (fuel : Nat) (lo q : Int)
    (hfuel : loopFuel lo hi ≤ fuel) :
    q ∈ loopIndices step hi fuel lo ↔ ∃ n : Nat, q = lo + n * step ∧ q ≤ hi := by
  induction fuel generalizing lo with
  | zero =>
    simp only [loopIndices, List.not_mem_nil, false_iff]
    rintro ⟨n, rfl, hle⟩
    unfold loopFuel at hfuel
    have : 0 ≤ (n : Int) * step := by positivity
    omega
  | succ m ih =>
    simp only [loopIndices]
    split
    · rename_i hle
      rw [List.mem_cons, ih (lo + step) (by unfold loopFuel at *; omega)]
      constructor
      · rintro (rfl | ⟨n, rfl, h⟩)
        · exact ⟨0, by simp, hle⟩
        · exact ⟨n + 1, by push_cast; ring, h⟩
      · rintro ⟨n, rfl, h⟩
        cases n with
        | zero => left; simp
        | succ n => right; exact ⟨n, by push_cast; ring, h⟩
    · rename_i hgt
      simp only [List.not_mem_nil, false_iff]
      rintro ⟨n, rfl, hle⟩
      have : 0 ≤ (n : Int) * step := by positivity
      omega

theorem clearBit0_eq (v : Int) : clearBit0 v = 2 * (v / 2) := by
  unfold clearBit0
  have h1 : Int.lnot 1 = Int.bit false (-1) := by decide
  have hm : ∀ m : Int, Int.land m (-1) = m := by
    intro m
    cases m with
    | ofNat a =>
      show Int.land (Int.ofNat a) (Int.negSucc 0) = _
      simp [Int.land, Nat.ldiff]
    | negSucc a =>
      show Int.land (Int.negSucc a) (Int.negSucc 0) = _
      simp [Int.land]
  conv_lhs => rw [← Int.bit_decomp v, h1, Int.land_bit, hm, Bool.and_false]
  rw [Int.bit_val, Int.div2_val]
  simp

/-! ## RasterizeTriangle -/

theorem rasterRow_eq_foldl {F S : Type} (t : TriangleSIMD F) (f : Int → Int → Bool → S → S)
    (qy hi : Int) (fuel : Nat) (lo : Int) (s : S) :
    forLoop 2 hi (fun qx s => rasterQuad t f qy qx s) fuel lo s =
      (((loopIndices 2 hi fuel lo).filter fun qx =>
        decide (t.TestQuadFragment (quadSampleX qx) (quadSampleY qy) ≠ 0)).map
          fun qx => (qx, qy)).foldl (fun s q => f q.1 q.2 false s) s := by
  induction fuel generalizing lo s with
  | zero => rfl
  | succ n ih =>
    simp only [forLoop, loopIndices]
    split
    · rw [ih]
      by_cases hm : t.TestQuadFragment (quadSampleX lo) (quadSampleY qy) = 0
      · simp [rasterQuad, hm, List.filter_cons]
      · simp [rasterQuad, hm, List.filter_cons]
    · rfl

/-- Running `RasterizeTriangle` with any callback is the same as folding the callback
over the list of quads `rasterQuads`, always with `trivialAccept = false`. -/
theorem RasterizeTriangle_eq_foldl {F S : Type} (regionX0 regionY0 regionW regionH : Int)
    (tri : ProjectedTriangle F) (t : TriangleSIMD F) (f : Int → Int → Bool → S → S) (s : S) :
    RasterizeTriangle regionX0 regionY0 regionW regionH tri t f s =
      (rasterQuads regionX0 regionY0 regionW regionH tri t).foldl
        (fun s q => f q.1 q.2 false s) s := by
  unfold RasterizeTriangle rasterQuads
  generalize quadBounds regionX0 regionY0 regionW regionH tri = b
  obtain ⟨px0, py0, px1, py1⟩ := b
  simp only
  generalize loopFuel py0 py1 = fy
  generalize py0 = lo
  induction fy generalizing lo s with
  | zero => rfl
  | succ n ih =>
    simp only [forLoop, loopIndices]
    split
    · rw [ih, rasterRow_eq_foldl, List.flatMap_cons, List.foldl_append]
    · rfl

theorem rasterCalls_eq {F : Type} (regionX0 regionY0 regionW regionH : Int)
    (tri : ProjectedTriangle F) (t : TriangleSIMD F) :
    rasterCalls regionX0 regionY0 regionW regionH tri t =
      (rasterQuads regionX0 regionY0 regionW regionH tri t).map fun q => (q.1, q.2, false) := by
  unfold rasterCalls
  rw [RasterizeTriangle_eq_foldl]
  generalize rasterQuads regionX0 regionY0 regionW regionH tri t = l
  have key : ∀ (l : List (Int × Int)) (acc : List (Int × Int × Bool)),
      l.foldl (fun s q => s ++ [(q.1, q.2, false)]) acc
        = acc ++ l.map fun q => (q.1, q.2, false) := by
    intro l
    induction l with
    | nil => intro acc; simp
    | cons a l ih => intro acc; simp [ih]
  simpa using key l []

/-- Membership in the quad list: the origin lies on the even grid of the clipped
range and its coverage mask is nonzero. -/
theorem mem_rasterQuads {F : Type} (regionX0 regionY0 regionW regionH : Int)
    (tri : ProjectedTriangle F) (t : TriangleSIMD F) (qx qy : Int) :
    (qx, qy) ∈ rasterQuads regionX0 regionY0 regionW regionH tri t ↔
      (∃ n : Nat, qy = (quadBounds regionX0 regionY0 regionW regionH tri).2.1 + n * 2) ∧
      qy ≤ (quadBounds regionX0 regionY0 regionW regionH tri).2.2.2 ∧
      (∃ n : Nat, qx = (quadBounds regionX0 regionY0 regionW regionH tri).1 + n * 2) ∧
      qx ≤ (quadBounds regionX0 regionY0 regionW regionH tri).2.2.1 ∧
      t.TestQuadFragment (quadSampleX qx) (quadSampleY qy) ≠ 0 := by
  unfold rasterQuads
  generalize quadBounds regionX0 regionY0 regionW regionH tri = b
  obtain ⟨px0, py0, px1, py1⟩ := b
  simp only [List.mem_flatMap, List.mem_map, List.mem_filter, Prod.mk.injEq,
    decide_eq_true_eq]
  constructor
  · rintro ⟨qy2, hqy, qx2, ⟨hqx, hm⟩, rfl, rfl⟩
    rw [mem_loopIndices 2 _ (by decide) _ _ _ le_rfl] at hqy hqx
    obtain ⟨n, hn, hle⟩ := hqy
    obtain ⟨m, hm2, hle2⟩ := hqx
    exact ⟨⟨n, hn⟩, hle, ⟨m, hm2⟩, hle2, hm⟩
  · rintro ⟨⟨n, hn⟩, hle, ⟨m, hm2⟩, hle2, hm⟩
    refine ⟨qy, ?_, qx, ⟨?_, hm⟩, rfl, rfl⟩
    · rw [mem_loopIndices 2 _ (by decide) _ _ _ le_rfl]
      exact ⟨n, hn, hle⟩
    · rw [mem_loopIndices 2 _ (by decide) _ _ _ le_rfl]
      exact ⟨m, hm2, hle2⟩

/-- Coverage of a lane depends only on the sample position held in that lane. -/
theorem sampleCovered_eq_pointCovered {F : Type} (tri : ProjectedTriangle F)
    (xs ys : M128i) (k : Fin 4) :
    sampleCovered tri xs ys k = pointCovered tri (xs k) (ys k) := by
  unfold pointCovered
  rw [Bool.eq_iff_iff, sampleCovered_iff, sampleCovered_iff]
  rfl

theorem testBit_ne_zero {m j : Nat} (h : m.testBit j = true) : m ≠ 0 := by
  rintro rfl
  simp at h

/-- The lane of the 2x2 quad that holds pixel `(x, y)`. -/
theorem quad_lane_of_pixel (x y : Int) :
    ∃ k : Fin 4, quadSampleX (clearBit0 x) k = 16 * x + 8 ∧
      quadSampleY (clearBit0 y) k = 16 * y + 8 := by
  simp only [clearBit0_eq, quadSampleX, quadSampleY, shl, _mm_setr_epi32]
  rcases Int.emod_two_eq_zero_or_one x with hx | hx <;>
    rcases Int.emod_two_eq_zero_or_one y with hy | hy
  · exact ⟨0, by simp; omega, by simp; omega⟩
  · exact ⟨2, by simp; omega, by simp; omega⟩
  · exact ⟨1, by simp; omega, by simp; omega⟩
  · exact ⟨3, by simp; omega, by simp; omega⟩

/-- The quad range in closed form: the bounding box clipped to the region, both ends
rounded down to even. -/
theorem quadBounds_eq {F : Type} (regionX0 regionY0 regionW regionH : Int)
    (tri : ProjectedTriangle F) :
    quadBounds regionX0 regionY0 regionW regionH tri =
      (2 * (max tri.pixelBounds.1 regionX0 / 2),
        2 * (max tri.pixelBounds.2.2.1 regionY0 / 2),
        2 * (min tri.pixelBounds.2.1 (regionX0 + regionW - 1) / 2),
        2 * (min tri.pixelBounds.2.2.2 (regionY0 + regionH - 1) / 2)) := by
  simp only [quadBounds, ProjectedTriangle.pixelBounds, clearBit0_eq]

/-- C3. `RasterizeTriangle` misses no covered pixel: for a pixel `(x, y)` inside the
region and inside the integer pixel bounding box whose sample centre
`(16x+8, 16y+8)` is reported covered, the callback is invoked (with
`trivialAccept = false`) for the quad origin `(x & ~1, y & ~1)`; and every quad origin
the callback is invoked with has a nonzero coverage mask over its four sample
centres. -/
theorem RasterizeTriangle_misses_no_covered_pixel {F : Type} (tri : ProjectedTriangle F)
    (regionX0 regionY0 regionW regionH x y : Int)
    (hrx : regionX0 ≤ x ∧ x < regionX0 + regionW)
    (hry : regionY0 ≤ y ∧ y < regionY0 + regionH)
    (hbx : tri.pixelBounds.1 ≤ x ∧ x ≤ tri.pixelBounds.2.1)
    (hby : tri.pixelBounds.2.2.1 ≤ y ∧ y ≤ tri.pixelBounds.2.2.2) :
    (pointCovered tri (16 * x + 8) (16 * y + 8) = true →
        (clearBit0 x, clearBit0 y, false) ∈
          rasterCalls regionX0 regionY0 regionW regionH tri (TriangleSIMD.Load tri)) ∧
      (∀ qx qy trivialAccept,
        (qx, qy, trivialAccept) ∈
            rasterCalls regionX0 regionY0 regionW regionH tri (TriangleSIMD.Load tri) →
          (TriangleSIMD.Load tri).TestQuadFragment (quadSampleX qx) (quadSampleY qy) ≠ 0) := by
  constructor
  · intro hc
    rw [rasterCalls_eq, List.mem_map]
    refine ⟨(clearBit0 x, clearBit0 y), ?_, rfl⟩
    rw [mem_rasterQuads]
    obtain ⟨k, hkx, hky⟩ := quad_lane_of_pixel x y
    have hmask : (TriangleSIMD.Load tri).TestQuadFragment (quadSampleX (clearBit0 x))
        (quadSampleY (clearBit0 y)) ≠ 0 := by
      have hcov : sampleCovered tri (quadSampleX (clearBit0 x)) (quadSampleY (clearBit0 y)) k
          = true := by
        rw [sampleCovered_eq_pointCovered, hkx, hky]
        exact hc
      exact testBit_ne_zero hcov
    rw [quadBounds_eq]
    have hqx : clearBit0 x = 2 * (x / 2) := clearBit0_eq x
    have hqy : clearBit0 y = 2 * (y / 2) := clearBit0_eq y
    generalize clearBit0 x = qx at hqx hmask ⊢
    generalize clearBit0 y = qy at hqy hmask ⊢
    generalize tri.pixelBounds = pb at hbx hby ⊢
    obtain ⟨bx0, bx1, by0, by1⟩ := pb
    simp only at hbx hby ⊢
    refine ⟨⟨(y / 2 - max by0 regionY0 / 2).toNat, ?_⟩, ?_,
      ⟨(x / 2 - max bx0 regionX0 / 2).toNat, ?_⟩, ?_, hmask⟩
    · omega
    · omega
    · omega
    · omega
  · intro qx qy ta hmem
    rw [rasterCalls_eq, List.mem_map] at hmem
    obtain ⟨⟨qx2, qy2⟩, hq, heq⟩ := hmem
    simp only [Prod.mk.injEq] at heq
    obtain ⟨rfl, rfl, _⟩ := heq
    exact ((mem_rasterQuads _ _ _ _ _ _ _ _).1 hq).2.2.2.2

theorem RasterizeTriangle_misses_no_covered_pixel_witness :
    ((0 : Int) ≤ 1 ∧ (1 : Int) < 0 + 64) ∧
      (triS1.pixelBounds.1 ≤ 1 ∧ 1 ≤ triS1.pixelBounds.2.1) ∧
      (triS1.pixelBounds.2.2.1 ≤ 1 ∧ 1 ≤ triS1.pixelBounds.2.2.2) ∧
      ((pointCovered triS1 (16 * 1 + 8) (16 * 1 + 8) = true →
          (clearBit0 1, clearBit0 1, false) ∈
            rasterCalls 0 0 64 64 triS1 (TriangleSIMD.Load triS1)) ∧
        (∀ qx qy trivialAccept,
          (qx, qy, trivialAccept) ∈ rasterCalls 0 0 64 64 triS1 (TriangleSIMD.Load triS1) →
            (TriangleSIMD.Load triS1).TestQuadFragment (quadSampleX qx) (quadSampleY qy)
              ≠ 0)) :=
  ⟨by decide, by decide, by decide,
    RasterizeTriangle_misses_no_covered_pixel triS1 0 0 64 64 1 1
      (by decide) (by decide) (by decide) (by decide)⟩

/-! ## Tile processing: pixels written -/

/-- Evaluation for C4. A 33 x 2 framebuffer has a grid of 2 x 1 tiles, and tile 1 has the
pixel rectangle `[32, 33) x [0, 2)`; processing the queue that holds the triangle
`triS1` passes the coordinates (32,1) and (33,1) to `SetZ` and then to `SetPixel`:
pixel (33,1) lies outside the rectangle of the tile (and outside the framebuffer). -/
theorem ProcessBin_writes_outside_tile :
    (gridDim 33 = 2 ∧ gridDim 2 = 1) ∧
      tileRect (gridDim 33) 33 2 1 = (32, 0, 1, 2) ∧
      (ProcessBin ratOps (loggedFrameBuffer (FrameBuffer.ops ratOps)) shadeWhite (gridDim 33)
          [[], [⟨triS1, 0, 0⟩]] 1 (clearedFrameBuffer 33 2, [])).2
        = [(32, 1), (33, 1), (32, 1), (33, 1)] := by
  decide!

/-! ## The forward quad fragment on the framebuffer model -/

theorem movemask_bit0 (m : Fin 4 → Bool) : decide (_mm_movemask_ps m &&& 0x1 ≠ 0) = m 0 := by
  unfold _mm_movemask_ps
  cases m 0 <;> cases m 1 <;> cases m 2 <;> cases m 3 <;> decide

theorem movemask_bit1 (m : Fin 4 → Bool) : decide (_mm_movemask_ps m &&& 0x2 ≠ 0) = m 1 := by
  unfold _mm_movemask_ps
  cases m 0 <;> cases m 1 <;> cases m 2 <;> cases m 3 <;> decide

theorem movemask_bit2 (m : Fin 4 → Bool) : decide (_mm_movemask_ps m &&& 0x4 ≠ 0) = m 2 := by
  unfold _mm_movemask_ps
  cases m 0 <;> cases m 1 <;> cases m 2 <;> cases m 3 <;> decide

theorem movemask_bit3 (m : Fin 4 → Bool) : decide (_mm_movemask_ps m &&& 0x8 ≠ 0) = m 3 := by
  unfold _mm_movemask_ps
  cases m 0 <;> cases m 1 <;> cases m 2 <;> cases m 3 <;> decide

/-- The write part of the forward quad fragment for given lane flags, depths and
colours, on the framebuffer model. -/
theorem forwardQuad_writes_eq {F : Type} (ops : FloatOps F) (qfx qfy : Int)
    (c0 c1 c2 c3 : Bool) (z : M128 F) (col : Fin 4 → Vec4 F) (fb : FrameBuffer F) :
    (let visibility := FragmentCoverageMask.empty
     let visibility := if c0 then visibility.SetBit 0 else visibility
     let frameBuffer := if c0 then (FrameBuffer.ops ops).SetZ fb qfx qfy (z 0) else fb
     let visibility := if c1 then visibility.SetBit 1 else visibility
     let frameBuffer :=
       if c1 then (FrameBuffer.ops ops).SetZ frameBuffer (qfx + 1) qfy (z 1) else frameBuffer
     let visibility := if c2 then visibility.SetBit 2 else visibility
     let frameBuffer :=
       if c2 then (FrameBuffer.ops ops).SetZ frameBuffer qfx (qfy + 1) (z 2) else frameBuffer
     let visibility := if c3 then visibility.SetBit 3 else visibility
     let frameBuffer :=
       if c3 then (FrameBuffer.ops ops).SetZ frameBuffer (qfx + 1) (qfy + 1) (z 3)
       else frameBuffer
     if visibility.Any then
       let frameBuffer :=
         if visibility.GetBit 0 then (FrameBuffer.ops ops).SetPixel frameBuffer qfx qfy (col 0)
         else frameBuffer
       let frameBuffer :=
         if visibility.GetBit 1 then
           (FrameBuffer.ops ops).SetPixel frameBuffer (qfx + 1) qfy (col 1)
         else frameBuffer
       let frameBuffer :=
         if visibility.GetBit 2 then
           (FrameBuffer.ops ops).SetPixel frameBuffer qfx (qfy + 1) (col 2)
         else frameBuffer
       let frameBuffer :=
         if visibility.GetBit 3 then
           (FrameBuffer.ops ops).SetPixel frameBuffer (qfx + 1) (qfy + 1) (col 3)
         else frameBuffer
       frameBuffer
     else frameBuffer) =
      { fb with
        depth := fun x y =>
          if c3 = true ∧ x = qfx + 1 ∧ y = qfy + 1 then z 3
          else if c2 = true ∧ x = qfx ∧ y = qfy + 1 then z 2
          else if c1 = true ∧ x = qfx + 1 ∧ y = qfy then z 1
          else if c0 = true ∧ x = qfx ∧ y = qfy then z 0
          else fb.depth x y
        color := fun x y =>
          if c3 = true ∧ x = qfx + 1 ∧ y = qfy + 1 then col 3
          else if c2 = true ∧ x = qfx ∧ y = qfy + 1 then col 2
          else if c1 = true ∧ x = qfx + 1 ∧ y = qfy then col 1
          else if c0 = true ∧ x = qfx ∧ y = qfy then col 0
          else fb.color x y } := by
  cases c0 <;> cases c1 <;> cases c2 <;> cases c3 <;>
    simp [FrameBuffer.ops, FragmentCoverageMask.Any, FragmentCoverageMask.GetBit,
      FragmentCoverageMask.SetBit, FragmentCoverageMask.empty, Nat.testBit]

/-- The effect of one forward quad fragment on the framebuffer model, lane by lane:
a lane that is covered and passes the depth test against the depth stored on entry
gets the new depth and the shaded colour; nothing else changes. -/
theorem forwardQuad_eq {F : Type} (ops : FloatOps F) (ShadeFragment : ShadeFragmentFn F)
    (tiledTri : TiledTriangle F) (tri : ProjectedTriangle F) (t : TriangleSIMD F)
    (qfx qfy : Int) (fb : FrameBuffer F) :
    forwardQuad ops (FrameBuffer.ops ops) ShadeFragment tiledTri tri t qfx qfy false fb =
      { fb with
        depth := fun x y =>
          if quadVisible ops t qfx qfy fb.depth 3 = true ∧ x = qfx + 1 ∧ y = qfy + 1 then
            quadZ ops t qfx qfy 3
          else if quadVisible ops t qfx qfy fb.depth 2 = true ∧ x = qfx ∧ y = qfy + 1 then
            quadZ ops t qfx qfy 2
          else if quadVisible ops t qfx qfy fb.depth 1 = true ∧ x = qfx + 1 ∧ y = qfy then
            quadZ ops t qfx qfy 1
          else if quadVisible ops t qfx qfy fb.depth 0 = true ∧ x = qfx ∧ y = qfy then
            quadZ ops t qfx qfy 0
          else fb.depth x y
        color := fun x y =>
          if quadVisible ops t qfx qfy fb.depth 3 = true ∧ x = qfx + 1 ∧ y = qfy + 1 then
            quadColor ops ShadeFragment tiledTri tri t qfx qfy 3
          else if quadVisible ops t qfx qfy fb.depth 2 = true ∧ x = qfx ∧ y = qfy + 1 then
            quadColor ops ShadeFragment tiledTri tri t qfx qfy 2
          else if quadVisible ops t qfx qfy fb.depth 1 = true ∧ x = qfx + 1 ∧ y = qfy then
            quadColor ops ShadeFragment tiledTri tri t qfx qfy 1
          else if quadVisible ops t qfx qfy fb.depth 0 = true ∧ x = qfx ∧ y = qfy then
            quadColor ops ShadeFragment tiledTri tri t qfx qfy 0
          else fb.color x y } := by
  have h := forwardQuad_writes_eq ops qfx qfy (quadVisible ops t qfx qfy fb.depth 0)
    (quadVisible ops t qfx qfy fb.depth 1) (quadVisible ops t qfx qfy fb.depth 2)
    (quadVisible ops t qfx qfy fb.depth 3) (quadZ ops t qfx qfy)
    (quadColor ops ShadeFragment tiledTri tri t qfx qfy) fb
  rw [← h]
  unfold forwardQuad
  simp only [Bool.false_eq_true, if_false, movemask_bit0, movemask_bit1, movemask_bit2,
    movemask_bit3, quadVisible, quadCover, quadZ, quadColor, quadPixelX, quadPixelY,
    quadCenterX, quadCenterY, _mm_cmplt_ps, _mm_set_ps, TriangleSIMD.GetCoordinates,
    Matrix.cons_val_zero, Matrix.cons_val_one, Matrix.head_cons, Matrix.cons_val_two,
    Matrix.cons_val_three, Matrix.tail_cons]
  rfl

/-! ## Order and distinctness of the visited quads -/

theorem le_of_mem_loopIndices (step hi : Int) (hstep : 0 < step) (fuel : Nat) (lo q : Int)
    (h : q ∈ loopIndices step hi fuel lo) : lo ≤ q := by
  induction fuel generalizing lo with
  | zero => simp [loopIndices] at h
  | succ n ih =>
    simp only [loopIndices] at h
    split at h
    · rcases List.mem_cons.1 h with rfl | h2
      · exact le_rfl
      · have := ih _ h2
        omega
    · simp at h

theorem loopIndices_pairwise (step hi : Int) (hstep : 0 < step) (fuel : Nat) (lo : Int) :
    (loopIndices step hi fuel lo).Pairwise (· < ·) := by
  induction fuel generalizing lo with
  | zero => simp [loopIndices]
  | succ n ih =>
    simp only [loopIndices]
    split
    · refine List.pairwise_cons.2 ⟨?_, ih _⟩
      intro q hq
      have := le_of_mem_loopIndices step hi hstep n _ q hq
      omega
    · exact List.Pairwise.nil

theorem loopIndices_nodup (step hi : Int) (hstep : 0 < step) (fuel : Nat) (lo : Int) :
    (loopIndices step hi fuel lo).Nodup :=
  (loopIndices_pairwise step hi hstep fuel lo).imp (fun h => ne_of_lt h)

/-- No quad origin is handed to the callback twice. -/
theorem rasterQuads_nodup {F : Type} (regionX0 regionY0 regionW regionH : Int)
    (tri : ProjectedTriangle F) (t : TriangleSIMD F) :
    (rasterQuads regionX0 regionY0 regionW regionH tri t).Nodup := by
  unfold rasterQuads
  generalize quadBounds regionX0 regionY0 regionW regionH tri = b
  obtain ⟨px0, py0, px1, py1⟩ := b
  simp only
  rw [List.nodup_flatMap]
  constructor
  · intro qy _
    apply List.Nodup.map
    · intro a b hab
      simpa using hab
    · exact (loopIndices_nodup 2 px1 (by decide) _ _).filter _
  · refine (loopIndices_pairwise 2 py1 (by decide) _ _).imp ?_
    intro a b hab
    rw [Function.onFun, List.disjoint_left]
    intro q hq1 hq2
    simp only [List.mem_map, List.mem_filter] at hq1 hq2
    obtain ⟨_, _, rfl⟩ := hq1
    obtain ⟨_, _, h2⟩ := hq2
    simp only [Prod.mk.injEq] at h2
    omega

/-- Quad origins are even in both coordinates. -/
theorem rasterQuads_even {F : Type} (regionX0 regionY0 regionW regionH : Int)
    (tri : ProjectedTriangle F) (t : TriangleSIMD F) (qx qy : Int)
    (h : (qx, qy) ∈ rasterQuads regionX0 regionY0 regionW regionH tri t) :
    qx % 2 = 0 ∧ qy % 2 = 0 := by
  rw [mem_rasterQuads, quadBounds_eq] at h
  obtain ⟨⟨n, hn⟩, _, ⟨m, hm⟩, _, _⟩ := h
  simp only at hn hm
  omega

/-! ## Effect of rasterizing one triangle on one pixel -/

/-- Folding over a duplicate-free list a step that changes an observation only at the
element `q`: the observation is transformed once if `q` occurs, and not at all
otherwise. -/
theorem foldl_obs_single {S A V : Type} [DecidableEq A] (f : S → A → S) (obs : S → V)
    (g : V → V) (q : A) (l : List A) (hnd : l.Nodup)
    (hother : ∀ s a, a ∈ l → a ≠ q → obs (f s a) = obs s)
    (hq : ∀ s, obs (f s q) = g (obs s)) (s : S) :
    obs (l.foldl f s) = if q ∈ l then g (obs s) else obs s := by
  induction l generalizing s with
  | nil => simp
  | cons a l ih =>
    rw [List.nodup_cons] at hnd
    have ih2 := ih hnd.2 (fun s b hb hne => hother s b (List.mem_cons_of_mem _ hb) hne)
    rw [List.foldl_cons, ih2]
    by_cases haq : a = q
    · subst haq
      simp [hnd.1, hq]
    · have h1 : obs (f s a) = obs s := hother s a (List.mem_cons_self _ _) haq
      have h2 : (q ∈ a :: l) ↔ q ∈ l := by
        rw [List.mem_cons]
        constructor
        · rintro (h | h)
          · exact absurd h.symm haq
          · exact h
        · exact Or.inr
      simp only [h1, h2]

theorem quadPixel_of_pixel (x y : Int) :
    quadPixelX (clearBit0 x) (pixelLane x y) = x ∧
      quadPixelY (clearBit0 y) (pixelLane x y) = y := by
  simp only [clearBit0_eq, quadPixelX, quadPixelY, pixelLane]
  rcases Int.emod_two_eq_zero_or_one x with hx | hx <;>
    rcases Int.emod_two_eq_zero_or_one y with hy | hy <;>
    simp [hx, hy] <;> omega

/-- A forward quad fragment at the lane of a pixel. -/
theorem forwardQuad_at_lane {F : Type} (ops : FloatOps F) (ShadeFragment : ShadeFragmentFn F)
    (tiledTri : TiledTriangle F) (tri : ProjectedTriangle F) (t : TriangleSIMD F)
    (qfx qfy : Int) (fb : FrameBuffer F) (k : Fin 4) :
    (forwardQuad ops (FrameBuffer.ops ops) ShadeFragment tiledTri tri t qfx qfy false fb).depth
        (quadPixelX qfx k) (quadPixelY qfy k) =
      (if quadVisible ops t qfx qfy fb.depth k = true then quadZ ops t qfx qfy k
        else fb.depth (quadPixelX qfx k) (quadPixelY qfy k)) ∧
    (forwardQuad ops (FrameBuffer.ops ops) ShadeFragment tiledTri tri t qfx qfy false fb).color
        (quadPixelX qfx k) (quadPixelY qfy k) =
      (if quadVisible ops t qfx qfy fb.depth k = true then
          quadColor ops ShadeFragment tiledTri tri t qfx qfy k
        else fb.color (quadPixelX qfx k) (quadPixelY qfy k)) := by
  rw [forwardQuad_eq]
  fin_cases k <;> simp [quadPixelX, quadPixelY]

/-- A forward quad fragment leaves every pixel outside its 2x2 block alone. -/
theorem forwardQuad_off_quad {F : Type} (ops : FloatOps F) (ShadeFragment : ShadeFragmentFn F)
    (tiledTri : TiledTriangle F) (tri : ProjectedTriangle F) (t : TriangleSIMD F)
    (qfx qfy : Int) (fb : FrameBuffer F) (x y : Int)
    (h : (x ≠ qfx ∧ x ≠ qfx + 1) ∨ (y ≠ qfy ∧ y ≠ qfy + 1)) :
    (forwardQuad ops (FrameBuffer.ops ops) ShadeFragment tiledTri tri t qfx qfy false fb).depth
        x y = fb.depth x y ∧
    (forwardQuad ops (FrameBuffer.ops ops) ShadeFragment tiledTri tri t qfx qfy false fb).color
        x y = fb.color x y := by
  rw [forwardQuad_eq]
  rcases h with ⟨h1, h2⟩ | ⟨h1, h2⟩ <;> simp [h1, h2]

/-- Rasterizing one triangle with the forward quad processor, seen at one pixel: the
pixel takes the triangle's depth and colour exactly when a covered sample is emitted
for it and that sample passes the depth test against the depth stored before;
otherwise the pixel keeps its depth and colour. -/
theorem rasterize_forward_at_pixel {F : Type} (ops : FloatOps F)
    (ShadeFragment : ShadeFragmentFn F) (tiledTri : TiledTriangle F)
    (regionX0 regionY0 regionW regionH : Int) (fb : FrameBuffer F) (x y : Int) :
    (RasterizeTriangle regionX0 regionY0 regionW regionH tiledTri.triangle
        (TriangleSIMD.Load tiledTri.triangle)
        (forwardQuad ops (FrameBuffer.ops ops) ShadeFragment tiledTri tiledTri.triangle
          (TriangleSIMD.Load tiledTri.triangle)) fb).depth x y =
      (if fragmentEmitted regionX0 regionY0 regionW regionH tiledTri.triangle x y = true ∧
          ops.lt (fragmentZ ops tiledTri.triangle x y) (fb.depth x y) = true
        then fragmentZ ops tiledTri.triangle x y else fb.depth x y) ∧
    (RasterizeTriangle regionX0 regionY0 regionW regionH tiledTri.triangle
        (TriangleSIMD.Load tiledTri.triangle)
        (forwardQuad ops (FrameBuffer.ops ops) ShadeFragment tiledTri tiledTri.triangle
          (TriangleSIMD.Load tiledTri.triangle)) fb).color x y =
      (if fragmentEmitted regionX0 regionY0 regionW regionH tiledTri.triangle x y = true ∧
          ops.lt (fragmentZ ops tiledTri.triangle x y) (fb.depth x y) = true
        then fragmentColor ops ShadeFragment tiledTri x y else fb.color x y) := by
  rw [RasterizeTriangle_eq_foldl]
  have key := foldl_obs_single
    (fun (s : FrameBuffer F) (q : Int × Int) =>
      forwardQuad ops (FrameBuffer.ops ops) ShadeFragment tiledTri tiledTri.triangle
        (TriangleSIMD.Load tiledTri.triangle) q.1 q.2 false s)
    (fun s => (s.depth x y, s.color x y))
    (fun v => if fragmentCover tiledTri.triangle x y = true ∧
        ops.lt (fragmentZ ops tiledTri.triangle x y) v.1 = true
      then (fragmentZ ops tiledTri.triangle x y, fragmentColor ops ShadeFragment tiledTri x y)
      else v)
    (clearBit0 x, clearBit0 y)
    (rasterQuads regionX0 regionY0 regionW regionH tiledTri.triangle
      (TriangleSIMD.Load tiledTri.triangle))
    (rasterQuads_nodup _ _ _ _ _ _)
    (by
      rintro s ⟨ax, ay⟩ ha hne
      have hev := rasterQuads_even _ _ _ _ _ _ ax ay ha
      have hoff := forwardQuad_off_quad ops ShadeFragment tiledTri tiledTri.triangle
        (TriangleSIMD.Load tiledTri.triangle) ax ay s x y (by
          have h1 := clearBit0_eq x
          have h2 := clearBit0_eq y
          have h3 : ¬ (ax = clearBit0 x ∧ ay = clearBit0 y) := by
            rintro ⟨rfl, rfl⟩
            exact hne rfl
          omega)
      simp only [hoff.1, hoff.2])
    (by
      intro s
      have hl := forwardQuad_at_lane ops ShadeFragment tiledTri tiledTri.triangle
        (TriangleSIMD.Load tiledTri.triangle) (clearBit0 x) (clearBit0 y) s (pixelLane x y)
      rw [(quadPixel_of_pixel x y).1, (quadPixel_of_pixel x y).2] at hl
      have hv : quadVisible ops (TriangleSIMD.Load tiledTri.triangle) (clearBit0 x)
          (clearBit0 y) s.depth (pixelLane x y) =
          (fragmentCover tiledTri.triangle x y &&
            ops.lt (fragmentZ ops tiledTri.triangle x y) (s.depth x y)) := by
        unfold quadVisible fragmentCover fragmentZ
        rw [(quadPixel_of_pixel x y).1, (quadPixel_of_pixel x y).2]
      simp only [hl.1, hl.2, hv, Bool.and_eq_true]
      split <;> rfl)
    fb
  simp only at key
  have e : (fragmentEmitted regionX0 regionY0 regionW regionH tiledTri.triangle x y = true ∧
      ops.lt (fragmentZ ops tiledTri.triangle x y) (fb.depth x y) = true) ↔
      ((clearBit0 x, clearBit0 y) ∈ rasterQuads regionX0 regionY0 regionW regionH
          tiledTri.triangle (TriangleSIMD.Load tiledTri.triangle) ∧
        fragmentCover tiledTri.triangle x y = true ∧
        ops.lt (fragmentZ ops tiledTri.triangle x y) (fb.depth x y) = true) := by
    simp [fragmentEmitted, and_assoc]
  simp only [e]
  by_cases hmem : (clearBit0 x, clearBit0 y) ∈ rasterQuads regionX0 regionY0 regionW regionH
      tiledTri.triangle (TriangleSIMD.Load tiledTri.triangle)
  · simp only [hmem, if_true, true_and] at key ⊢
    by_cases hc : fragmentCover tiledTri.triangle x y = true ∧
        ops.lt (fragmentZ ops tiledTri.triangle x y) (fb.depth x y) = true
    · simp only [hc, and_self, if_true] at key ⊢
      exact ⟨congrArg Prod.fst key, congrArg Prod.snd key⟩
    · simp only [hc, if_false] at key ⊢
      exact ⟨congrArg Prod.fst key, congrArg Prod.snd key⟩
  · simp only [hmem, if_false, false_and] at key ⊢
    exact ⟨congrArg Prod.fst key, congrArg Prod.snd key⟩

/-! ## Depth test and submission order -/

theorem ProcessBin_eq_foldl {F : Type} (ops : FloatOps F) (ShadeFragment : ShadeFragmentFn F)
    (gridWidth : Int) (tileBins : List (List (TiledTriangle F))) (tileId : Int)
    (fb : FrameBuffer F) :
    ProcessBin ops (FrameBuffer.ops ops) ShadeFragment gridWidth tileBins tileId fb =
      (binAt tileBins tileId).foldl
        (fun s tiledTri =>
          RasterizeTriangle (tileRect gridWidth fb.width fb.height tileId).1
            (tileRect gridWidth fb.width fb.height tileId).2.1
            (tileRect gridWidth fb.width fb.height tileId).2.2.1
            (tileRect gridWidth fb.width fb.height tileId).2.2.2 tiledTri.triangle
            (TriangleSIMD.Load tiledTri.triangle)
            (forwardQuad ops (FrameBuffer.ops ops) ShadeFragment tiledTri tiledTri.triangle
              (TriangleSIMD.Load tiledTri.triangle)) s) fb := by
  unfold ProcessBin
  split
  · rename_i hge
    have : binAt tileBins tileId = [] := by
      unfold binAt
      split
      · apply List.getD_eq_default
        omega
      · rfl
    rw [this]
    rfl
  · rfl

/-- C6. Depth test and tie-break in the forward tile processor. A sample whose Z is not
strictly less than the depth stored at its pixel changes neither the depth nor the
colour of that pixel. Consequently, for a tile queue of two triangles where the first
writes a pixel and the second produces the same or a larger Z there, the pixel ends
with the depth and the colour of the first triangle. -/
theorem forward_depth_test_keeps_earlier {F : Type} (ops : FloatOps F)
    (ShadeFragment : ShadeFragmentFn F) (gridWidth : Int)
    (tileBins : List (List (TiledTriangle F))) (tileId : Int) (fb : FrameBuffer F)
    (T1 T2 : TiledTriangle F) (x y : Int)
    (hq : binAt tileBins tileId = [T1, T2])
    (hem : fragmentEmitted (tileRect gridWidth fb.width fb.height tileId).1
      (tileRect gridWidth fb.width fb.height tileId).2.1
      (tileRect gridWidth fb.width fb.height tileId).2.2.1
      (tileRect gridWidth fb.width fb.height tileId).2.2.2 T1.triangle x y = true)
    (hvis : ops.lt (fragmentZ ops T1.triangle x y) (fb.depth x y) = true)
    (hge : ops.lt (fragmentZ ops T2.triangle x y) (fragmentZ ops T1.triangle x y) = false) :
    (∀ (tiledTri : TiledTriangle F) (tri : ProjectedTriangle F) (t : TriangleSIMD F)
        (qfx qfy : Int) (fb0 : FrameBuffer F) (k : Fin 4),
        ops.lt (quadZ ops t qfx qfy k) (fb0.depth (quadPixelX qfx k) (quadPixelY qfy k))
            = false →
          (forwardQuad ops (FrameBuffer.ops ops) ShadeFragment tiledTri tri t qfx qfy false
              fb0).depth (quadPixelX qfx k) (quadPixelY qfy k)
            = fb0.depth (quadPixelX qfx k) (quadPixelY qfy k) ∧
          (forwardQuad ops (FrameBuffer.ops ops) ShadeFragment tiledTri tri t qfx qfy false
              fb0).color (quadPixelX qfx k) (quadPixelY qfy k)
            = fb0.color (quadPixelX qfx k) (quadPixelY qfy k)) ∧
      (ProcessBin ops (FrameBuffer.ops ops) ShadeFragment gridWidth tileBins tileId fb).depth x y
        = fragmentZ ops T1.triangle x y ∧
      (ProcessBin ops (FrameBuffer.ops ops) ShadeFragment gridWidth tileBins tileId fb).color x y
        = fragmentColor ops ShadeFragment T1 x y := by
  refine ⟨?_, ?_⟩
  · intro tiledTri tri t qfx qfy fb0 k hlt
    have h := forwardQuad_at_lane ops ShadeFragment tiledTri tri t qfx qfy fb0 k
    have hv : quadVisible ops t qfx qfy fb0.depth k = false := by
      unfold quadVisible
      rw [hlt, Bool.and_false]
    rw [hv] at h
    simpa using h
  · rw [ProcessBin_eq_foldl, hq]
    simp only [List.foldl_cons, List.foldl_nil]
    have h1 := rasterize_forward_at_pixel ops ShadeFragment T1
      (tileRect gridWidth fb.width fb.height tileId).1
      (tileRect gridWidth fb.width fb.height tileId).2.1
      (tileRect gridWidth fb.width fb.height tileId).2.2.1
      (tileRect gridWidth fb.width fb.height tileId).2.2.2 fb x y
    rw [if_pos ⟨hem, hvis⟩, if_pos ⟨hem, hvis⟩] at h1
    have h2 := rasterize_forward_at_pixel ops ShadeFragment T2
      (tileRect gridWidth fb.width fb.height tileId).1
      (tileRect gridWidth fb.width fb.height tileId).2.1
      (tileRect gridWidth fb.width fb.height tileId).2.2.1
      (tileRect gridWidth fb.width fb.height tileId).2.2.2
      (RasterizeTriangle (tileRect gridWidth fb.width fb.height tileId).1
        (tileRect gridWidth fb.width fb.height tileId).2.1
        (tileRect gridWidth fb.width fb.height tileId).2.2.1
        (tileRect gridWidth fb.width fb.height tileId).2.2.2 T1.triangle
        (TriangleSIMD.Load T1.triangle)
        (forwardQuad ops (FrameBuffer.ops ops) ShadeFragment T1 T1.triangle
          (TriangleSIMD.Load T1.triangle)) fb) x y
    rw [h1.1, h1.2, hge] at h2
    simpa using h2

theorem forward_depth_test_keeps_earlier_witness :
    binAt [[(⟨triS1AtDepth (3 / 10), 0, 0⟩ : TiledTriangle ℚ), ⟨triS1AtDepth (7 / 10), 0, 1⟩]] 0
        = [⟨triS1AtDepth (3 / 10), 0, 0⟩, ⟨triS1AtDepth (7 / 10), 0, 1⟩] ∧
      ratOps.lt (fragmentZ ratOps (triS1AtDepth (3 / 10)) 1 1)
        ((clearedFrameBuffer 4 4).depth 1 1) = true ∧
      ratOps.lt (fragmentZ ratOps (triS1AtDepth (7 / 10)) 1 1)
        (fragmentZ ratOps (triS1AtDepth (3 / 10)) 1 1) = false ∧
      (ProcessBin ratOps (FrameBuffer.ops ratOps) shadeByIndex 1
          [[⟨triS1AtDepth (3 / 10), 0, 0⟩, ⟨triS1AtDepth (7 / 10), 0, 1⟩]] 0
          (clearedFrameBuffer 4 4)).depth 1 1 = fragmentZ ratOps (triS1AtDepth (3 / 10)) 1 1 ∧
      fragmentZ ratOps (triS1AtDepth (3 / 10)) 1 1 = 3 / 10 :=
  ⟨rfl, by decide!, by decide!,
    (forward_depth_test_keeps_earlier ratOps shadeByIndex 1
      [[⟨triS1AtDepth (3 / 10), 0, 0⟩, ⟨triS1AtDepth (7 / 10), 0, 1⟩]] 0
      (clearedFrameBuffer 4 4) ⟨triS1AtDepth (3 / 10), 0, 0⟩ ⟨triS1AtDepth (7 / 10), 0, 1⟩ 1 1
      rfl (by decide!) (by decide!) (by decide!)).2.1,
    by decide!⟩

/-! ## Tile grid and binning -/

theorem TileSize_eq : TileSize = 32 := by decide

theorem land_tileMask (w : Int) (h : 0 ≤ w) : Int.land w (TileSize - 1) = w % 32 := by
  rw [TileSize_eq]
  obtain ⟨n, rfl⟩ := Int.eq_ofNat_of_zero_le h
  show ((n &&& 31 : Nat) : Int) = _
  have := Nat.and_pow_two_sub_one_eq_mod n 5
  norm_num at this
  rw [this]
  norm_cast

/-- The grid dimension is the rounded-up quotient `⌈size / 32⌉`. -/
theorem gridDim_eq (size : Int) (h : 0 ≤ size) : gridDim size = (size + 31) / 32 := by
  unfold gridDim
  rw [land_tileMask size h, Int.shiftRight_eq_div_pow]
  simp only [Log2TileSize]
  norm_num
  split <;> omega

/-- The tile range of `BinTriangles` in closed form. -/
theorem binTileRange_eq {F : Type} (width height : Int) (tri : ProjectedTriangle F) :
    binTileRange width height tri =
      (max 0 tri.pixelBounds.1 / 32, min (width - 1) tri.pixelBounds.2.1 / 32,
        max 0 tri.pixelBounds.2.2.1 / 32, min (height - 1) tri.pixelBounds.2.2.2 / 32) := by
  simp only [binTileRange, ProjectedTriangle.pixelBounds, Int.shiftRight_eq_div_pow,
    Log2TileSize]
  norm_num

theorem mem_binVisits {F : Type} (width height : Int) (tri : ProjectedTriangle F)
    (tileX tileY : Int) :
    (tileX, tileY) ∈ binVisits width height tri ↔
      (max 0 tri.pixelBounds.1 / 32 ≤ tileX ∧ tileX ≤ min (width - 1) tri.pixelBounds.2.1 / 32) ∧
      (max 0 tri.pixelBounds.2.2.1 / 32 ≤ tileY ∧
        tileY ≤ min (height - 1) tri.pixelBounds.2.2.2 / 32) := by
  unfold binVisits
  rw [binTileRange_eq]
  simp only [List.mem_flatMap, List.mem_map, Prod.mk.injEq]
  constructor
  · rintro ⟨ty, hty, tx, htx, rfl, rfl⟩
    rw [mem_loopIndices 1 _ (by decide) _ _ _ le_rfl] at hty htx
    obtain ⟨n, hn, hle⟩ := hty
    obtain ⟨m, hm, hle2⟩ := htx
    omega
  · rintro ⟨⟨h1, h2⟩, h3, h4⟩
    refine ⟨tileY, ?_, tileX, ?_, rfl, rfl⟩
    · rw [mem_loopIndices 1 _ (by decide) _ _ _ le_rfl]
      exact ⟨(tileY - max 0 tri.pixelBounds.2.2.1 / 32).toNat, by omega, h4⟩
    · rw [mem_loopIndices 1 _ (by decide) _ _ _ le_rfl]
      exact ⟨(tileX - max 0 tri.pixelBounds.1 / 32).toNat, by omega, h2⟩

theorem foldl_flatMap_eq {A B S : Type} (f : S → B → S) (g : A → List B) (l : List A) (s : S) :
    (l.flatMap g).foldl f s = l.foldl (fun s a => (g a).foldl f s) s := by
  induction l generalizing s with
  | nil => rfl
  | cons a l ih => rw [List.flatMap_cons, List.foldl_append, ih, List.foldl_cons]

theorem binRow_eq_foldl {F : Type} (gridWidth threadId i : Int) (tri : ProjectedTriangle F)
    (tileY hi : Int) (fuel : Nat) (lo : Int) (bins : List (List (TiledTriangle F))) :
    forLoop 1 hi (fun tileX bins => binTile gridWidth threadId i tri tileY tileX bins)
        fuel lo bins =
      ((loopIndices 1 hi fuel lo).map fun tileX => (tileX, tileY)).foldl
        (fun bins v => binTile gridWidth threadId i tri v.2 v.1 bins) bins := by
  rw [forLoop_eq_foldl, List.foldl_map]

/-- The two nested tile loops of `BinTriangles` fold the guarded `push_back` over the
visited tiles. -/
theorem binTriangle_eq_foldl {F : Type} (width height gridWidth threadId i : Int)
    (tri : ProjectedTriangle F) (bins : List (List (TiledTriangle F))) :
    binTriangle width height gridWidth threadId i tri bins =
      (binVisits width height tri).foldl
        (fun bins v => binTile gridWidth threadId i tri v.2 v.1 bins) bins := by
  unfold binTriangle binVisits
  generalize binTileRange width height tri = r
  obtain ⟨tileMinX, tileMaxX, tileMinY, tileMaxY⟩ := r
  simp only
  rw [forLoop_eq_foldl, foldl_flatMap_eq]
  congr 1
  funext bins tileY
  exact binRow_eq_foldl _ _ _ _ _ _ _ _ _

theorem pushBack_length {F : Type} (bins : List (List (TiledTriangle F))) (tileId : Int)
    (e : TiledTriangle F) : (pushBack bins tileId e).length = bins.length := by
  simp [pushBack]

theorem binTile_length {F : Type} (gridWidth threadId i : Int) (tri : ProjectedTriangle F)
    (tileY tileX : Int) (bins : List (List (TiledTriangle F))) :
    (binTile gridWidth threadId i tri tileY tileX bins).length = bins.length := by
  unfold binTile
  simp only
  split
  · exact pushBack_length _ _ _
  · rfl

theorem foldl_binTile_length {F : Type} (gridWidth threadId i : Int) (tri : ProjectedTriangle F)
    (l : List (Int × Int)) (bins : List (List (TiledTriangle F))) :
    (l.foldl (fun bins v => binTile gridWidth threadId i tri v.2 v.1 bins) bins).length
      = bins.length := by
  induction l generalizing bins with
  | nil => rfl
  | cons a l ih => rw [List.foldl_cons, ih, binTile_length]

theorem binTriangle_length {F : Type} (width height gridWidth threadId i : Int)
    (tri : ProjectedTriangle F) (bins : List (List (TiledTriangle F))) :
    (binTriangle width height gridWidth threadId i tri bins).length = bins.length := by
  rw [binTriangle_eq_foldl, foldl_binTile_length]

theorem binTrianglesFrom_length {F : Type} (width height gridWidth threadId : Int)
    (tris : List (ProjectedTriangle F)) (i : Int) (bins : List (List (TiledTriangle F))) :
    (binTrianglesFrom width height gridWidth threadId i tris bins).length = bins.length := by
  induction tris generalizing i bins with
  | nil => rfl
  | cons tri rest ih => rw [binTrianglesFrom, ih, binTriangle_length]

/-- Binning never changes the number of local bins. -/
theorem BinTriangles_length {F : Type} (width height gridWidth : Int)
    (tris : List (ProjectedTriangle F)) (threadId : Nat) (bins : List (List (TiledTriangle F))) :
    (BinTriangles width height gridWidth tris threadId bins).length = bins.length :=
  binTrianglesFrom_length _ _ _ _ _ _ _

/-- Every tile visited on a framebuffer of positive size lies in the grid. -/
theorem binVisits_in_grid {F : Type} (width height : Int) (hW : 1 ≤ width) (hH : 1 ≤ height)
    (tri : ProjectedTriangle F) (tileX tileY : Int)
    (hv : (tileX, tileY) ∈ binVisits width height tri) :
    0 ≤ tileX ∧ tileX < gridDim width ∧ 0 ≤ tileY ∧ tileY < gridDim height ∧
      0 ≤ tileY * gridDim width + tileX ∧
      tileY * gridDim width + tileX < gridDim width * gridDim height := by
  rw [mem_binVisits] at hv
  rw [gridDim_eq width (by omega), gridDim_eq height (by omega)]
  generalize tri.pixelBounds = pb at hv
  obtain ⟨bx0, bx1, by0, by1⟩ := pb
  simp only at hv
  obtain ⟨⟨h1, h2⟩, h3, h4⟩ := hv
  have hx0 : 0 ≤ tileX := by omega
  have hx1 : tileX < (width + 31) / 32 := by omega
  have hy0 : 0 ≤ tileY := by omega
  have hy1 : tileY < (height + 31) / 32 := by omega
  refine ⟨hx0, hx1, hy0, hy1, ?_, ?_⟩
  · have : 0 ≤ tileY * ((width + 31) / 32) := mul_nonneg hy0 (by omega)
    omega
  · have h5 : tileY * ((width + 31) / 32) ≤ ((height + 31) / 32 - 1) * ((width + 31) / 32) :=
      mul_le_mul_of_nonneg_right (by omega) (by omega)
    have h6 : ((height + 31) / 32 - 1) * ((width + 31) / 32) =
        (width + 31) / 32 * ((height + 31) / 32) - (width + 31) / 32 := by ring
    omega

/-- C10. Tiles outside the grid are never addressed: after `SetFrameBuffer` on a
framebuffer of width and height at least 1, every tile `(tileX, tileY)` that
`BinTriangles` visits for any triangle satisfies `0 <= tileX < gridWidth` and
`0 <= tileY < gridHeight`; `tileId = tileY*gridWidth + tileX` is a valid index of the
global bins and of every thread's local bins, and the range guard before `push_back`
accepts it. -/
theorem BinTriangles_never_leaves_grid {F : Type} (ops : FloatOps F) (Cores : Nat)
    (fb : FrameBuffer F) (r : TiledRendererAlgorithm F (FrameBuffer F))
    (hr : r = TiledRendererAlgorithm.SetFrameBuffer ops (FrameBuffer.ops ops) Cores fb)
    (hW : 1 ≤ fb.width) (hH : 1 ≤ fb.height)
    (tri : ProjectedTriangle F) (tileX tileY : Int)
    (hv : (tileX, tileY) ∈ binVisits ((FrameBuffer.ops ops).GetWidth r.frameBuffer)
      ((FrameBuffer.ops ops).GetHeight r.frameBuffer) tri) :
    (0 ≤ tileX ∧ tileX < r.gridWidth ∧ 0 ≤ tileY ∧ tileY < r.gridHeight) ∧
      (0 ≤ tileY * r.gridWidth + tileX ∧
        tileY * r.gridWidth + tileX < (r.tileBins.length : Int)) ∧
      (∀ threadId : Nat, threadId < Cores →
        ∀ (tris : List (ProjectedTriangle F)) (i : Int),
          binTile r.gridWidth threadId i tri tileY tileX
              (BinTriangles ((FrameBuffer.ops ops).GetWidth r.frameBuffer)
                ((FrameBuffer.ops ops).GetHeight r.frameBuffer) r.gridWidth tris threadId
                (r.localTileBins.getD threadId [])) =
            pushBack
              (BinTriangles ((FrameBuffer.ops ops).GetWidth r.frameBuffer)
                ((FrameBuffer.ops ops).GetHeight r.frameBuffer) r.gridWidth tris threadId
                (r.localTileBins.getD threadId []))
              (tileY * r.gridWidth + tileX) ⟨tri, threadId, i⟩) := by
  subst hr
  have hw : (FrameBuffer.ops ops).GetWidth
      (TiledRendererAlgorithm.SetFrameBuffer ops (FrameBuffer.ops ops) Cores fb).frameBuffer
      = fb.width := rfl
  have hh : (FrameBuffer.ops ops).GetHeight
      (TiledRendererAlgorithm.SetFrameBuffer ops (FrameBuffer.ops ops) Cores fb).frameBuffer
      = fb.height := rfl
  rw [hw, hh] at hv ⊢
  have hg := binVisits_in_grid fb.width fb.height hW hH tri tileX tileY hv
  have hgw : (TiledRendererAlgorithm.SetFrameBuffer ops (FrameBuffer.ops ops) Cores
      fb).gridWidth = gridDim fb.width := rfl
  have hgh : (TiledRendererAlgorithm.SetFrameBuffer ops (FrameBuffer.ops ops) Cores
      fb).gridHeight = gridDim fb.height := rfl
  have hn : 0 ≤ gridDim fb.width * gridDim fb.height := by
    have := hg.2.2.2.2.1
    have := hg.2.2.2.2.2
    omega
  have hlen : ((TiledRendererAlgorithm.SetFrameBuffer ops (FrameBuffer.ops ops) Cores
      fb).tileBins.length : Int) = gridDim fb.width * gridDim fb.height := by
    show ((List.replicate (gridDim fb.width * gridDim fb.height).toNat
      ([] : List (TiledTriangle F))).length : Int) = _
    rw [List.length_replicate]
    omega
  rw [hgw, hgh, hlen]
  refine ⟨⟨hg.1, hg.2.1, hg.2.2.1, hg.2.2.2.1⟩, ⟨hg.2.2.2.2.1, hg.2.2.2.2.2⟩, ?_⟩
  intro threadId hth tris i
  have hloc : ((TiledRendererAlgorithm.SetFrameBuffer ops (FrameBuffer.ops ops) Cores
      fb).localTileBins.getD threadId []).length
      = (gridDim fb.width * gridDim fb.height).toNat := by
    show ((List.replicate Cores (List.replicate (gridDim fb.width * gridDim fb.height).toNat
      ([] : List (TiledTriangle F)))).getD threadId []).length = _
    simp [List.getElem?_replicate, hth]
  unfold binTile
  simp only
  rw [if_pos]
  rw [BinTriangles_length, hloc]
  have := hg.2.2.2.2.1
  have := hg.2.2.2.2.2
  omega

/-! ## Contents of the local bins -/

theorem bboxMeetsRect_iff {F : Type} (tri : ProjectedTriangle F) (x0 y0 x1 y1 : Int) :
    bboxMeetsRect tri x0 y0 x1 y1 ↔
      (max tri.pixelBounds.1 x0 ≤ min tri.pixelBounds.2.1 x1 ∧
        max tri.pixelBounds.2.2.1 y0 ≤ min tri.pixelBounds.2.2.2 y1) := by
  unfold bboxMeetsRect
  constructor
  · rintro ⟨x, y, h1, h2, h3, h4⟩
    omega
  · rintro ⟨h1, h2⟩
    exact ⟨max tri.pixelBounds.1 x0, max tri.pixelBounds.2.2.1 y0, by omega, by omega,
      by omega, by omega⟩

theorem pushBack_getD {F : Type} (bins : List (List (TiledTriangle F))) (tileId : Int)
    (e : TiledTriangle F) (t : Nat) (ht : t < bins.length) :
    (pushBack bins tileId e).getD t [] =
      if tileId.toNat = t then bins.getD t [] ++ [e] else bins.getD t [] := by
  unfold pushBack
  by_cases h : tileId.toNat = t
  · subst h
    simp [List.getElem?_set, ht]
  · simp [List.getElem?_set, h]

theorem binTile_getD {F : Type} (gridWidth threadId i : Int) (tri : ProjectedTriangle F)
    (tileY tileX : Int) (bins : List (List (TiledTriangle F))) (t : Nat) (ht : t < bins.length) :
    (binTile gridWidth threadId i tri tileY tileX bins).getD t [] =
      if tileY * gridWidth + tileX = (t : Int) then
        bins.getD t [] ++ [⟨tri, threadId, i⟩]
      else bins.getD t [] := by
  unfold binTile
  simp only
  split
  · rename_i hg
    rw [pushBack_getD _ _ _ _ ht]
    by_cases h : tileY * gridWidth + tileX = (t : Int)
    · rw [if_pos h, if_pos (by omega)]
    · rw [if_neg h, if_neg (by omega)]
  · rename_i hg
    rw [if_neg]
    omega

theorem foldl_binTile_getD {F : Type} (gridWidth threadId i : Int) (tri : ProjectedTriangle F)
    (l : List (Int × Int)) (bins : List (List (TiledTriangle F))) (t : Nat)
    (ht : t < bins.length) :
    (l.foldl (fun bins v => binTile gridWidth threadId i tri v.2 v.1 bins) bins).getD t [] =
      bins.getD t [] ++
        (l.filter (fun v => decide (v.2 * gridWidth + v.1 = (t : Int)))).map
          (fun _ => ({ triangle := tri, threadId := threadId, triangleIndex := i } :
            TiledTriangle F)) := by
  induction l generalizing bins with
  | nil => simp
  | cons a l ih =>
    rw [List.foldl_cons, ih _ (by rw [binTile_length]; exact ht), binTile_getD _ _ _ _ _ _ _ _ ht]
    by_cases h : a.2 * gridWidth + a.1 = (t : Int)
    · simp [h, List.filter_cons]
    · simp [h, List.filter_cons]

/-- The local bin `tileId` after binning: what it held before, followed by the
entries of the binned triangles in index order. -/
theorem binTrianglesFrom_getD {F : Type} (width height gridWidth threadId : Int)
    (tris : List (ProjectedTriangle F)) (i : Int) (bins : List (List (TiledTriangle F)))
    (t : Nat) (ht : t < bins.length) :
    (binTrianglesFrom width height gridWidth threadId i tris bins).getD t [] =
      bins.getD t [] ++ binEntries width height gridWidth threadId i tris t := by
  induction tris generalizing i bins with
  | nil => simp [binTrianglesFrom, binEntries]
  | cons tri rest ih =>
    rw [binTrianglesFrom, ih _ _ (by rw [binTriangle_length]; exact ht), binTriangle_eq_foldl,
      foldl_binTile_getD _ _ _ _ _ _ _ ht, binEntries, List.append_assoc]

/-- Membership in the appended entries: entry `(tris[j], threadId, i + j)` is present
exactly when triangle `j` visits a tile whose index is `tileId`. -/
theorem mem_binEntries {F : Type} (width height gridWidth threadId : Int)
    (tris : List (ProjectedTriangle F)) (i : Int) (t : Nat) (e : TiledTriangle F) :
    e ∈ binEntries width height gridWidth threadId i tris t ↔
      ∃ (j : Nat) (tri : ProjectedTriangle F), tris[j]? = some tri ∧
        e = ⟨tri, threadId, i + j⟩ ∧
        ∃ v ∈ binVisits width height tri, v.2 * gridWidth + v.1 = (t : Int) := by
  induction tris generalizing i with
  | nil => simp [binEntries]
  | cons tri rest ih =>
    rw [binEntries, List.mem_append, ih]
    constructor
    · rintro (h | ⟨j, tri2, hj, he, hv⟩)
      · simp only [List.mem_map, List.mem_filter, decide_eq_true_eq] at h
        obtain ⟨v, ⟨hv, hid⟩, rfl⟩ := h
        exact ⟨0, tri, by simp, by simp, v, hv, hid⟩
      · exact ⟨j + 1, tri2, by simpa using hj, by rw [he]; congr 1; push_cast; ring, hv⟩
    · rintro ⟨j, tri2, hj, he, v, hv, hid⟩
      cases j with
      | zero =>
        left
        simp only [List.getElem?_cons_zero, Option.some.injEq] at hj
        subst hj
        simp only [List.mem_map, List.mem_filter, decide_eq_true_eq]
        exact ⟨v, ⟨hv, hid⟩, by rw [he]; simp⟩
      | succ j =>
        right
        exact ⟨j, tri2, by simpa using hj, by rw [he]; congr 1; push_cast; ring, v, hv, hid⟩

theorem tileId_injective (gw a b y1 y2 : Int) (ha : 0 ≤ a ∧ a < gw) (hb : 0 ≤ b ∧ b < gw)
    (h : y1 * gw + a = y2 * gw + b) : a = b ∧ y1 = y2 := by
  rcases lt_trichotomy y1 y2 with hlt | heq | hgt
  · have h1 : (y1 + 1) * gw ≤ y2 * gw := mul_le_mul_of_nonneg_right (by omega) (by omega)
    have h2 : (y1 + 1) * gw = y1 * gw + gw := by ring
    omega
  · subst heq
    exact ⟨by omega, rfl⟩
  · have h1 : (y2 + 1) * gw ≤ y1 * gw := mul_le_mul_of_nonneg_right (by omega) (by omega)
    have h2 : (y2 + 1) * gw = y2 * gw + gw := by ring
    omega

theorem shiftRight4_mono {a b : Int} (h : a ≤ b) : a >>> (4 : Nat) ≤ b >>> (4 : Nat) := by
  rw [Int.shiftRight_eq_div_pow, Int.shiftRight_eq_div_pow]
  norm_num
  omega

theorem pixelBounds_ordered {F : Type} (tri : ProjectedTriangle F) :
    tri.pixelBounds.1 ≤ tri.pixelBounds.2.1 ∧ tri.pixelBounds.2.2.1 ≤ tri.pixelBounds.2.2.2 := by
  unfold ProjectedTriangle.pixelBounds
  exact ⟨shiftRight4_mono (by omega), shiftRight4_mono (by omega)⟩

/-- On a framebuffer of positive size, a tile of the grid is visited for a triangle
exactly when the bounding box meets the full 32 x 32 rectangle of the tile. -/
theorem mem_binVisits_iff_meets {F : Type} (width height : Int) (hW : 1 ≤ width)
    (hH : 1 ≤ height) (tri : ProjectedTriangle F) (tileX tileY : Int)
    (hx : 0 ≤ tileX ∧ tileX < gridDim width) (hy : 0 ≤ tileY ∧ tileY < gridDim height) :
    (tileX, tileY) ∈ binVisits width height tri ↔
      bboxMeetsRect tri (32 * tileX) (32 * tileY) (32 * tileX + 31) (32 * tileY + 31) := by
  rw [mem_binVisits, bboxMeetsRect_iff]
  rw [gridDim_eq width (by omega)] at hx
  rw [gridDim_eq height (by omega)] at hy
  have hb1 : tri.pixelBounds.1 ≤ tri.pixelBounds.2.1 := (pixelBounds_ordered tri).1
  have hb2 : tri.pixelBounds.2.2.1 ≤ tri.pixelBounds.2.2.2 := (pixelBounds_ordered tri).2
  generalize tri.pixelBounds = pb at hb1 hb2 ⊢
  obtain ⟨bx0, bx1, by0, by1⟩ := pb
  simp only at hb1 hb2 ⊢
  omega

/-- C7 (amended). After `BinTriangles` for a thread on a `width x height` framebuffer
(both at least 1, bins empty on entry), triangle `i` of the thread is in the local bin
of the grid tile `(tileX, tileY)` if and only if its integer pixel bounding box meets
the full 32 x 32 rectangle `[32 tileX, 32 tileX + 31] x [32 tileY, 32 tileY + 31]` of
that tile, which is not clipped to the framebuffer. -/
theorem BinTriangles_bin_iff_nominal_tile {F : Type} (width height : Int)
    (hW : 1 ≤ width) (hH : 1 ≤ height) (tris : List (ProjectedTriangle F)) (threadId : Nat)
    (i : Nat) (tri : ProjectedTriangle F) (hi : tris[i]? = some tri) (tileX tileY : Int)
    (hx : 0 ≤ tileX ∧ tileX < gridDim width) (hy : 0 ≤ tileY ∧ tileY < gridDim height) :
    (⟨tri, threadId, i⟩ : TiledTriangle F) ∈
        (BinTriangles width height (gridDim width) tris threadId
          (List.replicate (gridDim width * gridDim height).toNat [])).getD
          (tileY * gridDim width + tileX).toNat [] ↔
      bboxMeetsRect tri (32 * tileX) (32 * tileY) (32 * tileX + 31) (32 * tileY + 31) := by
  have hid0 : 0 ≤ tileY * gridDim width + tileX := by
    have : 0 ≤ tileY * gridDim width := mul_nonneg hy.1 (by omega)
    omega
  have hid1 : tileY * gridDim width + tileX < gridDim width * gridDim height := by
    have h5 : tileY * gridDim width ≤ (gridDim height - 1) * gridDim width :=
      mul_le_mul_of_nonneg_right (by omega) (by omega)
    have h6 : (gridDim height - 1) * gridDim width =
        gridDim width * gridDim height - gridDim width := by ring
    omega
  unfold BinTriangles
  rw [binTrianglesFrom_getD _ _ _ _ _ _ _ _ (by rw [List.length_replicate]; omega)]
  have hempty : (List.replicate (gridDim width * gridDim height).toNat
      ([] : List (TiledTriangle F))).getD (tileY * gridDim width + tileX).toNat [] = [] := by
    rw [List.getD_eq_getElem?_getD, List.getElem?_replicate]
    split <;> rfl
  rw [hempty, List.nil_append, mem_binEntries,
    ← mem_binVisits_iff_meets width height hW hH tri tileX tileY hx hy]
  constructor
  · rintro ⟨j, tri2, hj, he, ⟨vx, vy⟩, hv, hid⟩
    simp only [TiledTriangle.mk.injEq] at he
    obtain ⟨rfl, _, hij⟩ := he
    have hg := binVisits_in_grid width height hW hH tri vx vy hv
    simp only at hid
    rw [Int.toNat_of_nonneg hid0] at hid
    obtain ⟨rfl, rfl⟩ := tileId_injective (gridDim width) vx tileX vy tileY
      ⟨hg.1, hg.2.1⟩ hx hid
    exact hv
  · intro hv
    exact ⟨i, tri, hi, by simp, (tileX, tileY), hv, by
      simp only
      rw [Int.toNat_of_nonneg hid0]⟩

theorem BinTriangles_bin_iff_nominal_tile_witness :
    ((1 : Int) ≤ 64) ∧ [triS1][0]? = some triS1 ∧
      ((0 : Int) ≤ 1 ∧ (1 : Int) < gridDim 64) ∧
      ((⟨triS1, (0 : Nat), (0 : Nat)⟩ : TiledTriangle ℚ) ∈
          (BinTriangles 64 64 (gridDim 64) [triS1] 0
            (List.replicate (gridDim 64 * gridDim 64).toNat [])).getD
            (1 * gridDim 64 + 1).toNat [] ↔
        bboxMeetsRect triS1 (32 * 1) (32 * 1) (32 * 1 + 31) (32 * 1 + 31)) :=
  ⟨by decide, rfl, by decide,
    BinTriangles_bin_iff_nominal_tile 64 64 (by decide) (by decide) [triS1] 0 0 triS1 rfl 1 1
      (by decide) (by decide)⟩

/-- Counterexample to C7 as stated. On a 40 x 32 framebuffer the grid is 2 x 1 and tile
(1, 0) has the pixel rectangle `[32, 40) x [0, 32)` inside the framebuffer. The
triangle `triOffscreen` has the pixel bounding box `[50, 60] x [1, 10]`, which does
not meet that rectangle, yet `BinTriangles` puts triangle 0 of thread 0 into the local
bin of tile (1, 0). -/
theorem BinTriangles_bins_offscreen_triangle :
    triOffscreen.pixelBounds = (50, 60, 1, 10) ∧
      gridDim 40 = 2 ∧ gridDim 32 = 1 ∧
      tileRect (gridDim 40) 40 32 1 = (32, 0, 8, 32) ∧
      ((BinTriangles 40 32 (gridDim 40) [triOffscreen] 0
          (List.replicate (gridDim 40 * gridDim 32).toNat [])).getD 1 []).map
          (fun e => (e.threadId, e.triangleIndex)) = [(0, 0)] ∧
      ¬ bboxMeetsRect triOffscreen 32 0 (32 + 8 - 1) (0 + 32 - 1) := by
  refine ⟨by decide!, by decide!, by decide!, by decide!, by decide!, ?_⟩
  rw [bboxMeetsRect_iff]
  decide!

theorem BinTriangles_never_leaves_grid_witness :
    ((1 : Int) ≤ (clearedFrameBuffer 64 64).width) ∧
      ((1 : Int) ≤ (clearedFrameBuffer 64 64).height) ∧
      ((1 : Int), (1 : Int)) ∈ binVisits 64 64 triS1 ∧
      ((0 : Int) ≤ 1 ∧
        (1 : Int) < (TiledRendererAlgorithm.SetFrameBuffer ratOps (FrameBuffer.ops ratOps) 2
          (clearedFrameBuffer 64 64)).gridWidth ∧
        (0 : Int) ≤ 1 ∧
        (1 : Int) < (TiledRendererAlgorithm.SetFrameBuffer ratOps (FrameBuffer.ops ratOps) 2
          (clearedFrameBuffer 64 64)).gridHeight) :=
  ⟨by decide, by decide, by decide!,
    (BinTriangles_never_leaves_grid ratOps 2 (clearedFrameBuffer 64 64) _ rfl (by decide)
      (by decide) triS1 1 1 (by decide!)).1⟩

/-! ## Merging the local bins -/

/-- A loop counting from 0 to `n - 1` visits `0, 1, ..., n - 1`. -/
theorem loopIndices_count (fuel : Nat) (lo : Int) :
    loopIndices 1 (lo + fuel - 1) fuel lo = (List.range fuel).map fun (i : Nat) => lo + (i : Int) := by
  induction fuel generalizing lo with
  | zero => rfl
  | succ n ih =>
    rw [loopIndices, if_pos (by push_cast; omega), List.range_succ_eq_map, List.map_cons,
      List.map_map]
    have h := ih (lo + 1)
    have e : lo + 1 + (n : Int) - 1 = lo + ((n + 1 : Nat) : Int) - 1 := by push_cast; ring
    rw [e] at h
    rw [h]
    simp only [Nat.cast_zero, add_zero, List.cons.injEq, true_and]
    apply List.map_congr_left
    intro i _
    simp only [Function.comp, Nat.succ_eq_add_one]
    push_cast
    ring

theorem loopIndices_upto (n : Nat) :
    loopIndices 1 ((n : Int) - 1) (loopFuel 0 ((n : Int) - 1)) 0 =
      (List.range n).map fun (i : Nat) => (i : Int) := by
  have h := loopIndices_count n 0
  have e : loopFuel 0 ((n : Int) - 1) = n := by
    unfold loopFuel
    omega
  rw [e]
  simpa using h

/-- Folding with an invariant a step that changes an observation only at the element
`q` of a duplicate-free list. -/
theorem foldl_obs_single_inv {S A V : Type} [DecidableEq A] (f : S → A → S) (obs : S → V)
    (g : V → V) (q : A) (Inv : S → Prop) (l : List A) (hnd : l.Nodup)
    (hinv : ∀ s a, a ∈ l → Inv s → Inv (f s a))
    (hother : ∀ s a, a ∈ l → a ≠ q → Inv s → obs (f s a) = obs s)
    (hq : q ∈ l → ∀ s, Inv s → obs (f s q) = g (obs s)) (s : S) (hs : Inv s) :
    Inv (l.foldl f s) ∧ obs (l.foldl f s) = if q ∈ l then g (obs s) else obs s := by
  induction l generalizing s with
  | nil => simp [hs]
  | cons a l ih =>
    rw [List.nodup_cons] at hnd
    have ih2 := ih hnd.2 (fun s b hb => hinv s b (List.mem_cons_of_mem _ hb))
      (fun s b hb hne => hother s b (List.mem_cons_of_mem _ hb) hne)
      (fun hm => hq (List.mem_cons_of_mem _ hm)) (f s a)
      (hinv s a (List.mem_cons_self _ _) hs)
    rw [List.foldl_cons]
    refine ⟨ih2.1, ?_⟩
    rw [ih2.2]
    by_cases haq : a = q
    · subst haq
      simp [hnd.1, hq (List.mem_cons_self _ _) s hs]
    · have h1 : obs (f s a) = obs s := hother s a (List.mem_cons_self _ _) haq hs
      have h2 : (q ∈ a :: l) ↔ q ∈ l := by
        rw [List.mem_cons]
        constructor
        · rintro (h | h)
          · exact absurd h.symm haq
          · exact h
        · exact Or.inr
      simp only [h1, h2]

theorem appendLocal_length {F : Type} (loc : List (List (List (TiledTriangle F))))
    (threadId tileId : Int) (tb : List (List (TiledTriangle F))) :
    (appendLocal loc threadId tileId tb).length = tb.length := by
  simp [appendLocal]

theorem appendLocal_getD {F : Type} (loc : List (List (List (TiledTriangle F))))
    (threadId tileId : Int) (tb : List (List (TiledTriangle F))) (t : Nat) (ht : t < tb.length) :
    (appendLocal loc threadId tileId tb).getD t [] =
      if tileId.toNat = t then
        tb.getD t [] ++ (loc.getD threadId.toNat []).getD t []
      else tb.getD t [] := by
  unfold appendLocal
  by_cases h : tileId.toNat = t
  · subst h
    simp [List.getElem?_set, ht]
  · simp [List.getElem?_set, h]

/-- The guarded append of the deferred merge has the same effect on every bin. -/
theorem appendGuarded_spec {F : Type} (loc : List (List (List (TiledTriangle F))))
    (threadId tileId : Int) (tb : List (List (TiledTriangle F))) (htile : 0 ≤ tileId) :
    (if tileId < ((loc.getD threadId.toNat []).length : Int) then
        appendLocal loc threadId tileId tb else tb).length = tb.length ∧
    ∀ t, t < tb.length →
      (if tileId < ((loc.getD threadId.toNat []).length : Int) then
          appendLocal loc threadId tileId tb else tb).getD t [] =
        if tileId.toNat = t then
          tb.getD t [] ++ (loc.getD threadId.toNat []).getD t []
        else tb.getD t [] := by
  split
  · exact ⟨appendLocal_length _ _ _ _, fun t ht => appendLocal_getD _ _ _ _ _ ht⟩
  · rename_i hg
    refine ⟨rfl, fun t _ => ?_⟩
    by_cases h : tileId.toNat = t
    · rw [if_pos h]
      have : (loc.getD threadId.toNat []).getD t [] = [] := by
        apply List.getD_eq_default
        omega
      rw [this, List.append_nil]
    · rw [if_neg h]

/-- One pass of an inner merge loop, for any step that appends the local bin of the
thread to the global bin it is called for: every global bin receives its local bin. -/
theorem mergeThread_getD {F : Type} (loc : List (List (List (TiledTriangle F))))
    (threadId : Int)
    (stp : List (List (TiledTriangle F)) → Int → List (List (TiledTriangle F)))
    (hlen : ∀ tb a, 0 ≤ a → (stp tb a).length = tb.length)
    (hget : ∀ tb a t, 0 ≤ a → t < tb.length →
      (stp tb a).getD t [] =
        if a.toNat = t then tb.getD t [] ++ (loc.getD threadId.toNat []).getD t []
        else tb.getD t [])
    (tb : List (List (TiledTriangle F))) (n : Nat) (hn : tb.length = n)
    (t : Nat) (ht : t < n) :
    (((List.range n).map fun (i : Nat) => (i : Int)).foldl stp tb).length = n ∧
    (((List.range n).map fun (i : Nat) => (i : Int)).foldl stp tb).getD t [] =
      tb.getD t [] ++ (loc.getD threadId.toNat []).getD t [] := by
  have key := foldl_obs_single_inv stp
    (fun tb => tb.getD t [])
    (fun v => v ++ (loc.getD threadId.toNat []).getD t [])
    (t : Int) (fun tb => tb.length = n)
    ((List.range n).map fun (i : Nat) => (i : Int))
    ((List.nodup_range n).map (fun a b h => by simpa using h))
    (fun s a ha hs => by
      simp only [List.mem_map, List.mem_range] at ha
      obtain ⟨i, _, rfl⟩ := ha
      show (stp s (i : Int)).length = n
      rw [hlen _ _ (by omega)]; exact hs)
    (fun s a ha hne hs => by
      have hs2 : s.length = n := hs
      simp only [List.mem_map, List.mem_range] at ha
      obtain ⟨i, _, rfl⟩ := ha
      show (stp s (i : Int)).getD t [] = s.getD t []
      rw [hget _ _ _ (by omega) (by omega), if_neg]
      intro h
      apply hne
      simp at h
      rw [h])
    (fun _ s hs => by
      have hs2 : s.length = n := hs
      show (stp s (t : Int)).getD t [] = _
      rw [hget _ _ _ (by omega) (by omega)]
      simp)
    tb hn
  simp only at key
  refine ⟨key.1, ?_⟩
  rw [key.2, if_pos]
  simp only [List.mem_map, List.mem_range]
  exact ⟨t, ht, rfl⟩

/-- The forward merge: every global bin receives the local bins of the threads
`0, 1, ..., Cores - 1` in this order, each in its own order. -/
theorem mergeBins_getD {F : Type} (Cores : Nat) (loc : List (List (List (TiledTriangle F))))
    (tb : List (List (TiledTriangle F))) (t : Nat) (ht : t < tb.length) :
    (mergeBins Cores loc tb).length = tb.length ∧
    (mergeBins Cores loc tb).getD t [] =
      tb.getD t [] ++ (List.range Cores).flatMap fun th => (loc.getD th []).getD t [] := by
  unfold mergeBins
  rw [forLoop_eq_foldl, loopIndices_upto]
  induction Cores with
  | zero => simp
  | succ c ih =>
    rw [List.range_succ, List.map_append, List.foldl_append, List.flatMap_append]
    simp only [List.map_cons, List.map_nil, List.foldl_cons, List.foldl_nil,
      List.flatMap_cons, List.flatMap_nil, List.append_nil]
    rw [forLoop_eq_foldl, loopIndices_upto, ih.1]
    have h := mergeThread_getD loc (c : Int)
      (fun tb tileId => appendLocal loc (c : Int) tileId tb)
      (fun tb a _ => appendLocal_length _ _ _ _)
      (fun tb a t _ ht => appendLocal_getD _ _ _ _ _ ht)
      _ tb.length ih.1 t ht
    refine ⟨h.1, ?_⟩
    rw [h.2, ih.2, List.append_assoc]
    simp

/-- The deferred merge gives the same bins as the forward merge. -/
theorem mergeBinsDeferred_getD {F : Type} (Cores : Nat)
    (loc : List (List (List (TiledTriangle F))))
    (tb : List (List (TiledTriangle F))) (t : Nat) (ht : t < tb.length) :
    (mergeBinsDeferred Cores loc tb).length = tb.length ∧
    (mergeBinsDeferred Cores loc tb).getD t [] =
      tb.getD t [] ++ (List.range Cores).flatMap fun th => (loc.getD th []).getD t [] := by
  unfold mergeBinsDeferred
  rw [forLoop_eq_foldl, loopIndices_upto]
  induction Cores with
  | zero => simp
  | succ c ih =>
    rw [List.range_succ, List.map_append, List.foldl_append, List.flatMap_append]
    simp only [List.map_cons, List.map_nil, List.foldl_cons, List.foldl_nil,
      List.flatMap_cons, List.flatMap_nil, List.append_nil]
    rw [forLoop_eq_foldl, loopIndices_upto, ih.1]
    have h := mergeThread_getD loc (c : Int)
      (fun tb tileId =>
        if tileId < ((loc.getD (c : Int).toNat []).length : Int) then
          appendLocal loc (c : Int) tileId tb else tb)
      (fun tb a ha => (appendGuarded_spec loc (c : Int) a tb ha).1)
      (fun tb a t ha ht => (appendGuarded_spec loc (c : Int) a tb ha).2 t ht)
      _ tb.length ih.1 t ht
    refine ⟨h.1, ?_⟩
    rw [h.2, ih.2, List.append_assoc]
    simp

/-! ## The state after binning and merging -/

theorem clearBins_length {F : Type} (bins : List (List (TiledTriangle F))) :
    (clearBins bins).length = bins.length := by
  simp [clearBins]

theorem clearBins_getD {F : Type} (bins : List (List (TiledTriangle F))) (t : Nat) :
    (clearBins bins).getD t [] = [] := by
  unfold clearBins
  rw [List.getD_eq_getElem?_getD, List.getElem?_map]
  cases bins[t]? <;> rfl

/-- After the binning pass, the local bins of thread `th` are what `BinTriangles` makes
of them; the other threads do not touch them. -/
theorem binAll_getD {F : Type} (width height gridWidth : Int) (Cores : Nat)
    (input : ProjectedTriangleInput F) (locals : List (List (List (TiledTriangle F))))
    (hlen : locals.length = Cores) (th : Nat) (hth : th < Cores) :
    (binAll width height gridWidth Cores input locals).length = Cores ∧
    (binAll width height gridWidth Cores input locals).getD th [] =
      BinTriangles width height gridWidth (input.triangleBuffer th) th (locals.getD th []) := by
  unfold binAll
  have key := foldl_obs_single_inv
    (fun (locals : List (List (List (TiledTriangle F)))) (threadId : Nat) =>
      locals.set threadId
        (BinTriangles width height gridWidth (input.triangleBuffer threadId) threadId
          (locals.getD threadId [])))
    (fun locals => locals.getD th [])
    (fun v => BinTriangles width height gridWidth (input.triangleBuffer th) th v)
    th (fun locals => locals.length = Cores)
    (List.range Cores) (List.nodup_range Cores)
    (fun s a _ hs => by
      show (s.set a _).length = Cores
      rw [List.length_set]; exact hs)
    (fun s a _ hne _ => by
      show (s.set a _).getD th [] = s.getD th []
      simp [List.getElem?_set, hne])
    (fun _ s hs => by
      have hs2 : s.length = Cores := hs
      show (s.set th _).getD th [] = _
      simp [List.getElem?_set, hs2, hth])
    locals hlen
  simp only at key
  refine ⟨key.1, ?_⟩
  rw [key.2, if_pos (List.mem_range.2 hth)]
/-- The local bins of a thread after the clearing and binning passes of
`RenderProjectedBatch`. -/
theorem binAndMerge_local {F FB : Type} (fbo : FrameBufferOps F FB) (Cores : Nat)
    (self : TiledRendererAlgorithm F FB) (hinv : self.GridInvariant fbo Cores)
    (input : ProjectedTriangleInput F) (th : Nat) (hth : th < Cores) :
    ((self.binAndMerge fbo Cores input).localTileBins.getD th []) =
      BinTriangles (fbo.GetWidth self.frameBuffer) (fbo.GetHeight self.frameBuffer)
        self.gridWidth (input.triangleBuffer th) th
        (List.replicate (self.gridWidth * self.gridHeight).toNat []) := by
  obtain ⟨_, _, _, hc, hl⟩ := hinv
  show (binAll _ _ _ Cores input (self.localTileBins.map clearBins)).getD th [] = _
  rw [(binAll_getD _ _ _ Cores input _ (by rw [List.length_map]; exact hc) th hth).2]
  congr 1
  have hth2 : th < self.localTileBins.length := by omega
  rw [List.getD_eq_getElem?_getD, List.getElem?_map, List.getElem?_eq_getElem hth2]
  simp only [Option.map_some', Option.getD_some]
  have := hl _ (List.getElem_mem hth2)
  unfold clearBins
  rw [← this]
  exact List.map_const' _ _

/-- The merged queue of tile `t` in closed form: the local bins of tile `t`, thread by
thread. -/
theorem binAndMerge_tileBins_getD {F FB : Type} (fbo : FrameBufferOps F FB) (Cores : Nat)
    (self : TiledRendererAlgorithm F FB) (input : ProjectedTriangleInput F) (t : Nat)
    (ht : t < self.tileBins.length) :
    (self.binAndMerge fbo Cores input).tileBins.getD t [] =
      (List.range Cores).flatMap
        (fun th => ((self.binAndMerge fbo Cores input).localTileBins.getD th []).getD t []) := by
  have hcl : t < (clearBins self.tileBins).length := by rw [clearBins_length]; exact ht
  show (mergeBins Cores _ (clearBins self.tileBins)).getD t [] = _
  rw [(mergeBins_getD Cores _ _ t hcl).2, clearBins_getD, List.nil_append]
  rfl

/-- C8. After the merge step of `RenderProjectedBatch`, every global queue
`tileBins[t]` is the concatenation `localTileBins[0][t] ++ localTileBins[1][t] ++ ... ++
localTileBins[Cores-1][t]` of the local bins in thread order, each local bin in its
own order; the merge loop of the deferred renderer, with its extra size guard, gives
the same queue; and every local bin the merge reads exists. -/
theorem merge_concatenates_local_bins {F FB : Type} (fbo : FrameBufferOps F FB) (Cores : Nat)
    (self : TiledRendererAlgorithm F FB) (hinv : self.GridInvariant fbo Cores)
    (input : ProjectedTriangleInput F) (t : Nat) (ht : t < self.tileBins.length) :
    (self.binAndMerge fbo Cores input).tileBins.getD t [] =
        (List.range Cores).flatMap
          (fun th => ((self.binAndMerge fbo Cores input).localTileBins.getD th []).getD t []) ∧
      (mergeBinsDeferred Cores (self.binAndMerge fbo Cores input).localTileBins
          (clearBins self.tileBins)).getD t [] =
        (List.range Cores).flatMap
          (fun th => ((self.binAndMerge fbo Cores input).localTileBins.getD th []).getD t []) ∧
      ∀ th, th < Cores →
        t < ((self.binAndMerge fbo Cores input).localTileBins.getD th []).length := by
  have hcl : t < (clearBins self.tileBins).length := by rw [clearBins_length]; exact ht
  refine ⟨?_, ?_, ?_⟩
  · exact binAndMerge_tileBins_getD fbo Cores self input t ht
  · rw [(mergeBinsDeferred_getD Cores _ _ t hcl).2, clearBins_getD, List.nil_append]
  · intro th hth
    rw [binAndMerge_local fbo Cores self hinv input th hth, BinTriangles_length,
      List.length_replicate]
    obtain ⟨_, _, h3, _, _⟩ := hinv
    omega

/-- The state `SetFrameBuffer` builds has the grid shape. -/
theorem SetFrameBuffer_GridInvariant {F : Type} (ops : FloatOps F) (Cores : Nat)
    (fb : FrameBuffer F) :
    (TiledRendererAlgorithm.SetFrameBuffer ops (FrameBuffer.ops ops) Cores fb).GridInvariant
      (FrameBuffer.ops ops) Cores := by
  refine ⟨rfl, rfl, ?_, ?_, ?_⟩
  · exact List.length_replicate _ _
  · exact List.length_replicate _ _
  · intro bins hb
    rw [List.eq_of_mem_replicate hb]
    exact List.length_replicate _ _

theorem merge_concatenates_local_bins_witness :
    (TiledRendererAlgorithm.SetFrameBuffer ratOps (FrameBuffer.ops ratOps) 2
        (clearedFrameBuffer 64 64)).GridInvariant (FrameBuffer.ops ratOps) 2 ∧
      3 < (TiledRendererAlgorithm.SetFrameBuffer ratOps (FrameBuffer.ops ratOps) 2
        (clearedFrameBuffer 64 64)).tileBins.length ∧
      ((TiledRendererAlgorithm.SetFrameBuffer ratOps (FrameBuffer.ops ratOps) 2
          (clearedFrameBuffer 64 64)).binAndMerge (FrameBuffer.ops ratOps) 2
          inputTwoThreads).tileBins.getD 3 [] =
        (List.range 2).flatMap
          (fun th => (((TiledRendererAlgorithm.SetFrameBuffer ratOps (FrameBuffer.ops ratOps) 2
            (clearedFrameBuffer 64 64)).binAndMerge (FrameBuffer.ops ratOps) 2
            inputTwoThreads).localTileBins.getD th []).getD 3 []) :=
  ⟨SetFrameBuffer_GridInvariant ratOps 2 (clearedFrameBuffer 64 64), by decide!,
    (merge_concatenates_local_bins (FrameBuffer.ops ratOps) 2 _
      (SetFrameBuffer_GridInvariant ratOps 2 (clearedFrameBuffer 64 64)) inputTwoThreads 3
      (by decide!)).1⟩

/-! ## Order of the merged queues -/

theorem binVisits_nodup {F : Type} (width height : Int) (tri : ProjectedTriangle F) :
    (binVisits width height tri).Nodup := by
  unfold binVisits
  generalize binTileRange width height tri = r
  obtain ⟨tileMinX, tileMaxX, tileMinY, tileMaxY⟩ := r
  simp only
  rw [List.nodup_flatMap]
  constructor
  · intro ty _
    apply List.Nodup.map
    · intro a b hab
      simpa using hab
    · exact loopIndices_nodup 1 tileMaxX (by decide) _ _
  · refine (loopIndices_pairwise 1 tileMaxY (by decide) _ _).imp ?_
    intro a b hab
    rw [Function.onFun, List.disjoint_left]
    intro q hq1 hq2
    simp only [List.mem_map] at hq1 hq2
    obtain ⟨_, _, rfl⟩ := hq1
    obtain ⟨_, _, h2⟩ := hq2
    simp only [Prod.mk.injEq] at h2
    omega

theorem filter_length_le_one {A : Type} (p : A → Bool) (l : List A) (hnd : l.Nodup)
    (huniq : ∀ a ∈ l, ∀ b ∈ l, p a = true → p b = true → a = b) :
    (l.filter p).length ≤ 1 := by
  induction l with
  | nil => simp
  | cons a l ih =>
    rw [List.nodup_cons] at hnd
    have ih2 := ih hnd.2 (fun x hx y hy => huniq x (List.mem_cons_of_mem _ hx) y
      (List.mem_cons_of_mem _ hy))
    by_cases hpa : p a = true
    · have hnone : l.filter p = [] := by
        rw [List.filter_eq_nil_iff]
        intro b hb hpb
        have := huniq a (List.mem_cons_self _ _) b (List.mem_cons_of_mem _ hb) hpa hpb
        subst this
        exact hnd.1 hb
      rw [List.filter_cons_of_pos hpa, hnone]
      simp
    · rw [List.filter_cons_of_neg hpa]
      exact ih2

/-- On a framebuffer of positive size a triangle enters a bin at most once. -/
theorem binVisits_filter_length {F : Type} (width height : Int) (hW : 1 ≤ width)
    (hH : 1 ≤ height) (tri : ProjectedTriangle F) (t : Nat) :
    ((binVisits width height tri).filter
      (fun v => decide (v.2 * gridDim width + v.1 = (t : Int)))).length ≤ 1 := by
  apply filter_length_le_one _ _ (binVisits_nodup width height tri)
  rintro ⟨ax, ay⟩ ha ⟨bx, b_y⟩ hb hpa hpb
  simp only [decide_eq_true_eq] at hpa hpb
  have ga := binVisits_in_grid width height hW hH tri ax ay ha
  have gb := binVisits_in_grid width height hW hH tri bx b_y hb
  obtain ⟨h1, h2⟩ := tileId_injective (gridDim width) ax bx ay b_y ⟨ga.1, ga.2.1⟩
    ⟨gb.1, gb.2.1⟩ (by rw [hpa, hpb])
  rw [h1, h2]

theorem binEntries_origin {F : Type} (width height gridWidth threadId : Int)
    (tris : List (ProjectedTriangle F)) (i : Int) (t : Nat) (e : TiledTriangle F)
    (he : e ∈ binEntries width height gridWidth threadId i tris t) :
    e.threadId = threadId ∧ i ≤ e.triangleIndex := by
  rw [mem_binEntries] at he
  obtain ⟨j, tri, _, rfl, _⟩ := he
  simp

/-- The entries one thread appends to a bin have strictly increasing triangle index. -/
theorem binEntries_pairwise {F : Type} (width height : Int) (hW : 1 ≤ width) (hH : 1 ≤ height)
    (threadId : Int) (tris : List (ProjectedTriangle F)) (i : Int) (t : Nat) :
    (binEntries width height (gridDim width) threadId i tris t).Pairwise
      (fun a b => a.triangleIndex < b.triangleIndex) := by
  induction tris generalizing i with
  | nil => exact List.Pairwise.nil
  | cons tri rest ih =>
    rw [binEntries, List.pairwise_append]
    refine ⟨?_, ih (i + 1), ?_⟩
    · have hl := binVisits_filter_length width height hW hH tri t
      generalize (binVisits width height tri).filter
        (fun v => decide (v.2 * gridDim width + v.1 = (t : Int))) = l at hl
      match l, hl with
      | [], _ => exact List.Pairwise.nil
      | [_], _ => simp
      | _ :: _ :: _, h => simp at h
    · intro a ha b hb
      simp only [List.mem_map] at ha
      obtain ⟨_, _, rfl⟩ := ha
      have := (binEntries_origin _ _ _ _ _ _ _ _ hb).2
      simp only
      omega

/-- C9. After binning and merging in `RenderProjectedBatch` on a framebuffer of positive
size, the `(threadId, triangleIndex)` pairs of every tile queue are in strictly
increasing lexicographic order, so no pair occurs twice in a queue. -/
theorem merged_queue_strictly_increasing {F FB : Type} (fbo : FrameBufferOps F FB)
    (Cores : Nat) (self : TiledRendererAlgorithm F FB) (hinv : self.GridInvariant fbo Cores)
    (hW : 1 ≤ fbo.GetWidth self.frameBuffer) (hH : 1 ≤ fbo.GetHeight self.frameBuffer)
    (input : ProjectedTriangleInput F) (t : Nat) (ht : t < self.tileBins.length) :
    ((self.binAndMerge fbo Cores input).tileBins.getD t []).Pairwise queueBefore ∧
      (((self.binAndMerge fbo Cores input).tileBins.getD t []).map
        (fun e => (e.threadId, e.triangleIndex))).Nodup := by
  have hmain : ((self.binAndMerge fbo Cores input).tileBins.getD t []).Pairwise queueBefore := by
    rw [binAndMerge_tileBins_getD fbo Cores self input t ht, List.pairwise_flatMap]
    have hloc : ∀ th, th < Cores →
        ((self.binAndMerge fbo Cores input).localTileBins.getD th []).getD t [] =
          binEntries (fbo.GetWidth self.frameBuffer) (fbo.GetHeight self.frameBuffer)
            (gridDim (fbo.GetWidth self.frameBuffer)) (th : Int) 0 (input.triangleBuffer th) t := by
      intro th hth
      rw [binAndMerge_local fbo Cores self hinv input th hth]
      unfold BinTriangles
      rw [binTrianglesFrom_getD _ _ _ _ _ _ _ _ (by
        rw [List.length_replicate]
        obtain ⟨_, _, h3, _, _⟩ := hinv
        omega)]
      rw [hinv.1]
      have : (List.replicate (gridDim (fbo.GetWidth self.frameBuffer) * self.gridHeight).toNat
          ([] : List (TiledTriangle F))).getD t [] = [] := by
        rw [List.getD_eq_getElem?_getD, List.getElem?_replicate]
        split <;> rfl
      rw [this, List.nil_append]
    constructor
    · intro th hth
      rw [hloc th (List.mem_range.1 hth)]
      refine (binEntries_pairwise _ _ hW hH _ _ _ _).imp_of_mem ?_
      intro a b ha hb hab
      right
      exact ⟨by rw [(binEntries_origin _ _ _ _ _ _ _ _ ha).1,
        (binEntries_origin _ _ _ _ _ _ _ _ hb).1], hab⟩
    · refine (List.pairwise_lt_range Cores).imp_of_mem ?_
      intro th1 th2 h1 h2 hlt a ha b hb
      rw [hloc th1 (List.mem_range.1 h1)] at ha
      rw [hloc th2 (List.mem_range.1 h2)] at hb
      left
      rw [(binEntries_origin _ _ _ _ _ _ _ _ ha).1, (binEntries_origin _ _ _ _ _ _ _ _ hb).1]
      exact_mod_cast hlt
  refine ⟨hmain, ?_⟩
  rw [List.Nodup, List.pairwise_map]
  refine hmain.imp ?_
  intro a b hab heq
  simp only [Prod.mk.injEq] at heq
  rcases hab with h | ⟨_, h⟩ <;> omega

theorem merged_queue_strictly_increasing_witness :
    (TiledRendererAlgorithm.SetFrameBuffer ratOps (FrameBuffer.ops ratOps) 2
        (clearedFrameBuffer 64 64)).GridInvariant (FrameBuffer.ops ratOps) 2 ∧
      (1 : Int) ≤ (FrameBuffer.ops ratOps).GetWidth
        (TiledRendererAlgorithm.SetFrameBuffer ratOps (FrameBuffer.ops ratOps) 2
          (clearedFrameBuffer 64 64)).frameBuffer ∧
      ((((TiledRendererAlgorithm.SetFrameBuffer ratOps (FrameBuffer.ops ratOps) 2
          (clearedFrameBuffer 64 64)).binAndMerge (FrameBuffer.ops ratOps) 2
          inputTwoThreads).tileBins.getD 3 []).map
        (fun e => (e.threadId, e.triangleIndex))).Nodup :=
  ⟨SetFrameBuffer_GridInvariant ratOps 2 (clearedFrameBuffer 64 64), by decide,
    (merged_queue_strictly_increasing (FrameBuffer.ops ratOps) 2 _
      (SetFrameBuffer_GridInvariant ratOps 2 (clearedFrameBuffer 64 64)) (by decide) (by decide)
      inputTwoThreads 3 (by decide!)).2⟩

/-! ## Depth after the geometry pass -/

theorem coveredDepths_cons {F : Type} (ops : FloatOps F)
    (regionX0 regionY0 regionW regionH : Int) (tt : TiledTriangle F)
    (rest : List (TiledTriangle F)) (x y : Int) :
    coveredDepths ops regionX0 regionY0 regionW regionH (tt :: rest) x y =
      if fragmentEmitted regionX0 regionY0 regionW regionH tt.triangle x y = true then
        fragmentZ ops tt.triangle x y ::
          coveredDepths ops regionX0 regionY0 regionW regionH rest x y
      else coveredDepths ops regionX0 regionY0 regionW regionH rest x y := by
  unfold coveredDepths
  by_cases hem : fragmentEmitted regionX0 regionY0 regionW regionH tt.triangle x y = true
  · simp [List.filter_cons, hem]
  · simp [List.filter_cons, hem]

/-- The depth test as a minimum, when the float comparison is a linear order. -/
theorem depthTest_eq_min {F : Type} [LinearOrder F] (ops : FloatOps F)
    (hlt : ∀ a b, ops.lt a b = decide (a < b)) (em : Bool) (z d : F) :
    (if em = true ∧ ops.lt z d = true then z else d) = if em = true then min d z else d := by
  rw [hlt]
  by_cases hz : z < d
  · cases em <;> simp [hz, min_eq_right (le_of_lt hz)]
  · cases em <;> simp [hz, min_eq_left (not_lt.1 hz)]

/-- Processing a queue with the forward tile processor leaves at every pixel the
minimum of the depth stored before and the depths of the covered samples emitted for
that pixel. -/
theorem forward_queue_depth {F : Type} [LinearOrder F] (ops : FloatOps F)
    (hlt : ∀ a b, ops.lt a b = decide (a < b)) (ShadeFragment : ShadeFragmentFn F)
    (regionX0 regionY0 regionW regionH : Int) (queue : List (TiledTriangle F))
    (fb : FrameBuffer F) (x y : Int) :
    (queue.foldl
        (fun s tiledTri =>
          RasterizeTriangle regionX0 regionY0 regionW regionH tiledTri.triangle
            (TriangleSIMD.Load tiledTri.triangle)
            (forwardQuad ops (FrameBuffer.ops ops) ShadeFragment tiledTri tiledTri.triangle
              (TriangleSIMD.Load tiledTri.triangle)) s) fb).depth x y =
      (coveredDepths ops regionX0 regionY0 regionW regionH queue x y).foldl min
        (fb.depth x y) := by
  induction queue generalizing fb with
  | nil => rfl
  | cons tt rest ih =>
    rw [List.foldl_cons, ih, coveredDepths_cons,
      (rasterize_forward_at_pixel ops ShadeFragment tt regionX0 regionY0 regionW
        regionH fb x y).1, depthTest_eq_min ops hlt]
    split <;> rfl

/-! ## The depth plane of the G-buffer -/

theorem GBuffer.inRange_iff {F : Type} (g : GBuffer F) (x y : Int) :
    g.inRange x y = true ↔ (0 ≤ x ∧ x < g.width) ∧ (0 ≤ y ∧ y < g.height) := by
  simp [GBuffer.inRange, and_assoc]

theorem GBuffer.index_lt {F : Type} (g : GBuffer F) (x y : Int)
    (h : g.inRange x y = true) : (y * g.width + x).toNat < (g.width * g.height).toNat := by
  rw [GBuffer.inRange_iff] at h
  obtain ⟨⟨hx0, hx1⟩, hy0, hy1⟩ := h
  have h1 : y * g.width ≤ (g.height - 1) * g.width :=
    mul_le_mul_of_nonneg_right (by omega) (by omega)
  have h2 : (g.height - 1) * g.width = g.width * g.height - g.width := by ring
  have h3 : 0 ≤ y * g.width := mul_nonneg hy0 (by omega)
  omega

theorem GBuffer.index_inj {F : Type} (g : GBuffer F) (x y x2 y2 : Int)
    (h : g.inRange x y = true) (h2 : g.inRange x2 y2 = true) :
    (y * g.width + x).toNat = (y2 * g.width + x2).toNat ↔ (x = x2 ∧ y = y2) := by
  rw [GBuffer.inRange_iff] at h h2
  obtain ⟨⟨hx0, hx1⟩, hy0, hy1⟩ := h
  obtain ⟨⟨hx20, hx21⟩, hy20, hy21⟩ := h2
  have h3 : 0 ≤ y * g.width := mul_nonneg hy0 (by omega)
  have h4 : 0 ≤ y2 * g.width := mul_nonneg hy20 (by omega)
  constructor
  · intro he
    exact tileId_injective g.width x x2 y y2 ⟨hx0, hx1⟩ ⟨hx20, hx21⟩ (by omega)
  · rintro ⟨rfl, rfl⟩
    rfl

theorem GBuffer.SetDepth_shape {F : Type} (g : GBuffer F) (x y : Int) (d : F) :
    (g.SetDepth x y d).width = g.width ∧ (g.SetDepth x y d).height = g.height ∧
      (g.WellFormed → (g.SetDepth x y d).WellFormed) := by
  unfold GBuffer.SetDepth
  split
  · refine ⟨rfl, rfl, ?_⟩
    rintro ⟨h1, h2, h3, h4, h5, h6⟩
    exact ⟨h1, h2, h3, h4, h5, by simpa using h6⟩
  · exact ⟨rfl, rfl, id⟩

/-- Reading the depth plane after `SetDepth`, for pixels inside the buffer. -/
theorem GBuffer.GetDepth_SetDepth {F : Type} (ops : FloatOps F) (g : GBuffer F)
    (hwf : g.WellFormed) (x y : Int) (d : F) (x2 y2 : Int)
    (h : g.inRange x y = true) (h2 : g.inRange x2 y2 = true) :
    (g.SetDepth x y d).GetDepth ops x2 y2 =
      if x2 = x ∧ y2 = y then d else g.GetDepth ops x2 y2 := by
  have hi := g.index_lt x y h
  have hinj := g.index_inj x y x2 y2 h h2
  unfold GBuffer.SetDepth GBuffer.GetDepth
  rw [if_pos h]
  have h2b : GBuffer.inRange { g with depthBuffer := g.depthBuffer.set (y * g.width + x).toNat d }
      x2 y2 = true := h2
  rw [if_pos h2b, if_pos h2]
  simp only [List.getD_eq_getElem?_getD, List.getElem?_set]
  by_cases he : x2 = x ∧ y2 = y
  · obtain ⟨rfl, rfl⟩ := he
    simp [hwf.2.2.2.2.2, hi]
  · rw [if_neg he, if_neg]
    intro hc
    exact he ⟨(hinj.1 hc).1.symm, (hinj.1 hc).2.symm⟩

theorem GBuffer.SetPosition_depth {F : Type} (ops : FloatOps F) (g : GBuffer F) (x y : Int)
    (v : Vec3 F) :
    (∀ x2 y2, (g.SetPosition x y v).GetDepth ops x2 y2 = g.GetDepth ops x2 y2) ∧
      (g.SetPosition x y v).width = g.width ∧ (g.SetPosition x y v).height = g.height ∧
      (g.WellFormed → (g.SetPosition x y v).WellFormed) := by
  unfold GBuffer.SetPosition
  split
  · refine ⟨fun _ _ => rfl, rfl, rfl, ?_⟩
    rintro ⟨h1, h2, h3, h4, h5, h6⟩
    exact ⟨h1, h2, by simpa using h3, h4, h5, h6⟩
  · exact ⟨fun _ _ => rfl, rfl, rfl, id⟩

theorem GBuffer.SetNormal_depth {F : Type} (ops : FloatOps F) (g : GBuffer F) (x y : Int)
    (v : Vec3 F) :
    (∀ x2 y2, (g.SetNormal x y v).GetDepth ops x2 y2 = g.GetDepth ops x2 y2) ∧
      (g.SetNormal x y v).width = g.width ∧ (g.SetNormal x y v).height = g.height ∧
      (g.WellFormed → (g.SetNormal x y v).WellFormed) := by
  unfold GBuffer.SetNormal
  split
  · refine ⟨fun _ _ => rfl, rfl, rfl, ?_⟩
    rintro ⟨h1, h2, h3, h4, h5, h6⟩
    exact ⟨h1, h2, h3, by simpa using h4, h5, h6⟩
  · exact ⟨fun _ _ => rfl, rfl, rfl, id⟩

theorem GBuffer.SetAlbedo_depth {F : Type} (ops : FloatOps F) (g : GBuffer F) (x y : Int)
    (v : Vec4 F) :
    (∀ x2 y2, (g.SetAlbedo x y v).GetDepth ops x2 y2 = g.GetDepth ops x2 y2) ∧
      (g.SetAlbedo x y v).width = g.width ∧ (g.SetAlbedo x y v).height = g.height ∧
      (g.WellFormed → (g.SetAlbedo x y v).WellFormed) := by
  unfold GBuffer.SetAlbedo
  split
  · refine ⟨fun _ _ => rfl, rfl, rfl, ?_⟩
    rintro ⟨h1, h2, h3, h4, h5, h6⟩
    exact ⟨h1, h2, h3, h4, by simpa using h5, h6⟩
  · exact ⟨fun _ _ => rfl, rfl, rfl, id⟩

/-! ## The deferred quad fragment on the depth plane -/

theorem GBuffer.GetDepth_SetPosition {F : Type} (ops : FloatOps F) (g : GBuffer F)
    (x y : Int) (v : Vec3 F) (x2 y2 : Int) :
    (g.SetPosition x y v).GetDepth ops x2 y2 = g.GetDepth ops x2 y2 :=
  (GBuffer.SetPosition_depth ops g x y v).1 x2 y2

theorem GBuffer.GetDepth_SetNormal {F : Type} (ops : FloatOps F) (g : GBuffer F)
    (x y : Int) (v : Vec3 F) (x2 y2 : Int) :
    (g.SetNormal x y v).GetDepth ops x2 y2 = g.GetDepth ops x2 y2 :=
  (GBuffer.SetNormal_depth ops g x y v).1 x2 y2

theorem GBuffer.GetDepth_SetAlbedo {F : Type} (ops : FloatOps F) (g : GBuffer F)
    (x y : Int) (v : Vec4 F) (x2 y2 : Int) :
    (g.SetAlbedo x y v).GetDepth ops x2 y2 = g.GetDepth ops x2 y2 :=
  (GBuffer.SetAlbedo_depth ops g x y v).1 x2 y2

theorem GBuffer.width_SetPosition {F : Type} (g : GBuffer F) (x y : Int) (v : Vec3 F) :
    (g.SetPosition x y v).width = g.width := by
  unfold GBuffer.SetPosition; split <;> rfl

theorem GBuffer.width_SetNormal {F : Type} (g : GBuffer F) (x y : Int) (v : Vec3 F) :
    (g.SetNormal x y v).width = g.width := by
  unfold GBuffer.SetNormal; split <;> rfl

theorem GBuffer.width_SetAlbedo {F : Type} (g : GBuffer F) (x y : Int) (v : Vec4 F) :
    (g.SetAlbedo x y v).width = g.width := by
  unfold GBuffer.SetAlbedo; split <;> rfl

theorem GBuffer.height_SetPosition {F : Type} (g : GBuffer F) (x y : Int) (v : Vec3 F) :
    (g.SetPosition x y v).height = g.height := by
  unfold GBuffer.SetPosition; split <;> rfl

theorem GBuffer.height_SetNormal {F : Type} (g : GBuffer F) (x y : Int) (v : Vec3 F) :
    (g.SetNormal x y v).height = g.height := by
  unfold GBuffer.SetNormal; split <;> rfl

theorem GBuffer.height_SetAlbedo {F : Type} (g : GBuffer F) (x y : Int) (v : Vec4 F) :
    (g.SetAlbedo x y v).height = g.height := by
  unfold GBuffer.SetAlbedo; split <;> rfl

theorem GBuffer.width_SetDepth {F : Type} (g : GBuffer F) (x y : Int) (d : F) :
    (g.SetDepth x y d).width = g.width := (GBuffer.SetDepth_shape g x y d).1

theorem GBuffer.height_SetDepth {F : Type} (g : GBuffer F) (x y : Int) (d : F) :
    (g.SetDepth x y d).height = g.height := (GBuffer.SetDepth_shape g x y d).2.1

theorem GBuffer.WellFormed_SetDepth {F : Type} (g : GBuffer F) (x y : Int) (d : F)
    (h : g.WellFormed) : (g.SetDepth x y d).WellFormed := (GBuffer.SetDepth_shape g x y d).2.2 h


/-- The attribute writes of a fragment leave the depth plane and the shape of the
G-buffer alone. -/
theorem deferredFragment_depth {F Sh : Type} (ops : FloatOps F) (Interp : InterpolateFn F Sh)
    (state : RenderState Sh) (input : ProjectedTriangleInput F) (vertexOutputSize : Int)
    (tiledTri : TiledTriangle F) (tri : ProjectedTriangle F)
    (visibility : FragmentCoverageMask) (pixelX pixelY : Fin 4 → Int)
    (alphaVals betaVals gammaVals : M128 F) (g : GBuffer F) (fragIdx : Fin 4) :
    (∀ x y, (deferredFragment ops Interp state input vertexOutputSize tiledTri tri visibility
        pixelX pixelY alphaVals betaVals gammaVals g fragIdx).GetDepth ops x y
        = g.GetDepth ops x y) ∧
      (deferredFragment ops Interp state input vertexOutputSize tiledTri tri visibility
        pixelX pixelY alphaVals betaVals gammaVals g fragIdx).width = g.width ∧
      (deferredFragment ops Interp state input vertexOutputSize tiledTri tri visibility
        pixelX pixelY alphaVals betaVals gammaVals g fragIdx).height = g.height ∧
      (g.WellFormed → (deferredFragment ops Interp state input vertexOutputSize tiledTri tri
        visibility pixelX pixelY alphaVals betaVals gammaVals g fragIdx).WellFormed) := by
  unfold deferredFragment
  split
  · simp only
    split
    · exact ⟨fun _ _ => rfl, rfl, rfl, id⟩
    · refine ⟨fun x y => ?_, ?_, ?_, fun h => ?_⟩
      · simp only [GBuffer.GetDepth_SetAlbedo, GBuffer.GetDepth_SetNormal,
          GBuffer.GetDepth_SetPosition]
      · simp only [GBuffer.width_SetAlbedo, GBuffer.width_SetNormal, GBuffer.width_SetPosition]
      · simp only [GBuffer.height_SetAlbedo, GBuffer.height_SetNormal,
          GBuffer.height_SetPosition]
      · exact (GBuffer.SetAlbedo_depth ops _ _ _ _).2.2.2
          ((GBuffer.SetNormal_depth ops _ _ _ _).2.2.2
            ((GBuffer.SetPosition_depth ops _ _ _ _).2.2.2 h))
  · exact ⟨fun _ _ => rfl, rfl, rfl, id⟩

/-- On the depth plane only the four guarded `SetDepth` calls of a deferred quad
fragment count, for any attribute stage that leaves the depth plane alone. -/
theorem deferredTail_depth {F : Type} (ops : FloatOps F)
    (c0 c1 c2 c3 : Bool) (pixelX pixelY : Fin 4 → Int) (z : M128 F)
    (attr : FragmentCoverageMask → GBuffer F → GBuffer F)
    (hattr : ∀ vis g, (∀ x y, (attr vis g).GetDepth ops x y = g.GetDepth ops x y) ∧
      (attr vis g).width = g.width ∧ (attr vis g).height = g.height ∧
      (g.WellFormed → (attr vis g).WellFormed))
    (g : GBuffer F) :
    (∀ x y, (deferredTail c0 c1 c2 c3 pixelX pixelY z attr g).GetDepth ops x y =
      (deferredDepthWrites c0 c1 c2 c3 pixelX pixelY z g).GetDepth ops x y) ∧
    (g.WellFormed → (deferredTail c0 c1 c2 c3 pixelX pixelY z attr g).WellFormed) ∧
    (deferredTail c0 c1 c2 c3 pixelX pixelY z attr g).width = g.width ∧
    (deferredTail c0 c1 c2 c3 pixelX pixelY z attr g).height = g.height := by
  have hwA : ∀ vis g, GBuffer.WellFormed g → (attr vis g).WellFormed :=
    fun vis g => (hattr vis g).2.2.2
  unfold deferredTail deferredDepthWrites
  refine ⟨fun x y => ?_, fun hwf => ?_, ?_, ?_⟩
  · cases c0 <;> cases c1 <;> cases c2 <;> cases c3 <;>
      simp [FragmentCoverageMask.Any, FragmentCoverageMask.SetBit,
        FragmentCoverageMask.empty, (hattr _ _).1]
  · cases c0 <;> cases c1 <;> cases c2 <;> cases c3 <;>
      simp [FragmentCoverageMask.Any, FragmentCoverageMask.SetBit,
        FragmentCoverageMask.empty] <;>
      repeat (first | exact hwf | apply hwA | apply GBuffer.WellFormed_SetDepth)
  · cases c0 <;> cases c1 <;> cases c2 <;> cases c3 <;>
      simp [FragmentCoverageMask.Any, FragmentCoverageMask.SetBit,
        FragmentCoverageMask.empty, (hattr _ _).2.1, GBuffer.width_SetDepth]
  · cases c0 <;> cases c1 <;> cases c2 <;> cases c3 <;>
      simp [FragmentCoverageMask.Any, FragmentCoverageMask.SetBit,
        FragmentCoverageMask.empty, (hattr _ _).2.2.1, GBuffer.height_SetDepth]

/-- The attribute stage of the geometry pass, the loop over the four fragments,
leaves the depth plane and the shape of the G-buffer alone. -/
theorem deferredFragments_depth {F Sh : Type} (ops : FloatOps F) (Interp : InterpolateFn F Sh)
    (state : RenderState Sh) (input : ProjectedTriangleInput F) (vertexOutputSize : Int)
    (tiledTri : TiledTriangle F) (tri : ProjectedTriangle F)
    (visibility : FragmentCoverageMask) (pixelX pixelY : Fin 4 → Int)
    (alphaVals betaVals gammaVals : M128 F) (l : List (Fin 4)) (g : GBuffer F) :
    (∀ x y, (l.foldl (deferredFragment ops Interp state input vertexOutputSize tiledTri tri
        visibility pixelX pixelY alphaVals betaVals gammaVals) g).GetDepth ops x y
        = g.GetDepth ops x y) ∧
      (l.foldl (deferredFragment ops Interp state input vertexOutputSize tiledTri tri
        visibility pixelX pixelY alphaVals betaVals gammaVals) g).width = g.width ∧
      (l.foldl (deferredFragment ops Interp state input vertexOutputSize tiledTri tri
        visibility pixelX pixelY alphaVals betaVals gammaVals) g).height = g.height ∧
      (g.WellFormed → (l.foldl (deferredFragment ops Interp state input vertexOutputSize
        tiledTri tri visibility pixelX pixelY alphaVals betaVals gammaVals) g).WellFormed) := by
  induction l generalizing g with
  | nil => exact ⟨fun _ _ => rfl, rfl, rfl, id⟩
  | cons a l ih =>
    rw [List.foldl_cons]
    have h1 := deferredFragment_depth ops Interp state input vertexOutputSize tiledTri tri
      visibility pixelX pixelY alphaVals betaVals gammaVals g a
    have h2 := ih (deferredFragment ops Interp state input vertexOutputSize tiledTri tri
      visibility pixelX pixelY alphaVals betaVals gammaVals g a)
    refine ⟨fun x y => ?_, ?_, ?_, fun hwf => ?_⟩
    · rw [h2.1, h1.1]
    · rw [h2.2.1, h1.2.1]
    · rw [h2.2.2.1, h1.2.2.1]
    · exact h2.2.2.2 (h1.2.2.2 hwf)

/-- A deferred quad fragment is the depth test followed by `deferredTail`. -/
theorem deferredQuad_eq_tail {F Sh : Type} (ops : FloatOps F) (Interp : InterpolateFn F Sh)
    (state : RenderState Sh) (input : ProjectedTriangleInput F) (vertexOutputSize : Int)
    (tiledTri : TiledTriangle F) (tri : ProjectedTriangle F) (t : TriangleSIMD F)
    (qfx qfy : Int) (g : GBuffer F) :
    deferredQuad ops Interp state input vertexOutputSize tiledTri tri t qfx qfy false g =
      deferredTail (deferredVisible ops t qfx qfy g 0) (deferredVisible ops t qfx qfy g 1)
        (deferredVisible ops t qfx qfy g 2) (deferredVisible ops t qfx qfy g 3)
        (clampedPixelX g qfx) (clampedPixelY g qfy) (quadZ ops t qfx qfy)
        (fun visibility gbuffer =>
          [0, 1, 2, 3].foldl
            (deferredFragment ops Interp state input vertexOutputSize tiledTri tri visibility
              (clampedPixelX g qfx) (clampedPixelY g qfy)
              (t.GetCoordinates ops (quadCenterX qfx) (quadCenterY qfy)).2.1
              (t.GetCoordinates ops (quadCenterX qfx) (quadCenterY qfy)).2.2
              (t.GetCoordinates ops (quadCenterX qfx) (quadCenterY qfy)).1)
            gbuffer) g := by
  unfold deferredQuad deferredTail
  simp only [Bool.false_eq_true, if_false, movemask_bit0, movemask_bit1, movemask_bit2,
    movemask_bit3, deferredVisible, quadCover, quadZ, quadCenterX, quadCenterY,
    clampedPixelX, clampedPixelY, _mm_cmplt_ps, _mm_set_ps,
    Matrix.cons_val_zero, Matrix.cons_val_one, Matrix.head_cons, Matrix.cons_val_two,
    Matrix.cons_val_three, Matrix.tail_cons]

theorem GBuffer.inRange_SetDepth {F : Type} (g : GBuffer F) (x y : Int) (d : F) (x2 y2 : Int) :
    (g.SetDepth x y d).inRange x2 y2 = g.inRange x2 y2 := by
  unfold GBuffer.inRange
  rw [GBuffer.width_SetDepth, GBuffer.height_SetDepth]

/-- One guarded `SetDepth`, read back inside the buffer. -/
theorem guardedSetDepth_spec {F : Type} (ops : FloatOps F) (c : Bool) (px py : Int) (z : F)
    (g : GBuffer F) (hwf : g.WellFormed) (hp : g.inRange px py = true) :
    (if c then g.SetDepth px py z else g).WellFormed ∧
      (∀ x y, (if c then g.SetDepth px py z else g).inRange x y = g.inRange x y) ∧
      ∀ x y, g.inRange x y = true →
        (if c then g.SetDepth px py z else g).GetDepth ops x y =
          if c = true ∧ x = px ∧ y = py then z else g.GetDepth ops x y := by
  cases c
  · simp [hwf]
  · simp only [if_true, true_and]
    exact ⟨GBuffer.WellFormed_SetDepth g px py z hwf,
      fun x y => GBuffer.inRange_SetDepth g px py z x y,
      fun x y hxy => GBuffer.GetDepth_SetDepth ops g hwf px py z x y hp hxy⟩

/-- The four guarded depth writes of a quad, read back inside the buffer: the last
visible lane that addresses the pixel decides. -/
theorem deferredDepthWrites_GetDepth {F : Type} (ops : FloatOps F) (c0 c1 c2 c3 : Bool)
    (pixelX pixelY : Fin 4 → Int) (z : M128 F) (g : GBuffer F) (hwf : g.WellFormed)
    (hin : ∀ k, g.inRange (pixelX k) (pixelY k) = true) (x y : Int)
    (hxy : g.inRange x y = true) :
    (deferredDepthWrites c0 c1 c2 c3 pixelX pixelY z g).GetDepth ops x y =
      if c3 = true ∧ x = pixelX 3 ∧ y = pixelY 3 then z 3
      else if c2 = true ∧ x = pixelX 2 ∧ y = pixelY 2 then z 2
      else if c1 = true ∧ x = pixelX 1 ∧ y = pixelY 1 then z 1
      else if c0 = true ∧ x = pixelX 0 ∧ y = pixelY 0 then z 0
      else g.GetDepth ops x y := by
  have s0 := guardedSetDepth_spec ops c0 (pixelX 0) (pixelY 0) (z 0) g hwf (hin 0)
  have s1 := guardedSetDepth_spec ops c1 (pixelX 1) (pixelY 1) (z 1) _ s0.1
    (by rw [s0.2.1]; exact hin 1)
  have s2 := guardedSetDepth_spec ops c2 (pixelX 2) (pixelY 2) (z 2) _ s1.1
    (by rw [s1.2.1, s0.2.1]; exact hin 2)
  have s3 := guardedSetDepth_spec ops c3 (pixelX 3) (pixelY 3) (z 3) _ s2.1
    (by rw [s2.2.1, s1.2.1, s0.2.1]; exact hin 3)
  unfold deferredDepthWrites
  simp only
  rw [s3.2.2 x y (by rw [s2.2.1, s1.2.1, s0.2.1]; exact hxy),
    s2.2.2 x y (by rw [s1.2.1, s0.2.1]; exact hxy),
    s1.2.2 x y (by rw [s0.2.1]; exact hxy), s0.2.2 x y hxy]

/-- A deferred quad fragment whose 2x2 block lies inside the G-buffer, seen on the
depth plane: a lane that is covered and passes the depth test against the depth stored
on entry gets the new depth; every other pixel inside the buffer keeps its depth; the
shape of the buffer is kept. -/
theorem deferredQuad_depth {F Sh : Type} (ops : FloatOps F) (Interp : InterpolateFn F Sh)
    (state : RenderState Sh) (input : ProjectedTriangleInput F) (vertexOutputSize : Int)
    (tiledTri : TiledTriangle F) (tri : ProjectedTriangle F) (t : TriangleSIMD F)
    (qfx qfy : Int) (g : GBuffer F) (hwf : g.WellFormed)
    (hqx : 0 ≤ qfx ∧ qfx + 1 < g.width) (hqy : 0 ≤ qfy ∧ qfy + 1 < g.height) :
    ((deferredQuad ops Interp state input vertexOutputSize tiledTri tri t qfx qfy false
        g).WellFormed ∧
      (deferredQuad ops Interp state input vertexOutputSize tiledTri tri t qfx qfy false
        g).width = g.width ∧
      (deferredQuad ops Interp state input vertexOutputSize tiledTri tri t qfx qfy false
        g).height = g.height) ∧
    (∀ k : Fin 4,
      (deferredQuad ops Interp state input vertexOutputSize tiledTri tri t qfx qfy false
          g).GetDepth ops (quadPixelX qfx k) (quadPixelY qfy k) =
        if quadVisible ops t qfx qfy (g.GetDepth ops) k = true then quadZ ops t qfx qfy k
        else g.GetDepth ops (quadPixelX qfx k) (quadPixelY qfy k)) ∧
    (∀ x y, g.inRange x y = true → ((x ≠ qfx ∧ x ≠ qfx + 1) ∨ (y ≠ qfy ∧ y ≠ qfy + 1)) →
      (deferredQuad ops Interp state input vertexOutputSize tiledTri tri t qfx qfy false
          g).GetDepth ops x y = g.GetDepth ops x y) := by
  rw [deferredQuad_eq_tail]
  have hattr : ∀ vis gb,
      (∀ x y, ([0, 1, 2, 3].foldl
          (deferredFragment ops Interp state input vertexOutputSize tiledTri tri vis
            (clampedPixelX g qfx) (clampedPixelY g qfy)
            (t.GetCoordinates ops (quadCenterX qfx) (quadCenterY qfy)).2.1
            (t.GetCoordinates ops (quadCenterX qfx) (quadCenterY qfy)).2.2
            (t.GetCoordinates ops (quadCenterX qfx) (quadCenterY qfy)).1)
          gb).GetDepth ops x y = gb.GetDepth ops x y) ∧
      ([0, 1, 2, 3].foldl
          (deferredFragment ops Interp state input vertexOutputSize tiledTri tri vis
            (clampedPixelX g qfx) (clampedPixelY g qfy)
            (t.GetCoordinates ops (quadCenterX qfx) (quadCenterY qfy)).2.1
            (t.GetCoordinates ops (quadCenterX qfx) (quadCenterY qfy)).2.2
            (t.GetCoordinates ops (quadCenterX qfx) (quadCenterY qfy)).1)
          gb).width = gb.width ∧
      ([0, 1, 2, 3].foldl
          (deferredFragment ops Interp state input vertexOutputSize tiledTri tri vis
            (clampedPixelX g qfx) (clampedPixelY g qfy)
            (t.GetCoordinates ops (quadCenterX qfx) (quadCenterY qfy)).2.1
            (t.GetCoordinates ops (quadCenterX qfx) (quadCenterY qfy)).2.2
            (t.GetCoordinates ops (quadCenterX qfx) (quadCenterY qfy)).1)
          gb).height = gb.height ∧
      (gb.WellFormed → ([0, 1, 2, 3].foldl
          (deferredFragment ops Interp state input vertexOutputSize tiledTri tri vis
            (clampedPixelX g qfx) (clampedPixelY g qfy)
            (t.GetCoordinates ops (quadCenterX qfx) (quadCenterY qfy)).2.1
            (t.GetCoordinates ops (quadCenterX qfx) (quadCenterY qfy)).2.2
            (t.GetCoordinates ops (quadCenterX qfx) (quadCenterY qfy)).1)
          gb).WellFormed) :=
    fun vis gb => deferredFragments_depth ops Interp state input vertexOutputSize tiledTri tri
      vis _ _ _ _ _ [0, 1, 2, 3] gb
  have htail := deferredTail_depth ops (deferredVisible ops t qfx qfy g 0)
    (deferredVisible ops t qfx qfy g 1) (deferredVisible ops t qfx qfy g 2)
    (deferredVisible ops t qfx qfy g 3) (clampedPixelX g qfx) (clampedPixelY g qfy)
    (quadZ ops t qfx qfy) _ hattr g
  have hcx : clampedPixelX g qfx = quadPixelX qfx := by
    funext k
    fin_cases k <;> simp [clampedPixelX, quadPixelX, GBuffer.GetWidth] <;> omega
  have hcy : clampedPixelY g qfy = quadPixelY qfy := by
    funext k
    fin_cases k <;> simp [clampedPixelY, quadPixelY, GBuffer.GetHeight] <;> omega
  have hin : ∀ k, g.inRange (clampedPixelX g qfx k) (clampedPixelY g qfy k) = true := by
    intro k
    rw [hcx, hcy, GBuffer.inRange_iff]
    fin_cases k <;> simp [quadPixelX, quadPixelY] <;> omega
  have hvis : ∀ k, deferredVisible ops t qfx qfy g k
      = quadVisible ops t qfx qfy (g.GetDepth ops) k := by
    intro k
    unfold deferredVisible quadVisible
    rw [hcx, hcy]
  refine ⟨⟨htail.2.1 hwf, htail.2.2.1, htail.2.2.2⟩, ?_, ?_⟩
  · intro k
    rw [htail.1, deferredDepthWrites_GetDepth ops _ _ _ _ _ _ _ g hwf hin _ _ (by
      rw [← hcx, ← hcy]; exact hin k)]
    simp only [hvis, hcx, hcy]
    fin_cases k <;> simp [quadPixelX, quadPixelY]
  · intro x y hxy hoff
    rw [htail.1, deferredDepthWrites_GetDepth ops _ _ _ _ _ _ _ g hwf hin _ _ hxy]
    simp only [hcx, hcy]
    rcases hoff with ⟨h1, h2⟩ | ⟨h1, h2⟩ <;> simp [quadPixelX, quadPixelY, h1, h2]

/-! ## The deferred geometry pass on one pixel -/

/-- In a region with even origin and even size, every quad that `RasterizeTriangle`
emits lies inside the region with all four of its pixels. -/
theorem rasterQuads_in_region {F : Type} (regionX0 regionY0 regionW regionH : Int)
    (tri : ProjectedTriangle F) (t : TriangleSIMD F)
    (hx : regionX0 % 2 = 0 ∧ regionW % 2 = 0) (hy : regionY0 % 2 = 0 ∧ regionH % 2 = 0)
    (qx qy : Int) (h : (qx, qy) ∈ rasterQuads regionX0 regionY0 regionW regionH tri t) :
    (regionX0 ≤ qx ∧ qx + 1 < regionX0 + regionW) ∧
      (regionY0 ≤ qy ∧ qy + 1 < regionY0 + regionH) := by
  rw [mem_rasterQuads, quadBounds_eq] at h
  obtain ⟨⟨n, hn⟩, h1, ⟨m, hm⟩, h2, _⟩ := h
  generalize tri.pixelBounds = pb at hn h1 hm h2
  obtain ⟨bx0, bx1, by0, by1⟩ := pb
  simp only at hn h1 hm h2
  omega

/-- The pixel rectangle of a tile with a non-negative id lies inside the framebuffer,
and has even origin and even size when the framebuffer has even width and height. -/
theorem tileRect_inside (gridWidth width height tileId : Int) (hgw : 0 < gridWidth)
    (hid : 0 ≤ tileId) (hw : width % 2 = 0) (hh : height % 2 = 0) :
    (0 ≤ (tileRect gridWidth width height tileId).1 ∧
      (tileRect gridWidth width height tileId).1 +
        (tileRect gridWidth width height tileId).2.2.1 ≤ width ∧
      (tileRect gridWidth width height tileId).1 % 2 = 0 ∧
      (tileRect gridWidth width height tileId).2.2.1 % 2 = 0) ∧
    (0 ≤ (tileRect gridWidth width height tileId).2.1 ∧
      (tileRect gridWidth width height tileId).2.1 +
        (tileRect gridWidth width height tileId).2.2.2 ≤ height ∧
      (tileRect gridWidth width height tileId).2.1 % 2 = 0 ∧
      (tileRect gridWidth width height tileId).2.2.2 % 2 = 0) := by
  simp only [tileRect, TileSize_eq]
  rw [Int.tmod_eq_emod hid (le_of_lt hgw), Int.tdiv_eq_ediv hid (le_of_lt hgw)]
  have h1 : 0 ≤ tileId % gridWidth := Int.emod_nonneg _ (by omega)
  have h2 : 0 ≤ tileId / gridWidth := Int.ediv_nonneg hid (le_of_lt hgw)
  omega

/-- Rasterizing one triangle with the deferred quad processor, seen at one pixel of
the depth plane, when every emitted quad lies inside the G-buffer. -/
theorem rasterize_deferred_at_pixel {F Sh : Type} (ops : FloatOps F)
    (Interp : InterpolateFn F Sh) (state : RenderState Sh) (input : ProjectedTriangleInput F)
    (vertexOutputSize : Int) (tiledTri : TiledTriangle F)
    (regionX0 regionY0 regionW regionH : Int) (g : GBuffer F) (hwf : g.WellFormed)
    (hreg : ∀ qx qy, (qx, qy) ∈ rasterQuads regionX0 regionY0 regionW regionH
        tiledTri.triangle (TriangleSIMD.Load tiledTri.triangle) →
      (0 ≤ qx ∧ qx + 1 < g.width) ∧ (0 ≤ qy ∧ qy + 1 < g.height))
    (x y : Int) (hxy : g.inRange x y = true) :
    ((RasterizeTriangle regionX0 regionY0 regionW regionH tiledTri.triangle
        (TriangleSIMD.Load tiledTri.triangle)
        (deferredQuad ops Interp state input vertexOutputSize tiledTri tiledTri.triangle
          (TriangleSIMD.Load tiledTri.triangle)) g).WellFormed ∧
      (RasterizeTriangle regionX0 regionY0 regionW regionH tiledTri.triangle
        (TriangleSIMD.Load tiledTri.triangle)
        (deferredQuad ops Interp state input vertexOutputSize tiledTri tiledTri.triangle
          (TriangleSIMD.Load tiledTri.triangle)) g).width = g.width ∧
      (RasterizeTriangle regionX0 regionY0 regionW regionH tiledTri.triangle
        (TriangleSIMD.Load tiledTri.triangle)
        (deferredQuad ops Interp state input vertexOutputSize tiledTri tiledTri.triangle
          (TriangleSIMD.Load tiledTri.triangle)) g).height = g.height) ∧
    (RasterizeTriangle regionX0 regionY0 regionW regionH tiledTri.triangle
        (TriangleSIMD.Load tiledTri.triangle)
        (deferredQuad ops Interp state input vertexOutputSize tiledTri tiledTri.triangle
          (TriangleSIMD.Load tiledTri.triangle)) g).GetDepth ops x y =
      (if fragmentEmitted regionX0 regionY0 regionW regionH tiledTri.triangle x y = true ∧
          ops.lt (fragmentZ ops tiledTri.triangle x y) (g.GetDepth ops x y) = true
        then fragmentZ ops tiledTri.triangle x y else g.GetDepth ops x y) := by
  rw [RasterizeTriangle_eq_foldl]
  have hrange : ∀ s : GBuffer F, s.width = g.width → s.height = g.height →
      s.inRange x y = true := by
    intro s h1 h2
    unfold GBuffer.inRange at hxy ⊢
    rw [h1, h2]
    exact hxy
  have key := foldl_obs_single_inv
    (fun (s : GBuffer F) (q : Int × Int) =>
      deferredQuad ops Interp state input vertexOutputSize tiledTri tiledTri.triangle
        (TriangleSIMD.Load tiledTri.triangle) q.1 q.2 false s)
    (fun s => s.GetDepth ops x y)
    (fun v => if fragmentCover tiledTri.triangle x y = true ∧
        ops.lt (fragmentZ ops tiledTri.triangle x y) v = true
      then fragmentZ ops tiledTri.triangle x y else v)
    (clearBit0 x, clearBit0 y)
    (fun s => s.WellFormed ∧ s.width = g.width ∧ s.height = g.height)
    (rasterQuads regionX0 regionY0 regionW regionH tiledTri.triangle
      (TriangleSIMD.Load tiledTri.triangle))
    (rasterQuads_nodup _ _ _ _ _ _)
    (by
      rintro s ⟨ax, ay⟩ ha ⟨hs1, hs2, hs3⟩
      have hb := hreg ax ay ha
      have hd := (deferredQuad_depth ops Interp state input vertexOutputSize tiledTri
        tiledTri.triangle (TriangleSIMD.Load tiledTri.triangle) ax ay s hs1
        (by rw [hs2]; exact hb.1) (by rw [hs3]; exact hb.2)).1
      exact ⟨hd.1, by rw [hd.2.1, hs2], by rw [hd.2.2, hs3]⟩)
    (by
      rintro s ⟨ax, ay⟩ ha hne ⟨hs1, hs2, hs3⟩
      have hb := hreg ax ay ha
      have hev := rasterQuads_even _ _ _ _ _ _ ax ay ha
      have hd := (deferredQuad_depth ops Interp state input vertexOutputSize tiledTri
        tiledTri.triangle (TriangleSIMD.Load tiledTri.triangle) ax ay s hs1
        (by rw [hs2]; exact hb.1) (by rw [hs3]; exact hb.2)).2.2
      exact hd x y (hrange s hs2 hs3) (by
        have h1 := clearBit0_eq x
        have h2 := clearBit0_eq y
        have h3 : ¬ (ax = clearBit0 x ∧ ay = clearBit0 y) := by
          rintro ⟨rfl, rfl⟩
          exact hne rfl
        omega))
    (by
      rintro hmem s ⟨hs1, hs2, hs3⟩
      have hb := hreg _ _ hmem
      have hd := (deferredQuad_depth ops Interp state input vertexOutputSize tiledTri
        tiledTri.triangle (TriangleSIMD.Load tiledTri.triangle) (clearBit0 x) (clearBit0 y) s
        hs1 (by rw [hs2]; exact hb.1) (by rw [hs3]; exact hb.2)).2.1 (pixelLane x y)
      rw [(quadPixel_of_pixel x y).1, (quadPixel_of_pixel x y).2] at hd
      have hv : quadVisible ops (TriangleSIMD.Load tiledTri.triangle) (clearBit0 x)
          (clearBit0 y) (s.GetDepth ops) (pixelLane x y) =
          (fragmentCover tiledTri.triangle x y &&
            ops.lt (fragmentZ ops tiledTri.triangle x y) (s.GetDepth ops x y)) := by
        unfold quadVisible fragmentCover fragmentZ
        rw [(quadPixel_of_pixel x y).1, (quadPixel_of_pixel x y).2]
      simp only [hd, hv, Bool.and_eq_true]
      rfl)
    g ⟨hwf, rfl, rfl⟩
  simp only at key
  refine ⟨key.1, ?_⟩
  rw [key.2]
  by_cases hmem : (clearBit0 x, clearBit0 y) ∈ rasterQuads regionX0 regionY0 regionW regionH
      tiledTri.triangle (TriangleSIMD.Load tiledTri.triangle)
  · simp [fragmentEmitted, hmem]
  · simp [fragmentEmitted, hmem]

/-- Processing a queue with the deferred quad processor leaves at every pixel inside
the G-buffer the minimum of the depth stored before and the depths of the covered
samples emitted for that pixel, when the region has even origin and even size and lies
inside the G-buffer. -/
theorem deferred_queue_depth {F Sh : Type} [LinearOrder F] (ops : FloatOps F)
    (hlt : ∀ a b, ops.lt a b = decide (a < b)) (Interp : InterpolateFn F Sh)
    (state : RenderState Sh) (input : ProjectedTriangleInput F) (vertexOutputSize : Int)
    (regionX0 regionY0 regionW regionH : Int) (queue : List (TiledTriangle F))
    (g : GBuffer F) (hwf : g.WellFormed)
    (hx : (0 ≤ regionX0 ∧ regionX0 + regionW ≤ g.width) ∧ regionX0 % 2 = 0 ∧ regionW % 2 = 0)
    (hy : (0 ≤ regionY0 ∧ regionY0 + regionH ≤ g.height) ∧ regionY0 % 2 = 0 ∧ regionH % 2 = 0)
    (x y : Int) (hxy : g.inRange x y = true) :
    (queue.foldl
        (fun s tiledTri =>
          RasterizeTriangle regionX0 regionY0 regionW regionH tiledTri.triangle
            (TriangleSIMD.Load tiledTri.triangle)
            (deferredQuad ops Interp state input vertexOutputSize tiledTri tiledTri.triangle
              (TriangleSIMD.Load tiledTri.triangle)) s) g).GetDepth ops x y =
      (coveredDepths ops regionX0 regionY0 regionW regionH queue x y).foldl min
        (g.GetDepth ops x y) := by
  induction queue generalizing g with
  | nil => rfl
  | cons tt rest ih =>
    have hreg : ∀ qx qy, (qx, qy) ∈ rasterQuads regionX0 regionY0 regionW regionH
        tt.triangle (TriangleSIMD.Load tt.triangle) →
        (0 ≤ qx ∧ qx + 1 < g.width) ∧ (0 ≤ qy ∧ qy + 1 < g.height) := by
      intro qx qy hq
      have := rasterQuads_in_region regionX0 regionY0 regionW regionH tt.triangle _
        hx.2 hy.2 qx qy hq
      omega
    have h1 := rasterize_deferred_at_pixel ops Interp state input vertexOutputSize tt
      regionX0 regionY0 regionW regionH g hwf hreg x y hxy
    rw [List.foldl_cons, ih _ h1.1.1 (by rw [h1.1.2.1]; exact hx) (by rw [h1.1.2.2]; exact hy)
      (by unfold GBuffer.inRange at hxy ⊢; rw [h1.1.2.1, h1.1.2.2]; exact hxy),
      coveredDepths_cons, h1.2, depthTest_eq_min ops hlt]
    split <;> rfl

/-- C5 (amended). Depth monotonicity. Let the float comparison be a linear order, the
framebuffer have even width and height, the G-buffer be well formed and of the same
size, and the tile id be non-negative. After forward `ProcessBin` the framebuffer depth
at every pixel, and after deferred `ProcessBinGeometryPass` the G-buffer depth at every
pixel of the G-buffer, equals the minimum of the depth stored there before the pass and
the depth-plane values of all covered samples that the tile's queue emits for that
pixel. -/
theorem stored_depth_is_min_of_previous_and_covered {F Sh : Type} [LinearOrder F]
    (ops : FloatOps F) (hlt : ∀ a b, ops.lt a b = decide (a < b))
    (ShadeFragment : ShadeFragmentFn F) (InterpolateVertexOutput : InterpolateFn F Sh)
    (self : DeferredTiledRendererAlgorithm F (FrameBuffer F) Sh) (state : RenderState Sh)
    (input : ProjectedTriangleInput F) (vertexOutputSize : Int) (tileId : Int)
    (fb : FrameBuffer F) (g : GBuffer F) (geometryShader : Sh)
    (hfb : self.frameBuffer = some fb) (hg : self.gbuffer = some g)
    (hgs : self.geometryShader = some geometryShader)
    (hwf : g.WellFormed) (hdim : g.width = fb.width ∧ g.height = fb.height)
    (heven : fb.width % 2 = 0 ∧ fb.height % 2 = 0)
    (hgw : 0 < self.gridWidth) (hid : 0 ≤ tileId) :
    (∀ x y : Int,
      (ProcessBin ops (FrameBuffer.ops ops) ShadeFragment self.gridWidth self.tileBins tileId
          fb).depth x y =
        (coveredDepths ops (tileRect self.gridWidth fb.width fb.height tileId).1
          (tileRect self.gridWidth fb.width fb.height tileId).2.1
          (tileRect self.gridWidth fb.width fb.height tileId).2.2.1
          (tileRect self.gridWidth fb.width fb.height tileId).2.2.2
          (binAt self.tileBins tileId) x y).foldl min (fb.depth x y)) ∧
    ∃ g2 : GBuffer F,
      (ProcessBinGeometryPass ops (FrameBuffer.ops ops) InterpolateVertexOutput self state
          input vertexOutputSize tileId).2.gbuffer = some g2 ∧
      ∀ x y : Int, g.inRange x y = true →
        g2.GetDepth ops x y =
          (coveredDepths ops (tileRect self.gridWidth fb.width fb.height tileId).1
            (tileRect self.gridWidth fb.width fb.height tileId).2.1
            (tileRect self.gridWidth fb.width fb.height tileId).2.2.1
            (tileRect self.gridWidth fb.width fb.height tileId).2.2.2
            (binAt self.tileBins tileId) x y).foldl min (g.GetDepth ops x y) := by
  refine ⟨?_, ?_⟩
  · intro x y
    rw [ProcessBin_eq_foldl]
    exact forward_queue_depth ops hlt ShadeFragment _ _ _ _ _ fb x y
  · unfold ProcessBinGeometryPass
    by_cases hlen : tileId ≥ (self.tileBins.length : Int)
    · have hbin : binAt self.tileBins tileId = [] := by
        unfold binAt
        rw [if_pos hid]
        apply List.getD_eq_default
        omega
      rw [if_pos hlen]
      refine ⟨g, hg, ?_⟩
      intro x y _
      rw [hbin]
      rfl
    · rw [if_neg hlen, hg, hfb]
      simp only [hgs]
      rw [if_neg (by omega)]
      refine ⟨_, rfl, ?_⟩
      intro x y hxy
      have hr := tileRect_inside self.gridWidth fb.width fb.height tileId hgw hid
        heven.1 heven.2
      exact deferred_queue_depth ops hlt InterpolateVertexOutput _ input vertexOutputSize
        _ _ _ _ (binAt self.tileBins tileId) g hwf
        (by rw [hdim.1]; exact ⟨⟨hr.1.1, hr.1.2.1⟩, hr.1.2.2⟩)
        (by rw [hdim.2]; exact ⟨⟨hr.2.1, hr.2.2.1⟩, hr.2.2.2⟩) x y hxy

theorem stored_depth_is_min_of_previous_and_covered_witness :
    (gBufferAtDepth 4 4 1).WellFormed ∧
      (ProcessBin ratOps (FrameBuffer.ops ratOps) shadeByIndex 1
          [[⟨triS1AtDepth (7 / 10), 0, 0⟩, ⟨triS1AtDepth (3 / 10), 0, 1⟩]] 0
          (frameBufferAtDepth 4 4 1)).depth 1 1 =
        (coveredDepths ratOps (tileRect 1 4 4 0).1 (tileRect 1 4 4 0).2.1
          (tileRect 1 4 4 0).2.2.1 (tileRect 1 4 4 0).2.2.2
          (binAt [[⟨triS1AtDepth (7 / 10), 0, 0⟩, ⟨triS1AtDepth (3 / 10), 0, 1⟩]] 0)
          1 1).foldl min ((frameBufferAtDepth 4 4 1).depth 1 1) ∧
      (coveredDepths ratOps (tileRect 1 4 4 0).1 (tileRect 1 4 4 0).2.1
          (tileRect 1 4 4 0).2.2.1 (tileRect 1 4 4 0).2.2.2
          (binAt [[⟨triS1AtDepth (7 / 10), 0, 0⟩, ⟨triS1AtDepth (3 / 10), 0, 1⟩]] 0)
          1 1).foldl min ((frameBufferAtDepth 4 4 1).depth 1 1) = 3 / 10 :=
  ⟨by unfold GBuffer.WellFormed; decide,
    (stored_depth_is_min_of_previous_and_covered ratOps (fun _ _ => rfl) shadeByIndex
      interpolateZero
      (deferredOneTile 4 4 1 [⟨triS1AtDepth (7 / 10), 0, 0⟩, ⟨triS1AtDepth (3 / 10), 0, 1⟩])
      ⟨none⟩ inputTwoThreads 0 0 (frameBufferAtDepth 4 4 1) (gBufferAtDepth 4 4 1) ()
      rfl rfl rfl (by unfold GBuffer.WellFormed; decide) ⟨rfl, rfl⟩ ⟨by decide, by decide⟩ (by decide)
      (by decide)).1 1 1,
    by decide!⟩

/-- Counterexample to C5 as stated: a 4 x 4 target whose depth plane holds 3/10, and a
tile queue with one triangle at depth 7/10 that covers pixel (1, 1). The only covered
sample at the pixel has depth 7/10, yet the forward framebuffer and the deferred
G-buffer both keep 3/10. -/
theorem stored_depth_below_every_covered_sample :
    fragmentEmitted (tileRect 1 4 4 0).1 (tileRect 1 4 4 0).2.1 (tileRect 1 4 4 0).2.2.1
        (tileRect 1 4 4 0).2.2.2 (triS1AtDepth (7 / 10)) 1 1 = true ∧
      coveredDepths ratOps (tileRect 1 4 4 0).1 (tileRect 1 4 4 0).2.1
        (tileRect 1 4 4 0).2.2.1 (tileRect 1 4 4 0).2.2.2
        (binAt [[(⟨triS1AtDepth (7 / 10), 0, 0⟩ : TiledTriangle ℚ)]] 0) 1 1 = [7 / 10] ∧
      (ProcessBin ratOps (FrameBuffer.ops ratOps) shadeByIndex 1
        [[⟨triS1AtDepth (7 / 10), 0, 0⟩]] 0 (frameBufferAtDepth 4 4 (3 / 10))).depth 1 1
        = 3 / 10 ∧
      ((ProcessBinGeometryPass ratOps (FrameBuffer.ops ratOps) interpolateZero
        (deferredOneTile 4 4 (3 / 10) [⟨triS1AtDepth (7 / 10), 0, 0⟩]) ⟨none⟩
        inputTwoThreads 0 0).2.gbuffer.map fun g2 => g2.GetDepth ratOps 1 1)
        = some (3 / 10) := by
  refine ⟨by decide!, by decide!, by decide!, by decide!⟩

/-! ## The tile grid as a partition -/

/-- The decoding `tileId % gridWidth`, `tileId / gridWidth` of `ProcessBin` inverts
`tileY * gridWidth + tileX` on the grid. -/
theorem tile_decode (gw tileX tileY : Int) (hx : 0 ≤ tileX ∧ tileX < gw) (hy : 0 ≤ tileY) :
    0 ≤ tileY * gw + tileX ∧ Int.tmod (tileY * gw + tileX) gw = tileX ∧
      Int.tdiv (tileY * gw + tileX) gw = tileY := by
  have hgw : 0 < gw := by omega
  have h0 : 0 ≤ tileY * gw := mul_nonneg hy (by omega)
  have hnn : 0 ≤ tileY * gw + tileX := by omega
  refine ⟨hnn, ?_, ?_⟩
  · rw [Int.tmod_eq_emod hnn (by omega), add_comm, Int.add_mul_emod_self]
    exact Int.emod_eq_of_lt hx.1 hx.2
  · rw [Int.tdiv_eq_ediv hnn (by omega), add_comm, Int.add_mul_ediv_right _ _ (by omega),
      Int.ediv_eq_zero_of_lt hx.1 hx.2, zero_add]

/-- A tile id inside the grid decodes to a grid position and is recovered from it. -/
theorem tile_encode (gw gh tileId : Int) (hgw : 0 < gw) (hid : 0 ≤ tileId ∧ tileId < gw * gh) :
    (0 ≤ Int.tmod tileId gw ∧ Int.tmod tileId gw < gw) ∧
      (0 ≤ Int.tdiv tileId gw ∧ Int.tdiv tileId gw < gh) ∧
      Int.tdiv tileId gw * gw + Int.tmod tileId gw = tileId := by
  rw [Int.tmod_eq_emod hid.1 (by omega), Int.tdiv_eq_ediv hid.1 (by omega)]
  refine ⟨⟨Int.emod_nonneg _ (by omega), Int.emod_lt_of_pos _ hgw⟩,
    ⟨Int.ediv_nonneg hid.1 (by omega), ?_⟩, ?_⟩
  · exact Int.ediv_lt_of_lt_mul hgw (by rw [mul_comm]; exact hid.2)
  · rw [mul_comm]
    exact Int.ediv_add_emod tileId gw

/-- The tile id `tileY * gridWidth + tileX` of a grid position lies inside the grid. -/
theorem tile_id_lt (gw gh tileX tileY : Int) (hx : 0 ≤ tileX ∧ tileX < gw)
    (hy : 0 ≤ tileY ∧ tileY < gh) : tileY * gw + tileX < gw * gh := by
  have h1 : tileY * gw ≤ (gh - 1) * gw := mul_le_mul_of_nonneg_right (by omega) (by omega)
  have h2 : (gh - 1) * gw = gw * gh - gw := by ring
  omega

/-- C11. After `SetFrameBuffer` on a `W x H` framebuffer with `W, H >= 1` the grid is
`ceil(W/32) x ceil(H/32)` and has one global bin per tile. The tile id `tileY *
gridWidth + tileX` of a grid position is decoded by `ProcessBin` to that position and
to the rectangle with origin `(32 tileX, 32 tileY)` and size `min(32, W - 32 tileX) x
min(32, H - 32 tileY)`. The rectangles of the tile ids `0 .. gridWidth * gridHeight - 1`
lie inside `[0, W) x [0, H)`, and every pixel of `[0, W) x [0, H)` lies in the rectangle
of exactly one of these tile ids. -/
theorem tile_grid_partitions_framebuffer {F : Type} (ops : FloatOps F) (Cores : Nat)
    (fb : FrameBuffer F) (hW : 1 ≤ fb.width) (hH : 1 ≤ fb.height) :
    ((TiledRendererAlgorithm.SetFrameBuffer ops (FrameBuffer.ops ops) Cores fb).gridWidth
        = gridDim fb.width ∧
      (TiledRendererAlgorithm.SetFrameBuffer ops (FrameBuffer.ops ops) Cores fb).gridHeight
        = gridDim fb.height ∧
      (TiledRendererAlgorithm.SetFrameBuffer ops (FrameBuffer.ops ops) Cores fb).tileBins.length
        = (gridDim fb.width * gridDim fb.height).toNat) ∧
    ((32 * (gridDim fb.width - 1) < fb.width ∧ fb.width ≤ 32 * gridDim fb.width) ∧
      (32 * (gridDim fb.height - 1) < fb.height ∧ fb.height ≤ 32 * gridDim fb.height)) ∧
    (∀ tileX tileY : Int, 0 ≤ tileX ∧ tileX < gridDim fb.width →
      0 ≤ tileY ∧ tileY < gridDim fb.height →
      (0 ≤ tileY * gridDim fb.width + tileX ∧
        tileY * gridDim fb.width + tileX < gridDim fb.width * gridDim fb.height) ∧
      Int.tmod (tileY * gridDim fb.width + tileX) (gridDim fb.width) = tileX ∧
      Int.tdiv (tileY * gridDim fb.width + tileX) (gridDim fb.width) = tileY ∧
      tileRect (gridDim fb.width) fb.width fb.height (tileY * gridDim fb.width + tileX) =
        (32 * tileX, 32 * tileY, min 32 (fb.width - 32 * tileX),
          min 32 (fb.height - 32 * tileY))) ∧
    (∀ tileId : Int, 0 ≤ tileId ∧ tileId < gridDim fb.width * gridDim fb.height →
      ∀ x y : Int, inRect (tileRect (gridDim fb.width) fb.width fb.height tileId) x y →
        (0 ≤ x ∧ x < fb.width) ∧ (0 ≤ y ∧ y < fb.height)) ∧
    (∀ x y : Int, 0 ≤ x ∧ x < fb.width → 0 ≤ y ∧ y < fb.height →
      ∃ tileId : Int, (0 ≤ tileId ∧ tileId < gridDim fb.width * gridDim fb.height) ∧
        inRect (tileRect (gridDim fb.width) fb.width fb.height tileId) x y ∧
        ∀ other : Int, 0 ≤ other ∧ other < gridDim fb.width * gridDim fb.height →
          inRect (tileRect (gridDim fb.width) fb.width fb.height other) x y →
          other = tileId) := by
  refine ⟨⟨rfl, rfl, List.length_replicate _ _⟩, ?_⟩
  have hgw := gridDim_eq fb.width (by omega)
  have hgh := gridDim_eq fb.height (by omega)
  generalize gridDim fb.width = gw at hgw ⊢
  generalize gridDim fb.height = gh at hgh ⊢
  have hgwpos : 0 < gw := by omega
  have hrect : ∀ tileId : Int, 0 ≤ tileId ∧ tileId < gw * gh →
      tileRect gw fb.width fb.height tileId =
        (32 * Int.tmod tileId gw, 32 * Int.tdiv tileId gw,
          min 32 (fb.width - 32 * Int.tmod tileId gw),
          min 32 (fb.height - 32 * Int.tdiv tileId gw)) := by
    intro tileId _
    simp only [tileRect, TileSize_eq, mul_comm]
  refine ⟨⟨by omega, by omega⟩, ?_, ?_, ?_⟩
  · intro tileX tileY hx hy
    have hd := tile_decode gw tileX tileY hx hy.1
    have hl := tile_id_lt gw gh tileX tileY hx hy
    refine ⟨⟨hd.1, hl⟩, hd.2.1, hd.2.2, ?_⟩
    rw [hrect _ ⟨hd.1, hl⟩, hd.2.1, hd.2.2]
  · intro tileId hid x y hin
    rw [hrect tileId hid] at hin
    have he := tile_encode gw gh tileId hgwpos hid
    unfold inRect at hin
    simp only at hin
    omega
  · intro x y hx hy
    have hxt : 0 ≤ x / 32 ∧ x / 32 < gw := by omega
    have hyt : 0 ≤ y / 32 ∧ y / 32 < gh := by omega
    have hd := tile_decode gw (x / 32) (y / 32) hxt hyt.1
    have hl := tile_id_lt gw gh (x / 32) (y / 32) hxt hyt
    refine ⟨y / 32 * gw + x / 32, ⟨hd.1, hl⟩, ?_, ?_⟩
    · rw [hrect _ ⟨hd.1, hl⟩, hd.2.1, hd.2.2]
      unfold inRect
      simp only
      omega
    · intro other ho hin
      rw [hrect other ho] at hin
      have he := tile_encode gw gh other hgwpos ho
      unfold inRect at hin
      simp only at hin
      have h1 : Int.tmod other gw = x / 32 := by omega
      have h2 : Int.tdiv other gw = y / 32 := by omega
      rw [← he.2.2, h1, h2]

theorem tile_grid_partitions_framebuffer_witness :
    (1 : Int) ≤ (clearedFrameBuffer 70 40).width ∧
      gridDim (clearedFrameBuffer 70 40).width = 3 ∧
      gridDim (clearedFrameBuffer 70 40).height = 2 ∧
      tileRect (gridDim (clearedFrameBuffer 70 40).width) (clearedFrameBuffer 70 40).width
          (clearedFrameBuffer 70 40).height (1 * gridDim (clearedFrameBuffer 70 40).width + 2)
        = (32 * 2, 32 * 1, min 32 ((clearedFrameBuffer 70 40).width - 32 * 2),
          min 32 ((clearedFrameBuffer 70 40).height - 32 * 1)) :=
  ⟨by decide, by decide!, by decide!,
    ((tile_grid_partitions_framebuffer ratOps 2 (clearedFrameBuffer 70 40) (by decide)
      (by decide)).2.2.1 2 1 (by decide!) (by decide!)).2.2.2⟩

/-! ## The samples `RasterizeTriangle` tests -/

theorem rasterRowTraced_eq {F S : Type} (t : TriangleSIMD F) (f : Int → Int → Bool → S → S)
    (qy hi : Int) (fuel : Nat) (lo : Int) (s : S × List (M128i × M128i)) :
    forLoop 2 hi (fun qx s => rasterQuadTraced t f qy qx s) fuel lo s =
      (forLoop 2 hi (fun qx s => rasterQuad t f qy qx s) fuel lo s.1,
        s.2 ++ (loopIndices 2 hi fuel lo).map fun qx => (quadSampleX qx, quadSampleY qy)) := by
  induction fuel generalizing lo s with
  | zero => simp [forLoop, loopIndices]
  | succ n ih =>
    simp only [forLoop, loopIndices]
    split
    · rw [ih]
      by_cases hm : t.TestQuadFragment (quadSampleX lo) (quadSampleY qy) = 0
      · simp [rasterQuadTraced, rasterQuad, hm]
      · simp [rasterQuadTraced, rasterQuad, hm]
    · simp

/-- The traced embedding runs `RasterizeTriangle` on the state and appends to the
trace the sample registers of all visited quads. -/
theorem RasterizeTriangleTraced_eq {F S : Type} (regionX0 regionY0 regionW regionH : Int)
    (tri : ProjectedTriangle F) (t : TriangleSIMD F) (f : Int → Int → Bool → S → S)
    (s : S × List (M128i × M128i)) :
    RasterizeTriangleTraced regionX0 regionY0 regionW regionH tri t f s =
      (RasterizeTriangle regionX0 regionY0 regionW regionH tri t f s.1,
        s.2 ++ (visitedQuads regionX0 regionY0 regionW regionH tri).map
          fun q => (quadSampleX q.1, quadSampleY q.2)) := by
  unfold RasterizeTriangleTraced RasterizeTriangle visitedQuads
  generalize quadBounds regionX0 regionY0 regionW regionH tri = b
  obtain ⟨px0, py0, px1, py1⟩ := b
  simp only
  generalize loopFuel py0 py1 = fy
  generalize py0 = lo
  induction fy generalizing lo s with
  | zero => simp [forLoop, loopIndices]
  | succ n ih =>
    simp only [forLoop, loopIndices]
    split
    · rw [ih, rasterRowTraced_eq]
      simp [List.map_flatMap, Function.comp_def]
    · simp

theorem testedSamples_eq {F : Type} (regionX0 regionY0 regionW regionH : Int)
    (tri : ProjectedTriangle F) (t : TriangleSIMD F) :
    testedSamples regionX0 regionY0 regionW regionH tri t =
      (visitedQuads regionX0 regionY0 regionW regionH tri).map
        fun q => (quadSampleX q.1, quadSampleY q.2) := by
  unfold testedSamples
  rw [RasterizeTriangleTraced_eq]
  simp

theorem mem_visitedQuads {F : Type} (regionX0 regionY0 regionW regionH : Int)
    (tri : ProjectedTriangle F) (qx qy : Int) :
    (qx, qy) ∈ visitedQuads regionX0 regionY0 regionW regionH tri ↔
      (∃ n : Nat, qy = (quadBounds regionX0 regionY0 regionW regionH tri).2.1 + n * 2) ∧
      qy ≤ (quadBounds regionX0 regionY0 regionW regionH tri).2.2.2 ∧
      (∃ n : Nat, qx = (quadBounds regionX0 regionY0 regionW regionH tri).1 + n * 2) ∧
      qx ≤ (quadBounds regionX0 regionY0 regionW regionH tri).2.2.1 := by
  unfold visitedQuads
  generalize quadBounds regionX0 regionY0 regionW regionH tri = b
  obtain ⟨px0, py0, px1, py1⟩ := b
  simp only [List.mem_flatMap, List.mem_map, Prod.mk.injEq]
  constructor
  · rintro ⟨qy2, hqy, qx2, hqx, rfl, rfl⟩
    rw [mem_loopIndices 2 _ (by decide) _ _ _ le_rfl] at hqy hqx
    obtain ⟨n, hn, hle⟩ := hqy
    obtain ⟨m, hm2, hle2⟩ := hqx
    exact ⟨⟨n, hn⟩, hle, ⟨m, hm2⟩, hle2⟩
  · rintro ⟨⟨n, hn⟩, hle, ⟨m, hm2⟩, hle2⟩
    refine ⟨qy, ?_, qx, ?_, rfl, rfl⟩
    · rw [mem_loopIndices 2 _ (by decide) _ _ _ le_rfl]
      exact ⟨n, hn, hle⟩
    · rw [mem_loopIndices 2 _ (by decide) _ _ _ le_rfl]
      exact ⟨m, hm2, hle2⟩

/-- C12 (amended). Every sample position that `RasterizeTriangle` passes to
`TestQuadFragment` is the centre `(16 px + 8, 16 py + 8)` of a pixel `(px, py)` of the
integer pixel bounding box widened to whole 2 x 2 quads: `minX & ~1 <= px <= (maxX & ~1)
+ 1` and `minY & ~1 <= py <= (maxY & ~1) + 1`, so at most one pixel outside of
`[minX, maxX] x [minY, maxY]` on each side. -/
theorem tested_samples_in_quad_aligned_box {F : Type}
    (regionX0 regionY0 regionW regionH : Int) (tri : ProjectedTriangle F)
    (xs ys : M128i)
    (h : (xs, ys) ∈ testedSamples regionX0 regionY0 regionW regionH tri
      (TriangleSIMD.Load tri))
    (k : Fin 4) :
    ∃ px py : Int, xs k = 16 * px + 8 ∧ ys k = 16 * py + 8 ∧
      (clearBit0 tri.pixelBounds.1 ≤ px ∧ px ≤ clearBit0 tri.pixelBounds.2.1 + 1) ∧
      (clearBit0 tri.pixelBounds.2.2.1 ≤ py ∧ py ≤ clearBit0 tri.pixelBounds.2.2.2 + 1) ∧
      (tri.pixelBounds.1 - 1 ≤ px ∧ px ≤ tri.pixelBounds.2.1 + 1) ∧
      (tri.pixelBounds.2.2.1 - 1 ≤ py ∧ py ≤ tri.pixelBounds.2.2.2 + 1) := by
  rw [testedSamples_eq, List.mem_map] at h
  obtain ⟨⟨qx, qy⟩, hq, heq⟩ := h
  simp only [Prod.mk.injEq] at heq
  obtain ⟨rfl, rfl⟩ := heq
  rw [mem_visitedQuads, quadBounds_eq] at hq
  obtain ⟨⟨n, hn⟩, h1, ⟨m, hm⟩, h2⟩ := hq
  simp only [clearBit0_eq]
  generalize tri.pixelBounds = pb at hn h1 hm h2 ⊢
  obtain ⟨bx0, bx1, by0, by1⟩ := pb
  simp only at hn h1 hm h2 ⊢
  refine ⟨quadPixelX qx k, quadPixelY qy k, ?_, ?_, ?_⟩
  · fin_cases k <;> simp [quadSampleX, quadPixelX, shl, _mm_setr_epi32] <;> ring
  · fin_cases k <;> simp [quadSampleY, quadPixelY, shl, _mm_setr_epi32] <;> ring
  · have hx : quadPixelX qx k = qx ∨ quadPixelX qx k = qx + 1 := by
      fin_cases k <;> simp [quadPixelX]
    have hy : quadPixelY qy k = qy ∨ quadPixelY qy k = qy + 1 := by
      fin_cases k <;> simp [quadPixelY]
    omega

theorem tested_samples_in_quad_aligned_box_witness :
    (quadSampleX 0, quadSampleY 0) ∈ testedSamples 0 0 2 2 triS1 (TriangleSIMD.Load triS1) ∧
      ∃ px py : Int, quadSampleX 0 3 = 16 * px + 8 ∧ quadSampleY 0 3 = 16 * py + 8 ∧
        (clearBit0 triS1.pixelBounds.1 ≤ px ∧ px ≤ clearBit0 triS1.pixelBounds.2.1 + 1) ∧
        (clearBit0 triS1.pixelBounds.2.2.1 ≤ py ∧ py ≤ clearBit0 triS1.pixelBounds.2.2.2 + 1) ∧
        (triS1.pixelBounds.1 - 1 ≤ px ∧ px ≤ triS1.pixelBounds.2.1 + 1) ∧
        (triS1.pixelBounds.2.2.1 - 1 ≤ py ∧ py ≤ triS1.pixelBounds.2.2.2 + 1) :=
  ⟨by decide!, tested_samples_in_quad_aligned_box 0 0 2 2 triS1 (quadSampleX 0) (quadSampleY 0)
    (by decide!) 3⟩

/-- Counterexample to C12 as stated: the triangle `triS1` has the integer pixel bounding
box `[1, 63] x [1, 63]`, yet in the region `[0, 32) x [0, 32)` the first call of
`TestQuadFragment` has in lane 0 the sample `(8, 8)`, the centre of pixel `(0, 0)`. -/
theorem tested_sample_outside_bounding_box :
    triS1.pixelBounds = (1, 63, 1, 63) ∧
      ((testedSamples 0 0 32 32 triS1 (TriangleSIMD.Load triS1)).head?.map
        fun s => (s.1 0, s.2 0)) = some (16 * 0 + 8, 16 * 0 + 8) := by
  refine ⟨by decide!, by decide!⟩

/-! ## The ownership rule of `Load` -/

/-- C13. `TriangleSIMD::Load` sets `isOwnerEdge[i]` (indices mod 3) to 1 exactly when
`Y_i < Y_{i+1}`, or `Y_i = Y_{i+1}` and `Y_{i+2} >= Y_i`, and to 0 otherwise. In
particular, when two triangles have a horizontal edge at the same height and their
remaining vertices lie strictly on opposite sides of it, the triangle whose remaining
vertex has the larger Y owns the edge and the other one does not. -/
theorem Load_owner_edge_rule {F : Type} (tri : ProjectedTriangle F) (i : Fin 3) :
    ((TriangleSIMD.Load tri).isOwnerEdge i = 1 ↔
      (tri.vy i < tri.vy (i + 1) ∨ (tri.vy i = tri.vy (i + 1) ∧ tri.vy (i + 2) ≥ tri.vy i))) ∧
    ((TriangleSIMD.Load tri).isOwnerEdge i = 0 ↔
      ¬ (tri.vy i < tri.vy (i + 1) ∨
        (tri.vy i = tri.vy (i + 1) ∧ tri.vy (i + 2) ≥ tri.vy i))) ∧
    (∀ (other : ProjectedTriangle F) (j : Fin 3),
      tri.vy i = tri.vy (i + 1) → other.vy j = other.vy (j + 1) → other.vy j = tri.vy i →
      (tri.vy (i + 2) - tri.vy i) * (other.vy (j + 2) - tri.vy i) < 0 →
      other.vy (j + 2) < tri.vy (i + 2) →
      (TriangleSIMD.Load tri).isOwnerEdge i = 1 ∧
        (TriangleSIMD.Load other).isOwnerEdge j = 0) := by
  have hiff := Load_isOwnerEdge_iff tri i
  have hzero : ∀ (t : ProjectedTriangle F) (k : Fin 3),
      (TriangleSIMD.Load t).isOwnerEdge k = 0 ↔ ¬ (TriangleSIMD.Load t).isOwnerEdge k = 1 := by
    intro t k
    rcases Load_isOwnerEdge_cases t k with h | h <;> rw [h] <;> decide
  refine ⟨hiff, ?_, ?_⟩
  · rw [hzero, hiff]
  · intro other j hh1 hh2 hsame hopp hlarger
    rw [hzero, hiff, Load_isOwnerEdge_iff other j]
    have hpos : 0 < tri.vy (i + 2) - tri.vy i := by
      by_contra hc
      have h1 : 0 ≤ -(tri.vy (i + 2) - tri.vy i) := by omega
      have h2 : 0 ≤ -(other.vy (j + 2) - tri.vy i) := by omega
      have := mul_nonneg h1 h2
      rw [neg_mul_neg] at this
      omega
    have hneg : other.vy (j + 2) - tri.vy i < 0 := by
      by_contra hc
      have := mul_nonneg (le_of_lt hpos) (not_lt.1 hc)
      omega
    constructor
    · right
      exact ⟨hh1, by omega⟩
    · rintro (h | ⟨_, h⟩) <;> omega

theorem Load_owner_edge_rule_witness :
    triS1.vy 0 = triS1.vy (0 + 1) ∧ triS1Below.vy 0 = triS1Below.vy (0 + 1) ∧
      triS1Below.vy 0 = triS1.vy 0 ∧
      (triS1.vy (0 + 2) - triS1.vy 0) * (triS1Below.vy (0 + 2) - triS1.vy 0) < 0 ∧
      triS1Below.vy (0 + 2) < triS1.vy (0 + 2) ∧
      (TriangleSIMD.Load triS1).isOwnerEdge 0 = 1 ∧
      (TriangleSIMD.Load triS1Below).isOwnerEdge 0 = 0 :=
  ⟨by decide, by decide, by decide, by decide, by decide,
    (Load_owner_edge_rule triS1 0).2.2 triS1Below 0 (by decide) (by decide) (by decide)
      (by decide) (by decide)⟩

/-! ## Independence of the tile size -/

/-- Membership of an even quad origin in the quad list, without the loop counter. -/
theorem mem_rasterQuads_even {F : Type} (regionX0 regionY0 regionW regionH : Int)
    (tri : ProjectedTriangle F) (t : TriangleSIMD F) (qx qy : Int)
    (hqx : qx % 2 = 0) (hqy : qy % 2 = 0) :
    (qx, qy) ∈ rasterQuads regionX0 regionY0 regionW regionH tri t ↔
      ((max tri.pixelBounds.1 regionX0 ≤ qx + 1 ∧
          qx ≤ min tri.pixelBounds.2.1 (regionX0 + regionW - 1)) ∧
        (max tri.pixelBounds.2.2.1 regionY0 ≤ qy + 1 ∧
          qy ≤ min tri.pixelBounds.2.2.2 (regionY0 + regionH - 1))) ∧
      t.TestQuadFragment (quadSampleX qx) (quadSampleY qy) ≠ 0 := by
  rw [mem_rasterQuads, quadBounds_eq]
  generalize tri.pixelBounds = pb
  obtain ⟨bx0, bx1, by0, by1⟩ := pb
  simp only
  constructor
  · rintro ⟨⟨n, hn⟩, h1, ⟨m, hm⟩, h2, hmask⟩
    exact ⟨by omega, hmask⟩
  · rintro ⟨⟨⟨h1, h2⟩, h3, h4⟩, hmask⟩
    refine ⟨⟨((qy - 2 * (max by0 regionY0 / 2)) / 2).toNat, ?_⟩, by omega,
      ⟨((qx - 2 * (max bx0 regionX0 / 2)) / 2).toNat, ?_⟩, by omega, hmask⟩
    · rw [Int.toNat_of_nonneg (by omega)]
      omega
    · rw [Int.toNat_of_nonneg (by omega)]
      omega

/-- A covered sample is emitted for a pixel in a region exactly when the quad of the
pixel meets the region and the region-independent conditions hold. -/
theorem fragmentEmitted_iff {F : Type} (regionX0 regionY0 regionW regionH : Int)
    (tri : ProjectedTriangle F) (x y : Int) :
    fragmentEmitted regionX0 regionY0 regionW regionH tri x y = true ↔
      ((regionX0 ≤ clearBit0 x + 1 ∧ clearBit0 x ≤ regionX0 + regionW - 1) ∧
        (regionY0 ≤ clearBit0 y + 1 ∧ clearBit0 y ≤ regionY0 + regionH - 1)) ∧
      fragmentInBox tri x y = true := by
  have hx : clearBit0 x % 2 = 0 := by rw [clearBit0_eq]; omega
  have hy : clearBit0 y % 2 = 0 := by rw [clearBit0_eq]; omega
  unfold fragmentEmitted fragmentInBox
  rw [Bool.and_eq_true, decide_eq_true_iff, mem_rasterQuads_even _ _ _ _ _ _ _ _ hx hy]
  simp only [Bool.and_eq_true, decide_eq_true_iff, max_le_iff, le_min_iff]
  tauto

/-- Rasterizing a triangle with the forward quad processor keeps the size of the
framebuffer. -/
theorem rasterize_forward_size {F : Type} (ops : FloatOps F)
    (ShadeFragment : ShadeFragmentFn F) (tiledTri : TiledTriangle F)
    (regionX0 regionY0 regionW regionH : Int) (fb : FrameBuffer F) :
    (RasterizeTriangle regionX0 regionY0 regionW regionH tiledTri.triangle
        (TriangleSIMD.Load tiledTri.triangle)
        (forwardQuad ops (FrameBuffer.ops ops) ShadeFragment tiledTri tiledTri.triangle
          (TriangleSIMD.Load tiledTri.triangle)) fb).width = fb.width ∧
    (RasterizeTriangle regionX0 regionY0 regionW regionH tiledTri.triangle
        (TriangleSIMD.Load tiledTri.triangle)
        (forwardQuad ops (FrameBuffer.ops ops) ShadeFragment tiledTri tiledTri.triangle
          (TriangleSIMD.Load tiledTri.triangle)) fb).height = fb.height := by
  rw [RasterizeTriangle_eq_foldl]
  generalize rasterQuads regionX0 regionY0 regionW regionH tiledTri.triangle
    (TriangleSIMD.Load tiledTri.triangle) = l
  induction l generalizing fb with
  | nil => exact ⟨rfl, rfl⟩
  | cons q l ih =>
    rw [List.foldl_cons]
    have h := ih (forwardQuad ops (FrameBuffer.ops ops) ShadeFragment tiledTri
      tiledTri.triangle (TriangleSIMD.Load tiledTri.triangle) q.1 q.2 false fb)
    have hw : (forwardQuad ops (FrameBuffer.ops ops) ShadeFragment tiledTri
        tiledTri.triangle (TriangleSIMD.Load tiledTri.triangle) q.1 q.2 false fb).width
        = fb.width := by rw [forwardQuad_eq]
    have hh : (forwardQuad ops (FrameBuffer.ops ops) ShadeFragment tiledTri
        tiledTri.triangle (TriangleSIMD.Load tiledTri.triangle) q.1 q.2 false fb).height
        = fb.height := by rw [forwardQuad_eq]
    exact ⟨h.1.trans hw, h.2.trans hh⟩

/-- `ProcessBin` on a tile whose queue holds one triangle, seen at one pixel. -/
theorem ProcessBin_single {F : Type} (ops : FloatOps F) (ShadeFragment : ShadeFragmentFn F)
    (gridWidth : Int) (tileBins : List (List (TiledTriangle F))) (tileId : Int)
    (tiledTri : TiledTriangle F) (hq : binAt tileBins tileId = [tiledTri])
    (fb : FrameBuffer F) (r : Int × Int × Int × Int)
    (hr : tileRect gridWidth fb.width fb.height tileId = r) (x y : Int) :
    ((ProcessBin ops (FrameBuffer.ops ops) ShadeFragment gridWidth tileBins tileId fb).width
        = fb.width ∧
      (ProcessBin ops (FrameBuffer.ops ops) ShadeFragment gridWidth tileBins tileId fb).height
        = fb.height) ∧
    (ProcessBin ops (FrameBuffer.ops ops) ShadeFragment gridWidth tileBins tileId fb).depth x y =
      (if fragmentEmitted r.1 r.2.1 r.2.2.1 r.2.2.2 tiledTri.triangle x y = true ∧
          ops.lt (fragmentZ ops tiledTri.triangle x y) (fb.depth x y) = true
        then fragmentZ ops tiledTri.triangle x y else fb.depth x y) ∧
    (ProcessBin ops (FrameBuffer.ops ops) ShadeFragment gridWidth tileBins tileId fb).color x y =
      (if fragmentEmitted r.1 r.2.1 r.2.2.1 r.2.2.2 tiledTri.triangle x y = true ∧
          ops.lt (fragmentZ ops tiledTri.triangle x y) (fb.depth x y) = true
        then fragmentColor ops ShadeFragment tiledTri x y else fb.color x y) := by
  rw [ProcessBin_eq_foldl, hq, hr]
  simp only [List.foldl_cons, List.foldl_nil]
  exact ⟨rasterize_forward_size ops ShadeFragment tiledTri _ _ _ _ fb,
    rasterize_forward_at_pixel ops ShadeFragment tiledTri _ _ _ _ fb x y⟩

/-- On a 64 x 64 target a covered sample is emitted in at most one of the four tiles,
and in one of them exactly when it is emitted in the whole target as one region. -/
theorem fragmentEmitted_tiles {F : Type} (tri : ProjectedTriangle F) (x y : Int) :
    (fragmentEmitted 0 0 64 64 tri x y =
      (fragmentEmitted 0 0 32 32 tri x y || fragmentEmitted 32 0 32 32 tri x y ||
        fragmentEmitted 0 32 32 32 tri x y || fragmentEmitted 32 32 32 32 tri x y)) ∧
    (fragmentEmitted 0 0 32 32 tri x y = true →
      fragmentEmitted 32 0 32 32 tri x y = false ∧ fragmentEmitted 0 32 32 32 tri x y = false ∧
        fragmentEmitted 32 32 32 32 tri x y = false) ∧
    (fragmentEmitted 32 0 32 32 tri x y = true →
      fragmentEmitted 0 32 32 32 tri x y = false ∧
        fragmentEmitted 32 32 32 32 tri x y = false) ∧
    (fragmentEmitted 0 32 32 32 tri x y = true →
      fragmentEmitted 32 32 32 32 tri x y = false) := by
  have hqx := clearBit0_eq x
  have hqy := clearBit0_eq y
  have hw := fragmentEmitted_iff 0 0 64 64 tri x y
  have h0 := fragmentEmitted_iff 0 0 32 32 tri x y
  have h1 := fragmentEmitted_iff 32 0 32 32 tri x y
  have h2 := fragmentEmitted_iff 0 32 32 32 tri x y
  have h3 := fragmentEmitted_iff 32 32 32 32 tri x y
  generalize clearBit0 x = qx at *
  generalize clearBit0 y = qy at *
  have hf : ∀ b : Bool, b = false ↔ ¬ b = true := by decide
  refine ⟨?_, ?_, ?_, ?_⟩
  · rw [Bool.eq_iff_iff]
    simp only [Bool.or_eq_true]
    rw [hw, h0, h1, h2, h3]
    constructor
    · rintro ⟨hreg, hbox⟩
      by_cases hxl : qx ≤ 31 <;> by_cases hyl : qy ≤ 31
      · exact Or.inl (Or.inl (Or.inl ⟨by omega, hbox⟩))
      · exact Or.inl (Or.inr ⟨by omega, hbox⟩)
      · exact Or.inl (Or.inl (Or.inr ⟨by omega, hbox⟩))
      · exact Or.inr ⟨by omega, hbox⟩
    · rintro (((⟨hreg, hbox⟩ | ⟨hreg, hbox⟩) | ⟨hreg, hbox⟩) | ⟨hreg, hbox⟩) <;>
        exact ⟨by omega, hbox⟩
  · intro h
    rw [h0] at h
    rw [hf, hf, hf, h1, h2, h3]
    refine ⟨?_, ?_, ?_⟩ <;> rintro ⟨hreg, _⟩ <;> omega
  · intro h
    rw [h1] at h
    rw [hf, hf, h2, h3]
    refine ⟨?_, ?_⟩ <;> rintro ⟨hreg, _⟩ <;> omega
  · intro h
    rw [h2] at h
    rw [hf, h3]
    rintro ⟨hreg, _⟩
    omega

/-- C14. Tile-size independence on a 64 x 64 target (a grid of 2 x 2 tiles). For every
triangle and every pixel `(x, y)` of the target, `RasterizeTriangle` restricted to the
32 x 32 tile that contains the pixel invokes the callback for the quad of the pixel
exactly when `RasterizeTriangle` on the whole target as one region does, a covered
sample is emitted for the pixel in the one case exactly when it is in the other, and
the forward quad processor leaves the same depth and colour at the pixel. Moreover,
when the triangle is queued in all four tiles, processing the four tiles with
`ProcessBin` leaves the same depth and colour at every pixel as rasterizing the triangle
once with the whole target as the region. -/
theorem tile_size_independence {F : Type} (ops : FloatOps F)
    (ShadeFragment : ShadeFragmentFn F) (tiledTri : TiledTriangle F) (x y : Int)
    (hx : 0 ≤ x ∧ x < 64) (hy : 0 ≤ y ∧ y < 64) :
    (gridDim 64 = 2 ∧
      tileRect (gridDim 64) 64 64 (y / 32 * gridDim 64 + x / 32)
        = (32 * (x / 32), 32 * (y / 32), 32, 32)) ∧
    ((clearBit0 x, clearBit0 y) ∈ rasterQuads (32 * (x / 32)) (32 * (y / 32)) 32 32
        tiledTri.triangle (TriangleSIMD.Load tiledTri.triangle) ↔
      (clearBit0 x, clearBit0 y) ∈ rasterQuads 0 0 64 64
        tiledTri.triangle (TriangleSIMD.Load tiledTri.triangle)) ∧
    fragmentEmitted (32 * (x / 32)) (32 * (y / 32)) 32 32 tiledTri.triangle x y
      = fragmentEmitted 0 0 64 64 tiledTri.triangle x y ∧
    (∀ fb : FrameBuffer F,
      (RasterizeTriangle (32 * (x / 32)) (32 * (y / 32)) 32 32 tiledTri.triangle
          (TriangleSIMD.Load tiledTri.triangle)
          (forwardQuad ops (FrameBuffer.ops ops) ShadeFragment tiledTri tiledTri.triangle
            (TriangleSIMD.Load tiledTri.triangle)) fb).depth x y =
        (RasterizeTriangle 0 0 64 64 tiledTri.triangle
          (TriangleSIMD.Load tiledTri.triangle)
          (forwardQuad ops (FrameBuffer.ops ops) ShadeFragment tiledTri tiledTri.triangle
            (TriangleSIMD.Load tiledTri.triangle)) fb).depth x y ∧
      (RasterizeTriangle (32 * (x / 32)) (32 * (y / 32)) 32 32 tiledTri.triangle
          (TriangleSIMD.Load tiledTri.triangle)
          (forwardQuad ops (FrameBuffer.ops ops) ShadeFragment tiledTri tiledTri.triangle
            (TriangleSIMD.Load tiledTri.triangle)) fb).color x y =
        (RasterizeTriangle 0 0 64 64 tiledTri.triangle
          (TriangleSIMD.Load tiledTri.triangle)
          (forwardQuad ops (FrameBuffer.ops ops) ShadeFragment tiledTri tiledTri.triangle
            (TriangleSIMD.Load tiledTri.triangle)) fb).color x y) ∧
    (∀ (tileBins : List (List (TiledTriangle F))) (fb : FrameBuffer F),
      fb.width = 64 → fb.height = 64 →
      (∀ tileId ∈ [(0 : Int), 1, 2, 3], binAt tileBins tileId = [tiledTri]) →
      ∀ x2 y2 : Int,
        (processFourTiles ops ShadeFragment tileBins fb).depth x2 y2 =
          (RasterizeTriangle 0 0 64 64 tiledTri.triangle
            (TriangleSIMD.Load tiledTri.triangle)
            (forwardQuad ops (FrameBuffer.ops ops) ShadeFragment tiledTri tiledTri.triangle
              (TriangleSIMD.Load tiledTri.triangle)) fb).depth x2 y2 ∧
        (processFourTiles ops ShadeFragment tileBins fb).color x2 y2 =
          (RasterizeTriangle 0 0 64 64 tiledTri.triangle
            (TriangleSIMD.Load tiledTri.triangle)
            (forwardQuad ops (FrameBuffer.ops ops) ShadeFragment tiledTri tiledTri.triangle
              (TriangleSIMD.Load tiledTri.triangle)) fb).color x2 y2) := by
  have hg : gridDim 64 = 2 := by decide!
  have hem : fragmentEmitted (32 * (x / 32)) (32 * (y / 32)) 32 32 tiledTri.triangle x y
      = fragmentEmitted 0 0 64 64 tiledTri.triangle x y := by
    rw [Bool.eq_iff_iff, fragmentEmitted_iff, fragmentEmitted_iff]
    have hqx := clearBit0_eq x
    have hqy := clearBit0_eq y
    constructor
    · rintro ⟨hreg, hbox⟩
      exact ⟨by omega, hbox⟩
    · rintro ⟨hreg, hbox⟩
      exact ⟨by omega, hbox⟩
  refine ⟨⟨hg, ?_⟩, ?_, hem, ?_, ?_⟩
  · rw [hg]
    have h1 : x / 32 = 0 ∨ x / 32 = 1 := by omega
    have h2 : y / 32 = 0 ∨ y / 32 = 1 := by omega
    rcases h1 with h1 | h1 <;> rcases h2 with h2 | h2 <;> rw [h1, h2] <;> decide!
  · have hqx := clearBit0_eq x
    have hqy := clearBit0_eq y
    rw [mem_rasterQuads_even _ _ _ _ _ _ _ _ (by omega) (by omega),
      mem_rasterQuads_even _ _ _ _ _ _ _ _ (by omega) (by omega)]
    generalize tiledTri.triangle.pixelBounds = pb
    obtain ⟨bx0, bx1, by0, by1⟩ := pb
    simp only
    constructor
    · rintro ⟨hreg, hm⟩
      exact ⟨by omega, hm⟩
    · rintro ⟨hreg, hm⟩
      exact ⟨by omega, hm⟩
  · intro fb
    have ht := rasterize_forward_at_pixel ops ShadeFragment tiledTri (32 * (x / 32))
      (32 * (y / 32)) 32 32 fb x y
    have hw := rasterize_forward_at_pixel ops ShadeFragment tiledTri 0 0 64 64 fb x y
    rw [ht.1, ht.2, hw.1, hw.2, hem]
    exact ⟨rfl, rfl⟩
  · intro tileBins fb hwd hht hq x2 y2
    unfold processFourTiles
    simp only [List.foldl_cons, List.foldl_nil]
    have s0 := ProcessBin_single ops ShadeFragment 2 tileBins 0 tiledTri
      (hq 0 (by simp)) fb (0, 0, 32, 32) (by rw [hwd, hht]; decide!) x2 y2
    have s1 := ProcessBin_single ops ShadeFragment 2 tileBins 1 tiledTri
      (hq 1 (by simp)) _ (32, 0, 32, 32) (by rw [s0.1.1, s0.1.2, hwd, hht]; decide!) x2 y2
    have s2 := ProcessBin_single ops ShadeFragment 2 tileBins 2 tiledTri
      (hq 2 (by simp)) _ (0, 32, 32, 32)
      (by rw [s1.1.1, s1.1.2, s0.1.1, s0.1.2, hwd, hht]; decide!) x2 y2
    have s3 := ProcessBin_single ops ShadeFragment 2 tileBins 3 tiledTri
      (hq 3 (by simp)) _ (32, 32, 32, 32)
      (by rw [s2.1.1, s2.1.2, s1.1.1, s1.1.2, s0.1.1, s0.1.2, hwd, hht]; decide!) x2 y2
    have hw := rasterize_forward_at_pixel ops ShadeFragment tiledTri 0 0 64 64 fb x2 y2
    have ht := fragmentEmitted_tiles tiledTri.triangle x2 y2
    rw [s3.2.1, s3.2.2, s2.2.1, s2.2.2, s1.2.1, s1.2.2, s0.2.1, s0.2.2, hw.1, hw.2, ht.1]
    simp only at ht ⊢
    obtain ⟨_, ht0, ht1, ht2⟩ := ht
    generalize fragmentEmitted 0 0 32 32 tiledTri.triangle x2 y2 = e0 at ht0 ⊢
    generalize fragmentEmitted 32 0 32 32 tiledTri.triangle x2 y2 = e1 at ht0 ht1 ⊢
    generalize fragmentEmitted 0 32 32 32 tiledTri.triangle x2 y2 = e2 at ht0 ht1 ht2 ⊢
    generalize fragmentEmitted 32 32 32 32 tiledTri.triangle x2 y2 = e3 at ht0 ht1 ht2 ⊢
    cases e0 <;> cases e1 <;> cases e2 <;> cases e3 <;> simp at ht0 ht1 ht2 ⊢

theorem tile_size_independence_witness :
    ((0 : Int) ≤ 40 ∧ (40 : Int) < 64) ∧ ((0 : Int) ≤ 10 ∧ (10 : Int) < 64) ∧
      fragmentEmitted (32 * (40 / 32)) (32 * (10 / 32)) 32 32 triS1 40 10
        = fragmentEmitted 0 0 64 64 triS1 40 10 ∧
      fragmentEmitted 0 0 64 64 triS1 40 10 = true :=
  ⟨by decide, by decide,
    (tile_size_independence ratOps shadeWhite ⟨triS1, 0, 0⟩ 40 10 (by decide) (by decide)).2.2.1,
    by decide!⟩

/-! ## The active shader across the deferred passes -/

/-- Evaluation for C15. `ProcessBinLightingPass` returns with `state.Shader` as on
entry on every path, and so does `ProcessBinGeometryPass` for every tile id `>= 0`. For
a negative tile id, with G-buffer, framebuffer and geometry shader present,
`ProcessBinGeometryPass` returns through `if (tileId < 0 || ...) return;` after the swap
and leaves the geometry shader in `state.Shader`. -/
theorem geometry_pass_negative_tile_keeps_geometry_shader {F FB Sh : Type}
    (ops : FloatOps F) (lops : LightingFloatOps F) (fbo : FrameBufferOps F FB)
    (InterpolateVertexOutput : InterpolateFn F Sh)
    (self : DeferredTiledRendererAlgorithm F FB Sh) (state : RenderState Sh)
    (input : ProjectedTriangleInput F) (vertexOutputSize : Int) (tileId : Int) :
    (ProcessBinLightingPass lops fbo self state tileId).1.Shader = state.Shader ∧
    (0 ≤ tileId →
      (ProcessBinGeometryPass ops fbo InterpolateVertexOutput self state input
        vertexOutputSize tileId).1.Shader = state.Shader) ∧
    (∀ (gbuffer : GBuffer F) (frameBuffer : FB) (geometryShader : Sh),
      self.gbuffer = some gbuffer → self.frameBuffer = some frameBuffer →
      self.geometryShader = some geometryShader → tileId < 0 →
      (ProcessBinGeometryPass ops fbo InterpolateVertexOutput self state input
        vertexOutputSize tileId).1.Shader = some geometryShader) := by
  refine ⟨?_, ?_, ?_⟩
  · unfold ProcessBinLightingPass
    split
    · rfl
    · split
      · rfl
      · split
        · rfl
        · rfl
  · intro hid
    unfold ProcessBinGeometryPass
    split
    · rfl
    · rename_i hlen
      split
      · simp only
        split
        · rfl
        · rw [if_neg (by omega)]
      · rfl
  · intro gbuffer frameBuffer geometryShader hg hfb hgs hneg
    unfold ProcessBinGeometryPass
    have hlen : ¬ tileId ≥ (self.tileBins.length : Int) := by omega
    rw [if_neg hlen, hg, hfb]
    simp only [hgs]
    rw [if_pos (Or.inl hneg)]

theorem geometry_pass_negative_tile_keeps_geometry_shader_witness :
    (deferredWithShaders 4 4).gbuffer = some (gBufferAtDepth 4 4 1) ∧
      (deferredWithShaders 4 4).frameBuffer = some (frameBufferAtDepth 4 4 1) ∧
      (deferredWithShaders 4 4).geometryShader = some 1 ∧ (-1 : Int) < 0 ∧
      (ProcessBinGeometryPass ratOps (FrameBuffer.ops ratOps) (fun _ _ _ _ _ _ _ _ _ _ => 0)
        (deferredWithShaders 4 4) ⟨some 0⟩ inputTwoThreads 0 (-1)).1.Shader = some 1 ∧
      (⟨some 0⟩ : RenderState Nat).Shader = some 0 :=
  ⟨rfl, rfl, rfl, by decide,
    (geometry_pass_negative_tile_keeps_geometry_shader ratOps ratLightingOps
      (FrameBuffer.ops ratOps) (fun _ _ _ _ _ _ _ _ _ _ => 0) (deferredWithShaders 4 4)
      ⟨some 0⟩ inputTwoThreads 0 (-1)).2.2 (gBufferAtDepth 4 4 1) (frameBufferAtDepth 4 4 1) 1
      rfl rfl rfl (by decide), rfl⟩

/-! ## Clear and the global tile bins -/

theorem clearBins_eq_replicate {F : Type} (bins : List (List (TiledTriangle F))) :
    clearBins bins = List.replicate bins.length [] := by
  unfold clearBins
  induction bins with
  | nil => rfl
  | cons a l ih => simp [List.replicate_succ, ih]

/-- C16 (amended). After `DeferredTiledRendererAlgorithm::Clear` every global tile bin
is empty, whatever the bins held before; `TiledRendererAlgorithm::Clear` only clears the
framebuffer and leaves the global tile bins as they were. -/
theorem Clear_bins_deferred_emptied_forward_kept {F FB Sh : Type} (ops : FloatOps F)
    (fbo : FrameBufferOps F FB) (deferred : DeferredTiledRendererAlgorithm F FB Sh)
    (forward : TiledRendererAlgorithm F FB) (clearColor : Vec4 F) (color depth : Bool) :
    (deferred.Clear ops fbo clearColor color depth).tileBins
        = List.replicate deferred.tileBins.length [] ∧
      (forward.Clear fbo clearColor color depth).tileBins = forward.tileBins ∧
      (forward.Clear fbo clearColor color depth).frameBuffer
        = fbo.Clear forward.frameBuffer clearColor color depth :=
  ⟨clearBins_eq_replicate deferred.tileBins, rfl, rfl⟩

theorem Clear_bins_deferred_emptied_forward_kept_witness :
    ((deferredOneTile 4 4 1 [⟨triS1, 0, 0⟩]).Clear ratOps (FrameBuffer.ops ratOps)
        ⟨0, 0, 0, 0⟩ true true).tileBins = List.replicate 1 [] :=
  (Clear_bins_deferred_emptied_forward_kept ratOps (FrameBuffer.ops ratOps)
    (deferredOneTile 4 4 1 [⟨triS1, 0, 0⟩])
    ⟨1, 1, clearedFrameBuffer 4 4, [[⟨triS1, 0, 0⟩]], []⟩ ⟨0, 0, 0, 0⟩ true true).1

/-- Counterexample to C16 as stated: a forward renderer whose only global tile bin holds
one triangle still holds that triangle in the bin after `Clear`. -/
theorem forward_Clear_keeps_bins :
    ((⟨1, 1, clearedFrameBuffer 4 4, [[⟨triS1, 0, 0⟩]], []⟩ :
        TiledRendererAlgorithm ℚ (FrameBuffer ℚ)).Clear (FrameBuffer.ops ratOps)
        ⟨0, 0, 0, 0⟩ true true).tileBins.map List.length = [1] := by
  decide

/-! ## The index guard of the geometry pass -/

theorem GBuffer.SetDepth_planes {F : Type} (g : GBuffer F) (x y : Int) (d : F) :
    (g.SetDepth x y d).positionBuffer = g.positionBuffer ∧
      (g.SetDepth x y d).normalBuffer = g.normalBuffer ∧
      (g.SetDepth x y d).albedoBuffer = g.albedoBuffer := by
  unfold GBuffer.SetDepth
  split
  · exact ⟨rfl, rfl, rfl⟩
  · exact ⟨rfl, rfl, rfl⟩

/-- The four guarded depth writes leave the position, normal and albedo planes as they
were. -/
theorem deferredDepthWrites_planes {F : Type} (c0 c1 c2 c3 : Bool)
    (pixelX pixelY : Fin 4 → Int) (z : M128 F) (g : GBuffer F) :
    (deferredDepthWrites c0 c1 c2 c3 pixelX pixelY z g).positionBuffer = g.positionBuffer ∧
      (deferredDepthWrites c0 c1 c2 c3 pixelX pixelY z g).normalBuffer = g.normalBuffer ∧
      (deferredDepthWrites c0 c1 c2 c3 pixelX pixelY z g).albedoBuffer = g.albedoBuffer := by
  have h : ∀ (c : Bool) (x y : Int) (d : F) (gb : GBuffer F),
      (if c then gb.SetDepth x y d else gb).positionBuffer = gb.positionBuffer ∧
        (if c then gb.SetDepth x y d else gb).normalBuffer = gb.normalBuffer ∧
        (if c then gb.SetDepth x y d else gb).albedoBuffer = gb.albedoBuffer := by
    intro c x y d gb
    cases c
    · exact ⟨rfl, rfl, rfl⟩
    · exact GBuffer.SetDepth_planes gb x y d
  unfold deferredDepthWrites
  simp only
  have h3 := h c3 (pixelX 3) (pixelY 3) (z 3)
    (if c2 then (if c1 then (if c0 then g.SetDepth (pixelX 0) (pixelY 0) (z 0) else g).SetDepth
      (pixelX 1) (pixelY 1) (z 1) else (if c0 then g.SetDepth (pixelX 0) (pixelY 0) (z 0)
      else g)).SetDepth (pixelX 2) (pixelY 2) (z 2)
     else (if c1 then (if c0 then g.SetDepth (pixelX 0) (pixelY 0) (z 0) else g).SetDepth
      (pixelX 1) (pixelY 1) (z 1) else (if c0 then g.SetDepth (pixelX 0) (pixelY 0) (z 0)
      else g)))
  have h2 := h c2 (pixelX 2) (pixelY 2) (z 2)
    (if c1 then (if c0 then g.SetDepth (pixelX 0) (pixelY 0) (z 0) else g).SetDepth
      (pixelX 1) (pixelY 1) (z 1) else (if c0 then g.SetDepth (pixelX 0) (pixelY 0) (z 0)
      else g))
  have h1 := h c1 (pixelX 1) (pixelY 1) (z 1)
    (if c0 then g.SetDepth (pixelX 0) (pixelY 0) (z 0) else g)
  have h0 := h c0 (pixelX 0) (pixelY 0) (z 0) g
  exact ⟨h3.1.trans (h2.1.trans (h1.1.trans h0.1)),
    h3.2.1.trans (h2.2.1.trans (h1.2.1.trans h0.2.1)),
    h3.2.2.trans (h2.2.2.trans (h1.2.2.trans h0.2.2))⟩

/-- With an attribute stage that changes nothing, the tail of a deferred quad fragment
is its four guarded depth writes. -/
theorem deferredTail_of_no_attr {F : Type} (c0 c1 c2 c3 : Bool) (pixelX pixelY : Fin 4 → Int)
    (z : M128 F) (attr : FragmentCoverageMask → GBuffer F → GBuffer F)
    (hattr : ∀ vis gb, attr vis gb = gb) (g : GBuffer F) :
    deferredTail c0 c1 c2 c3 pixelX pixelY z attr g =
      deferredDepthWrites c0 c1 c2 c3 pixelX pixelY z g := by
  unfold deferredTail deferredDepthWrites
  simp only [hattr, ite_self]

/-- Evaluation for C17. When `tri.Id * 3 + 2` is not below the size of the index output
buffer of the triangle's thread, a deferred quad fragment leaves the position, normal
and albedo planes of the G-buffer as they were, but it still performs its depth writes:
the G-buffer after the fragment is the G-buffer after the four guarded `SetDepth`
calls. -/
theorem index_guard_skips_attributes_but_writes_depth {F Sh : Type} (ops : FloatOps F)
    (InterpolateVertexOutput : InterpolateFn F Sh) (state : RenderState Sh)
    (input : ProjectedTriangleInput F) (vertexOutputSize : Int) (tiledTri : TiledTriangle F)
    (tri : ProjectedTriangle F) (t : TriangleSIMD F) (qfx qfy : Int) (g : GBuffer F)
    (hguard : tri.Id * 3 + 2 ≥
      ((input.indexOutputBuffer tiledTri.threadId.toNat).length : Int)) :
    ((deferredQuad ops InterpolateVertexOutput state input vertexOutputSize tiledTri tri t
        qfx qfy false g).positionBuffer = g.positionBuffer ∧
      (deferredQuad ops InterpolateVertexOutput state input vertexOutputSize tiledTri tri t
        qfx qfy false g).normalBuffer = g.normalBuffer ∧
      (deferredQuad ops InterpolateVertexOutput state input vertexOutputSize tiledTri tri t
        qfx qfy false g).albedoBuffer = g.albedoBuffer) ∧
    deferredQuad ops InterpolateVertexOutput state input vertexOutputSize tiledTri tri t
        qfx qfy false g =
      deferredDepthWrites (deferredVisible ops t qfx qfy g 0) (deferredVisible ops t qfx qfy g 1)
        (deferredVisible ops t qfx qfy g 2) (deferredVisible ops t qfx qfy g 3)
        (clampedPixelX g qfx) (clampedPixelY g qfy) (quadZ ops t qfx qfy) g := by
  have hfrag : ∀ vis (pixelX pixelY : Fin 4 → Int) (a b c : M128 F) (gb : GBuffer F)
      (k : Fin 4),
      deferredFragment ops InterpolateVertexOutput state input vertexOutputSize tiledTri tri
        vis pixelX pixelY a b c gb k = gb := by
    intro vis pixelX pixelY a b c gb k
    unfold deferredFragment
    split
    · simp only
      rw [if_pos hguard]
    · rfl
  have heq : deferredQuad ops InterpolateVertexOutput state input vertexOutputSize tiledTri
      tri t qfx qfy false g =
      deferredDepthWrites (deferredVisible ops t qfx qfy g 0) (deferredVisible ops t qfx qfy g 1)
        (deferredVisible ops t qfx qfy g 2) (deferredVisible ops t qfx qfy g 3)
        (clampedPixelX g qfx) (clampedPixelY g qfy) (quadZ ops t qfx qfy) g := by
    rw [deferredQuad_eq_tail]
    apply deferredTail_of_no_attr
    intro vis gb
    simp only [List.foldl_cons, List.foldl_nil, hfrag]
  refine ⟨?_, heq⟩
  rw [heq]
  exact deferredDepthWrites_planes _ _ _ _ _ _ _ g

theorem index_guard_skips_attributes_but_writes_depth_witness :
    (triS1AtDepth (3 / 10)).Id * 3 + 2 ≥
        ((inputTwoThreads.indexOutputBuffer (0 : Int).toNat).length : Int) ∧
      (deferredQuad ratOps interpolateZero ⟨none⟩ inputTwoThreads 0
          ⟨triS1AtDepth (3 / 10), 0, 0⟩ (triS1AtDepth (3 / 10))
          (TriangleSIMD.Load (triS1AtDepth (3 / 10))) 0 0 false
          (gBufferAtDepth 4 4 1)).albedoBuffer = (gBufferAtDepth 4 4 1).albedoBuffer ∧
      (gBufferAtDepth 4 4 1).GetDepth ratOps 1 1 = 1 ∧
      (deferredQuad ratOps interpolateZero ⟨none⟩ inputTwoThreads 0
          ⟨triS1AtDepth (3 / 10), 0, 0⟩ (triS1AtDepth (3 / 10))
          (TriangleSIMD.Load (triS1AtDepth (3 / 10))) 0 0 false
          (gBufferAtDepth 4 4 1)).GetDepth ratOps 1 1 = 3 / 10 :=
  ⟨by decide,
    (index_guard_skips_attributes_but_writes_depth ratOps interpolateZero ⟨none⟩
      inputTwoThreads 0 ⟨triS1AtDepth (3 / 10), 0, 0⟩ (triS1AtDepth (3 / 10))
      (TriangleSIMD.Load (triS1AtDepth (3 / 10))) 0 0 (gBufferAtDepth 4 4 1)
      (by decide)).1.2.2,
    by decide!, by decide!⟩

/-! ## The normal written by the geometry pass -/

theorem GBuffer.GetNormal_SetAlbedo {F : Type} (ops : FloatOps F) (g : GBuffer F) (x y : Int)
    (a : Vec4 F) (x2 y2 : Int) :
    (g.SetAlbedo x y a).GetNormal ops x2 y2 = g.GetNormal ops x2 y2 := by
  unfold GBuffer.SetAlbedo
  split
  · rfl
  · rfl

/-- Reading the normal plane at the pixel just written with `SetNormal`. -/
theorem GBuffer.GetNormal_SetNormal {F : Type} (ops : FloatOps F) (g : GBuffer F)
    (hwf : g.WellFormed) (x y : Int) (n : Vec3 F) (h : g.inRange x y = true) :
    (g.SetNormal x y n).GetNormal ops x y = n := by
  have hlt := GBuffer.index_lt g x y h
  obtain ⟨_, _, _, h4, _, _⟩ := hwf
  unfold GBuffer.SetNormal
  rw [if_pos h]
  unfold GBuffer.GetNormal
  have h2 : GBuffer.inRange
      { g with normalBuffer := (g.normalBuffer.set (y * g.width + x).toNat n) } x y = true := h
  rw [if_pos h2]
  simp only
  rw [List.getD_eq_getElem?_getD, List.getElem?_set]
  simp [h4, hlt]

/-- C18 (amended). In the deferred geometry pass, for a visible fragment whose triangle
id is in range of the index buffer and whose pixel lies inside a well-formed G-buffer,
the normal read back from the G-buffer is the interpolated world normal (vertex-output
slots 4, 5, 6) divided by its length `sqrtf(x*x + y*y + z*z)` when that length is above
0.001, and the interpolated normal itself otherwise. -/
theorem stored_normal_is_normalized {F Sh : Type} (ops : FloatOps F)
    (InterpolateVertexOutput : InterpolateFn F Sh) (state : RenderState Sh)
    (input : ProjectedTriangleInput F) (vertexOutputSize : Int) (tiledTri : TiledTriangle F)
    (tri : ProjectedTriangle F) (visibility : FragmentCoverageMask)
    (pixelX pixelY : Fin 4 → Int) (alphaVals betaVals gammaVals : M128 F) (g : GBuffer F)
    (fragIdx : Fin 4) (hwf : g.WellFormed)
    (hvis : visibility.GetBit fragIdx.val = true)
    (hidx : tri.Id * 3 + 2 < ((input.indexOutputBuffer tiledTri.threadId.toNat).length : Int))
    (hin : g.inRange (pixelX fragIdx) (pixelY fragIdx) = true) :
    (deferredFragment ops InterpolateVertexOutput state input vertexOutputSize tiledTri tri
        visibility pixelX pixelY alphaVals betaVals gammaVals g fragIdx).GetNormal ops
        (pixelX fragIdx) (pixelY fragIdx) =
      normalizeIfLong ops
        (interpolatedNormal InterpolateVertexOutput state input vertexOutputSize tiledTri tri
          alphaVals betaVals gammaVals fragIdx)
        (vecLength ops
          (interpolatedNormal InterpolateVertexOutput state input vertexOutputSize tiledTri tri
            alphaVals betaVals gammaVals fragIdx)) := by
  unfold deferredFragment
  rw [if_pos hvis]
  simp only
  rw [if_neg (by omega), GBuffer.GetNormal_SetAlbedo]
  have hp := GBuffer.SetPosition_depth ops g (pixelX fragIdx) (pixelY fragIdx)
  rw [GBuffer.GetNormal_SetNormal ops _ ((hp _).2.2.2 hwf) _ _ _ (by
    unfold GBuffer.inRange at hin ⊢
    rw [(hp _).2.1, (hp _).2.2.1]
    exact hin)]
  rfl

theorem stored_normal_is_normalized_witness :
    (gBufferAtDepth 4 4 1).WellFormed ∧
      (FragmentCoverageMask.empty.SetBit 3).GetBit (3 : Fin 4).val = true ∧
      triS1.Id * 3 + 2 < ((inputIndexed.indexOutputBuffer (0 : Int).toNat).length : Int) ∧
      (gBufferAtDepth 4 4 1).inRange (quadPixelX 0 3) (quadPixelY 0 3) = true ∧
      (deferredFragment ratOps interpolateNormalZ2 ⟨none⟩ inputIndexed 0 ⟨triS1, 0, 0⟩ triS1
          (FragmentCoverageMask.empty.SetBit 3) (quadPixelX 0) (quadPixelY 0)
          (fun _ => 0) (fun _ => 0) (fun _ => 0) (gBufferAtDepth 4 4 1) 3).GetNormal ratOps
          (quadPixelX 0 3) (quadPixelY 0 3) =
        normalizeIfLong ratOps
          (interpolatedNormal interpolateNormalZ2 ⟨none⟩ inputIndexed 0 ⟨triS1, 0, 0⟩ triS1
            (fun _ => 0) (fun _ => 0) (fun _ => 0) 3)
          (vecLength ratOps
            (interpolatedNormal interpolateNormalZ2 ⟨none⟩ inputIndexed 0 ⟨triS1, 0, 0⟩ triS1
              (fun _ => 0) (fun _ => 0) (fun _ => 0) 3)) :=
  ⟨by unfold GBuffer.WellFormed; decide, by decide, by decide, by decide,
    stored_normal_is_normalized ratOps interpolateNormalZ2 ⟨none⟩ inputIndexed 0
      ⟨triS1, 0, 0⟩ triS1 (FragmentCoverageMask.empty.SetBit 3) (quadPixelX 0) (quadPixelY 0)
      (fun _ => 0) (fun _ => 0) (fun _ => 0) (gBufferAtDepth 4 4 1) 3
      (by unfold GBuffer.WellFormed; decide) (by decide) (by decide) (by decide)⟩

/-- Counterexample to C18 as stated: the interpolated normal of every fragment is
`(0, 0, 2)`; after the quad fragment at the origin of a 4 x 4 G-buffer is processed for
the triangle `triS1`, the normal stored for the visible pixel `(1, 1)` is `(0, 0, 1)`. -/
theorem stored_normal_differs_from_interpolated :
    (interpolatedNormal interpolateNormalZ2 ⟨none⟩ inputIndexed 0 ⟨triS1, 0, 0⟩ triS1
        (fun _ => 0) (fun _ => 0) (fun _ => 0) 3).z = 2 ∧
      ((deferredQuad ratOps interpolateNormalZ2 ⟨none⟩ inputIndexed 0 ⟨triS1, 0, 0⟩ triS1
          (TriangleSIMD.Load triS1) 0 0 false (gBufferAtDepth 4 4 1)).GetNormal ratOps 1 1).x
        = 0 ∧
      ((deferredQuad ratOps interpolateNormalZ2 ⟨none⟩ inputIndexed 0 ⟨triS1, 0, 0⟩ triS1
          (TriangleSIMD.Load triS1) 0 0 false (gBufferAtDepth 4 4 1)).GetNormal ratOps 1 1).y
        = 0 ∧
      ((deferredQuad ratOps interpolateNormalZ2 ⟨none⟩ inputIndexed 0 ⟨triS1, 0, 0⟩ triS1
          (TriangleSIMD.Load triS1) 0 0 false (gBufferAtDepth 4 4 1)).GetNormal ratOps 1 1).z
        = 1 := by
  refine ⟨by decide, by decide!, by decide!, by decide!⟩

/-! ## The pixels the lighting pass writes -/

theorem mem_lightingPixels (tilePixelX tilePixelY pxEnd pyEnd x y : Int) :
    (x, y) ∈ lightingPixels tilePixelX tilePixelY pxEnd pyEnd ↔
      (tilePixelX ≤ x ∧ x ≤ pxEnd) ∧ (tilePixelY ≤ y ∧ y ≤ pyEnd) := by
  unfold lightingPixels
  simp only [List.mem_flatMap, List.mem_map, Prod.mk.injEq]
  constructor
  · rintro ⟨py, hpy, px, hpx, rfl, rfl⟩
    rw [mem_loopIndices 1 _ (by decide) _ _ _ le_rfl] at hpy hpx
    obtain ⟨n, hn, hle⟩ := hpy
    obtain ⟨m, hm, hle2⟩ := hpx
    omega
  · rintro ⟨⟨h1, h2⟩, h3, h4⟩
    refine ⟨y, ?_, x, ?_, rfl, rfl⟩
    · rw [mem_loopIndices 1 _ (by decide) _ _ _ le_rfl]
      exact ⟨(y - tilePixelY).toNat, by omega, h4⟩
    · rw [mem_loopIndices 1 _ (by decide) _ _ _ le_rfl]
      exact ⟨(x - tilePixelX).toNat, by omega, h2⟩

theorem lightingPixels_nodup (tilePixelX tilePixelY pxEnd pyEnd : Int) :
    (lightingPixels tilePixelX tilePixelY pxEnd pyEnd).Nodup := by
  unfold lightingPixels
  rw [List.nodup_flatMap]
  constructor
  · intro py _
    apply List.Nodup.map
    · intro a b hab
      simpa using hab
    · exact loopIndices_nodup 1 pxEnd (by decide) _ _
  · refine (loopIndices_pairwise 1 pyEnd (by decide) _ _).imp ?_
    intro a b hab
    rw [Function.onFun, List.disjoint_left]
    intro q hq1 hq2
    simp only [List.mem_map] at hq1 hq2
    obtain ⟨_, _, rfl⟩ := hq1
    obtain ⟨_, _, h2⟩ := hq2
    simp only [Prod.mk.injEq] at h2
    omega

/-- The two pixel loops of the lighting pass fold the pixel body over `lightingPixels`. -/
theorem lightingLoops_eq_foldl {S : Type} (body : Int → Int → S → S)
    (tilePixelX tilePixelY pxEnd pyEnd : Int) (s : S) :
    forLoop 1 pyEnd
        (fun py s => forLoop 1 pxEnd (fun px s => body py px s)
          (loopFuel tilePixelX pxEnd) tilePixelX s)
        (loopFuel tilePixelY pyEnd) tilePixelY s =
      (lightingPixels tilePixelX tilePixelY pxEnd pyEnd).foldl
        (fun s q => body q.2 q.1 s) s := by
  unfold lightingPixels
  rw [forLoop_eq_foldl, foldl_flatMap_eq]
  congr 1
  funext s py
  rw [forLoop_eq_foldl, List.foldl_map]

/-- The write log after folding the pixel body over a list of pixels: the pixels that
are not skipped are appended, in order. -/
theorem lightingFold_log {F : Type} (lops : LightingFloatOps F) (g : GBuffer F)
    (lights : List (Light F)) (lightCount : Int) (cameraPosition : Vec3 F)
    (l : List (Int × Int)) (s : FrameBuffer F × List (Int × Int)) :
    (l.foldl (fun s q => lightingPixel lops (loggedFrameBuffer (FrameBuffer.ops lops.toFloatOps))
        g lights lightCount cameraPosition q.2 q.1 s) s).2 =
      s.2 ++ l.filter fun q =>
        !lops.le (lops.ofRat (99 / 100)) (g.GetDepth lops.toFloatOps q.1 q.2) := by
  induction l generalizing s with
  | nil => simp
  | cons q l ih =>
    rw [List.foldl_cons, ih]
    unfold lightingPixel
    cases hsk : lops.le (lops.ofRat (99 / 100)) (g.GetDepth lops.toFloatOps q.1 q.2)
    · simp [List.filter_cons, hsk, loggedFrameBuffer]
    · simp [List.filter_cons, hsk]

/-- The colour plane after folding the pixel body over a duplicate-free list of
pixels, seen at one pixel. -/
theorem lightingFold_color {F : Type} (lops : LightingFloatOps F) (g : GBuffer F)
    (lights : List (Light F)) (lightCount : Int) (cameraPosition : Vec3 F)
    (l : List (Int × Int)) (hnd : l.Nodup) (s : FrameBuffer F × List (Int × Int))
    (x y : Int) :
    (l.foldl (fun s q => lightingPixel lops (loggedFrameBuffer (FrameBuffer.ops lops.toFloatOps))
        g lights lightCount cameraPosition q.2 q.1 s) s).1.color x y =
      if (x, y) ∈ l ∧
          lops.le (lops.ofRat (99 / 100)) (g.GetDepth lops.toFloatOps x y) = false then
        lightingColor lops g lights lightCount cameraPosition x y
      else s.1.color x y := by
  have key := foldl_obs_single
    (fun (s : FrameBuffer F × List (Int × Int)) (q : Int × Int) =>
      lightingPixel lops (loggedFrameBuffer (FrameBuffer.ops lops.toFloatOps))
        g lights lightCount cameraPosition q.2 q.1 s)
    (fun s => s.1.color x y)
    (fun v => if lops.le (lops.ofRat (99 / 100)) (g.GetDepth lops.toFloatOps x y) = false then
      lightingColor lops g lights lightCount cameraPosition x y else v)
    (x, y) l hnd
    (by
      rintro s ⟨ax, ay⟩ _ hne
      show (lightingPixel lops (loggedFrameBuffer (FrameBuffer.ops lops.toFloatOps))
        g lights lightCount cameraPosition ay ax s).1.color x y = s.1.color x y
      unfold lightingPixel
      simp only
      split
      · rfl
      · have : ¬ (x = ax ∧ y = ay) := by
          rintro ⟨rfl, rfl⟩
          exact hne rfl
        simp [loggedFrameBuffer, FrameBuffer.ops, this])
    (by
      intro s
      show (lightingPixel lops (loggedFrameBuffer (FrameBuffer.ops lops.toFloatOps))
        g lights lightCount cameraPosition y x s).1.color x y = _
      unfold lightingPixel
      cases hsk : lops.le (lops.ofRat (99 / 100)) (g.GetDepth lops.toFloatOps x y)
      · simp [hsk, loggedFrameBuffer, FrameBuffer.ops]
      · simp [hsk])
    s
  simp only at key
  rw [key]
  by_cases hm : (x, y) ∈ l
  · simp [hm]
  · simp [hm]

/-- The number of entries equal to `a` in a duplicate-free list of pixels. -/
theorem occurrences_nodup (l : List (Int × Int)) (hnd : l.Nodup) (a : Int × Int) :
    (l.filter fun q => decide (q = a)).length = if a ∈ l then 1 else 0 := by
  induction l with
  | nil => simp
  | cons b l ih =>
    rw [List.nodup_cons] at hnd
    by_cases hb : b = a
    · subst hb
      have hnone : (l.filter fun q => decide (q = b)) = [] := by
        rw [List.filter_eq_nil_iff]
        intro q hq
        simp only [decide_eq_true_eq]
        rintro rfl
        exact hnd.1 hq
      simp [List.filter_cons, hnone]
    · have hne : ¬ a = b := fun h => hb h.symm
      simp [List.filter_cons, hb, hne, ih hnd.2]

theorem occurrences_filter_nodup (l : List (Int × Int)) (hnd : l.Nodup)
    (p : Int × Int → Bool) (a : Int × Int) :
    ((l.filter p).filter fun q => decide (q = a)).length =
      if a ∈ l ∧ p a = true then 1 else 0 := by
  rw [occurrences_nodup _ (hnd.filter p)]
  by_cases h : a ∈ l ∧ p a = true
  · rw [if_pos h, if_pos (List.mem_filter.2 h)]
  · rw [if_neg h, if_neg (fun hm => h (List.mem_filter.1 hm))]

/-- The lighting pass on a logging framebuffer: the pixels of the tile inside the
framebuffer whose depth fails `depth >= 0.99f` are each passed to `SetPixel` once and
end with the lighting colour; no other pixel is passed to `SetPixel`, and every other
pixel keeps its colour. -/
theorem ProcessBinLightingPass_result {F Sh : Type} (lops : LightingFloatOps F)
    (self : DeferredTiledRendererAlgorithm F (FrameBuffer F × List (Int × Int)) Sh)
    (state : RenderState Sh) (tileId : Int) (fb : FrameBuffer F) (log0 : List (Int × Int))
    (g : GBuffer F) (hfb : self.frameBuffer = some (fb, log0)) (hg : self.gbuffer = some g)
    (htile : tileId < self.gridWidth * self.gridHeight) :
    ∃ (fb2 : FrameBuffer F) (log : List (Int × Int)),
      (ProcessBinLightingPass lops (loggedFrameBuffer (FrameBuffer.ops lops.toFloatOps)) self
        state tileId).2.frameBuffer = some (fb2, log0 ++ log) ∧
      ∀ x y : Int,
        (litPixel lops self.gridWidth fb.width fb.height tileId g x y →
          (log.filter fun q => decide (q = (x, y))).length = 1 ∧
            fb2.color x y =
              lightingColor lops g self.lights self.lightCount self.cameraPosition x y) ∧
        (¬ litPixel lops self.gridWidth fb.width fb.height tileId g x y →
          (log.filter fun q => decide (q = (x, y))).length = 0 ∧ fb2.color x y = fb.color x y) := by
  unfold ProcessBinLightingPass
  rw [if_neg (by omega), hg, hfb]
  simp only
  have hW : (loggedFrameBuffer (FrameBuffer.ops lops.toFloatOps)).GetWidth (fb, log0)
      = fb.width := rfl
  have hH : (loggedFrameBuffer (FrameBuffer.ops lops.toFloatOps)).GetHeight (fb, log0)
      = fb.height := rfl
  rw [hW, hH]
  unfold litPixel inRect
  generalize tileRect self.gridWidth fb.width fb.height tileId = r
  obtain ⟨tx, ty, tw, th⟩ := r
  simp only
  rw [lightingLoops_eq_foldl]
  have hlog := lightingFold_log lops g self.lights self.lightCount self.cameraPosition
    (lightingPixels tx ty (min (tx + tw) fb.width - 1) (min (ty + th) fb.height - 1))
    (fb, log0)
  have hnd := lightingPixels_nodup tx ty (min (tx + tw) fb.width - 1)
    (min (ty + th) fb.height - 1)
  refine ⟨_, _, congrArg some (Prod.ext rfl hlog), ?_⟩
  intro x y
  have hcol := lightingFold_color lops g self.lights self.lightCount self.cameraPosition
    _ hnd (fb, log0) x y
  have hcount := occurrences_filter_nodup _ hnd
    (fun q => !lops.le (lops.ofRat (99 / 100)) (g.GetDepth lops.toFloatOps q.1 q.2)) (x, y)
  have hmem := mem_lightingPixels tx ty (min (tx + tw) fb.width - 1)
    (min (ty + th) fb.height - 1) x y
  simp only [Bool.not_eq_true'] at hcount
  constructor
  · rintro ⟨hin, hsk⟩
    have hm : (x, y) ∈ lightingPixels tx ty (min (tx + tw) fb.width - 1)
        (min (ty + th) fb.height - 1) := by
      rw [hmem]
      omega
    exact ⟨hcount.trans (if_pos ⟨hm, hsk⟩), hcol.trans (if_pos ⟨hm, hsk⟩)⟩
  · intro hnot
    have hn : ¬ ((x, y) ∈ lightingPixels tx ty (min (tx + tw) fb.width - 1)
        (min (ty + th) fb.height - 1) ∧
        lops.le (lops.ofRat (99 / 100)) (g.GetDepth lops.toFloatOps x y) = false) := by
      rintro ⟨hm, hsk⟩
      rw [hmem] at hm
      exact hnot ⟨by omega, hsk⟩
    exact ⟨hcount.trans (if_neg hn), hcol.trans (if_neg hn)⟩

/-- Every pixel of the rectangle of a tile with a non-negative id lies inside the
framebuffer. -/
theorem inRect_tileRect_inside (gridWidth width height tileId : Int) (hgw : 0 < gridWidth)
    (hid : 0 ≤ tileId) (x y : Int)
    (h : inRect (tileRect gridWidth width height tileId) x y) :
    (0 ≤ x ∧ x < width) ∧ (0 ≤ y ∧ y < height) := by
  unfold inRect at h
  simp only [tileRect, TileSize_eq] at h
  rw [Int.tmod_eq_emod hid (le_of_lt hgw), Int.tdiv_eq_ediv hid (le_of_lt hgw)] at h
  have h1 : 0 ≤ tileId % gridWidth := Int.emod_nonneg _ (by omega)
  have h2 : 0 ≤ tileId / gridWidth := Int.ediv_nonneg hid (le_of_lt hgw)
  omega

/-- C19. In the deferred lighting pass on a tile of the grid, with G-buffer and
framebuffer present and a float comparison in which `d < 0.99` excludes `d >= 0.99`:
every pixel whose G-buffer depth is `>= 0.99` is never passed to `SetPixel` and keeps its
framebuffer colour, for every light list; and every pixel of the tile whose G-buffer
depth is `< 0.99` is passed to `SetPixel` exactly once. -/
theorem lighting_pass_skips_far_pixels {F Sh : Type} (lops : LightingFloatOps F)
    (self : DeferredTiledRendererAlgorithm F (FrameBuffer F × List (Int × Int)) Sh)
    (state : RenderState Sh) (tileId : Int) (fb : FrameBuffer F) (g : GBuffer F)
    (hfb : self.frameBuffer = some (fb, [])) (hg : self.gbuffer = some g)
    (hgw : 0 < self.gridWidth)
    (htile : 0 ≤ tileId ∧ tileId < self.gridWidth * self.gridHeight)
    (hcmp : ∀ d : F, lops.lt d (lops.ofRat (99 / 100)) = true →
      lops.le (lops.ofRat (99 / 100)) d = false) :
    ∃ (fb2 : FrameBuffer F) (log : List (Int × Int)),
      (ProcessBinLightingPass lops (loggedFrameBuffer (FrameBuffer.ops lops.toFloatOps)) self
        state tileId).2.frameBuffer = some (fb2, log) ∧
      (∀ x y : Int,
        lops.le (lops.ofRat (99 / 100)) (g.GetDepth lops.toFloatOps x y) = true →
          (log.filter fun q => decide (q = (x, y))).length = 0 ∧
            fb2.color x y = fb.color x y) ∧
      (∀ x y : Int, inRect (tileRect self.gridWidth fb.width fb.height tileId) x y →
        lops.lt (g.GetDepth lops.toFloatOps x y) (lops.ofRat (99 / 100)) = true →
          (log.filter fun q => decide (q = (x, y))).length = 1) := by
  obtain ⟨fb2, log, hres, hpix⟩ :=
    ProcessBinLightingPass_result lops self state tileId fb [] g hfb hg htile.2
  refine ⟨fb2, log, by simpa using hres, ?_, ?_⟩
  · intro x y hfar
    apply (hpix x y).2
    rintro ⟨_, hnear⟩
    rw [hfar] at hnear
    exact Bool.noConfusion hnear
  · intro x y hin hnear
    have hb := inRect_tileRect_inside _ _ _ _ hgw htile.1 x y hin
    exact ((hpix x y).1 ⟨⟨hin, hb.1.2, hb.2.2⟩, hcmp _ hnear⟩).1

theorem lighting_pass_skips_far_pixels_witness :
    deferredLit.frameBuffer = some (clearedFrameBuffer 2 2, []) ∧
      deferredLit.gbuffer = some gBufferOneNear ∧
      (0 ≤ (0 : Int) ∧ (0 : Int) < deferredLit.gridWidth * deferredLit.gridHeight) ∧
      ratLightingOps.le (ratLightingOps.ofRat (99 / 100))
        (gBufferOneNear.GetDepth ratLightingOps.toFloatOps 1 1) = true ∧
      ratLightingOps.lt (gBufferOneNear.GetDepth ratLightingOps.toFloatOps 0 0)
        (ratLightingOps.ofRat (99 / 100)) = true ∧
      (ProcessBinLightingPass ratLightingOps
        (loggedFrameBuffer (FrameBuffer.ops ratLightingOps.toFloatOps)) deferredLit ⟨none⟩
        0).2.frameBuffer.map (fun s => s.2) = some [(0, 0)] ∧
      ∃ (fb2 : FrameBuffer ℚ) (log : List (Int × Int)),
        (ProcessBinLightingPass ratLightingOps
          (loggedFrameBuffer (FrameBuffer.ops ratLightingOps.toFloatOps)) deferredLit ⟨none⟩
          0).2.frameBuffer = some (fb2, log) ∧
        (∀ x y : Int,
          ratLightingOps.le (ratLightingOps.ofRat (99 / 100))
              (gBufferOneNear.GetDepth ratLightingOps.toFloatOps x y) = true →
            (log.filter fun q => decide (q = (x, y))).length = 0 ∧
              fb2.color x y = (clearedFrameBuffer 2 2).color x y) ∧
        (∀ x y : Int,
          inRect (tileRect deferredLit.gridWidth (clearedFrameBuffer 2 2).width
              (clearedFrameBuffer 2 2).height 0) x y →
            ratLightingOps.lt (gBufferOneNear.GetDepth ratLightingOps.toFloatOps x y)
              (ratLightingOps.ofRat (99 / 100)) = true →
            (log.filter fun q => decide (q = (x, y))).length = 1) :=
  ⟨rfl, rfl, by decide, by decide!, by decide!, by decide!,
    lighting_pass_skips_far_pixels ratLightingOps deferredLit ⟨none⟩ 0
      (clearedFrameBuffer 2 2) gBufferOneNear rfl rfl (by decide) (by decide)
      (fun d h => by
        simp only [ratLightingOps, ratOps, decide_eq_true_eq, decide_eq_false_iff_not,
          not_le] at h ⊢
        exact h)⟩

/-- C20. With `fmaxf(0, c) >= 0`, `fminf(1, d) <= 1` and `fminf(1, d) >= 0` for `d >= 0`
(as for IEEE floats, NaN included), for every G-buffer content and every list of
lights, each pixel that the deferred lighting pass passes to `SetPixel` ends with R, G
and B in the closed interval `[0, 1]` and with the alpha component of the G-buffer
albedo at that pixel. -/
theorem lighting_pass_colour_clamped {F Sh : Type} (lops : LightingFloatOps F)
    (self : DeferredTiledRendererAlgorithm F (FrameBuffer F × List (Int × Int)) Sh)
    (state : RenderState Sh) (tileId : Int) (fb : FrameBuffer F) (g : GBuffer F)
    (hfb : self.frameBuffer = some (fb, [])) (hg : self.gbuffer = some g)
    (htile : tileId < self.gridWidth * self.gridHeight)
    (hmax : ∀ c : F, lops.le (lops.ofRat 0) (lops.fmaxf (lops.ofRat 0) c) = true)
    (hmin1 : ∀ d : F, lops.le (lops.fminf (lops.ofRat 1) d) (lops.ofRat 1) = true)
    (hmin0 : ∀ d : F, lops.le (lops.ofRat 0) d = true →
      lops.le (lops.ofRat 0) (lops.fminf (lops.ofRat 1) d) = true) :
    ∃ (fb2 : FrameBuffer F) (log : List (Int × Int)),
      (ProcessBinLightingPass lops (loggedFrameBuffer (FrameBuffer.ops lops.toFloatOps)) self
        state tileId).2.frameBuffer = some (fb2, log) ∧
      ∀ x y : Int, (x, y) ∈ log →
        (lops.le (lops.ofRat 0) (fb2.color x y).x = true ∧
          lops.le (fb2.color x y).x (lops.ofRat 1) = true) ∧
        (lops.le (lops.ofRat 0) (fb2.color x y).y = true ∧
          lops.le (fb2.color x y).y (lops.ofRat 1) = true) ∧
        (lops.le (lops.ofRat 0) (fb2.color x y).z = true ∧
          lops.le (fb2.color x y).z (lops.ofRat 1) = true) ∧
        (fb2.color x y).w = (g.GetAlbedo lops.toFloatOps x y).w := by
  obtain ⟨fb2, log, hres, hpix⟩ :=
    ProcessBinLightingPass_result lops self state tileId fb [] g hfb hg htile
  refine ⟨fb2, log, by simpa using hres, ?_⟩
  intro x y hmem
  by_cases hlit : litPixel lops self.gridWidth fb.width fb.height tileId g x y
  · rw [((hpix x y).1 hlit).2]
    unfold lightingColor
    exact ⟨⟨hmin0 _ (hmax _), hmin1 _⟩, ⟨hmin0 _ (hmax _), hmin1 _⟩,
      ⟨hmin0 _ (hmax _), hmin1 _⟩, rfl⟩
  · exfalso
    have h0 := ((hpix x y).2 hlit).1
    rw [List.length_eq_zero, List.filter_eq_nil_iff] at h0
    exact absurd (h0 (x, y) hmem) (by simp)

theorem lighting_pass_colour_clamped_witness :
    deferredLit.frameBuffer = some (clearedFrameBuffer 2 2, []) ∧
      deferredLit.gbuffer = some gBufferOneNear ∧
      (0 : Int) < deferredLit.gridWidth * deferredLit.gridHeight ∧
      ((ProcessBinLightingPass ratLightingOps
        (loggedFrameBuffer (FrameBuffer.ops ratLightingOps.toFloatOps)) deferredLit ⟨none⟩
        0).2.frameBuffer.map fun s =>
          (s.2, (s.1.color 0 0).x, (s.1.color 0 0).y, (s.1.color 0 0).z, (s.1.color 0 0).w))
        = some ([(0, 0)], 1, 1, 1, 3 / 4) ∧
      (lightingSum ratLightingOps [lightDown] 1 ⟨0, 0, 1⟩ ⟨0, 0, 0⟩ ⟨0, 0, 1⟩
        ⟨1, 1, 1, 3 / 4⟩).x = 8 / 5 ∧
      ∃ (fb2 : FrameBuffer ℚ) (log : List (Int × Int)),
        (ProcessBinLightingPass ratLightingOps
          (loggedFrameBuffer (FrameBuffer.ops ratLightingOps.toFloatOps)) deferredLit ⟨none⟩
          0).2.frameBuffer = some (fb2, log) ∧
        ∀ x y : Int, (x, y) ∈ log →
          (ratLightingOps.le (ratLightingOps.ofRat 0) (fb2.color x y).x = true ∧
            ratLightingOps.le (fb2.color x y).x (ratLightingOps.ofRat 1) = true) ∧
          (ratLightingOps.le (ratLightingOps.ofRat 0) (fb2.color x y).y = true ∧
            ratLightingOps.le (fb2.color x y).y (ratLightingOps.ofRat 1) = true) ∧
          (ratLightingOps.le (ratLightingOps.ofRat 0) (fb2.color x y).z = true ∧
            ratLightingOps.le (fb2.color x y).z (ratLightingOps.ofRat 1) = true) ∧
          (fb2.color x y).w = (gBufferOneNear.GetAlbedo ratLightingOps.toFloatOps x y).w :=
  ⟨rfl, rfl, by decide, by decide!, by decide!,
    lighting_pass_colour_clamped ratLightingOps deferredLit ⟨none⟩ 0
      (clearedFrameBuffer 2 2) gBufferOneNear rfl rfl (by decide)
      (fun c => by simp [ratLightingOps, ratOps])
      (fun d => by simp [ratLightingOps, ratOps])
      (fun d h => by
        simp only [ratLightingOps, ratOps, decide_eq_true_eq] at h ⊢
        exact le_min zero_le_one h)⟩

/-! ## The planes of the G-buffer -/

/-- Reading entry `j` of a list after the entries with indices `is` were set to `c`. -/
theorem foldl_set_getD {A : Type} (c dflt : A) (is : List Nat) (l : List A) (j : Nat) :
    ((is.foldl (fun l i => l.set i c) l).length = l.length) ∧
      (is.foldl (fun l i => l.set i c) l).getD j dflt =
        if j ∈ is ∧ j < l.length then c else l.getD j dflt := by
  induction is generalizing l with
  | nil => simp
  | cons i is ih =>
    rw [List.foldl_cons]
    obtain ⟨h1, h2⟩ := ih (l.set i c)
    refine ⟨by rw [h1, List.length_set], ?_⟩
    rw [h2, List.length_set]
    by_cases hj : j ∈ is ∧ j < l.length
    · rw [if_pos hj, if_pos ⟨List.mem_cons_of_mem _ hj.1, hj.2⟩]
    · rw [if_neg hj]
      by_cases hji : j = i
      · subst hji
        by_cases hlen : j < l.length
        · rw [if_pos ⟨List.mem_cons_self _ _, hlen⟩, List.getD_eq_getElem?_getD,
            List.getElem?_set]
          simp [hlen]
        · have hnone : l[j]? = none := List.getElem?_eq_none (by omega)
          rw [if_neg (fun h => hlen h.2), List.getD_eq_getElem?_getD,
            List.getD_eq_getElem?_getD, List.getElem?_set]
          simp [hlen, hnone]
      · have hne : ¬ (j ∈ i :: is ∧ j < l.length) := by
          rintro ⟨hm, hl⟩
          rcases List.mem_cons.1 hm with h | h
          · exact hji h
          · exact hj ⟨h, hl⟩
        rw [if_neg hne, List.getD_eq_getElem?_getD, List.getD_eq_getElem?_getD,
          List.getElem?_set]
        simp [Ne.symm hji]

/-- The effect of the loop of `GBuffer::Clear` on the shape and on the depth plane. -/
theorem GBuffer.Clear_fold {F : Type} (ops : FloatOps F) (is : List Nat) (g : GBuffer F) :
    (is.foldl
        (fun (g : GBuffer F) i =>
          { g with
            positionBuffer :=
              g.positionBuffer.set i ⟨ops.ofRat 0, ops.ofRat 0, ops.ofRat 0⟩
            normalBuffer := g.normalBuffer.set i ⟨ops.ofRat 0, ops.ofRat 0, ops.ofRat 1⟩
            albedoBuffer :=
              g.albedoBuffer.set i ⟨ops.ofRat 0, ops.ofRat 0, ops.ofRat 0, ops.ofRat 0⟩
            depthBuffer := g.depthBuffer.set i (ops.ofRat 1) }) g).width = g.width ∧
    (is.foldl
        (fun (g : GBuffer F) i =>
          { g with
            positionBuffer :=
              g.positionBuffer.set i ⟨ops.ofRat 0, ops.ofRat 0, ops.ofRat 0⟩
            normalBuffer := g.normalBuffer.set i ⟨ops.ofRat 0, ops.ofRat 0, ops.ofRat 1⟩
            albedoBuffer :=
              g.albedoBuffer.set i ⟨ops.ofRat 0, ops.ofRat 0, ops.ofRat 0, ops.ofRat 0⟩
            depthBuffer := g.depthBuffer.set i (ops.ofRat 1) }) g).height = g.height ∧
    (is.foldl
        (fun (g : GBuffer F) i =>
          { g with
            positionBuffer :=
              g.positionBuffer.set i ⟨ops.ofRat 0, ops.ofRat 0, ops.ofRat 0⟩
            normalBuffer := g.normalBuffer.set i ⟨ops.ofRat 0, ops.ofRat 0, ops.ofRat 1⟩
            albedoBuffer :=
              g.albedoBuffer.set i ⟨ops.ofRat 0, ops.ofRat 0, ops.ofRat 0, ops.ofRat 0⟩
            depthBuffer := g.depthBuffer.set i (ops.ofRat 1) }) g).depthBuffer =
      is.foldl (fun l i => l.set i (ops.ofRat 1)) g.depthBuffer := by
  induction is generalizing g with
  | nil => exact ⟨rfl, rfl, rfl⟩
  | cons i is ih =>
    rw [List.foldl_cons, List.foldl_cons]
    exact ih _

/-- After `Clear` the depth accessor returns `1.0` everywhere. -/
theorem GBuffer.GetDepth_Clear {F : Type} (ops : FloatOps F) (g : GBuffer F)
    (hwf : g.WellFormed) (x y : Int) : (g.Clear ops).GetDepth ops x y = ops.ofRat 1 := by
  obtain ⟨hc1, hc2, hc3⟩ := GBuffer.Clear_fold ops (List.range g.positionBuffer.length) g
  unfold GBuffer.GetDepth
  split
  · rename_i hin
    have hin2 : g.inRange x y = true := by
      unfold GBuffer.inRange at hin ⊢
      unfold GBuffer.Clear at hin
      rw [hc1, hc2] at hin
      exact hin
    have hlt := GBuffer.index_lt g x y hin2
    obtain ⟨_, _, h3, _, _, h6⟩ := hwf
    unfold GBuffer.Clear
    simp only
    rw [hc1, hc3,
      (foldl_set_getD (ops.ofRat 1) (ops.ofRat 1) (List.range g.positionBuffer.length)
        g.depthBuffer _).2]
    split <;> first | rfl | skip
    rename_i hn
    exfalso
    apply hn
    rw [List.mem_range, h3, h6]
    exact ⟨hlt, hlt⟩
  · rfl

/-- Reading a plane of `width * height` entries at the index of pixel `(x2, y2)` after
the entry of the in-range pixel `(x, y)` was replaced. -/
theorem GBuffer.plane_set_getD {F A : Type} (g : GBuffer F) (x y x2 y2 : Int)
    (hin : g.inRange x y = true) (hin2 : g.inRange x2 y2 = true) (l : List A)
    (hl : l.length = (g.width * g.height).toNat) (v dflt : A) :
    (l.set (y * g.width + x).toNat v).getD (y2 * g.width + x2).toNat dflt =
      if x2 = x ∧ y2 = y then v else l.getD (y2 * g.width + x2).toNat dflt := by
  have hlt := GBuffer.index_lt g x y hin
  have hinj := GBuffer.index_inj g x y x2 y2 hin hin2
  rw [List.getD_eq_getElem?_getD, List.getD_eq_getElem?_getD, List.getElem?_set]
  by_cases h : x2 = x ∧ y2 = y
  · obtain ⟨rfl, rfl⟩ := h
    simp [hl, hlt]
  · have hne : ¬ (y * g.width + x).toNat = (y2 * g.width + x2).toNat := by
      rw [hinj]
      rintro ⟨rfl, rfl⟩
      exact h ⟨rfl, rfl⟩
    rw [if_neg hne, if_neg h]

theorem GBuffer.GetDepth_SetDepth_all {F : Type} (ops : FloatOps F) (g : GBuffer F)
    (hwf : g.WellFormed) (x y : Int) (d : F) (hin : g.inRange x y = true) (x2 y2 : Int) :
    (g.SetDepth x y d).GetDepth ops x2 y2 =
      if x2 = x ∧ y2 = y then d else g.GetDepth ops x2 y2 := by
  unfold GBuffer.SetDepth
  rw [if_pos hin]
  unfold GBuffer.GetDepth
  show (if g.inRange x2 y2 = true then _ else _) = _
  by_cases hin2 : g.inRange x2 y2 = true
  · rw [if_pos hin2, if_pos hin2]
    exact GBuffer.plane_set_getD g x y x2 y2 hin hin2 _ hwf.2.2.2.2.2 _ _
  · rw [if_neg hin2, if_neg hin2, if_neg]
    rintro ⟨rfl, rfl⟩
    exact hin2 hin

theorem GBuffer.GetPosition_SetPosition_all {F : Type} (ops : FloatOps F) (g : GBuffer F)
    (hwf : g.WellFormed) (x y : Int) (v : Vec3 F) (hin : g.inRange x y = true) (x2 y2 : Int) :
    (g.SetPosition x y v).GetPosition ops x2 y2 =
      if x2 = x ∧ y2 = y then v else g.GetPosition ops x2 y2 := by
  unfold GBuffer.SetPosition
  rw [if_pos hin]
  unfold GBuffer.GetPosition
  show (if g.inRange x2 y2 = true then _ else _) = _
  by_cases hin2 : g.inRange x2 y2 = true
  · rw [if_pos hin2, if_pos hin2]
    exact GBuffer.plane_set_getD g x y x2 y2 hin hin2 _ hwf.2.2.1 _ _
  · rw [if_neg hin2, if_neg hin2, if_neg]
    rintro ⟨rfl, rfl⟩
    exact hin2 hin

theorem GBuffer.GetNormal_SetNormal_all {F : Type} (ops : FloatOps F) (g : GBuffer F)
    (hwf : g.WellFormed) (x y : Int) (v : Vec3 F) (hin : g.inRange x y = true) (x2 y2 : Int) :
    (g.SetNormal x y v).GetNormal ops x2 y2 =
      if x2 = x ∧ y2 = y then v else g.GetNormal ops x2 y2 := by
  unfold GBuffer.SetNormal
  rw [if_pos hin]
  unfold GBuffer.GetNormal
  show (if g.inRange x2 y2 = true then _ else _) = _
  by_cases hin2 : g.inRange x2 y2 = true
  · rw [if_pos hin2, if_pos hin2]
    exact GBuffer.plane_set_getD g x y x2 y2 hin hin2 _ hwf.2.2.2.1 _ _
  · rw [if_neg hin2, if_neg hin2, if_neg]
    rintro ⟨rfl, rfl⟩
    exact hin2 hin

theorem GBuffer.GetAlbedo_SetAlbedo_all {F : Type} (ops : FloatOps F) (g : GBuffer F)
    (hwf : g.WellFormed) (x y : Int) (v : Vec4 F) (hin : g.inRange x y = true) (x2 y2 : Int) :
    (g.SetAlbedo x y v).GetAlbedo ops x2 y2 =
      if x2 = x ∧ y2 = y then v else g.GetAlbedo ops x2 y2 := by
  unfold GBuffer.SetAlbedo
  rw [if_pos hin]
  unfold GBuffer.GetAlbedo
  show (if g.inRange x2 y2 = true then _ else _) = _
  by_cases hin2 : g.inRange x2 y2 = true
  · rw [if_pos hin2, if_pos hin2]
    exact GBuffer.plane_set_getD g x y x2 y2 hin hin2 _ hwf.2.2.2.2.1 _ _
  · rw [if_neg hin2, if_neg hin2, if_neg]
    rintro ⟨rfl, rfl⟩
    exact hin2 hin

/-- Each setter leaves the three planes it does not own as they were. -/
theorem GBuffer.set_other_planes {F : Type} (ops : FloatOps F) (g : GBuffer F) (x y : Int)
    (d : F) (p n : Vec3 F) (a : Vec4 F) (x2 y2 : Int) :
    ((g.SetDepth x y d).GetPosition ops x2 y2 = g.GetPosition ops x2 y2 ∧
      (g.SetDepth x y d).GetNormal ops x2 y2 = g.GetNormal ops x2 y2 ∧
      (g.SetDepth x y d).GetAlbedo ops x2 y2 = g.GetAlbedo ops x2 y2) ∧
    ((g.SetPosition x y p).GetDepth ops x2 y2 = g.GetDepth ops x2 y2 ∧
      (g.SetPosition x y p).GetNormal ops x2 y2 = g.GetNormal ops x2 y2 ∧
      (g.SetPosition x y p).GetAlbedo ops x2 y2 = g.GetAlbedo ops x2 y2) ∧
    ((g.SetNormal x y n).GetDepth ops x2 y2 = g.GetDepth ops x2 y2 ∧
      (g.SetNormal x y n).GetPosition ops x2 y2 = g.GetPosition ops x2 y2 ∧
      (g.SetNormal x y n).GetAlbedo ops x2 y2 = g.GetAlbedo ops x2 y2) ∧
    ((g.SetAlbedo x y a).GetDepth ops x2 y2 = g.GetDepth ops x2 y2 ∧
      (g.SetAlbedo x y a).GetPosition ops x2 y2 = g.GetPosition ops x2 y2 ∧
      (g.SetAlbedo x y a).GetNormal ops x2 y2 = g.GetNormal ops x2 y2) := by
  unfold GBuffer.SetDepth GBuffer.SetPosition GBuffer.SetNormal GBuffer.SetAlbedo
  split
  · exact ⟨⟨rfl, rfl, rfl⟩, ⟨rfl, rfl, rfl⟩, ⟨rfl, rfl, rfl⟩, ⟨rfl, rfl, rfl⟩⟩
  · exact ⟨⟨rfl, rfl, rfl⟩, ⟨rfl, rfl, rfl⟩, ⟨rfl, rfl, rfl⟩, ⟨rfl, rfl, rfl⟩⟩

/-- C29. On a G-buffer whose planes hold `width * height` entries (as `SetSize` makes
them) the planes behave as independent arrays. For an in-range pixel `(x, y)`: after
`SetDepth(x, y, d)` `GetDepth(x, y)` returns `d`, `GetDepth` at every other pixel and
every `GetPosition`, `GetNormal`, `GetAlbedo` return what they returned before, and
likewise for `SetPosition`, `SetNormal` and `SetAlbedo` on their own plane. A setter
with out-of-range coordinates changes nothing, and after `Clear` `GetDepth` returns
`1.0` for every pixel, in range or not. -/
theorem GBuffer_planes_independent {F : Type} (ops : FloatOps F) (g : GBuffer F)
    (hwf : g.WellFormed) (x y : Int) (hin : g.inRange x y = true) (d : F) (p n : Vec3 F)
    (a : Vec4 F) :
    (∀ x2 y2 : Int,
      ((g.SetDepth x y d).GetDepth ops x2 y2 =
          (if x2 = x ∧ y2 = y then d else g.GetDepth ops x2 y2) ∧
        (g.SetDepth x y d).GetPosition ops x2 y2 = g.GetPosition ops x2 y2 ∧
        (g.SetDepth x y d).GetNormal ops x2 y2 = g.GetNormal ops x2 y2 ∧
        (g.SetDepth x y d).GetAlbedo ops x2 y2 = g.GetAlbedo ops x2 y2) ∧
      ((g.SetPosition x y p).GetPosition ops x2 y2 =
          (if x2 = x ∧ y2 = y then p else g.GetPosition ops x2 y2) ∧
        (g.SetPosition x y p).GetDepth ops x2 y2 = g.GetDepth ops x2 y2 ∧
        (g.SetPosition x y p).GetNormal ops x2 y2 = g.GetNormal ops x2 y2 ∧
        (g.SetPosition x y p).GetAlbedo ops x2 y2 = g.GetAlbedo ops x2 y2) ∧
      ((g.SetNormal x y n).GetNormal ops x2 y2 =
          (if x2 = x ∧ y2 = y then n else g.GetNormal ops x2 y2) ∧
        (g.SetNormal x y n).GetDepth ops x2 y2 = g.GetDepth ops x2 y2 ∧
        (g.SetNormal x y n).GetPosition ops x2 y2 = g.GetPosition ops x2 y2 ∧
        (g.SetNormal x y n).GetAlbedo ops x2 y2 = g.GetAlbedo ops x2 y2) ∧
      ((g.SetAlbedo x y a).GetAlbedo ops x2 y2 =
          (if x2 = x ∧ y2 = y then a else g.GetAlbedo ops x2 y2) ∧
        (g.SetAlbedo x y a).GetDepth ops x2 y2 = g.GetDepth ops x2 y2 ∧
        (g.SetAlbedo x y a).GetPosition ops x2 y2 = g.GetPosition ops x2 y2 ∧
        (g.SetAlbedo x y a).GetNormal ops x2 y2 = g.GetNormal ops x2 y2)) ∧
    (∀ x3 y3 : Int, g.inRange x3 y3 = false →
      g.SetDepth x3 y3 d = g ∧ g.SetPosition x3 y3 p = g ∧ g.SetNormal x3 y3 n = g ∧
        g.SetAlbedo x3 y3 a = g) ∧
    (∀ x2 y2 : Int, (g.Clear ops).GetDepth ops x2 y2 = ops.ofRat 1) := by
  refine ⟨fun x2 y2 => ?_, fun x3 y3 hout => ?_, fun x2 y2 => GBuffer.GetDepth_Clear ops g hwf x2 y2⟩
  · have ho := GBuffer.set_other_planes ops g x y d p n a x2 y2
    exact ⟨⟨GBuffer.GetDepth_SetDepth_all ops g hwf x y d hin x2 y2, ho.1⟩,
      ⟨GBuffer.GetPosition_SetPosition_all ops g hwf x y p hin x2 y2, ho.2.1⟩,
      ⟨GBuffer.GetNormal_SetNormal_all ops g hwf x y n hin x2 y2, ho.2.2.1.1, ho.2.2.1.2.1,
        ho.2.2.1.2.2⟩,
      ⟨GBuffer.GetAlbedo_SetAlbedo_all ops g hwf x y a hin x2 y2, ho.2.2.2⟩⟩
  · unfold GBuffer.SetDepth GBuffer.SetPosition GBuffer.SetNormal GBuffer.SetAlbedo
    rw [hout]
    exact ⟨rfl, rfl, rfl, rfl⟩

theorem GBuffer_planes_independent_witness :
    (gBufferAtDepth 4 4 1).WellFormed ∧ (gBufferAtDepth 4 4 1).inRange 2 3 = true ∧
      ((gBufferAtDepth 4 4 1).SetDepth 2 3 (1 / 4)).GetDepth ratOps 2 3 = 1 / 4 ∧
      ((gBufferAtDepth 4 4 1).SetDepth 2 3 (1 / 4)).GetDepth ratOps 3 2 = 1 ∧
      (((gBufferAtDepth 4 4 1).SetDepth 2 3 (1 / 4)).Clear ratOps).GetDepth ratOps 2 3 = 1 ∧
      ∀ x2 y2 : Int,
        ((gBufferAtDepth 4 4 1).SetDepth 2 3 (1 / 4)).GetDepth ratOps x2 y2 =
          (if x2 = 2 ∧ y2 = 3 then 1 / 4 else (gBufferAtDepth 4 4 1).GetDepth ratOps x2 y2) :=
  ⟨by unfold GBuffer.WellFormed; decide, by decide, by decide!, by decide!, by decide!,
    fun x2 y2 =>
      ((GBuffer_planes_independent ratOps (gBufferAtDepth 4 4 1)
        (by unfold GBuffer.WellFormed; decide) 2 3 (by decide) (1 / 4) ⟨0, 0, 0⟩ ⟨0, 0, 1⟩
        ⟨0, 0, 0, 0⟩).1 x2 y2).1.1⟩

/-- Without 32-bit overflow the registers `coordX_center`, `coordY_center` of the tile
processor hold the sample positions `x_samp`, `y_samp` of `RasterizeTriangle`. -/
theorem quadCenter_eq_quadSample (q : Int) (h1 : -134217728 ≤ q) (h2 : q ≤ 134217726) :
    quadCenterX q = quadSampleX q ∧ quadCenterY q = quadSampleY q := by
  constructor
  · funext k
    fin_cases k <;>
      simp [quadCenterX, quadSampleX, _mm_add_epi32, _mm_set1_epi32, xOffset, _mm_set_epi32,
        _mm_setr_epi32, shl] <;>
      exact wrap32_of_range (by omega) (by omega)
  · funext k
    fin_cases k <;>
      simp [quadCenterY, quadSampleY, _mm_add_epi32, _mm_set1_epi32, yOffset, _mm_set_epi32,
        _mm_setr_epi32, shl] <;>
      exact wrap32_of_range (by omega) (by omega)

/-- The sample position in lane `k` of `x_samp`, `y_samp`: the centre of the pixel of
that lane. -/
theorem quadSample_lane (qx qy : Int) (k : Fin 4) :
    quadSampleX qx k = 16 * quadPixelX qx k + 8 ∧
      quadSampleY qy k = 16 * quadPixelY qy k + 8 := by
  fin_cases k <;>
    simp [quadSampleX, quadSampleY, quadPixelX, quadPixelY, _mm_setr_epi32, shl] <;> omega

/-- The tests `mask & 0x0008`, `& 0x0080`, `& 0x0800`, `& 0x8000` read bit `4k+3`. -/
theorem quadCover_eq_testBit {F : Type} (t : TriangleSIMD F) (qfx qfy : Int) (k : Fin 4) :
    quadCover t qfx qfy k =
      (t.TestQuadFragment (quadCenterX qfx) (quadCenterY qfy)).testBit (4 * k.val + 3) := by
  unfold quadCover
  rw [TestQuadFragment_eq_packMask]
  generalize decide (t.coveredReg (quadCenterX qfx) (quadCenterY qfy) 0 ≠ 0) = c0
  generalize decide (t.coveredReg (quadCenterX qfx) (quadCenterY qfy) 1 ≠ 0) = c1
  generalize decide (t.coveredReg (quadCenterX qfx) (quadCenterY qfy) 2 ≠ 0) = c2
  generalize decide (t.coveredReg (quadCenterX qfx) (quadCenterY qfy) 3 ≠ 0) = c3
  revert c0 c1 c2 c3 k
  decide

/-- The quads `RasterizeTriangle` emits for a triangle with 32-bit vertex coordinates
have origins whose sample positions fit in 32 bits. -/
theorem rasterQuads_int_range {F : Type} (regionX0 regionY0 regionW regionH : Int)
    (tri : ProjectedTriangle F) (t : TriangleSIMD F) (qx qy : Int)
    (hX : ∀ i, -2147483648 ≤ tri.vx i ∧ tri.vx i < 2147483648)
    (hY : ∀ i, -2147483648 ≤ tri.vy i ∧ tri.vy i < 2147483648)
    (hq : (qx, qy) ∈ rasterQuads regionX0 regionY0 regionW regionH tri t) :
    (-134217728 ≤ qx ∧ qx ≤ 134217726) ∧ (-134217728 ≤ qy ∧ qy ≤ 134217726) := by
  rw [mem_rasterQuads, quadBounds_eq] at hq
  have hx0 : -2147483648 ≤ tri.X0 ∧ tri.X0 < 2147483648 := hX 0
  have hx1 : -2147483648 ≤ tri.X1 ∧ tri.X1 < 2147483648 := hX 1
  have hx2 : -2147483648 ≤ tri.X2 ∧ tri.X2 < 2147483648 := hX 2
  have hy0 : -2147483648 ≤ tri.Y0 ∧ tri.Y0 < 2147483648 := hY 0
  have hy1 : -2147483648 ≤ tri.Y1 ∧ tri.Y1 < 2147483648 := hY 1
  have hy2 : -2147483648 ≤ tri.Y2 ∧ tri.Y2 < 2147483648 := hY 2
  simp only [ProjectedTriangle.pixelBounds, Int.shiftRight_eq_div_pow] at hq
  obtain ⟨⟨n, hn⟩, h1, ⟨m, hm⟩, h2, -⟩ := hq
  generalize tri.X0 = a0 at *
  generalize tri.X1 = a1 at *
  generalize tri.X2 = a2 at *
  generalize tri.Y0 = b0 at *
  generalize tri.Y1 = b1 at *
  generalize tri.Y2 = b2 at *
  have e : ((2 ^ 4 : Nat) : Int) = 16 := by norm_num
  rw [e] at hn h1 hm h2
  have hA : -2147483648 ≤ a0 ⊓ a1 ⊓ a2 := le_min (le_min hx0.1 hx1.1) hx2.1
  have hB : a0 ⊔ a1 ⊔ a2 < 2147483648 := max_lt (max_lt hx0.2 hx1.2) hx2.2
  have hC : -2147483648 ≤ b0 ⊓ b1 ⊓ b2 := le_min (le_min hy0.1 hy1.1) hy2.1
  have hD : b0 ⊔ b1 ⊔ b2 < 2147483648 := max_lt (max_lt hy0.2 hy1.2) hy2.2
  generalize a0 ⊓ a1 ⊓ a2 = A at *
  generalize a0 ⊔ a1 ⊔ a2 = B at *
  generalize b0 ⊓ b1 ⊓ b2 = C at *
  generalize b0 ⊔ b1 ⊔ b2 = D at *
  have h3 : A / 16 ≤ A / 16 ⊔ regionX0 := le_max_left _ _
  have h4 : B / 16 ⊓ (regionX0 + regionW - 1) ≤ B / 16 := min_le_left _ _
  have h5 : C / 16 ≤ C / 16 ⊔ regionY0 := le_max_left _ _
  have h6 : D / 16 ⊓ (regionY0 + regionH - 1) ≤ D / 16 := min_le_left _ _
  generalize A / 16 ⊔ regionX0 = p0 at *
  generalize B / 16 ⊓ (regionX0 + regionW - 1) = p1 at *
  generalize C / 16 ⊔ regionY0 = p2 at *
  generalize D / 16 ⊓ (regionY0 + regionH - 1) = p3 at *
  omega

/-- C27. Lane/pixel consistency in the forward tile processor. For a quad origin
`(qfx, qfy)` whose sample positions fit in 32 bits (as for every quad
`RasterizeTriangle` emits for a triangle with 32-bit coordinates) and every lane `k`:
the lane belongs to pixel `(qfx + k mod 2, qfy + k div 2)`; the registers
`coordX_center`, `coordY_center` hold that pixel's sample centre
`(16 (qfx + k mod 2) + 8, 16 (qfy + k div 2) + 8)` in lane `k` and are equal to the
sample positions `RasterizeTriangle` tested, so for a quad it emitted the recomputed
coverage mask is nonzero; the coverage test of lane `k` reads bit `4k+3`, that is the
coverage of that sample centre; the Z value of lane `k` is the depth plane at that
sample centre; and the quad fragment compares this Z with the depth stored for that
pixel and, when the lane is covered and nearer, stores the Z as the pixel's depth and
`(shadeResult[k], shadeResult[k+4], shadeResult[k+8], shadeResult[k+12])` as its
colour, leaving the pixel alone otherwise. -/
theorem forward_lane_pixel_consistency {F : Type} (ops : FloatOps F)
    (ShadeFragment : ShadeFragmentFn F) (tiledTri : TiledTriangle F) (qfx qfy : Int)
    (hx : -134217728 ≤ qfx ∧ qfx ≤ 134217726) (hy : -134217728 ≤ qfy ∧ qfy ≤ 134217726)
    (fb : FrameBuffer F) (k : Fin 4) :
    (quadPixelX qfx k = qfx + ((k.val % 2 : Nat) : Int) ∧
      quadPixelY qfy k = qfy + ((k.val / 2 : Nat) : Int)) ∧
    (quadCenterX qfx k = 16 * (qfx + ((k.val % 2 : Nat) : Int)) + 8 ∧
      quadCenterY qfy k = 16 * (qfy + ((k.val / 2 : Nat) : Int)) + 8) ∧
    (quadCenterX qfx = quadSampleX qfx ∧ quadCenterY qfy = quadSampleY qfy) ∧
    (∀ regionX0 regionY0 regionW regionH : Int,
      (qfx, qfy) ∈ rasterQuads regionX0 regionY0 regionW regionH tiledTri.triangle
          (TriangleSIMD.Load tiledTri.triangle) →
        (TriangleSIMD.Load tiledTri.triangle).TestQuadFragment (quadCenterX qfx)
          (quadCenterY qfy) ≠ 0) ∧
    (quadCover (TriangleSIMD.Load tiledTri.triangle) qfx qfy k =
        ((TriangleSIMD.Load tiledTri.triangle).TestQuadFragment (quadCenterX qfx)
          (quadCenterY qfy)).testBit (4 * k.val + 3) ∧
      quadCover (TriangleSIMD.Load tiledTri.triangle) qfx qfy k =
        pointCovered tiledTri.triangle (16 * quadPixelX qfx k + 8)
          (16 * quadPixelY qfy k + 8)) ∧
    quadZ ops (TriangleSIMD.Load tiledTri.triangle) qfx qfy k =
      ops.add tiledTri.triangle.fZ0
        (ops.add
          (ops.mul tiledTri.triangle.fDZDX
            (ops.ofInt (wrap32 (16 * quadPixelX qfx k + 8 - tiledTri.triangle.X0))))
          (ops.mul tiledTri.triangle.fDZDY
            (ops.ofInt (wrap32 (16 * quadPixelY qfy k + 8 - tiledTri.triangle.Y0))))) ∧
    (forwardQuad ops (FrameBuffer.ops ops) ShadeFragment tiledTri tiledTri.triangle
        (TriangleSIMD.Load tiledTri.triangle) qfx qfy false fb).depth
        (quadPixelX qfx k) (quadPixelY qfy k) =
      (if quadCover (TriangleSIMD.Load tiledTri.triangle) qfx qfy k = true ∧
          ops.lt (quadZ ops (TriangleSIMD.Load tiledTri.triangle) qfx qfy k)
            (fb.depth (quadPixelX qfx k) (quadPixelY qfy k)) = true
        then quadZ ops (TriangleSIMD.Load tiledTri.triangle) qfx qfy k
        else fb.depth (quadPixelX qfx k) (quadPixelY qfy k)) ∧
    (forwardQuad ops (FrameBuffer.ops ops) ShadeFragment tiledTri tiledTri.triangle
        (TriangleSIMD.Load tiledTri.triangle) qfx qfy false fb).color
        (quadPixelX qfx k) (quadPixelY qfy k) =
      (if quadCover (TriangleSIMD.Load tiledTri.triangle) qfx qfy k = true ∧
          ops.lt (quadZ ops (TriangleSIMD.Load tiledTri.triangle) qfx qfy k)
            (fb.depth (quadPixelX qfx k) (quadPixelY qfy k)) = true
        then
          ⟨ShadeFragment
              ((TriangleSIMD.Load tiledTri.triangle).GetCoordinates ops (quadCenterX qfx)
                (quadCenterY qfy)).2.2
              ((TriangleSIMD.Load tiledTri.triangle).GetCoordinates ops (quadCenterX qfx)
                (quadCenterY qfy)).1
              ((TriangleSIMD.Load tiledTri.triangle).GetCoordinates ops (quadCenterX qfx)
                (quadCenterY qfy)).2.1
              tiledTri.triangleIndex tiledTri.triangle.ConstantId tiledTri.threadId
              ⟨k.val, by omega⟩,
            ShadeFragment
              ((TriangleSIMD.Load tiledTri.triangle).GetCoordinates ops (quadCenterX qfx)
                (quadCenterY qfy)).2.2
              ((TriangleSIMD.Load tiledTri.triangle).GetCoordinates ops (quadCenterX qfx)
                (quadCenterY qfy)).1
              ((TriangleSIMD.Load tiledTri.triangle).GetCoordinates ops (quadCenterX qfx)
                (quadCenterY qfy)).2.1
              tiledTri.triangleIndex tiledTri.triangle.ConstantId tiledTri.threadId
              ⟨k.val + 4, by omega⟩,
            ShadeFragment
              ((TriangleSIMD.Load tiledTri.triangle).GetCoordinates ops (quadCenterX qfx)
                (quadCenterY qfy)).2.2
              ((TriangleSIMD.Load tiledTri.triangle).GetCoordinates ops (quadCenterX qfx)
                (quadCenterY qfy)).1
              ((TriangleSIMD.Load tiledTri.triangle).GetCoordinates ops (quadCenterX qfx)
                (quadCenterY qfy)).2.1
              tiledTri.triangleIndex tiledTri.triangle.ConstantId tiledTri.threadId
              ⟨k.val + 8, by omega⟩,
            ShadeFragment
              ((TriangleSIMD.Load tiledTri.triangle).GetCoordinates ops (quadCenterX qfx)
                (quadCenterY qfy)).2.2
              ((TriangleSIMD.Load tiledTri.triangle).GetCoordinates ops (quadCenterX qfx)
                (quadCenterY qfy)).1
              ((TriangleSIMD.Load tiledTri.triangle).GetCoordinates ops (quadCenterX qfx)
                (quadCenterY qfy)).2.1
              tiledTri.triangleIndex tiledTri.triangle.ConstantId tiledTri.threadId
              ⟨k.val + 12, by omega⟩⟩
        else fb.color (quadPixelX qfx k) (quadPixelY qfy k)) := by
  have hcx := (quadCenter_eq_quadSample qfx hx.1 hx.2).1
  have hcy := (quadCenter_eq_quadSample qfy hy.1 hy.2).2
  have hlane := quadSample_lane qfx qfy k
  have hpix : quadPixelX qfx k = qfx + ((k.val % 2 : Nat) : Int) ∧
      quadPixelY qfy k = qfy + ((k.val / 2 : Nat) : Int) := by
    fin_cases k <;> simp [quadPixelX, quadPixelY]
  have hbit := quadCover_eq_testBit (TriangleSIMD.Load tiledTri.triangle) qfx qfy k
  have hq := forwardQuad_at_lane ops ShadeFragment tiledTri tiledTri.triangle
    (TriangleSIMD.Load tiledTri.triangle) qfx qfy fb k
  have hvis : (quadVisible ops (TriangleSIMD.Load tiledTri.triangle) qfx qfy fb.depth k = true) ↔
      (quadCover (TriangleSIMD.Load tiledTri.triangle) qfx qfy k = true ∧
        ops.lt (quadZ ops (TriangleSIMD.Load tiledTri.triangle) qfx qfy k)
          (fb.depth (quadPixelX qfx k) (quadPixelY qfy k)) = true) := by
    unfold quadVisible
    rw [Bool.and_eq_true]
  refine ⟨hpix, ?_, ⟨hcx, hcy⟩, ?_, ⟨hbit, ?_⟩, ?_, ?_, ?_⟩
  · rw [hcx, hcy, ← hpix.1, ← hpix.2]
    exact hlane
  · intro regionX0 regionY0 regionW regionH hmem
    rw [hcx, hcy]
    exact ((mem_rasterQuads _ _ _ _ _ _ _ _).1 hmem).2.2.2.2
  · rw [hbit, hcx, hcy, ← hlane.1, ← hlane.2]
    exact sampleCovered_eq_pointCovered tiledTri.triangle (quadSampleX qfx) (quadSampleY qfy) k
  · rw [← hlane.1, ← hlane.2, ← hcx, ← hcy]
    rfl
  · rw [hq.1]
    simp only [hvis]
  · rw [hq.2]
    simp only [hvis]
    congr 1
    fin_cases k <;> rfl

theorem forward_lane_pixel_consistency_witness :
    ((-134217728 : Int) ≤ 2 ∧ (2 : Int) ≤ 134217726) ∧
      quadCenterX 2 = quadSampleX 2 ∧ quadCenterX 2 3 = 16 * (2 + 1) + 8 ∧
      quadCover (TriangleSIMD.Load triS1) 2 2 3 = pointCovered triS1 56 56 ∧
      (forwardQuad ratOps (FrameBuffer.ops ratOps) shadeWhite ⟨triS1, 0, 0⟩ triS1
        (TriangleSIMD.Load triS1) 2 2 false (clearedFrameBuffer 64 64)).depth 3 3 = 1 / 2 :=
  ⟨by decide,
    (forward_lane_pixel_consistency ratOps shadeWhite ⟨triS1, 0, 0⟩ 2 2 (by decide) (by decide)
      (clearedFrameBuffer 64 64) 3).2.2.1.1,
    (forward_lane_pixel_consistency ratOps shadeWhite ⟨triS1, 0, 0⟩ 2 2 (by decide) (by decide)
      (clearedFrameBuffer 64 64) 3).2.1.1,
    (forward_lane_pixel_consistency ratOps shadeWhite ⟨triS1, 0, 0⟩ 2 2 (by decide) (by decide)
      (clearedFrameBuffer 64 64) 3).2.2.2.2.1.2,
    by decide!⟩

/-- Within the 32-bit range the tile processor tests the sample centre of the pixel. -/
theorem fragmentCover_eq_pointCovered {F : Type} (tri : ProjectedTriangle F) (x y : Int)
    (hx : -134217728 ≤ x ∧ x ≤ 134217727) (hy : -134217728 ≤ y ∧ y ≤ 134217727) :
    fragmentCover tri x y = pointCovered tri (16 * x + 8) (16 * y + 8) := by
  have hqx := clearBit0_eq x
  have hqy := clearBit0_eq y
  have hcx := (quadCenter_eq_quadSample (clearBit0 x) (by omega) (by omega)).1
  have hcy := (quadCenter_eq_quadSample (clearBit0 y) (by omega) (by omega)).2
  have hl := quadSample_lane (clearBit0 x) (clearBit0 y) (pixelLane x y)
  have hp := quadPixel_of_pixel x y
  unfold fragmentCover
  rw [quadCover_eq_testBit, hcx, hcy]
  show sampleCovered tri _ _ _ = _
  rw [sampleCovered_eq_pointCovered, hl.1, hl.2, hp.1, hp.2]

/-- The pixels whose sample centre `triS1` covers. -/
theorem pointCovered_triS1 (x y : Int) (hx : -2 ≤ x ∧ x ≤ 63) (hy : -2 ≤ y ∧ y ≤ 63) :
    pointCovered triS1 (16 * x + 8) (16 * y + 8) = true ↔ 1 ≤ x ∧ 1 ≤ y ∧ x + y ≤ 63 := by
  unfold pointCovered
  rw [sampleCovered_iff]
  have e0 : triS1.edgeAt 0 (16 * x + 8) (16 * y + 8) =
      wrap32 (0 * (16 * x + 8 - 16) + 992 * (16 * y + 8 - 16)) := rfl
  have e1 : triS1.edgeAt 1 (16 * x + 8) (16 * y + 8) =
      wrap32 (-992 * (16 * x + 8 - 1008) + -992 * (16 * y + 8 - 16)) := rfl
  have e2 : triS1.edgeAt 2 (16 * x + 8) (16 * y + 8) =
      wrap32 (992 * (16 * x + 8 - 16) + 0 * (16 * y + 8 - 1008)) := rfl
  have o0 : (TriangleSIMD.Load triS1).isOwnerEdge 0 = 1 := by decide
  have o1 : (TriangleSIMD.Load triS1).isOwnerEdge 1 = 1 := by decide
  have o2 : (TriangleSIMD.Load triS1).isOwnerEdge 2 = 0 := by decide
  have w0 := wrap32_of_range (v := 0 * (16 * x + 8 - 16) + 992 * (16 * y + 8 - 16))
    (by omega) (by omega)
  have w1 := wrap32_of_range (v := -992 * (16 * x + 8 - 1008) + -992 * (16 * y + 8 - 16))
    (by omega) (by omega)
  have w2 := wrap32_of_range (v := 992 * (16 * x + 8 - 16) + 0 * (16 * y + 8 - 1008))
    (by omega) (by omega)
  rw [w0] at e0
  rw [w1] at e1
  rw [w2] at e2
  constructor
  · intro h
    have h0 := h 0
    have h1 := h 1
    have h2 := h 2
    simp only [_mm_set1_epi32] at h0 h1 h2
    rw [e0, o0] at h0
    rw [e1, o1] at h1
    rw [e2, o2] at h2
    omega
  · intro h i
    simp only [_mm_set1_epi32]
    fin_cases i
    · show 0 < triS1.edgeAt 0 _ _ ∨ (triS1.edgeAt 0 _ _ = 0 ∧ (TriangleSIMD.Load triS1).isOwnerEdge 0 = 1)
      rw [e0, o0]
      omega
    · show 0 < triS1.edgeAt 1 _ _ ∨ (triS1.edgeAt 1 _ _ = 0 ∧ (TriangleSIMD.Load triS1).isOwnerEdge 1 = 1)
      rw [e1, o1]
      omega
    · show 0 < triS1.edgeAt 2 _ _ ∨ (triS1.edgeAt 2 _ _ = 0 ∧ (TriangleSIMD.Load triS1).isOwnerEdge 2 = 1)
      rw [e2, o2]
      omega

/-- The pixels of the 64 x 64 target for which a covered sample of `triS1` is emitted. -/
theorem fragmentEmitted_triS1 (x y : Int) :
    fragmentEmitted 0 0 64 64 triS1 x y = true ↔ 1 ≤ x ∧ 1 ≤ y ∧ x + y ≤ 63 := by
  have hqx := clearBit0_eq x
  have hqy := clearBit0_eq y
  have hpb : triS1.pixelBounds = (1, 63, 1, 63) := by decide
  rw [fragmentEmitted_iff]
  unfold fragmentInBox
  rw [hpb]
  simp only [Bool.and_eq_true, decide_eq_true_iff]
  constructor
  · rintro ⟨⟨hrx, hry⟩, ⟨_, _⟩, hc⟩
    rw [fragmentCover_eq_pointCovered triS1 x y (by omega) (by omega),
      pointCovered_triS1 x y (by omega) (by omega)] at hc
    exact hc
  · intro h
    have hc : fragmentCover triS1 x y = true := by
      rw [fragmentCover_eq_pointCovered triS1 x y (by omega) (by omega),
        pointCovered_triS1 x y (by omega) (by omega)]
      exact h
    refine ⟨by omega, ⟨by omega, ?_⟩, hc⟩
    have hcx := (quadCenter_eq_quadSample (clearBit0 x) (by omega) (by omega)).1
    have hcy := (quadCenter_eq_quadSample (clearBit0 y) (by omega) (by omega)).2
    unfold fragmentCover at hc
    rw [quadCover_eq_testBit, hcx, hcy] at hc
    exact testBit_ne_zero hc

theorem flatMap_congr_mem {A B : Type} (l : List A) (f g : A → List B)
    (h : ∀ a ∈ l, f a = g a) : l.flatMap f = l.flatMap g := by
  induction l with
  | nil => rfl
  | cons a l ih =>
    rw [List.flatMap_cons, List.flatMap_cons, h a (List.mem_cons_self _ _),
      ih (fun b hb => h b (List.mem_cons_of_mem _ hb))]

/-- Only thread 0 contributes to a queue that thread 0 alone fills. -/
theorem flatMap_range_first {B : Type} (Cores : Nat) (hC : 1 ≤ Cores) (l : List B) :
    (List.range Cores).flatMap (fun th => if th = 0 then l else []) = l := by
  obtain ⟨n, rfl⟩ : ∃ n, Cores = n + 1 := ⟨Cores - 1, by omega⟩
  rw [List.range_succ_eq_map, List.flatMap_cons, if_pos rfl]
  have : ∀ m : List Nat, (m.map Nat.succ).flatMap (fun th => if th = 0 then l else []) = [] := by
    intro m
    induction m with
    | nil => rfl
    | cons a m ih => rw [List.map_cons, List.flatMap_cons, ih, if_neg (Nat.succ_ne_zero a)]; rfl
  rw [this, List.append_nil]

/-- The queues of scenario S1: every one of the four tiles holds the triangle once. -/
theorem binAndMerge_S1 (Cores : Nat) (hC : 1 ≤ Cores) (t : Nat) (ht : t < 4) :
    ((TiledRendererAlgorithm.SetFrameBuffer ratOps (FrameBuffer.ops ratOps) Cores
        (clearedFrameBuffer 64 64)).binAndMerge (FrameBuffer.ops ratOps) Cores
        inputS1).tileBins.getD t [] = [⟨triS1, 0, 0⟩] := by
  have hinv := SetFrameBuffer_GridInvariant ratOps Cores (clearedFrameBuffer 64 64)
  have hlen : (TiledRendererAlgorithm.SetFrameBuffer ratOps (FrameBuffer.ops ratOps) Cores
      (clearedFrameBuffer 64 64)).tileBins.length = 4 := by
    rw [hinv.2.2.1]
    show (gridDim 64 * gridDim 64).toNat = 4
    decide!
  rw [binAndMerge_tileBins_getD _ _ _ _ t (by rw [hlen]; exact ht)]
  rw [flatMap_congr_mem _ _ (fun th => if th = 0 then [(⟨triS1, 0, 0⟩ : TiledTriangle ℚ)] else [])]
  · exact flatMap_range_first Cores hC _
  · intro th hth
    rw [binAndMerge_local _ _ _ hinv _ th (List.mem_range.1 hth)]
    by_cases h0 : th = 0
    · subst h0
      rw [if_pos rfl]
      have h4 : t = 0 ∨ t = 1 ∨ t = 2 ∨ t = 3 := by omega
      rcases h4 with rfl | rfl | rfl | rfl <;> rfl
    · rw [if_neg h0]
      have he : inputS1.triangleBuffer th = [] := if_neg h0
      rw [he]
      show (List.replicate _ ([] : List (TiledTriangle ℚ))).getD t [] = []
      rw [List.getD_eq_getElem?_getD, List.getElem?_replicate]
      split <;> rfl

/-- Processing the four tiles of a 64 x 64 target whose queues all hold the one
triangle, seen at one pixel. -/
theorem fourTiles_at_pixel {F : Type} (ops : FloatOps F) (ShadeFragment : ShadeFragmentFn F)
    (tiledTri : TiledTriangle F) (tileBins : List (List (TiledTriangle F)))
    (fb : FrameBuffer F) (hwd : fb.width = 64) (hht : fb.height = 64)
    (hq : ∀ tileId ∈ [(0 : Int), 1, 2, 3], binAt tileBins tileId = [tiledTri]) (x y : Int) :
    (processFourTiles ops ShadeFragment tileBins fb).depth x y =
      (if fragmentEmitted 0 0 64 64 tiledTri.triangle x y = true ∧
          ops.lt (fragmentZ ops tiledTri.triangle x y) (fb.depth x y) = true
        then fragmentZ ops tiledTri.triangle x y else fb.depth x y) ∧
    (processFourTiles ops ShadeFragment tileBins fb).color x y =
      (if fragmentEmitted 0 0 64 64 tiledTri.triangle x y = true ∧
          ops.lt (fragmentZ ops tiledTri.triangle x y) (fb.depth x y) = true
        then fragmentColor ops ShadeFragment tiledTri x y else fb.color x y) := by
  unfold processFourTiles
  simp only [List.foldl_cons, List.foldl_nil]
  have s0 := ProcessBin_single ops ShadeFragment 2 tileBins 0 tiledTri
    (hq 0 (by simp)) fb (0, 0, 32, 32) (by rw [hwd, hht]; decide!) x y
  have s1 := ProcessBin_single ops ShadeFragment 2 tileBins 1 tiledTri
    (hq 1 (by simp)) _ (32, 0, 32, 32) (by rw [s0.1.1, s0.1.2, hwd, hht]; decide!) x y
  have s2 := ProcessBin_single ops ShadeFragment 2 tileBins 2 tiledTri
    (hq 2 (by simp)) _ (0, 32, 32, 32)
    (by rw [s1.1.1, s1.1.2, s0.1.1, s0.1.2, hwd, hht]; decide!) x y
  have s3 := ProcessBin_single ops ShadeFragment 2 tileBins 3 tiledTri
    (hq 3 (by simp)) _ (32, 32, 32, 32)
    (by rw [s2.1.1, s2.1.2, s1.1.1, s1.1.2, s0.1.1, s0.1.2, hwd, hht]; decide!) x y
  have ht := fragmentEmitted_tiles tiledTri.triangle x y
  rw [s3.2.1, s3.2.2, s2.2.1, s2.2.2, s1.2.1, s1.2.2, s0.2.1, s0.2.2, ht.1]
  simp only at ht ⊢
  obtain ⟨_, ht0, ht1, ht2⟩ := ht
  generalize fragmentEmitted 0 0 32 32 tiledTri.triangle x y = e0 at ht0 ⊢
  generalize fragmentEmitted 32 0 32 32 tiledTri.triangle x y = e1 at ht0 ht1 ⊢
  generalize fragmentEmitted 0 32 32 32 tiledTri.triangle x y = e2 at ht0 ht1 ht2 ⊢
  generalize fragmentEmitted 32 32 32 32 tiledTri.triangle x y = e3 at ht0 ht1 ht2 ⊢
  cases e0 <;> cases e1 <;> cases e2 <;> cases e3 <;> simp at ht0 ht1 ht2 ⊢

/-- Scenario S1 at one pixel: the pixels `(x, y)` with `1 <= x`, `1 <= y` and
`x + y <= 63` are white with depth `1/2`; every other pixel keeps the cleared colour and
depth. -/
theorem renderS1_at_pixel (Cores : Nat) (hC : 1 ≤ Cores) (x y : Int) :
    (renderS1 Cores).frameBuffer.color x y =
        (if 1 ≤ x ∧ 1 ≤ y ∧ x + y ≤ 63 then ⟨1, 1, 1, 1⟩ else ⟨0, 0, 0, 0⟩) ∧
      (renderS1 Cores).frameBuffer.depth x y =
        (if 1 ≤ x ∧ 1 ≤ y ∧ x + y ≤ 63 then 1 / 2 else 1) := by
  have hb := binAndMerge_S1 Cores hC
  have hq : ∀ tileId ∈ [(0 : Int), 1, 2, 3],
      binAt ((TiledRendererAlgorithm.SetFrameBuffer ratOps (FrameBuffer.ops ratOps) Cores
        (clearedFrameBuffer 64 64)).binAndMerge (FrameBuffer.ops ratOps) Cores
        inputS1).tileBins tileId = [⟨triS1, 0, 0⟩] := by
    intro tileId hmem
    simp only [List.mem_cons, List.mem_singleton, List.not_mem_nil, or_false] at hmem
    rcases hmem with rfl | rfl | rfl | rfl
    · exact hb 0 (by decide)
    · exact hb 1 (by decide)
    · exact hb 2 (by decide)
    · exact hb 3 (by decide)
  have hfour := fourTiles_at_pixel ratOps shadeWhite ⟨triS1, 0, 0⟩ _
    (TiledRendererAlgorithm.SetFrameBuffer ratOps (FrameBuffer.ops ratOps) Cores
      (clearedFrameBuffer 64 64)).frameBuffer rfl rfl hq x y
  have hrun : (renderS1 Cores).frameBuffer =
      processFourTiles ratOps shadeWhite
        ((TiledRendererAlgorithm.SetFrameBuffer ratOps (FrameBuffer.ops ratOps) Cores
          (clearedFrameBuffer 64 64)).binAndMerge (FrameBuffer.ops ratOps) Cores
          inputS1).tileBins
        (TiledRendererAlgorithm.SetFrameBuffer ratOps (FrameBuffer.ops ratOps) Cores
          (clearedFrameBuffer 64 64)).frameBuffer := rfl
  rw [hrun, hfour.1, hfour.2]
  have hz : fragmentZ ratOps triS1 x y = 1 / 2 := by
    show (1 / 2 : ℚ) + (0 * _ + 0 * _) = 1 / 2
    ring
  have hd : (TiledRendererAlgorithm.SetFrameBuffer ratOps (FrameBuffer.ops ratOps) Cores
      (clearedFrameBuffer 64 64)).frameBuffer.depth x y = 1 := rfl
  have hc : (TiledRendererAlgorithm.SetFrameBuffer ratOps (FrameBuffer.ops ratOps) Cores
      (clearedFrameBuffer 64 64)).frameBuffer.color x y = ⟨0, 0, 0, 0⟩ := rfl
  have hcol : fragmentColor ratOps shadeWhite ⟨triS1, 0, 0⟩ x y = ⟨1, 1, 1, 1⟩ := rfl
  have hlt : ratOps.lt (1 / 2 : ℚ) 1 = true := by decide!
  simp only [hz, hd, hc, hcol, hlt, and_true, fragmentEmitted_triS1]

/-- C26 (corrected). Scenario S1: the forward renderer, after `SetFrameBuffer` on a
cleared 64 x 64 framebuffer, renders the single triangle (16,16), (1008,16), (16,1008)
with depth plane `1/2` and white shading, for any number of worker threads. It writes
colour white and depth `1/2` at exactly the pixels `(x, y)` with `1 <= x`, `1 <= y` and
`x + y <= 63`: the sample centres of row 0 and column 0 lie outside the triangle, and
the centres with `x + y = 63` lie on the hypotenuse, which the triangle owns. Every
other pixel keeps the colour and depth it had before the batch. -/
theorem scenario_S1_written_pixels (Cores : Nat) (hC : 1 ≤ Cores) (x y : Int) :
    ((1 ≤ x ∧ 1 ≤ y ∧ x + y ≤ 63) →
      (renderS1 Cores).frameBuffer.color x y = ⟨1, 1, 1, 1⟩ ∧
        (renderS1 Cores).frameBuffer.depth x y = 1 / 2) ∧
    (¬ (1 ≤ x ∧ 1 ≤ y ∧ x + y ≤ 63) →
      (renderS1 Cores).frameBuffer.color x y =
          (TiledRendererAlgorithm.SetFrameBuffer ratOps (FrameBuffer.ops ratOps) Cores
            (clearedFrameBuffer 64 64)).frameBuffer.color x y ∧
        (renderS1 Cores).frameBuffer.depth x y =
          (TiledRendererAlgorithm.SetFrameBuffer ratOps (FrameBuffer.ops ratOps) Cores
            (clearedFrameBuffer 64 64)).frameBuffer.depth x y) := by
  have h := renderS1_at_pixel Cores hC x y
  constructor
  · intro hin
    rw [h.1, h.2, if_pos hin, if_pos hin]
    exact ⟨rfl, rfl⟩
  · intro hout
    rw [h.1, h.2, if_neg hout, if_neg hout]
    exact ⟨rfl, rfl⟩

theorem scenario_S1_written_pixels_witness :
    1 ≤ 1 ∧ (renderS1 1).frameBuffer.color 1 62 = ⟨1, 1, 1, 1⟩ ∧
      (renderS1 1).frameBuffer.depth 1 62 = 1 / 2 :=
  ⟨le_rfl, (scenario_S1_written_pixels 1 le_rfl 1 62).1 (by decide)⟩

/-- Counterexample to C26 as stated. Pixel (0, 0) has `x + y <= 62`, yet scenario S1
leaves it at the cleared colour and depth; pixel (1, 62) has `x + y = 63 > 62`, yet
scenario S1 writes white and depth `1/2` there. -/
theorem scenario_S1_differs_from_stated_set :
    ((0 : Int) + 0 ≤ 62 ∧ (renderS1 1).frameBuffer.color 0 0 = ⟨0, 0, 0, 0⟩ ∧
        (renderS1 1).frameBuffer.depth 0 0 = 1) ∧
      (¬ ((1 : Int) + 62 ≤ 62) ∧ (renderS1 1).frameBuffer.color 1 62 = ⟨1, 1, 1, 1⟩ ∧
        (renderS1 1).frameBuffer.depth 1 62 = 1 / 2) :=
  ⟨⟨by decide, (renderS1_at_pixel 1 le_rfl 0 0).1.trans (if_neg (by decide)),
      (renderS1_at_pixel 1 le_rfl 0 0).2.trans (if_neg (by decide))⟩,
    ⟨by decide, (renderS1_at_pixel 1 le_rfl 1 62).1.trans (if_pos (by decide)),
      (renderS1_at_pixel 1 le_rfl 1 62).2.trans (if_pos (by decide))⟩⟩

/-- The doubling loop from the counter value `2^j`: it runs its body until the counter
reaches the bound, `clog2(bound) - j` more times. -/
theorem doublingLoop_from_pow {S : Type} (bound : Int) (n : Nat) (hn : n ≤ 30)
    (hclog : Nat.clog 2 bound.toNat = n) (h1 : 1 ≤ bound) (body : S → S) :
    ∀ (fuel j : Nat) (s : S), j ≤ n → n - j ≤ fuel →
      doublingLoop bound body fuel ((2 ^ j : Nat) : Int) s = body^[n - j] s := by
  have hlt : ∀ j : Nat, ((2 ^ j : Nat) : Int) < bound ↔ j < n := by
    intro j
    rw [← hclog, ← Nat.pow_lt_iff_lt_clog (by decide : 1 < 2)]
    omega
  intro fuel
  induction fuel with
  | zero =>
    intro j s hj hf
    have : n - j = 0 := by omega
    rw [this]
    rfl
  | succ f ih =>
    intro j s hj hf
    unfold doublingLoop
    by_cases hjn : j < n
    · rw [if_pos ((hlt j).2 hjn)]
      have hp : (2 : Nat) ^ j ≤ 2 ^ 29 := Nat.pow_le_pow_right (by decide) (by omega)
      have hw : wrap32 (((2 ^ j : Nat) : Int) * 2) = ((2 ^ (j + 1) : Nat) : Int) := by
        rw [pow_succ]
        generalize 2 ^ j = m at hp
        rw [wrap32_of_range (by omega) (by omega)]
        push_cast
        rfl
      rw [hw, ih (j + 1) (body s) (by omega) (by omega)]
      have : n - j = (n - (j + 1)) + 1 := by omega
      rw [this, Function.iterate_succ_apply]
    · rw [if_neg (fun h => hjn ((hlt j).1 h))]
      have : n - j = 0 := by omega
      rw [this]
      rfl

/-- The doubling loop with bound `S` between 1 and `2^30` runs its body
`clog2 S` times. -/
theorem doublingLoop_eq_iterate {S : Type} (bound : Int) (h1 : 1 ≤ bound)
    (h2 : bound ≤ 1073741824) (body : S → S) (s : S) :
    doublingLoop bound body doublingFuel 1 s = body^[Nat.clog 2 bound.toNat] s := by
  have hn : Nat.clog 2 bound.toNat ≤ 30 := by
    rw [← Nat.le_pow_iff_clog_le (by decide : 1 < 2)]
    omega
  have h := doublingLoop_from_pow bound (Nat.clog 2 bound.toNat) hn rfl h1 body doublingFuel 0 s
    (Nat.zero_le _) (by unfold doublingFuel; omega)
  simpa using h

/-- Squaring `n` times raises to the power `2^n`. -/
theorem iterate_square {M : Type} [Monoid M] (n : Nat) (x : M) :
    (fun p : M => p * p)^[n] x = x ^ (2 ^ n) := by
  induction n generalizing x with
  | zero => simp
  | succ n ih =>
    rw [Function.iterate_succ_apply, ih, ← pow_two, ← pow_mul, pow_succ, mul_comm]

/-- The number of squarings equals the `floor` of the logarithm exactly for the powers
of two. -/
theorem clog_eq_log_iff (n : Nat) (hn : 1 ≤ n) :
    Nat.clog 2 n = Nat.log 2 n ↔ ∃ k : Nat, n = 2 ^ k := by
  constructor
  · intro h
    refine ⟨Nat.log 2 n, le_antisymm ?_ (Nat.pow_log_le_self 2 (by omega))⟩
    rw [← h]
    exact Nat.le_pow_clog (by decide) n
  · rintro ⟨k, rfl⟩
    rw [Nat.clog_pow 2 k (by decide), Nat.log_pow (by decide)]

/-- C23 (corrected). For every integer shininess `S` with `1 <= S <= 2^30` the loop
`for (i = 1; i < S; i *= 2)` of the power approximation runs its body exactly
`ceil(log2 S)` times (the least `n` with `S <= 2^n`), so it squares `N.H` that many
times and, in exact arithmetic, leaves `N.H^(2^n)`; this count is never below
`floor(log2 S)` and equals it exactly when `S` is a power of two. -/
theorem power_loop_squares_clog_times (S : Int) (h1 : 1 ≤ S) (h2 : S ≤ 1073741824) :
    (∀ (T : Type) (body : T → T) (s : T),
      doublingLoop S body doublingFuel 1 s = body^[Nat.clog 2 S.toNat] s) ∧
    doublingLoop S (fun count : Nat => count + 1) doublingFuel 1 0 = Nat.clog 2 S.toNat ∧
    (∀ NdotH : ℚ, doublingLoop S (fun p : ℚ => p * p) doublingFuel 1 NdotH =
      NdotH ^ (2 ^ Nat.clog 2 S.toNat)) ∧
    Nat.log 2 S.toNat ≤ Nat.clog 2 S.toNat ∧
    (Nat.clog 2 S.toNat = Nat.log 2 S.toNat ↔ ∃ k : Nat, S = 2 ^ k) := by
  refine ⟨fun T body s => doublingLoop_eq_iterate S h1 h2 body s, ?_, ?_, ?_, ?_⟩
  · rw [doublingLoop_eq_iterate S h1 h2]
    generalize Nat.clog 2 S.toNat = n
    induction n with
    | zero => rfl
    | succ n ih => rw [Function.iterate_succ_apply', ih]
  · intro NdotH
    rw [doublingLoop_eq_iterate S h1 h2, iterate_square]
  · exact Nat.log_le_clog 2 S.toNat
  · rw [clog_eq_log_iff S.toNat (by omega)]
    constructor
    · rintro ⟨k, hk⟩
      refine ⟨k, ?_⟩
      have : S = ((S.toNat : Nat) : Int) := by omega
      rw [this, hk]
      push_cast
      rfl
    · rintro ⟨k, hk⟩
      refine ⟨k, ?_⟩
      have : ((S.toNat : Nat) : Int) = ((2 ^ k : Nat) : Int) := by
        push_cast
        omega
      exact_mod_cast this

theorem power_loop_squares_clog_times_witness :
    (1 : Int) ≤ 8 ∧ (8 : Int) ≤ 1073741824 ∧
      doublingLoop 8 (fun count : Nat => count + 1) doublingFuel 1 0 = 3 ∧
      doublingLoop 8 (fun count : Nat => count + 1) doublingFuel 1 0 =
        Nat.clog 2 (8 : Int).toNat :=
  ⟨by decide, by decide, by decide,
    (power_loop_squares_clog_times 8 (by decide) (by decide)).2.1⟩

/-- Counterexample to C23 as stated. For shininess `S = 3` the loop squares twice (at
`i = 1` and at `i = 2`), while `floor(log2 3) = 1`: one squaring would leave `x^2`, the
loop leaves `x^4`. -/
theorem power_loop_squares_twice_at_three :
    doublingLoop 3 (fun count : Nat => count + 1) doublingFuel 1 0 = 2 ∧ Nat.log 2 3 = 1 ∧
      doublingLoop 3 (fun p : ℚ => p * p) doublingFuel 1 (1 / 2) = 1 / 16 := by
  refine ⟨by decide, Nat.log_eq_of_pow_le_of_lt_pow (by decide) (by decide), by decide!⟩

theorem toInt_two_pow (k : Nat) : ratShaderOps.toInt ((2 : ℚ) ^ k) = 2 ^ k := by
  have h : ((2 : ℚ) ^ k) = (((2 ^ k : Int)) : ℚ) := by push_cast; rfl
  show Int.tdiv ((2 : ℚ) ^ k).num ((2 : ℚ) ^ k).den = 2 ^ k
  rw [h, Rat.num_intCast, Rat.den_intCast]
  simp

theorem le_two_pow (j k : Nat) :
    ratShaderOps.le (ratShaderOps.ofRat ((2 : ℚ) ^ j)) ((2 : ℚ) ^ k) = decide (j ≤ k) := by
  show decide ((2 : ℚ) ^ j ≤ (2 : ℚ) ^ k) = decide (j ≤ k)
  rw [decide_eq_decide]
  exact pow_le_pow_iff_right₀ (by norm_num)

theorem mul_ps_iterate (n : Nat) (x : M128 ℚ) (lane : Fin 4) :
    (fun p : M128 ℚ => _mm_mul_ps ratShaderOps.toFloatOps p p)^[n] x lane = x lane ^ (2 ^ n) := by
  have h : (fun p : M128 ℚ => _mm_mul_ps ratShaderOps.toFloatOps p p) = fun p => p * p := rfl
  rw [h, iterate_square]
  rfl

/-- The specular power of the forward shader at a power-of-two shininess: the true
power up to 32, the 32nd power beyond. -/
theorem forward_specularPower_pow (k : Nat) (hk : k ≤ 30) (fs : ForwardLightingShader ℚ)
    (NdotH : M128 ℚ) (lane : Fin 4) :
    ({ fs with Shininess := (2 : ℚ) ^ k } : ForwardLightingShader ℚ).specularPower ratShaderOps
        NdotH lane = NdotH lane ^ (min (2 ^ k) 32) := by
  have h16 := le_two_pow 4 k
  have h32 := le_two_pow 5 k
  have e16 : ((2 : ℚ) ^ 4) = 16 := by norm_num
  have e32 : ((2 : ℚ) ^ 5) = 32 := by norm_num
  rw [e16] at h16
  rw [e32] at h32
  unfold ForwardLightingShader.specularPower
  simp only [h16, h32]
  by_cases h4 : 4 ≤ k
  · rw [if_pos (decide_eq_true h4)]
    by_cases h5 : 5 ≤ k
    · rw [if_pos (decide_eq_true h5)]
      have hm : min (2 ^ k) 32 = 32 :=
        min_eq_right (by
          have := Nat.pow_le_pow_right (by decide : 0 < 2) h5
          simpa using this)
      rw [hm]
      show _ * _ = _
      simp only [_mm_mul_ps]
      show _ = NdotH lane ^ 32
      have : ∀ a b : ℚ, ratShaderOps.mul a b = a * b := fun _ _ => rfl
      simp only [this]
      ring
    · rw [if_neg (by simpa using h5)]
      have hk4 : k = 4 := by omega
      subst hk4
      simp only [_mm_mul_ps]
      have : ∀ a b : ℚ, ratShaderOps.mul a b = a * b := fun _ _ => rfl
      simp only [this]
      norm_num
      ring
  · rw [if_neg (by simpa using h4)]
    simp only [toInt_two_pow]
    have hb1 : (1 : Int) ≤ 2 ^ k := one_le_pow₀ (by decide)
    have hb2 : (2 : Int) ^ k ≤ 1073741824 := by
      have := Nat.pow_le_pow_right (by decide : 0 < 2) hk
      have e : (1073741824 : Int) = ((2 ^ 30 : Nat) : Int) := by norm_num
      rw [e]
      exact_mod_cast this
    rw [doublingLoop_eq_iterate _ hb1 hb2, mul_ps_iterate]
    have hc : Nat.clog 2 ((2 : Int) ^ k).toNat = k := by
      have : ((2 : Int) ^ k).toNat = 2 ^ k := by
        have e : (2 : Int) ^ k = ((2 ^ k : Nat) : Int) := by push_cast; rfl
        rw [e, Int.toNat_natCast]
      rw [this, Nat.clog_pow 2 k (by decide)]
    rw [hc]
    have hm : min (2 ^ k) 32 = 2 ^ k :=
      min_eq_left (by
        have := Nat.pow_le_pow_right (by decide : 0 < 2) (by omega : k ≤ 5)
        simpa using this)
    rw [hm]

/-- The specular power of the lighting-pass shader at a power-of-two shininess. -/
theorem lightingPass_specularPower_pow (k : Nat) (hk : k ≤ 30) (ls : LightingPassShader ℚ)
    (NdotH : ℚ) :
    ({ ls with shininess := (2 : ℚ) ^ k } : LightingPassShader ℚ).specularPower ratShaderOps
        NdotH = NdotH ^ (2 ^ k) := by
  unfold LightingPassShader.specularPower
  simp only [toInt_two_pow]
  have hb1 : (1 : Int) ≤ 2 ^ k := one_le_pow₀ (by decide)
  have hb2 : (2 : Int) ^ k ≤ 1073741824 := by
    have := Nat.pow_le_pow_right (by decide : 0 < 2) hk
    have e : (1073741824 : Int) = ((2 ^ 30 : Nat) : Int) := by norm_num
    rw [e]
    exact_mod_cast this
  rw [doublingLoop_eq_iterate _ hb1 hb2]
  have h : (fun p : ℚ => ratShaderOps.mul p p) = fun p => p * p := rfl
  rw [h, iterate_square]
  have hc : Nat.clog 2 ((2 : Int) ^ k).toNat = k := by
    have : ((2 : Int) ^ k).toNat = 2 ^ k := by
      have e : (2 : Int) ^ k = ((2 ^ k : Nat) : Int) := by push_cast; rfl
      rw [e, Int.toNat_natCast]
    rw [this, Nat.clog_pow 2 k (by decide)]
  rw [hc]

/-- C22 (corrected). In exact arithmetic, for a shininess `S = 2^k` with `k <= 30` (so
that `(int)S` is exact): the specular power of `LightingPassShader::ShadeFragment`
equals `(N.H)^S`; the specular power of `ForwardLightingShader::ShadeFragment` equals
`(N.H)^min(S, 32)` in every lane, which is the true power `(N.H)^S` for
`S` in 1, 2, 4, 8, 16, 32 and the 32nd power for every larger `S`. -/
theorem specular_power_at_powers_of_two (k : Nat) (hk : k ≤ 30)
    (fs : ForwardLightingShader ℚ) (ls : LightingPassShader ℚ) :
    (∀ NdotH : ℚ,
      ({ ls with shininess := (2 : ℚ) ^ k } : LightingPassShader ℚ).specularPower ratShaderOps
        NdotH = NdotH ^ (2 ^ k)) ∧
    (∀ (NdotH : M128 ℚ) (lane : Fin 4),
      ({ fs with Shininess := (2 : ℚ) ^ k } : ForwardLightingShader ℚ).specularPower
        ratShaderOps NdotH lane = NdotH lane ^ (min (2 ^ k) 32)) ∧
    (k ≤ 5 → ∀ (NdotH : M128 ℚ) (lane : Fin 4),
      ({ fs with Shininess := (2 : ℚ) ^ k } : ForwardLightingShader ℚ).specularPower
        ratShaderOps NdotH lane = NdotH lane ^ (2 ^ k)) ∧
    (5 ≤ k → ∀ (NdotH : M128 ℚ) (lane : Fin 4),
      ({ fs with Shininess := (2 : ℚ) ^ k } : ForwardLightingShader ℚ).specularPower
        ratShaderOps NdotH lane = NdotH lane ^ 32) := by
  refine ⟨fun NdotH => lightingPass_specularPower_pow k hk ls NdotH,
    fun NdotH lane => forward_specularPower_pow k hk fs NdotH lane, ?_, ?_⟩
  · intro h5 NdotH lane
    rw [forward_specularPower_pow k hk fs NdotH lane]
    have hm : min (2 ^ k) 32 = 2 ^ k :=
      min_eq_left (by
        have := Nat.pow_le_pow_right (by decide : 0 < 2) h5
        simpa using this)
    rw [hm]
  · intro h5 NdotH lane
    rw [forward_specularPower_pow k hk fs NdotH lane]
    have hm : min (2 ^ k) 32 = 32 :=
      min_eq_right (by
        have := Nat.pow_le_pow_right (by decide : 0 < 2) h5
        simpa using this)
    rw [hm]

theorem specular_power_at_powers_of_two_witness :
    3 ≤ 30 ∧
      ({ shininess := (2 : ℚ) ^ 3, gbuffer := none, lights := none, lightCount := 0,
          cameraPosition := ⟨0, 0, 0⟩, specularColor := ⟨1, 1, 1⟩ } :
        LightingPassShader ℚ).specularPower ratShaderOps (1 / 2) = (1 / 2) ^ (2 ^ 3) :=
  ⟨by decide,
    (specular_power_at_powers_of_two 3 (by decide) ⟨[], ⟨0, 0, 0⟩, 32, ⟨1, 1, 1⟩⟩
      ⟨none, none, 0, ⟨0, 0, 0⟩, 32, ⟨1, 1, 1⟩⟩).1 (1 / 2)⟩

/-- Counterexample to C22 as stated. With shininess `S = 64 = 2^6` and `N.H = 1/2` the
forward shader computes `(1/2)^32`, not the true power `(1/2)^64`. -/
theorem forward_specular_power_capped_at_32 :
    (⟨[], ⟨0, 0, 0⟩, 64, ⟨1, 1, 1⟩⟩ : ForwardLightingShader ℚ).specularPower ratShaderOps
        (fun _ => 1 / 2) 0 = (1 / 2) ^ 32 ∧
      ((1 / 2 : ℚ) ^ 32 ≠ (1 / 2) ^ 64) := by
  refine ⟨by decide!, by norm_num⟩

/-- The attenuation of a spot light whose position is farther than `0.001` from the
fragment: the three cases of the cone test applied to the distance attenuation. -/
theorem lightDirection_spot {F : Type} (lops : LightingFloatOps F) (light : Light F)
    (worldPos : Vec3 F) (hspot : light.LightType = LightType.SPOT)
    (hlen : lops.lt (lops.ofRat (1 / 1000))
      (vecLength lops.toFloatOps (lightVector lops light worldPos)) = true) :
    (lightDirection lops light worldPos).2 =
      (if lops.lt (spotDot lops light worldPos) light.OuterConeAngle = true then lops.ofRat 0
        else if lops.lt (spotDot lops light worldPos) light.InnerConeAngle = true then
          lops.mul (distanceAttenuation lops light worldPos)
            (lops.div (lops.sub (spotDot lops light worldPos) light.OuterConeAngle)
              (lops.sub light.InnerConeAngle light.OuterConeAngle))
        else distanceAttenuation lops light worldPos) := by
  have hnd : ¬ light.LightType = LightType.DIRECTIONAL := by rw [hspot]; decide
  unfold lightVector at hlen
  unfold lightDirection spotDot distanceAttenuation lightVector
  simp only [if_neg hnd, hlen, if_true, if_pos hspot]

theorem ratLightingOps_exact : ratLightingOps.Exact where
  add_eq := fun _ _ => rfl
  mul_eq := fun _ _ => rfl
  div_eq := fun _ _ => rfl
  sub_eq := fun _ _ => rfl
  neg_eq := fun _ => rfl
  lt_iff := fun a b => by show decide (a < b) = true ↔ _; rw [decide_eq_true_iff]
  le_iff := fun a b => by show decide (a ≤ b) = true ↔ _; rw [decide_eq_true_iff]
  fmaxf_eq := fun _ _ => rfl
  fminf_eq := fun _ _ => rfl
  ofRat_eq := fun q => by show q = ((q : ℚ) : ℚ); simp

theorem coneFactor_props {F : Type} [LinearOrderedField F] (outer inner : F)
    (h : outer < inner) :
    (∀ c, 0 ≤ coneFactor outer inner c ∧ coneFactor outer inner c ≤ 1) ∧
      (∀ c d, c ≤ d → coneFactor outer inner c ≤ coneFactor outer inner d) ∧
      (∀ c, inner ≤ c → coneFactor outer inner c = 1) ∧
      (∀ c, c < outer → coneFactor outer inner c = 0) := by
  have hpos : 0 < inner - outer := sub_pos.2 h
  have hb : ∀ c, 0 ≤ coneFactor outer inner c ∧ coneFactor outer inner c ≤ 1 := by
    intro c
    unfold coneFactor
    split
    · exact ⟨le_rfl, zero_le_one⟩
    · split
      · rename_i h1 h2
        constructor
        · exact div_nonneg (sub_nonneg.2 (not_lt.1 h1)) hpos.le
        · rw [div_le_one hpos]
          linarith
      · exact ⟨zero_le_one, le_rfl⟩
  have h1 : ∀ c, inner ≤ c → coneFactor outer inner c = 1 := by
    intro c hc
    unfold coneFactor
    rw [if_neg (not_lt.2 (h.le.trans hc)), if_neg (not_lt.2 hc)]
  have h0 : ∀ c, c < outer → coneFactor outer inner c = 0 := by
    intro c hc
    unfold coneFactor
    rw [if_pos hc]
  refine ⟨hb, ?_, h1, h0⟩
  intro c d hcd
  by_cases hc : c < outer
  · rw [h0 c hc]
    exact (hb d).1
  · by_cases hd : inner ≤ d
    · rw [h1 d hd]
      exact (hb c).2
    · have hd2 : ¬ d < outer := fun hlt => hc (lt_of_le_of_lt hcd hlt)
      have hc2 : c < inner := lt_of_le_of_lt hcd (not_le.1 hd)
      unfold coneFactor
      rw [if_neg hc, if_pos hc2, if_neg hd2, if_pos (not_le.1 hd)]
      exact div_le_div_of_nonneg_right (by linarith) hpos.le

/-- C28. Spot-light cone factor of the deferred lighting pass, in exact arithmetic. For
a spot light with `OuterConeAngle < InnerConeAngle` whose position is farther than
`0.001` from the fragment, with `cos(theta) = dir . (-light.Direction)`: the attenuation
is 0 when `cos(theta) < Outer`, the distance attenuation times
`(cos(theta) - Outer) / (Inner - Outer)` when `Outer <= cos(theta) < Inner`, and the
distance attenuation unchanged when `cos(theta) >= Inner`; so it is the distance
attenuation times the cone factor. The cone factor lies in `[0, 1]`, is non-decreasing
in `cos(theta)`, is 1 from the inner cone to the axis and 0 outside the outer cone; for
inner 0.9 and outer 0.8 it is the linear ramp `10 cos(theta) - 8` between them. -/
theorem spot_cone_factor {F : Type} [LinearOrderedField F] (lops : LightingFloatOps F)
    (hex : lops.Exact) (light : Light F) (worldPos : Vec3 F)
    (hspot : light.LightType = LightType.SPOT)
    (hlen : lops.lt (lops.ofRat (1 / 1000))
      (vecLength lops.toFloatOps (lightVector lops light worldPos)) = true)
    (hcone : light.OuterConeAngle < light.InnerConeAngle) :
    ((spotDot lops light worldPos < light.OuterConeAngle →
        (lightDirection lops light worldPos).2 = 0) ∧
      (light.OuterConeAngle ≤ spotDot lops light worldPos →
        spotDot lops light worldPos < light.InnerConeAngle →
        (lightDirection lops light worldPos).2 =
          distanceAttenuation lops light worldPos *
            ((spotDot lops light worldPos - light.OuterConeAngle) /
              (light.InnerConeAngle - light.OuterConeAngle))) ∧
      (light.InnerConeAngle ≤ spotDot lops light worldPos →
        (lightDirection lops light worldPos).2 = distanceAttenuation lops light worldPos) ∧
      (lightDirection lops light worldPos).2 =
        distanceAttenuation lops light worldPos *
          coneFactor light.OuterConeAngle light.InnerConeAngle
            (spotDot lops light worldPos)) ∧
    ((∀ c, 0 ≤ coneFactor light.OuterConeAngle light.InnerConeAngle c ∧
        coneFactor light.OuterConeAngle light.InnerConeAngle c ≤ 1) ∧
      (∀ c d, c ≤ d → coneFactor light.OuterConeAngle light.InnerConeAngle c ≤
        coneFactor light.OuterConeAngle light.InnerConeAngle d) ∧
      (∀ c, light.InnerConeAngle ≤ c →
        coneFactor light.OuterConeAngle light.InnerConeAngle c = 1) ∧
      (∀ c, c < light.OuterConeAngle →
        coneFactor light.OuterConeAngle light.InnerConeAngle c = 0)) ∧
    (∀ c : F, (4 / 5 : F) ≤ c → c < 9 / 10 → coneFactor (4 / 5 : F) (9 / 10) c = 10 * c - 8) := by
  have hd := lightDirection_spot lops light worldPos hspot hlen
  simp only [hex.lt_iff, hex.mul_eq, hex.div_eq, hex.sub_eq, hex.ofRat_eq] at hd
  refine ⟨⟨?_, ?_, ?_, ?_⟩, coneFactor_props _ _ hcone, ?_⟩
  · intro h
    rw [hd, if_pos h]
    simp
  · intro h1 h2
    rw [hd, if_neg (not_lt.2 h1), if_pos h2]
  · intro h
    rw [hd, if_neg (not_lt.2 (hcone.le.trans h)), if_neg (not_lt.2 h)]
  · rw [hd]
    unfold coneFactor
    split
    · simp
    · split
      · rfl
      · rw [mul_one]
  · intro c h1 h2
    unfold coneFactor
    rw [if_neg (not_lt.2 h1), if_pos h2]
    have : (9 / 10 : F) - 4 / 5 = 1 / 10 := by norm_num
    rw [this]
    field_simp
    ring

theorem spot_cone_factor_witness :
    ratLightingOps.Exact ∧ spotLightRamp.LightType = LightType.SPOT ∧
      ratLightingOps.lt (ratLightingOps.ofRat (1 / 1000))
        (vecLength ratLightingOps.toFloatOps (lightVector ratLightingOps spotLightRamp ⟨0, 0, 0⟩))
        = true ∧
      spotLightRamp.OuterConeAngle < spotLightRamp.InnerConeAngle ∧
      spotDot ratLightingOps spotLightRamp ⟨0, 0, 0⟩ = 15 / 17 ∧
      (lightDirection ratLightingOps spotLightRamp ⟨0, 0, 0⟩).2 = 14 / 17 ∧
      (lightDirection ratLightingOps spotLightRamp ⟨0, 0, 0⟩).2 =
        distanceAttenuation ratLightingOps spotLightRamp ⟨0, 0, 0⟩ *
          coneFactor spotLightRamp.OuterConeAngle spotLightRamp.InnerConeAngle
            (spotDot ratLightingOps spotLightRamp ⟨0, 0, 0⟩) :=
  ⟨ratLightingOps_exact, rfl, by decide!, by decide!, by decide!, by decide!,
    (spot_cone_factor ratLightingOps ratLightingOps_exact spotLightRamp ⟨0, 0, 0⟩ rfl
      (by decide!) (by decide!)).1.2.2.2⟩

/-- A property that every iteration keeps holds after the loop. -/
theorem forLoop_invariant {S : Type} (P : S → Prop) (step hi : Int) (body : Int → S → S)
    (h : ∀ q s, P s → P (body q s)) (fuel : Nat) (lo : Int) (s : S) (hs : P s) :
    P (forLoop step hi body fuel lo s) := by
  induction fuel generalizing lo s with
  | zero => exact hs
  | succ n ih =>
    unfold forLoop
    split
    · exact ih _ _ (h _ _ hs)
    · exact hs

/-- The geometry pass of a tile changes no member of the renderer but the G-buffer. -/
theorem ProcessBinGeometryPass_members {F FB Sh : Type} (ops : FloatOps F)
    (fbo : FrameBufferOps F FB) (InterpolateVertexOutput : InterpolateFn F Sh)
    (self : DeferredTiledRendererAlgorithm F FB Sh) (state : RenderState Sh)
    (input : ProjectedTriangleInput F) (vertexOutputSize : Int) (tileId : Int) :
    ∃ gbuffer,
      (ProcessBinGeometryPass ops fbo InterpolateVertexOutput self state input vertexOutputSize
        tileId).2 = { self with gbuffer := gbuffer } := by
  unfold ProcessBinGeometryPass
  split
  · exact ⟨self.gbuffer, rfl⟩
  · split
    · dsimp only
      split
      · exact ⟨self.gbuffer, rfl⟩
      · split
        · exact ⟨self.gbuffer, rfl⟩
        · exact ⟨_, rfl⟩
    · exact ⟨self.gbuffer, rfl⟩

/-- Without a forward lighting shader that has lights, `RenderProjectedBatch` takes the
branch `lights = nullptr; lightCount = 0`. -/
theorem takeLights_of_no_lights {F FB : Type}
    (self : DeferredTiledRendererAlgorithm F FB (Shader F)) (state : RenderState (Shader F))
    (hno : ∀ fs, Shader.asForwardLightingShader state.Shader = some fs → fs.Lights = []) :
    self.takeLights state = (self.noLights, some false) := by
  unfold DeferredTiledRendererAlgorithm.takeLights
  cases h : Shader.asForwardLightingShader state.Shader with
  | none => rfl
  | some fs =>
    have := hno fs h
    simp only [this, List.length_nil]
    rfl

/-- The geometry pass over all tiles changes no member of the renderer but the
G-buffer. -/
theorem geometryLoop_members {F FB Sh : Type} (ops : FloatOps F)
    (fbo : FrameBufferOps F FB) (InterpolateVertexOutput : InterpolateFn F Sh)
    (self : DeferredTiledRendererAlgorithm F FB Sh) (state : RenderState Sh)
    (input : ProjectedTriangleInput F) (vertexOutputSize : Int) (hi : Int) (fuel : Nat)
    (lo : Int) :
    ∃ gbuffer,
      (forLoop 1 hi
        (fun tileId (r : RenderState Sh × DeferredTiledRendererAlgorithm F FB Sh) =>
          ProcessBinGeometryPass ops fbo InterpolateVertexOutput r.2 r.1 input
            vertexOutputSize tileId) fuel lo (state, self)).2 =
        { self with gbuffer := gbuffer } := by
  apply forLoop_invariant
    (fun (r : RenderState Sh × DeferredTiledRendererAlgorithm F FB Sh) =>
      ∃ gbuffer, r.2 = { self with gbuffer := gbuffer })
  · rintro q ⟨st, s⟩ ⟨g, hg⟩
    obtain ⟨g2, hg2⟩ := ProcessBinGeometryPass_members ops fbo InterpolateVertexOutput s st input
      vertexOutputSize q
    refine ⟨g2, ?_⟩
    simp only at hg ⊢
    rw [hg2, hg]
  · exact ⟨self.gbuffer, rfl⟩

/-- The geometry passes of a batch without lights: the framebuffer is the one on entry,
the light count is zero and the lights pointer is null. -/
theorem geometryPasses_of_no_lights {F FB : Type} (ops : FloatOps F)
    (fbo : FrameBufferOps F FB) (InterpolateVertexOutput : InterpolateFn F (Shader F))
    (Cores : Nat) (self : DeferredTiledRendererAlgorithm F FB (Shader F))
    (state : RenderState (Shader F)) (input : ProjectedTriangleInput F)
    (vertexOutputSize : Int)
    (hno : ∀ fs, Shader.asForwardLightingShader state.Shader = some fs → fs.Lights = []) :
    (self.geometryPasses ops fbo InterpolateVertexOutput Cores state input
        vertexOutputSize).2.1.frameBuffer = self.frameBuffer ∧
      (self.geometryPasses ops fbo InterpolateVertexOutput Cores state input
        vertexOutputSize).2.2 ≠ some true ∧
      (self.gbuffer ≠ none →
        (self.geometryPasses ops fbo InterpolateVertexOutput Cores state input
            vertexOutputSize).2.1.lightCount = 0 ∧
          (self.geometryPasses ops fbo InterpolateVertexOutput Cores state input
            vertexOutputSize).2.1.lights = []) := by
  unfold DeferredTiledRendererAlgorithm.geometryPasses
  cases hg : self.gbuffer with
  | none => exact ⟨rfl, by simp, fun h => absurd rfl h⟩
  | some g =>
    rw [takeLights_of_no_lights self state hno]
    dsimp only
    have e : self.noLights.frameBuffer = self.frameBuffer := rfl
    rw [e]
    cases hf : self.frameBuffer with
    | none => exact ⟨hf, by simp, fun _ => ⟨rfl, rfl⟩⟩
    | some fb =>
      dsimp only
      obtain ⟨g2, hg2⟩ := geometryLoop_members ops fbo InterpolateVertexOutput
        { self.noLights with
          frameBuffer := some fb
          tileBins := mergeBinsDeferred Cores
            (binAll (fbo.GetWidth fb) (fbo.GetHeight fb) self.noLights.gridWidth Cores input
              (self.noLights.localTileBins.map clearBins)) (clearBins self.noLights.tileBins)
          localTileBins := binAll (fbo.GetWidth fb) (fbo.GetHeight fb) self.noLights.gridWidth
            Cores input (self.noLights.localTileBins.map clearBins) }
        state input vertexOutputSize (self.noLights.gridWidth * self.noLights.gridHeight - 1)
        (loopFuel 0 (self.noLights.gridWidth * self.noLights.gridHeight - 1)) 0
      refine ⟨?_, by simp, fun _ => ⟨?_, ?_⟩⟩
      · exact congrArg DeferredTiledRendererAlgorithm.frameBuffer hg2
      · exact congrArg DeferredTiledRendererAlgorithm.lightCount hg2
      · exact congrArg DeferredTiledRendererAlgorithm.lights hg2

/-- C25. In the deferred renderer the lighting pass runs only if there is at least one
light. When `state.Shader` is not a `ForwardLightingShader`, or is one whose light list
is empty, `RenderProjectedBatch` ends after the geometry pass: its result is the result
of the geometry passes, which do not report a non-null lights pointer; the framebuffer
is exactly the one on entry, so neither its colour plane nor its depth plane changes;
with a G-buffer present the light count is 0 and the lights pointer null afterwards; and
the geometry pass of any tile changes no member of the renderer but the G-buffer. -/
theorem deferred_without_lights_skips_lighting_pass {F FB : Type}
    (lops : LightingFloatOps F) (fbo : FrameBufferOps F FB)
    (InterpolateVertexOutput : InterpolateFn F (Shader F)) (Cores : Nat)
    (self : DeferredTiledRendererAlgorithm F FB (Shader F)) (state : RenderState (Shader F))
    (input : ProjectedTriangleInput F) (vertexOutputSize : Int)
    (hno : ∀ fs, Shader.asForwardLightingShader state.Shader = some fs → fs.Lights = []) :
    self.RenderProjectedBatch lops fbo InterpolateVertexOutput Cores state input
        vertexOutputSize =
      ((self.geometryPasses lops.toFloatOps fbo InterpolateVertexOutput Cores state input
          vertexOutputSize).1,
        (self.geometryPasses lops.toFloatOps fbo InterpolateVertexOutput Cores state input
          vertexOutputSize).2.1) ∧
    (self.geometryPasses lops.toFloatOps fbo InterpolateVertexOutput Cores state input
        vertexOutputSize).2.2 ≠ some true ∧
    (self.RenderProjectedBatch lops fbo InterpolateVertexOutput Cores state input
        vertexOutputSize).2.frameBuffer = self.frameBuffer ∧
    (self.gbuffer ≠ none →
      (self.RenderProjectedBatch lops fbo InterpolateVertexOutput Cores state input
          vertexOutputSize).2.lightCount = 0 ∧
        (self.RenderProjectedBatch lops fbo InterpolateVertexOutput Cores state input
          vertexOutputSize).2.lights = []) ∧
    (∀ (self2 : DeferredTiledRendererAlgorithm F FB (Shader F))
        (state2 : RenderState (Shader F)) (tileId : Int),
      ∃ gbuffer,
        (ProcessBinGeometryPass lops.toFloatOps fbo InterpolateVertexOutput self2 state2 input
          vertexOutputSize tileId).2 = { self2 with gbuffer := gbuffer }) := by
  have hg := geometryPasses_of_no_lights lops.toFloatOps fbo InterpolateVertexOutput Cores self
    state input vertexOutputSize hno
  have hrun : self.RenderProjectedBatch lops fbo InterpolateVertexOutput Cores state input
        vertexOutputSize =
      ((self.geometryPasses lops.toFloatOps fbo InterpolateVertexOutput Cores state input
          vertexOutputSize).1,
        (self.geometryPasses lops.toFloatOps fbo InterpolateVertexOutput Cores state input
          vertexOutputSize).2.1) := by
    unfold DeferredTiledRendererAlgorithm.RenderProjectedBatch
    generalize self.geometryPasses lops.toFloatOps fbo InterpolateVertexOutput Cores state input
      vertexOutputSize = r at hg
    obtain ⟨st, s, flag⟩ := r
    cases flag with
    | none => rfl
    | some b =>
      cases b with
      | true => exact absurd rfl hg.2.1
      | false => simp
  refine ⟨hrun, hg.2.1, ?_, ?_, ?_⟩
  · rw [hrun]
    exact hg.1
  · rw [hrun]
    exact hg.2.2
  · intro self2 state2 tileId
    exact ProcessBinGeometryPass_members lops.toFloatOps fbo InterpolateVertexOutput self2 state2
      input vertexOutputSize tileId

theorem deferred_without_lights_skips_lighting_pass_witness :
    (∀ fs, Shader.asForwardLightingShader
        (⟨some Shader.geometryPass⟩ : RenderState (Shader ℚ)).Shader = some fs →
        fs.Lights = []) ∧
      (deferredScene.RenderProjectedBatch ratLightingOps (FrameBuffer.ops ratOps)
        interpolateNothing 1 ⟨some Shader.geometryPass⟩ inputEmpty 0).2.frameBuffer =
        some (clearedFrameBuffer 2 2) :=
  ⟨fun fs h => by simp [Shader.asForwardLightingShader] at h,
    (deferred_without_lights_skips_lighting_pass ratLightingOps (FrameBuffer.ops ratOps)
      interpolateNothing 1 deferredScene ⟨some Shader.geometryPass⟩ inputEmpty 0
      (fun fs h => by simp [Shader.asForwardLightingShader] at h)).2.2.1⟩

/-- Evaluation for C21. `RenderProjectedBatch` of the deferred renderer is run on
`deferredScene` with the active shader `forwardGlossy` (shininess 2, specular colour
(1, 1, 1), one directional light of colour 1/10 and intensity 1 without ambient part,
camera at (24, 0, 7)). Pixel (0, 0) has normal (0, 0, 1) and position (0, 0, 0), so
`N.L = 1`, the attenuation is 1, the half vector is (3/5, 0, 4/5) and `N.H = 4/5`; the
ambient start 1/10 and the diffuse term 1/10 give 1/5 before the specular term. The
batch copies shininess 2 and specular colour (1, 1, 1) into the lighting shader, yet
the lighting pass adds `0.5 * (1/10) * (4/5)^32`, the specular amount for the fixed
specular colour 1/2 and the fixed exponent 32, and not
`1 * (1/10) * 1 * (4/5)^2 * 1 * 1 = 8/125`. -/
theorem deferred_specular_ignores_copied_shader_values :
    (∃ ls : LightingPassShader ℚ,
      (deferredScene.RenderProjectedBatch ratLightingOps (FrameBuffer.ops ratOps)
          interpolateNothing 1 ⟨some (Shader.forwardLighting forwardGlossy)⟩ inputEmpty
          0).2.lightingShader = some (Shader.lightingPass ls) ∧
        ls.shininess = 2 ∧ ls.specularColor.x = 1 ∧ ls.specularColor.y = 1 ∧
        ls.specularColor.z = 1) ∧
    (deferredScene.RenderProjectedBatch ratLightingOps (FrameBuffer.ops ratOps)
        interpolateNothing 1 ⟨some (Shader.forwardLighting forwardGlossy)⟩ inputEmpty
        0).2.lightCount = 1 ∧
    ((deferredScene.RenderProjectedBatch ratLightingOps (FrameBuffer.ops ratOps)
        interpolateNothing 1 ⟨some (Shader.forwardLighting forwardGlossy)⟩ inputEmpty
        0).2.frameBuffer.map fun fb =>
          ((fb.color 0 0).x, (fb.color 0 0).y, (fb.color 0 0).z, (fb.color 0 0).w)) =
      some (1 / 5 + 1 / 2 * (1 / 10) * (4 / 5) ^ 32, 1 / 5 + 1 / 2 * (1 / 10) * (4 / 5) ^ 32,
        1 / 5 + 1 / 2 * (1 / 10) * (4 / 5) ^ 32, 3 / 4) ∧
    (1 / 5 + 1 / 2 * (1 / 10) * (4 / 5) ^ 32 : ℚ) ≠
      1 / 5 + 1 * (1 / 10) * 1 * (4 / 5) ^ 2 * 1 * 1 := by
  refine ⟨⟨_, rfl, rfl, rfl, rfl, rfl⟩, by decide!, by decide!, by norm_num⟩

/-- In exact arithmetic a directional light with `Ambient = 1` and `Intensity = 0` adds
its colour to the ambient accumulators of the forward shader and nothing else. -/
theorem forward_lightStep_ambient_only {F : Type} [LinearOrderedField F]
    (sops : ShaderFloatOps F) (hex : sops.toLightingFloatOps.Exact)
    (self : ForwardLightingShader F) (input : Nat → M128 F)
    (normalX normalY normalZ viewX viewY viewZ : M128 F) (sums : ForwardSums F)
    (light : Light F) (hd : light.LightType = LightType.DIRECTIONAL)
    (hA : light.Ambient = 1) (hI : light.Intensity = 0) :
    ForwardLightingShader.lightStep sops self input normalX normalY normalZ viewX viewY viewZ
        sums light =
      { sums with
        ambientR := fun k => sums.ambientR k + light.Color.x
        ambientG := fun k => sums.ambientG k + light.Color.y
        ambientB := fun k => sums.ambientB k + light.Color.z } := by
  have hadd : ∀ a b, sops.add a b = a + b := hex.add_eq
  have hmul : ∀ a b, sops.mul a b = a * b := hex.mul_eq
  have hsub : ∀ a b, sops.sub a b = a - b := hex.sub_eq
  have hof : ∀ q : ℚ, sops.ofRat q = (q : F) := hex.ofRat_eq
  unfold ForwardLightingShader.lightStep ForwardLightingShader.lightDir
  rw [if_pos hd]
  simp only [ForwardSums.mk.injEq]
  refine ⟨?_, ?_, ?_, ?_, ?_, ?_, ?_, ?_, ?_⟩ <;> funext k <;>
    simp only [_mm_add_ps, _mm_mul_ps, _mm_set1_ps, hI, hA, hadd, hmul, hsub, hof, Rat.cast_one,
      sub_self, mul_zero, add_zero, mul_one]

/-- In exact arithmetic the forward shader with a single directional light of
`Ambient = 1` and `Intensity = 0` computes the clamped light colour in every lane. -/
theorem forward_litColor_ambient_only {F : Type} [LinearOrderedField F]
    (sops : ShaderFloatOps F) (hex : sops.toLightingFloatOps.Exact)
    (self : ForwardLightingShader F) (input : Nat → M128 F) (light : Light F)
    (hL : self.Lights = [light]) (hd : light.LightType = LightType.DIRECTIONAL)
    (hA : light.Ambient = 1) (hI : light.Intensity = 0) :
    self.litColor sops input =
      (fun _ => min (max light.Color.x 0) 1, fun _ => min (max light.Color.y 0) 1,
        fun _ => min (max light.Color.z 0) 1) := by
  have hadd : ∀ a b, sops.add a b = a + b := hex.add_eq
  have hof : ∀ q : ℚ, sops.ofRat q = (q : F) := hex.ofRat_eq
  have hmax : ∀ a b, sops.fmaxf a b = max a b := hex.fmaxf_eq
  have hmin : ∀ a b, sops.fminf a b = min a b := hex.fminf_eq
  unfold ForwardLightingShader.litColor
  rw [hL]
  simp only [List.foldl_cons, List.foldl_nil]
  rw [forward_lightStep_ambient_only sops hex self input _ _ _ _ _ _ _ light hd hA hI]
  simp only [Prod.mk.injEq]
  refine ⟨?_, ?_, ?_⟩ <;> funext k <;>
    simp only [_mm_add_ps, _mm_min_ps, _mm_max_ps, _mm_set1_ps, hadd, hof, hmax, hmin,
      Rat.cast_one, Rat.cast_zero, add_zero, zero_add]

/-- Without a constant buffer the forward shader outputs the lit colour with alpha 1. -/
theorem forward_ShadeFragment_ambient_only {F : Type} [LinearOrderedField F]
    (sops : ShaderFloatOps F) (hex : sops.toLightingFloatOps.Exact)
    (self : ForwardLightingShader F) (input : Nat → M128 F) (id : Int) (light : Light F)
    (hL : self.Lights = [light]) (hd : light.LightType = LightType.DIRECTIONAL)
    (hA : light.Ambient = 1) (hI : light.Intensity = 0) (lane : Fin 4) :
    self.ShadeFragment sops none input id ⟨lane.val, by omega⟩ =
        min (max light.Color.x 0) 1 ∧
      self.ShadeFragment sops none input id ⟨lane.val + 4, by omega⟩ =
        min (max light.Color.y 0) 1 ∧
      self.ShadeFragment sops none input id ⟨lane.val + 8, by omega⟩ =
        min (max light.Color.z 0) 1 ∧
      self.ShadeFragment sops none input id ⟨lane.val + 12, by omega⟩ = 1 := by
  have hmul : ∀ a b, sops.mul a b = a * b := hex.mul_eq
  have hof : ∀ q : ℚ, sops.ofRat q = (q : F) := hex.ofRat_eq
  unfold ForwardLightingShader.ShadeFragment
  rw [forward_litColor_ambient_only sops hex self input light hL hd hA hI]
  simp only [hmul, hof, Rat.cast_one, one_mul, mul_one]
  fin_cases lane <;> exact ⟨rfl, rfl, rfl, rfl⟩

/-- In exact arithmetic the deferred lighting sum for a single directional light of
`Ambient = 1` and `Intensity = 0` is the start value 1/10 plus the light colour. -/
theorem lightingSum_ambient_only {F : Type} [LinearOrderedField F]
    (lops : LightingFloatOps F) (hex : lops.Exact) (light : Light F)
    (hd : light.LightType = LightType.DIRECTIONAL) (hA : light.Ambient = 1)
    (hI : light.Intensity = 0) (cameraPosition worldPos normal : Vec3 F) (albedo : Vec4 F) :
    lightingSum lops [light] 1 cameraPosition worldPos normal albedo =
      ⟨1 / 10 + light.Color.x, 1 / 10 + light.Color.y, 1 / 10 + light.Color.z⟩ := by
  have hadd : ∀ a b, lops.add a b = a + b := hex.add_eq
  have hmul : ∀ a b, lops.mul a b = a * b := hex.mul_eq
  have hsub : ∀ a b, lops.sub a b = a - b := hex.sub_eq
  have hof : ∀ q : ℚ, lops.ofRat q = (q : F) := hex.ofRat_eq
  have hlt : lops.lt (lops.ofRat (1 / 1000)) (lops.ofRat 1) = true := by
    rw [hex.lt_iff, hof, hof]
    norm_num
  unfold lightingSum
  have hloop : ∀ (body : Int → Vec3 F → Vec3 F) (c : Vec3 F),
      forLoop 1 ((1 : Int) - 1) body (loopFuel 0 ((1 : Int) - 1)) 0 c = body 0 c := by
    intro body c
    rfl
  simp only [hloop]
  show lightContribution lops worldPos _ _ albedo _ light = _
  unfold lightContribution lightDirection
  simp only [if_pos hd, hlt, if_true]
  split <;> [split; skip] <;>
    simp only [hadd, hmul, hsub, hof, hA, hI, sub_self, mul_zero, zero_mul, add_zero, mul_one,
      Vec3.mk.injEq] <;>
    norm_num

/-- Between `-1/10` and `1` the clamp of `c` lies strictly below the clamp of
`c + 1/10`. -/
theorem clamp_lt_clamp_shift {F : Type} [LinearOrderedField F] (c : F) (h1 : -(1 / 10) < c)
    (h2 : c < 1) : min (max c 0) 1 < min 1 (max 0 (1 / 10 + c)) := by
  have hm : max c 0 < 1 := max_lt h2 zero_lt_one
  rw [min_eq_left hm.le]
  refine lt_min hm ?_
  rcases le_total c 0 with h3 | h3
  · rw [max_eq_right h3]
    exact lt_of_lt_of_le (by linarith) (le_max_right _ _)
  · rw [max_eq_left h3]
    exact lt_of_lt_of_le (by linarith) (le_max_right _ _)

/-- The clamp of `c + 1/10` and the clamp of `c` agree only where both are saturated. -/
theorem clamp_shift_eq_iff {F : Type} [LinearOrderedField F] (c : F) :
    min 1 (max 0 (1 / 10 + c)) = min (max c 0) 1 ↔ (1 ≤ c ∨ c ≤ -(1 / 10)) := by
  constructor
  · intro h
    by_contra hc
    rw [not_or, not_le, not_le] at hc
    have := clamp_lt_clamp_shift c hc.2 hc.1
    rw [h] at this
    exact lt_irrefl _ this
  · rintro (h | h)
    · rw [max_eq_right (by linarith : (0 : F) ≤ 1 / 10 + c), min_eq_left (by linarith),
        max_eq_left (by linarith : (0 : F) ≤ c), min_eq_right h]
    · rw [max_eq_left (by linarith : 1 / 10 + c ≤ (0 : F)), max_eq_right (by linarith : c ≤ 0),
        min_eq_right zero_le_one, min_eq_left zero_le_one]

/-- C24 (corrected). Forward and deferred lighting of the same fragment in exact
arithmetic, with a single directional light of `Ambient = 1` and `Intensity = 0` and no
texture. The forward shader outputs, in every lane, the light colour clamped to
`[0, 1]` with alpha 1. The deferred lighting pass writes for a lit pixel (G-buffer depth
below 0.99) the light colour plus the start value 1/10, clamped to `[0, 1]`, with the
alpha of the G-buffer albedo. The power approximation plays no part, since the specular
term is multiplied by the intensity 0. So a channel of the deferred output equals the
forward channel exactly when the light colour `c` of that channel has `c >= 1` or
`c <= -1/10`, and for `-1/10 < c < 1` the deferred channel is strictly larger; for
`0 <= c <= 9/10` it is larger by exactly 1/10. -/
theorem forward_deferred_round_trip {F : Type} [LinearOrderedField F]
    (sops : ShaderFloatOps F) (hex : sops.toLightingFloatOps.Exact)
    (self : ForwardLightingShader F) (light : Light F) (hL : self.Lights = [light])
    (hd : light.LightType = LightType.DIRECTIONAL) (hA : light.Ambient = 1)
    (hI : light.Intensity = 0) (input : Nat → M128 F) (id : Int) (gbuffer : GBuffer F)
    (cameraPosition : Vec3 F) (px py : Int) (lane : Fin 4) :
    (self.ShadeFragment sops none input id ⟨lane.val, by omega⟩ =
        min (max light.Color.x 0) 1 ∧
      self.ShadeFragment sops none input id ⟨lane.val + 4, by omega⟩ =
        min (max light.Color.y 0) 1 ∧
      self.ShadeFragment sops none input id ⟨lane.val + 8, by omega⟩ =
        min (max light.Color.z 0) 1 ∧
      self.ShadeFragment sops none input id ⟨lane.val + 12, by omega⟩ = 1) ∧
    lightingColor sops.toLightingFloatOps gbuffer [light] 1 cameraPosition px py =
      ⟨min 1 (max 0 (1 / 10 + light.Color.x)), min 1 (max 0 (1 / 10 + light.Color.y)),
        min 1 (max 0 (1 / 10 + light.Color.z)),
        (gbuffer.GetAlbedo sops.toFloatOps px py).w⟩ ∧
    (∀ (FB : Type) (fbo : FrameBufferOps F FB) (frameBuffer : FB),
      sops.le (sops.ofRat (99 / 100)) (gbuffer.GetDepth sops.toFloatOps px py) = false →
      lightingPixel sops.toLightingFloatOps fbo gbuffer [light] 1 cameraPosition py px
          frameBuffer =
        fbo.SetPixel frameBuffer px py
          (lightingColor sops.toLightingFloatOps gbuffer [light] 1 cameraPosition px py)) ∧
    ((lightingColor sops.toLightingFloatOps gbuffer [light] 1 cameraPosition px py).x =
        self.ShadeFragment sops none input id ⟨lane.val, by omega⟩ ↔
      (1 ≤ light.Color.x ∨ light.Color.x ≤ -(1 / 10))) ∧
    (-(1 / 10) < light.Color.x → light.Color.x < 1 →
      self.ShadeFragment sops none input id ⟨lane.val, by omega⟩ <
        (lightingColor sops.toLightingFloatOps gbuffer [light] 1 cameraPosition px py).x) ∧
    (0 ≤ light.Color.x → light.Color.x ≤ 9 / 10 →
      (lightingColor sops.toLightingFloatOps gbuffer [light] 1 cameraPosition px py).x =
        self.ShadeFragment sops none input id ⟨lane.val, by omega⟩ + 1 / 10) := by
  have hf := forward_ShadeFragment_ambient_only sops hex self input id light hL hd hA hI lane
  have hdef : lightingColor sops.toLightingFloatOps gbuffer [light] 1 cameraPosition px py =
      ⟨min 1 (max 0 (1 / 10 + light.Color.x)), min 1 (max 0 (1 / 10 + light.Color.y)),
        min 1 (max 0 (1 / 10 + light.Color.z)),
        (gbuffer.GetAlbedo sops.toFloatOps px py).w⟩ := by
    unfold lightingColor
    simp only [lightingSum_ambient_only sops.toLightingFloatOps hex light hd hA hI,
      hex.fmaxf_eq, hex.fminf_eq, hex.ofRat_eq, Rat.cast_one, Rat.cast_zero]
  refine ⟨hf, hdef, ?_, ?_, ?_, ?_⟩
  · intro FB fbo frameBuffer hlit
    unfold lightingPixel
    simp only [hlit]
    rfl
  · rw [hdef, hf.1]
    exact clamp_shift_eq_iff light.Color.x
  · intro h1 h2
    rw [hdef, hf.1]
    exact clamp_lt_clamp_shift light.Color.x h1 h2
  · intro h1 h2
    rw [hdef, hf.1]
    show min 1 (max 0 (1 / 10 + light.Color.x)) = _
    rw [max_eq_right (by linarith : (0 : F) ≤ 1 / 10 + light.Color.x), min_eq_right (by linarith),
      max_eq_left h1, min_eq_left (by linarith)]
    ring

theorem forward_deferred_round_trip_witness :
    ratShaderOps.toLightingFloatOps.Exact ∧ forwardAmbient.Lights = [lightAmbientHalf] ∧
      lightAmbientHalf.LightType = LightType.DIRECTIONAL ∧ lightAmbientHalf.Ambient = 1 ∧
      lightAmbientHalf.Intensity = 0 ∧
      lightingColor ratShaderOps.toLightingFloatOps gBufferOneNear [lightAmbientHalf] 1
          ⟨0, 0, 1⟩ 0 0 =
        ⟨min 1 (max 0 (1 / 10 + lightAmbientHalf.Color.x)),
          min 1 (max 0 (1 / 10 + lightAmbientHalf.Color.y)),
          min 1 (max 0 (1 / 10 + lightAmbientHalf.Color.z)),
          (gBufferOneNear.GetAlbedo ratShaderOps.toFloatOps 0 0).w⟩ :=
  ⟨ratLightingOps_exact, rfl, rfl, rfl, rfl,
    (forward_deferred_round_trip ratShaderOps ratLightingOps_exact forwardAmbient
      lightAmbientHalf rfl rfl rfl rfl inputFlat 0 gBufferOneNear ⟨0, 0, 1⟩ 0 0 0).2.1⟩

/-- Counterexample to C24 as stated. Pixel (0, 0) of `gBufferOneNear` is lit (depth 1/2)
with white albedo, normal (0, 0, 1) and position (0, 0, 0). With the single directional
light `lightAmbientHalf` (colour 1/2, `Ambient = 1`, `Intensity = 0`) the deferred
lighting pass computes red 3/5 for it, while `ForwardLightingShader::ShadeFragment`
outputs red 1/2 for the same fragment without texture: they differ by the start value
1/10, in exact arithmetic and whatever the power approximation. -/
theorem deferred_adds_tenth_to_forward :
    ratLightingOps.le (ratLightingOps.ofRat (99 / 100))
        (gBufferOneNear.GetDepth ratOps 0 0) = false ∧
      (gBufferOneNear.GetAlbedo ratOps 0 0).x = 1 ∧
      (lightingColor ratLightingOps gBufferOneNear [lightAmbientHalf] 1 ⟨0, 0, 1⟩ 0 0).x =
        3 / 5 ∧
      forwardAmbient.ShadeFragment ratShaderOps none inputFlat 0 0 = 1 / 2 := by
  refine ⟨by decide!, by decide!, by decide!, by decide!⟩

/-- The line loop of `GetPlay` keeps `gamePlay` and leaves `gameKey` and `playId`
empty when the requested key is not empty. -/
theorem getPlayLine_keeps_keys {F : Type} (tops : TextOps F) (gamePlay : WString)
    (h : gamePlay ≠ []) (st : GetPlayState F) (line : WString)
    (hst : st.playData.gamePlay = gamePlay ∧ st.playData.gameKey = [] ∧
      st.playData.playId = []) :
    (getPlayLine tops gamePlay st line).playData.gamePlay = gamePlay ∧
      (getPlayLine tops gamePlay st line).playData.gameKey = [] ∧
      (getPlayLine tops gamePlay st line).playData.playId = [] := by
  have hlen : ¬ st.playData.gamePlay.length = 0 := by
    rw [hst.1]
    intro h0
    exact h (List.length_eq_zero.1 h0)
  unfold getPlayLine
  split
  · exact hst
  · split
    · exact hst
    · dsimp only
      split
      · exact hst
      · split
        · exact hst
        · unfold addPosition
          dsimp only
          split <;> exact hst

/-- C30 (code bug). `GetPlay` assigns `playData.gamePlay = gamePlay` before it reads the
file, so for a non-empty key its test `playData.gamePlay.Length() == 0` never holds:
for every file and every non-empty key the result has `gamePlay` equal to the key and
`gameKey` and `playId` empty, whatever the file holds in the columns `game_key` and
`play_id`. -/
theorem GetPlay_leaves_gameKey_and_playId_empty {F : Type} (tops : TextOps F)
    (lines : List WString) (gamePlay : WString) (h : gamePlay ≠ []) :
    (TrackingDataLoader.GetPlay tops lines gamePlay).gamePlay = gamePlay ∧
      (TrackingDataLoader.GetPlay tops lines gamePlay).gameKey = [] ∧
      (TrackingDataLoader.GetPlay tops lines gamePlay).playId = [] := by
  unfold TrackingDataLoader.GetPlay
  have key : ∀ (ls : List WString) (st : GetPlayState F),
      (st.playData.gamePlay = gamePlay ∧ st.playData.gameKey = [] ∧ st.playData.playId = []) →
      ((ls.foldl (getPlayLine tops gamePlay) st).playData.gamePlay = gamePlay ∧
        (ls.foldl (getPlayLine tops gamePlay) st).playData.gameKey = [] ∧
        (ls.foldl (getPlayLine tops gamePlay) st).playData.playId = []) := by
    intro ls
    induction ls with
    | nil => intro st hst; exact hst
    | cons l ls ih =>
      intro st hst
      exact ih _ (getPlayLine_keeps_keys tops gamePlay h st l hst)
  exact key _ _ ⟨rfl, rfl, rfl⟩

theorem GetPlay_leaves_gameKey_and_playId_empty_witness :
    "58580_001136".toList ≠ [] ∧
      ((TrackingDataLoader.GetPlay ratTextOps csvOnePlay "58580_001136".toList).gamePlay =
          "58580_001136".toList ∧
        (TrackingDataLoader.GetPlay ratTextOps csvOnePlay "58580_001136".toList).gameKey = [] ∧
        (TrackingDataLoader.GetPlay ratTextOps csvOnePlay "58580_001136".toList).playId = []) ∧
      (mapGet (TrackingDataLoader.LoadFromCSV ratTextOps csvOnePlay) "58580_001136".toList
          PlayData.new).gamePlay = "58580_001136".toList ∧
      (mapGet (TrackingDataLoader.LoadFromCSV ratTextOps csvOnePlay) "58580_001136".toList
          PlayData.new).gameKey = "58580".toList ∧
      (mapGet (TrackingDataLoader.LoadFromCSV ratTextOps csvOnePlay) "58580_001136".toList
          PlayData.new).playId = "001136".toList ∧
      (mapGet (TrackingDataLoader.LoadFromCSV ratTextOps csvOnePlay) "58580_001136".toList
          PlayData.new).players =
        (TrackingDataLoader.GetPlay ratTextOps csvOnePlay "58580_001136".toList).players ∧
      (mapGet (TrackingDataLoader.LoadFromCSV ratTextOps csvOnePlay) "58580_001136".toList
          PlayData.new).steps =
        (TrackingDataLoader.GetPlay ratTextOps csvOnePlay "58580_001136".toList).steps ∧
      (TrackingDataLoader.GetPlay ratTextOps csvOnePlay "58580_001136".toList).steps = [0] :=
  ⟨by decide,
    GetPlay_leaves_gameKey_and_playId_empty ratTextOps csvOnePlay "58580_001136".toList
      (by decide),
    by decide!, by decide!, by decide!, by decide!, by decide!, by decide!⟩

end RasterRenderer
